import Mathlib

/-!
# Use-def analysis, links and serializer of egalito: a shallow embedding

The first part of the definitions follows `src/analysis/usedef.cpp`.  Pointers to
`UDState` objects are compared by identity in the source; here a state is named by a
natural number (`UDStateRef`).  Values of C type `long` are integers that wrap
at 64 bits where the source adds them.  The later parts follow `src/chunk/link.cpp`
(links, link factory and link resolver) and `src/instr/serializer.cpp` (semantic
serializer); each has its own introduction.
-/

namespace Egalito

/-! ## Expression trees -/

/-- Expression trees built by `TreeFactory::instance().make<...>`. -/
inductive TreeNode where
  | Constant (value : Int)
  | Address (value : Int)
  | PhysicalRegister (reg : Int) (width : Nat)
  | Addition (left right : TreeNode)
  | Subtraction (left right : TreeNode)
  | And (left right : TreeNode)
  | LogicalShiftLeft (left right : TreeNode)
  | LogicalShiftRight (left right : TreeNode)
  | ArithmeticShiftRight (left right : TreeNode)
  | RotateRight (left right : TreeNode)
  | Dereference (addr : TreeNode) (width : Nat)
  | Comparison (left right : TreeNode)
  deriving DecidableEq, Repr

/-- Identity of a `UDState` object (the source compares `UDState *`). -/
abbrev UDStateRef := Nat

/-- Two's complement wrap of an integer to the range of a 64-bit `long`. -/
def wrapLong (x : Int) : Int := (x + 2 ^ 63) % 2 ^ 64 - 2 ^ 63

/-- The values a 64-bit `long` can hold. -/
def InLong (x : Int) : Prop := -(2 ^ 63) ≤ x ∧ x < 2 ^ 63

instance (x : Int) : Decidable (InLong x) := by unfold InLong; infer_instance

/-! ## Memory locations -/

/-- The fields `reg` and `offset` written by `MemLocation::extract`. -/
structure MemLocation where
  reg : Option TreeNode
  offset : Int
  deriving DecidableEq, Repr

/-- Modelled from the spec: `MemoryForm::matches` (declared in the header `usedef.h`,
which is not among the sources).  The spec gives the pattern as `Add(X, Y) | X`, a
shallow top-level decomposition in which a child contributes as a constant or as a
physical register, and every other shape as not matching.  The trees that match are
the four the spec lists: `Add(PhysReg, Const)`, `Add(Const, PhysReg)`, a bare `PhysReg`
and a bare `Const`; a sum of two constants or of two registers is not among them.
The captures are the two children of the addition, or the tree itself. -/
def MemoryForm.matches (tree : TreeNode) : Option (List TreeNode) :=
  match tree with
  | .Addition (.PhysicalRegister r w) (.Constant c) =>
    some [.PhysicalRegister r w, .Constant c]
  | .Addition (.Constant c) (.PhysicalRegister r w) =>
    some [.Constant c, .PhysicalRegister r w]
  | .PhysicalRegister r w => some [.PhysicalRegister r w]
  | .Constant c => some [.Constant c]
  | _ => none

/-- One iteration of the capture loop of `MemLocation::extract`. -/
def MemLocation.extractStep (m : MemLocation) (c : TreeNode) : MemLocation :=
  match c with
  | .Constant v => { m with offset := wrapLong (m.offset + v) }
  | .PhysicalRegister _ _ => { m with reg := some c }
  | _ => m

/-- Embeds `MemLocation::extract(tree)`, acting on the fields of `this`. -/
def MemLocation.extract (self : MemLocation) (tree : TreeNode) : MemLocation :=
  match MemoryForm.matches tree with
  | some cap => cap.foldl MemLocation.extractStep self
  | none => self

/-- Modelled from the spec: the constructor `MemLocation(tree)` of `usedef.h`.  For a
tree of the memory form it starts from no base register and offset 0 and calls
`extract`.  A tree of any other shape has a location that is equal to no location;
that location is `none` here. -/
def MemLocation.ofTree (tree : TreeNode) : Option MemLocation :=
  match MemoryForm.matches tree with
  | some _ => some (MemLocation.extract { reg := none, offset := 0 } tree)
  | none => none

/-- Modelled from the spec: `MemLocation::operator==` of `usedef.h`, on the locations
of two trees.  Two locations are equal iff both come from a tree of the memory form,
the base registers are equal (both none allowed) and the offsets are equal.  The
location of a tree of another shape equals no location, itself included. -/
def MemLocation.equals (a b : Option MemLocation) : Bool :=
  match a, b with
  | some x, some y => decide (x.reg = y.reg) && decide (x.offset = y.offset)
  | _, _ => false

/-! ## Memory origin lists -/

/-- An entry `MemOrigin(place, origin)` of a `MemOriginList`. -/
structure MemOrigin where
  place : TreeNode
  origin : UDStateRef
  deriving DecidableEq, Repr

/-- The `std::vector<MemOrigin>` held by a `MemOriginList`. -/
abbrev MemOriginList := List MemOrigin

/-- The test `m1 == m2` of the loops, with `m1(place)` and `m2(it->place)`. -/
def MemOrigin.sameLocation (place : TreeNode) (e : MemOrigin) : Bool :=
  MemLocation.equals (MemLocation.ofTree place) (MemLocation.ofTree e.place)

/-- The two statements `*it = list.back(); list.pop_back();` with `it` at index `i`. -/
def MemOriginList.moveBackTo (l : MemOriginList) (i : Nat) : MemOriginList :=
  match l.getLast? with
  | some back => (List.set l i back).dropLast
  | none => l

/-- The loop of `MemOriginList::set`.  The reverse iterator is its base index `b`:
it designates the element at index `b - 1`, and the loop ends when `b = 0`
(`it == list.rend()`). -/
def MemOriginList.setLoop (place : TreeNode) (origin : UDStateRef) :
    Nat → Bool → MemOriginList → Bool × MemOriginList
  | 0, found, l => (found, l)
  | b + 1, found, l =>
    match l[b]? with
    | none => (found, l)
    | some e =>
      if MemOrigin.sameLocation place e then
        if !found then
          MemOriginList.setLoop place origin b true (List.set l b ⟨place, origin⟩)
        else
          MemOriginList.setLoop place origin b found (MemOriginList.moveBackTo l b)
      else
        MemOriginList.setLoop place origin b found l

/-- Embeds `MemOriginList::set(place, origin)`. -/
def MemOriginList.set (l : MemOriginList) (place : TreeNode) (origin : UDStateRef) :
    MemOriginList :=
  match MemOriginList.setLoop place origin l.length false l with
  | (true, l1) => l1
  | (false, l1) => l1 ++ [⟨place, origin⟩]

/-- Embeds `MemOriginList::add(place, origin)`. -/
def MemOriginList.add (l : MemOriginList) (place : TreeNode) (origin : UDStateRef) :
    MemOriginList :=
  let duplicate := l.any (fun mem => decide (mem.origin = origin) && MemOrigin.sameLocation place mem)
  if !duplicate then l ++ [⟨place, origin⟩] else l

/-- Embeds `MemOriginList::addList(other)`. -/
def MemOriginList.addList (l : MemOriginList) (other : MemOriginList) : MemOriginList :=
  other.foldl (fun acc e => MemOriginList.add acc e.place e.origin) l

/-- The loop of `MemOriginList::del`, with the reverse iterator as in `setLoop`. -/
def MemOriginList.delLoop (tree : TreeNode) : Nat → MemOriginList → MemOriginList
  | 0, l => l
  | b + 1, l =>
    match l[b]? with
    | none => l
    | some e =>
      if MemOrigin.sameLocation tree e then
        MemOriginList.delLoop tree b (MemOriginList.moveBackTo l b)
      else
        MemOriginList.delLoop tree b l

/-- Embeds `MemOriginList::del(tree)`. -/
def MemOriginList.del (l : MemOriginList) (tree : TreeNode) : MemOriginList :=
  MemOriginList.delLoop tree l.length l

/-- Embeds `MemOriginList::clear()`. -/
def MemOriginList.clear (_l : MemOriginList) : MemOriginList := []

/-- No two entries have both the same origin and an equal `MemLocation`. -/
def MemOriginList.NoDuplicate (l : MemOriginList) : Prop :=
  l.Pairwise (fun a b => ¬ (a.origin = b.origin ∧
    MemLocation.equals (MemLocation.ofTree a.place) (MemLocation.ofTree b.place) = true))

/-- The lists obtained from the empty list by the mutators of `MemOriginList`. -/
inductive MemOriginList.Reachable : MemOriginList → Prop where
  | empty : MemOriginList.Reachable []
  | set (l : MemOriginList) (place : TreeNode) (origin : UDStateRef) :
      MemOriginList.Reachable l → MemOriginList.Reachable (MemOriginList.set l place origin)
  | add (l : MemOriginList) (place : TreeNode) (origin : UDStateRef) :
      MemOriginList.Reachable l → MemOriginList.Reachable (MemOriginList.add l place origin)
  | addList (l other : MemOriginList) :
      MemOriginList.Reachable l → MemOriginList.Reachable (MemOriginList.addList l other)
  | del (l : MemOriginList) (tree : TreeNode) :
      MemOriginList.Reachable l → MemOriginList.Reachable (MemOriginList.del l tree)
  | clear (l : MemOriginList) :
      MemOriginList.Reachable l → MemOriginList.Reachable (MemOriginList.clear l)

/-! ## Shifts -/

/-- The shift kinds of the disassembler (`arm64_shifter`). -/
inductive arm64_shifter where
  | ARM64_SFT_INVALID
  | ARM64_SFT_LSL
  | ARM64_SFT_MSL
  | ARM64_SFT_LSR
  | ARM64_SFT_ASR
  | ARM64_SFT_ROR
  deriving DecidableEq, Repr

/-- Embeds `UseDef::shiftExtend(tree, type, value)`; a `throw` is an `Except.error`.  The
`unsigned int value` becomes the value of a `TreeNodeConstant`. -/
def UseDef.shiftExtend (tree : TreeNode) (type : arm64_shifter) (value : Nat) :
    Except String TreeNode :=
  match type with
  | .ARM64_SFT_LSL => .ok (.LogicalShiftLeft tree (.Constant (Int.ofNat value)))
  | .ARM64_SFT_MSL => .error "msl"
  | .ARM64_SFT_LSR => .ok (.LogicalShiftRight tree (.Constant (Int.ofNat value)))
  | .ARM64_SFT_ASR => .ok (.ArithmeticShiftRight tree (.Constant (Int.ofNat value)))
  | .ARM64_SFT_ROR => .ok (.RotateRight tree (.Constant (Int.ofNat value)))
  | .ARM64_SFT_INVALID => .ok tree

/-! ## Register definition and reference lists -/

/-- A `std::map<int, T>`: the entries in increasing key order. -/
abbrev StdMap (α : Type) := List (Int × α)

/-- Embeds `std::map::find`, giving the mapped value. -/
def StdMap.find {α : Type} : StdMap α → Int → Option α
  | [], _ => none
  | (k, v) :: t, key => if k = key then some v else StdMap.find t key

/-- Embeds `m[key] = v`: overwrite the entry of `key`, or insert it at its place. -/
def StdMap.insert {α : Type} : StdMap α → Int → α → StdMap α
  | [], key, v => [(key, v)]
  | (k, x) :: t, key, v =>
    if key < k then (key, v) :: (k, x) :: t
    else if k = key then (key, v) :: t
    else (k, x) :: StdMap.insert t key v

/-- Embeds `std::map::erase(key)`. -/
def StdMap.erase {α : Type} (m : StdMap α) (key : Int) : StdMap α :=
  m.filter (fun e => decide (e.1 ≠ key))

/-- Embeds `DefList`: for each register the tree defined last; a null tree is `none`. -/
abbrev DefList := StdMap (Option TreeNode)

/-- Embeds `DefList::set(reg, tree)`. -/
def DefList.set (l : DefList) (reg : Int) (tree : Option TreeNode) : DefList :=
  StdMap.insert l reg tree

/-- Embeds `DefList::get(reg)`; `none` is the null pointer. -/
def DefList.get (l : DefList) (reg : Int) : Option TreeNode :=
  match StdMap.find l reg with
  | some t => t
  | none => none

/-- Embeds `RefList`: for each register a vector of origins. -/
abbrev RefList := StdMap (List UDStateRef)

/-- Embeds `RefList::set(reg, origin)`. -/
def RefList.set (l : RefList) (reg : Int) (origin : UDStateRef) : RefList :=
  StdMap.insert l reg [origin]

/-- Embeds `RefList::addIfExist(reg, origin)`: the list afterwards and the result `found`. -/
def RefList.addIfExist (l : RefList) (reg : Int) (origin : UDStateRef) : RefList × Bool :=
  match StdMap.find l reg with
  | some v =>
    let duplicate := v.any (fun s => decide (s = origin))
    (if !duplicate then StdMap.insert l reg (v ++ [origin]) else l, true)
  | none => (l, false)

/-- Embeds `RefList::add(reg, origin)`. -/
def RefList.add (l : RefList) (reg : Int) (origin : UDStateRef) : RefList :=
  match RefList.addIfExist l reg origin with
  | (l1, exist) =>
    if !exist then StdMap.insert l1 reg ((StdMap.find l1 reg).getD [] ++ [origin]) else l1

/-- Embeds `RefList::del(reg)`. -/
def RefList.del (l : RefList) (reg : Int) : RefList := StdMap.erase l reg

/-- Embeds `RefList::clear()`. -/
def RefList.clear (_l : RefList) : RefList := []

/-- Embeds `RefList::get(reg)`; `none` is the null pointer. -/
def RefList.get (l : RefList) (reg : Int) : Option (List UDStateRef) := StdMap.find l reg

/-! ## Per-instruction state -/

/-- The tables of a `UDState` (`regList`, `regRefList`, `memList`, `memRefList`). -/
structure UDState where
  regList : DefList
  regRefList : RefList
  memList : List (TreeNode × Int)
  memRefList : List (Int × UDStateRef)
  deriving DecidableEq, Repr

/-- A state with empty tables. -/
def UDState.empty : UDState :=
  { regList := [], regRefList := [], memList := [], memRefList := [] }

/-- Modelled from the spec: `UDState::addRegDef(reg, tree)` of `usedef.h`, which
overwrites any prior definition of `reg` in this state. -/
def UDState.addRegDef (s : UDState) (reg : Int) (tree : Option TreeNode) : UDState :=
  { s with regList := DefList.set s.regList reg tree }

/-- Modelled from the spec: `UDState::addRegRef(reg, origin)` of `usedef.h`, which
appends `origin` to the set for `reg`, deduplicating by pointer identity. -/
def UDState.addRegRef (s : UDState) (reg : Int) (origin : UDStateRef) : UDState :=
  { s with regRefList := RefList.add s.regRefList reg origin }

/-- Modelled from the spec: `UDState::addMemDef(reg, place)` of `usedef.h`, which
appends `(place, reg)` without deduplication. -/
def UDState.addMemDef (s : UDState) (reg : Int) (place : TreeNode) : UDState :=
  { s with memList := s.memList ++ [(place, reg)] }

/-- Modelled from the spec: `UDState::addMemRef(reg, origin)` of `usedef.h`, which
appends `(reg, origin)` unless that pair is present already. -/
def UDState.addMemRef (s : UDState) (reg : Int) (origin : UDStateRef) : UDState :=
  if s.memRefList.any (fun e => decide (e.1 = reg) && decide (e.2 = origin)) then s
  else { s with memRefList := s.memRefList ++ [(reg, origin)] }

/-! ## Instructions and the control flow graph -/

/-- The opcode ids the analysis names (`ARM64_INS_*`); every other id is `other`. -/
inductive arm64_insn where
  | ARM64_INS_ADD | ARM64_INS_ADR | ARM64_INS_ADRP | ARM64_INS_AND | ARM64_INS_AT
  | ARM64_INS_B | ARM64_INS_BL | ARM64_INS_BLR | ARM64_INS_BR | ARM64_INS_CBZ
  | ARM64_INS_CBNZ | ARM64_INS_CMP | ARM64_INS_CSEL | ARM64_INS_LDAXR | ARM64_INS_LDP
  | ARM64_INS_LDR | ARM64_INS_LDRH | ARM64_INS_LDRB | ARM64_INS_LDRSW | ARM64_INS_LDRSH
  | ARM64_INS_LDRSB | ARM64_INS_LDUR | ARM64_INS_LSL | ARM64_INS_MOV | ARM64_INS_MRS
  | ARM64_INS_NOP | ARM64_INS_RET | ARM64_INS_STP | ARM64_INS_STR | ARM64_INS_STRB
  | ARM64_INS_STRH | ARM64_INS_SUB | ARM64_INS_SXTW
  | other (id : Nat)
  deriving DecidableEq, Repr

/-- The operand modes the handlers name (`AssemblyOperands::MODE_*`). -/
inductive OperandsMode where
  | MODE_REG_REG | MODE_REG_IMM | MODE_REG_MEM | MODE_REG_MEM_IMM
  | MODE_REG_REG_REG | MODE_REG_REG_IMM | MODE_REG_REG_MEM | MODE_REG_REG_MEM_IMM
  | other (id : Nat)
  deriving DecidableEq, Repr

/-- The `mem` member of an operand; registers are disassembler register ids. -/
structure AsmMem where
  base : Nat
  index : Nat
  disp : Int
  deriving DecidableEq, Repr

/-- The `shift` member of an operand. -/
structure AsmShift where
  type : arm64_shifter
  value : Nat
  deriving DecidableEq, Repr

/-- An operand as the handlers read it: the members `reg`, `imm`, `mem`, `shift`. -/
structure AsmOperand where
  reg : Nat
  imm : Int
  mem : AsmMem
  shift : AsmShift
  deriving DecidableEq, Repr

/-- An operand with every member zero. -/
def AsmOperand.zero : AsmOperand :=
  { reg := 0, imm := 0, mem := { base := 0, index := 0, disp := 0 },
    shift := { type := .ARM64_SFT_INVALID, value := 0 } }

/-- What the handlers read of an `Assembly`. -/
structure Assembly where
  id : arm64_insn
  mode : OperandsMode
  operands : List AsmOperand
  bytes : List Nat
  preIndex : Bool
  postIndex : Bool
  deriving DecidableEq, Repr

/-- Embeds `assembly->getAsmOperands()->getOperands()[i]`. -/
def Assembly.getOperand (a : Assembly) (i : Nat) : AsmOperand := a.operands.getD i AsmOperand.zero

/-- Embeds `assembly->getBytes()[i]`. -/
def Assembly.getByte (a : Assembly) (i : Nat) : Nat := a.bytes.getD i 0

/-- The semantic of an instruction: a literal data word, or one with an assembly. -/
inductive InstructionSemantic where
  | literal
  | assembly (a : Assembly)
  deriving DecidableEq, Repr

/-- An instruction; `state` names the `UDState` that `work->getState` returns for it. -/
structure Instruction where
  state : UDStateRef
  semantic : InstructionSemantic
  deriving DecidableEq, Repr

/-- A node of the control flow graph: its predecessors and the instructions of its
block in program order.  The id of a node is the index it is stored under. -/
structure ControlFlowNode where
  backwardLinks : List Nat
  block : List Instruction
  deriving DecidableEq, Repr

/-- The control flow graph; `get` indexes the nodes. -/
structure ControlFlowGraph where
  nodes : List ControlFlowNode
  deriving DecidableEq, Repr

/-- Embeds `ControlFlowGraph::get(id)`; an id outside the graph is an error. -/
def ControlFlowGraph.get (cfg : ControlFlowGraph) (id : Nat) : Except String ControlFlowNode :=
  match cfg.nodes[id]? with
  | some n => .ok n
  | none => .error "no such node"

/-- Embeds `UseDefConfiguration`: the graph and the enabled opcode ids. -/
structure UseDefConfiguration where
  cfg : ControlFlowGraph
  idList : List arm64_insn
  deriving DecidableEq, Repr

/-- Embeds `UseDefConfiguration::isEnabled(id)`. -/
def UseDefConfiguration.isEnabled (config : UseDefConfiguration) (id : arm64_insn) : Bool :=
  config.idList.any (fun i => decide (i = id))

/-- The register constants and the functions of `AARCH64GPRegister` that the
handlers use.  They are declared outside the sources and are parameters here. -/
structure RegisterFile where
  convertToPhysical : Nat → Int
  getWidth : Int → Nat → Nat
  NZCV : Int
  INVALID_REGISTER : Nat

/-! ## The work set -/

/-- Embeds `UseDefWorkSet`: the exposed sets of every node, the node whose sets `regSet` and
`memSet` point to, and the state of every instruction. -/
structure UseDefWorkSet where
  nodeExposedRegSetList : Nat → RefList
  nodeExposedMemSetList : Nat → MemOriginList
  regSet : Nat
  memSet : Nat
  stateList : UDStateRef → UDState

/-- A work set with empty exposed sets and empty states. -/
def UseDefWorkSet.empty : UseDefWorkSet :=
  { nodeExposedRegSetList := fun _ => [], nodeExposedMemSetList := fun _ => [],
    regSet := 0, memSet := 0, stateList := fun _ => UDState.empty }

/-- Assignment through the pointer `regSet`. -/
def UseDefWorkSet.modifyRegSet (w : UseDefWorkSet) (f : RefList → RefList) : UseDefWorkSet :=
  { w with nodeExposedRegSetList := fun i =>
      if i = w.regSet then f (w.nodeExposedRegSetList w.regSet) else w.nodeExposedRegSetList i }

/-- Assignment through the pointer `memSet`. -/
def UseDefWorkSet.modifyMemSet (w : UseDefWorkSet) (f : MemOriginList → MemOriginList) :
    UseDefWorkSet :=
  { w with nodeExposedMemSetList := fun i =>
      if i = w.memSet then f (w.nodeExposedMemSetList w.memSet) else w.nodeExposedMemSetList i }

/-- Assignment to the state of an instruction. -/
def UseDefWorkSet.modifyState (w : UseDefWorkSet) (state : UDStateRef) (f : UDState → UDState) :
    UseDefWorkSet :=
  { w with stateList := fun i => if i = state then f (w.stateList state) else w.stateList i }

/-- Modelled from the spec: `UseDefWorkSet::addToRegSet(reg, origin)` of `usedef.h`,
which adds the origin to the current `reg_exposed[reg]`, deduplicated by pointer. -/
def UseDefWorkSet.addToRegSet (w : UseDefWorkSet) (reg : Int) (origin : UDStateRef) :
    UseDefWorkSet :=
  w.modifyRegSet (fun l => RefList.add l reg origin)

/-- Modelled from the spec: `UseDefWorkSet::setAsRegSet(reg, state)` of `usedef.h`,
which replaces the current `reg_exposed[reg]` with `{state}`. -/
def UseDefWorkSet.setAsRegSet (w : UseDefWorkSet) (reg : Int) (state : UDStateRef) :
    UseDefWorkSet :=
  w.modifyRegSet (fun l => RefList.set l reg state)

/-- Modelled from the spec: `UseDefWorkSet::getRegSet(reg)` of `usedef.h`, the
current `reg_exposed[reg]`. -/
def UseDefWorkSet.getRegSet (w : UseDefWorkSet) (reg : Int) : Option (List UDStateRef) :=
  RefList.get (w.nodeExposedRegSetList w.regSet) reg

/-- Modelled from the spec: `UseDefWorkSet::setAsMemSet(place, state)` of `usedef.h`,
which applies the `set` policy to the current `mem_exposed`. -/
def UseDefWorkSet.setAsMemSet (w : UseDefWorkSet) (place : TreeNode) (state : UDStateRef) :
    UseDefWorkSet :=
  w.modifyMemSet (fun l => MemOriginList.set l place state)

/-- The body of the loop over `node->backwardLinks()` in `transitionTo`.  The
containers are read when the iteration over them starts.  When `link` is the node
itself the entries read are present already, and the additions leave the register set
as it is; they leave the memory list as it is when its places are of the memory form.
An entry of another shape is no duplicate of itself: the loop of `addList` then appends
to the list it walks, and this definition says nothing about the source. -/
def UseDefWorkSet.transitionLink (w : UseDefWorkSet) (link : Nat) : UseDefWorkSet :=
  let w1 := (w.nodeExposedRegSetList link).foldl
    (fun acc mr => mr.2.foldl (fun acc2 o => acc2.addToRegSet mr.1 o) acc) w
  w1.modifyMemSet (fun l => MemOriginList.addList l (w1.nodeExposedMemSetList link))

/-- Embeds `UseDefWorkSet::transitionTo(node)`, with `nodeId = node->getID()`. -/
def UseDefWorkSet.transitionTo (w : UseDefWorkSet) (nodeId : Nat) (node : ControlFlowNode) :
    UseDefWorkSet :=
  let w1 := { w with regSet := nodeId, memSet := nodeId }
  let w2 := w1.modifyRegSet RefList.clear
  let w3 := w2.modifyMemSet MemOriginList.clear
  node.backwardLinks.foldl UseDefWorkSet.transitionLink w3

/-- Embeds `UseDefWorkSet::copyFromMemSetFor(state, reg, place)`. -/
def UseDefWorkSet.copyFromMemSetFor (w : UseDefWorkSet) (state : UDStateRef) (reg : Int)
    (place : TreeNode) : UseDefWorkSet :=
  (w.nodeExposedMemSetList w.memSet).foldl
    (fun acc m =>
      if MemLocation.equals (MemLocation.ofTree place) (MemLocation.ofTree m.place) then
        acc.modifyState state (fun s => s.addMemRef reg m.origin)
      else acc) w

/-! ## Primitive definitions and uses -/

/-- Embeds `UseDef::defReg(state, reg, tree)`. -/
def UseDef.defReg (w : UseDefWorkSet) (state : UDStateRef) (reg : Int)
    (tree : Option TreeNode) : UseDefWorkSet :=
  if reg ≠ -1 then
    (w.modifyState state (fun s => s.addRegDef reg tree)).setAsRegSet reg state
  else w

/-- Embeds `UseDef::useReg(state, reg)`. -/
def UseDef.useReg (w : UseDefWorkSet) (state : UDStateRef) (reg : Int) : UseDefWorkSet :=
  match w.getRegSet reg with
  | some origins =>
    origins.foldl (fun acc o => acc.modifyState state (fun s => s.addRegRef reg o)) w
  | none => w

/-- Embeds `UseDef::defMem(state, place, reg)`. -/
def UseDef.defMem (w : UseDefWorkSet) (state : UDStateRef) (place : TreeNode) (reg : Int) :
    UseDefWorkSet :=
  (w.modifyState state (fun s => s.addMemDef reg place)).setAsMemSet place state

/-- Embeds `UseDef::useMem(state, place, reg)`. -/
def UseDef.useMem (w : UseDefWorkSet) (state : UDStateRef) (place : TreeNode) (reg : Int) :
    UseDefWorkSet :=
  w.copyFromMemSetFor state reg place

/-! ## Instruction handlers

A handler reads its `Assembly` only; what it does to the state and the work set it
does through `useReg`, `defReg`, `defMem` and `useMem`.  A handler is therefore
embedded as the sequence of these calls it makes, in order, together with its
outcome: normal return, or the exception thrown (a failed `assert` counts as one).
`UseDef.run` carries the calls out on the state of the instruction. -/

/-- A call of one of the four primitives, without its `state` argument. -/
inductive Call where
  | useReg (reg : Int)
  | defReg (reg : Int) (tree : Option TreeNode)
  | defMem (place : TreeNode) (reg : Int)
  | useMem (place : TreeNode) (reg : Int)
  deriving DecidableEq, Repr

/-- The calls a piece of handler code makes, and how it ends. -/
structure Calls (α : Type) where
  calls : List Call
  result : Except String α

/-- Sequencing: the calls of the first part, then those of the second unless the
first part threw. -/
def Calls.bind {α β : Type} (x : Calls α) (f : α → Calls β) : Calls β :=
  match x.result with
  | .error e => { calls := x.calls, result := .error e }
  | .ok a => { calls := x.calls ++ (f a).calls, result := (f a).result }

instance : Monad Calls where
  pure a := { calls := [], result := .ok a }
  bind := Calls.bind

/-- A `throw`, or a failed `assert`. -/
def Calls.throw {α : Type} (msg : String) : Calls α := { calls := [], result := .error msg }

/-- The statement `assert(c)`. -/
def Calls.assert (c : Bool) (msg : String) : Calls Unit :=
  if c then pure () else Calls.throw msg

/-- The result of a function that may throw. -/
def Calls.ofExcept {α : Type} (x : Except String α) : Calls α := { calls := [], result := x }

/-- The call `useReg(state, reg)`. -/
def Calls.useReg (reg : Int) : Calls Unit := { calls := [.useReg reg], result := .ok () }

/-- The call `defReg(state, reg, tree)`. -/
def Calls.defReg (reg : Int) (tree : Option TreeNode) : Calls Unit :=
  { calls := [.defReg reg tree], result := .ok () }

/-- The call `defMem(state, place, reg)`. -/
def Calls.defMem (place : TreeNode) (reg : Int) : Calls Unit :=
  { calls := [.defMem place reg], result := .ok () }

/-- The call `useMem(state, place, reg)`. -/
def Calls.useMem (place : TreeNode) (reg : Int) : Calls Unit :=
  { calls := [.useMem place reg], result := .ok () }

/-- Carry out one call on the state `state`. -/
def UseDef.runCall (state : UDStateRef) (w : UseDefWorkSet) : Call → UseDefWorkSet
  | .useReg reg => UseDef.useReg w state reg
  | .defReg reg tree => UseDef.defReg w state reg tree
  | .defMem place reg => UseDef.defMem w state place reg
  | .useMem place reg => UseDef.useMem w state place reg

/-- Carry out a sequence of calls on the state `state`. -/
def UseDef.run (state : UDStateRef) (w : UseDefWorkSet) (calls : List Call) : UseDefWorkSet :=
  calls.foldl (UseDef.runCall state) w

/-- Embeds `(assembly->getBytes()[3] & mask) ? 8 : 4`. -/
def Assembly.widthBit (a : Assembly) (mask : Nat) : Nat :=
  if (a.getByte 3) &&& mask ≠ 0 then 8 else 4

/-- Embeds `UseDef::fillImm`. -/
def UseDef.fillImm (_R : RegisterFile) (_assembly : Assembly) : Calls Unit :=
  Calls.throw "NYI: fillImm"

/-- Embeds `UseDef::fillReg`. -/
def UseDef.fillReg (R : RegisterFile) (assembly : Assembly) : Calls Unit := do
  let op0 := (assembly.getOperand 0).reg
  let reg0 := R.convertToPhysical op0
  Calls.useReg reg0

/-- Embeds `UseDef::fillRegToReg`. -/
def UseDef.fillRegToReg (R : RegisterFile) (assembly : Assembly) : Calls Unit := do
  let op0 := (assembly.getOperand 0).reg
  let reg0 := R.convertToPhysical op0
  let op1 := (assembly.getOperand 1).reg
  let reg1 := R.convertToPhysical op1
  let width1 := R.getWidth reg1 op1
  Calls.useReg reg1
  let tree := TreeNode.PhysicalRegister reg1 width1
  Calls.defReg reg0 (some tree)

/-- Embeds `UseDef::fillMemToReg`. -/
def UseDef.fillMemToReg (R : RegisterFile) (assembly : Assembly) (width : Nat) :
    Calls Unit := do
  Calls.assert (!assembly.postIndex) "assert: !isPostIndex"
  let op0 := (assembly.getOperand 0).reg
  let reg0 := R.convertToPhysical op0
  let width0 := R.getWidth reg0 op0
  let mem := (assembly.getOperand 1).mem
  let base := R.convertToPhysical mem.base
  let widthB := R.getWidth base mem.base
  Calls.useReg base
  if mem.index ≠ R.INVALID_REGISTER then
    Calls.defReg reg0 (some (.PhysicalRegister reg0 width0))
  else do
    let memTree := TreeNode.Addition (.PhysicalRegister base widthB) (.Constant mem.disp)
    Calls.useMem memTree reg0
    if assembly.preIndex then
      Calls.defReg base (some memTree)
    let derefTree := TreeNode.Dereference memTree width
    Calls.defReg reg0 (some derefTree)

/-- Embeds `UseDef::fillImmToReg`. -/
def UseDef.fillImmToReg (R : RegisterFile) (assembly : Assembly) : Calls Unit := do
  let op0 := (assembly.getOperand 0).reg
  let reg0 := R.convertToPhysical op0
  let op1 := (assembly.getOperand 1).imm
  let tree1 :=
    if assembly.id = .ARM64_INS_ADR ∨ assembly.id = .ARM64_INS_ADRP then TreeNode.Address op1
    else TreeNode.Constant op1
  Calls.defReg reg0 (some tree1)

/-- The `switch(assembly->getId())` of `fillRegRegToReg` and `fillRegImmToReg`. -/
def UseDef.binaryTree (id : arm64_insn) (left right : TreeNode) : Option TreeNode :=
  match id with
  | .ARM64_INS_ADD => some (.Addition left right)
  | .ARM64_INS_AND => some (.And left right)
  | .ARM64_INS_SUB => some (.Subtraction left right)
  | _ => none

/-- Embeds `UseDef::fillRegRegToReg`. -/
def UseDef.fillRegRegToReg (R : RegisterFile) (assembly : Assembly) : Calls Unit := do
  let op0 := (assembly.getOperand 0).reg
  let reg0 := R.convertToPhysical op0
  let op1 := (assembly.getOperand 1).reg
  let reg1 := R.convertToPhysical op1
  let width1 := R.getWidth reg1 op1
  let op2 := (assembly.getOperand 2).reg
  let reg2 := R.convertToPhysical op2
  let width2 := R.getWidth reg2 op1
  Calls.useReg reg1
  Calls.useReg reg2
  let reg1tree := TreeNode.PhysicalRegister reg1 width1
  let reg2tree0 := TreeNode.PhysicalRegister reg2 width2
  let shift := (assembly.getOperand 2).shift
  let reg2tree ← Calls.ofExcept (UseDef.shiftExtend reg2tree0 shift.type shift.value)
  let tree := UseDef.binaryTree assembly.id reg1tree reg2tree
  Calls.defReg reg0 tree

/-- Embeds `UseDef::fillMemImmToReg`. -/
def UseDef.fillMemImmToReg (R : RegisterFile) (assembly : Assembly) : Calls Unit := do
  Calls.assert assembly.postIndex "assert: isPostIndex"
  let op0 := (assembly.getOperand 0).reg
  let reg0 := R.convertToPhysical op0
  let mem := (assembly.getOperand 1).mem
  let base := R.convertToPhysical mem.base
  let widthB := R.getWidth base mem.base
  Calls.useReg base
  let baseTree := TreeNode.PhysicalRegister base widthB
  Calls.assert (decide (mem.index = R.INVALID_REGISTER)) "assert: mem.index == INVALID_REGISTER"
  Calls.assert (decide (mem.disp = 0)) "assert: mem.disp == 0"
  let width := assembly.widthBit 0x40
  let memTree := TreeNode.Addition baseTree (.Constant 0)
  Calls.useMem memTree reg0
  let derefTree := TreeNode.Dereference memTree width
  Calls.defReg reg0 (some derefTree)
  let imm := (assembly.getOperand 2).imm
  let wbTree := TreeNode.Addition baseTree (.Constant imm)
  Calls.defReg base (some wbTree)

/-- Embeds `UseDef::fillRegToMem`; the parameter `width` is not used by the source either. -/
def UseDef.fillRegToMem (R : RegisterFile) (assembly : Assembly) (_width : Nat) :
    Calls Unit := do
  Calls.assert (!assembly.postIndex) "assert: !isPostIndex"
  let op0 := (assembly.getOperand 0).reg
  let reg0 := R.convertToPhysical op0
  Calls.useReg reg0
  let mem := (assembly.getOperand 1).mem
  let base := R.convertToPhysical mem.base
  let widthB := R.getWidth base mem.base
  Calls.useReg base
  if mem.index ≠ R.INVALID_REGISTER then
    pure ()
  else do
    let memTree := TreeNode.Addition (.PhysicalRegister base widthB) (.Constant mem.disp)
    if assembly.preIndex then
      Calls.defReg base (some memTree)
    Calls.defMem memTree reg0

/-- Embeds `UseDef::fillRegImmToReg`. -/
def UseDef.fillRegImmToReg (R : RegisterFile) (assembly : Assembly) : Calls Unit := do
  let op0 := (assembly.getOperand 0).reg
  let reg0 := R.convertToPhysical op0
  let op1 := (assembly.getOperand 1).reg
  let reg1 := R.convertToPhysical op1
  let width1 := R.getWidth reg1 op1
  Calls.useReg reg1
  let regTree := TreeNode.PhysicalRegister reg1 width1
  let imm := (assembly.getOperand 2).imm
  let shift := (assembly.getOperand 2).shift
  let immTree0 := TreeNode.Constant imm
  let immTree ← Calls.ofExcept (UseDef.shiftExtend immTree0 shift.type shift.value)
  let tree := UseDef.binaryTree assembly.id regTree immTree
  Calls.defReg reg0 tree

/-- Embeds `UseDef::fillMemToRegReg`. -/
def UseDef.fillMemToRegReg (R : RegisterFile) (assembly : Assembly) : Calls Unit := do
  Calls.assert (!assembly.postIndex) "assert: !isPostIndex"
  let op0 := (assembly.getOperand 0).reg
  let reg0 := R.convertToPhysical op0
  let op1 := (assembly.getOperand 1).reg
  let reg1 := R.convertToPhysical op1
  let mem := (assembly.getOperand 2).mem
  let base := R.convertToPhysical mem.base
  let widthB := R.getWidth base mem.base
  Calls.useReg base
  Calls.assert (decide (mem.index = R.INVALID_REGISTER)) "assert: mem.index == INVALID_REGISTER"
  let disp := mem.disp
  let dispTree := TreeNode.Constant disp
  let memTree := TreeNode.Addition (.PhysicalRegister base widthB) dispTree
  if assembly.preIndex then
    Calls.defReg base (some memTree)
  let width := assembly.widthBit 0x80
  let memTree0 := TreeNode.Addition memTree (.Constant 0)
  let memTree1 := TreeNode.Addition memTree (.Constant (Int.ofNat width))
  Calls.useMem memTree0 reg0
  Calls.useMem memTree1 reg1
  let derefTree0 := TreeNode.Dereference memTree0 width
  let derefTree1 := TreeNode.Dereference memTree1 width
  Calls.defReg reg0 (some derefTree0)
  Calls.defReg reg1 (some derefTree1)

/-- Embeds `UseDef::fillRegRegToMem`. -/
def UseDef.fillRegRegToMem (R : RegisterFile) (assembly : Assembly) : Calls Unit := do
  Calls.assert (!assembly.postIndex) "assert: !isPostIndex"
  let op0 := (assembly.getOperand 0).reg
  let reg0 := R.convertToPhysical op0
  let op1 := (assembly.getOperand 1).reg
  let reg1 := R.convertToPhysical op1
  Calls.useReg reg0
  Calls.useReg reg1
  let mem := (assembly.getOperand 2).mem
  let base := R.convertToPhysical mem.base
  let widthB := R.getWidth base mem.base
  Calls.useReg base
  Calls.assert (decide (mem.index = R.INVALID_REGISTER)) "assert: mem.index == INVALID_REGISTER"
  let disp := mem.disp
  let dispTree := TreeNode.Constant disp
  let memTree := TreeNode.Addition (.PhysicalRegister base widthB) dispTree
  if assembly.preIndex then
    Calls.defReg base (some memTree)
  let width := assembly.widthBit 0x80
  let memTree0 := TreeNode.Addition memTree (.Constant 0)
  let memTree1 := TreeNode.Addition memTree (.Constant (Int.ofNat width))
  Calls.defMem memTree0 reg0
  Calls.defMem memTree1 reg1

/-- Embeds `UseDef::fillRegRegImmToMem`. -/
def UseDef.fillRegRegImmToMem (R : RegisterFile) (assembly : Assembly) : Calls Unit := do
  Calls.assert assembly.postIndex "assert: isPostIndex"
  let op0 := (assembly.getOperand 0).reg
  let reg0 := R.convertToPhysical op0
  let op1 := (assembly.getOperand 1).reg
  let reg1 := R.convertToPhysical op1
  Calls.useReg reg0
  Calls.useReg reg1
  let mem := (assembly.getOperand 2).mem
  let base := R.convertToPhysical mem.base
  let widthB := R.getWidth base mem.base
  Calls.useReg base
  let baseTree := TreeNode.PhysicalRegister base widthB
  Calls.assert (decide (mem.index = R.INVALID_REGISTER)) "assert: mem.index == INVALID_REGISTER"
  Calls.assert (decide (mem.disp = 0)) "assert: mem.disp == 0"
  let width := assembly.widthBit 0x80
  let memTree0 := TreeNode.Addition baseTree (.Constant 0)
  let memTree1 := TreeNode.Addition baseTree (.Constant (Int.ofNat width))
  Calls.defMem memTree0 reg0
  Calls.defMem memTree1 reg1
  let imm := (assembly.getOperand 3).imm
  let wbTree := TreeNode.Addition baseTree (.Constant imm)
  Calls.defReg base (some wbTree)

/-- Embeds `UseDef::fillMemImmToRegReg`. -/
def UseDef.fillMemImmToRegReg (R : RegisterFile) (assembly : Assembly) : Calls Unit := do
  Calls.assert assembly.postIndex "assert: isPostIndex"
  let op0 := (assembly.getOperand 0).reg
  let reg0 := R.convertToPhysical op0
  let op1 := (assembly.getOperand 1).reg
  let reg1 := R.convertToPhysical op1
  let mem := (assembly.getOperand 2).mem
  let base := R.convertToPhysical mem.base
  let widthB := R.getWidth base mem.base
  Calls.useReg base
  let baseTree := TreeNode.PhysicalRegister base widthB
  Calls.assert (decide (mem.index = R.INVALID_REGISTER)) "assert: mem.index == INVALID_REGISTER"
  Calls.assert (decide (mem.disp = 0)) "assert: mem.disp == 0"
  let width := assembly.widthBit 0x80
  let memTree0 := TreeNode.Addition baseTree (.Constant 0)
  let memTree1 := TreeNode.Addition baseTree (.Constant (Int.ofNat width))
  Calls.useMem memTree0 reg0
  Calls.useMem memTree1 reg1
  let derefTree0 := TreeNode.Dereference memTree0 width
  let derefTree1 := TreeNode.Dereference memTree1 width
  Calls.defReg reg0 (some derefTree0)
  Calls.defReg reg1 (some derefTree1)
  let imm := (assembly.getOperand 3).imm
  let wbTree := TreeNode.Addition baseTree (.Constant imm)
  Calls.defReg base (some wbTree)

/-- Embeds `UseDef::fillCompareImmThenJump`. -/
def UseDef.fillCompareImmThenJump (_R : RegisterFile) (_assembly : Assembly) : Calls Unit :=
  pure ()

/-- Embeds `UseDef::fillCondJump`. -/
def UseDef.fillCondJump (_R : RegisterFile) (_assembly : Assembly) : Calls Unit :=
  pure ()

/-- Embeds `UseDef::fillAddOrSub`. -/
def UseDef.fillAddOrSub (R : RegisterFile) (assembly : Assembly) : Calls Unit :=
  let mode := assembly.mode
  if mode = .MODE_REG_REG_IMM then UseDef.fillRegImmToReg R assembly
  else if mode = .MODE_REG_REG_REG then UseDef.fillRegRegToReg R assembly
  else pure ()

/-- Embeds `UseDef::fillAdr`. -/
def UseDef.fillAdr (R : RegisterFile) (assembly : Assembly) : Calls Unit :=
  UseDef.fillImmToReg R assembly

/-- Embeds `UseDef::fillAdrp`. -/
def UseDef.fillAdrp (R : RegisterFile) (assembly : Assembly) : Calls Unit :=
  UseDef.fillImmToReg R assembly

/-- Embeds `UseDef::fillAnd`. -/
def UseDef.fillAnd (R : RegisterFile) (assembly : Assembly) : Calls Unit := do
  let mode := assembly.mode
  Calls.assert (decide (mode = .MODE_REG_REG_IMM)) "assert: mode == MODE_REG_REG_IMM"
  UseDef.fillRegImmToReg R assembly

/-- Embeds `UseDef::fillB`. -/
def UseDef.fillB (_R : RegisterFile) (_assembly : Assembly) : Calls Unit := pure ()

/-- The loop `for(int i = 0; i < 8; i++) { useReg(state, i); defReg(state, i, nullptr); }`
from index `i` on, with `n` iterations left. -/
def UseDef.useDefLoop : Nat → Int → Calls Unit
  | 0, _ => pure ()
  | n + 1, i => do
    Calls.useReg i
    Calls.defReg i none
    UseDef.useDefLoop n (i + 1)

/-- The loop `for(int i = 0; i < 8; i++) { useReg(state, i); }` from index `i` on,
with `n` iterations left. -/
def UseDef.useLoop : Nat → Int → Calls Unit
  | 0, _ => pure ()
  | n + 1, i => do
    Calls.useReg i
    UseDef.useLoop n (i + 1)

/-- Embeds `UseDef::fillBl`. -/
def UseDef.fillBl (_R : RegisterFile) (_assembly : Assembly) : Calls Unit :=
  UseDef.useDefLoop 8 0

/-- Embeds `UseDef::fillBlr`. -/
def UseDef.fillBlr (R : RegisterFile) (assembly : Assembly) : Calls Unit := do
  let op0 := (assembly.getOperand 0).reg
  let reg0 := R.convertToPhysical op0
  Calls.useReg reg0
  UseDef.useDefLoop 8 0

/-- Embeds `UseDef::fillBr`. -/
def UseDef.fillBr (R : RegisterFile) (assembly : Assembly) : Calls Unit :=
  UseDef.fillReg R assembly

/-- Embeds `UseDef::fillCbz`. -/
def UseDef.fillCbz (R : RegisterFile) (assembly : Assembly) : Calls Unit :=
  UseDef.fillCompareImmThenJump R assembly

/-- Embeds `UseDef::fillCbnz`. -/
def UseDef.fillCbnz (R : RegisterFile) (assembly : Assembly) : Calls Unit :=
  UseDef.fillCompareImmThenJump R assembly

/-- Embeds `UseDef::fillCmp`. -/
def UseDef.fillCmp (R : RegisterFile) (assembly : Assembly) : Calls Unit := do
  let op0 := (assembly.getOperand 0).reg
  let reg0 := R.convertToPhysical op0
  let width0 := R.getWidth reg0 op0
  let imm := (assembly.getOperand 1).imm
  let tree := TreeNode.Comparison (.PhysicalRegister reg0 width0) (.Constant imm)
  Calls.defReg R.NZCV (some tree)

/-- Embeds `UseDef::fillCsel`. -/
def UseDef.fillCsel (R : RegisterFile) (assembly : Assembly) : Calls Unit := do
  let op0 := (assembly.getOperand 0).reg
  let reg0 := R.convertToPhysical op0
  let width0 := R.getWidth reg0 op0
  Calls.defReg reg0 (some (.PhysicalRegister reg0 width0))

/-- Embeds `UseDef::fillLdaxr`. -/
def UseDef.fillLdaxr (R : RegisterFile) (assembly : Assembly) : Calls Unit :=
  let mode := assembly.mode
  if mode = .MODE_REG_MEM then
    let width := assembly.widthBit 0x40
    UseDef.fillMemToReg R assembly width
  else Calls.throw "unknown mode for LDAXR"

/-- Embeds `UseDef::fillLdp`. -/
def UseDef.fillLdp (R : RegisterFile) (assembly : Assembly) : Calls Unit :=
  let mode := assembly.mode
  if mode = .MODE_REG_REG_MEM then UseDef.fillMemToRegReg R assembly
  else if mode = .MODE_REG_REG_MEM_IMM then UseDef.fillMemImmToRegReg R assembly
  else Calls.throw "unknown mode for LDP"

/-- Embeds `UseDef::fillLdr`. -/
def UseDef.fillLdr (R : RegisterFile) (assembly : Assembly) : Calls Unit :=
  let mode := assembly.mode
  if mode = .MODE_REG_MEM then
    let width := assembly.widthBit 0x40
    UseDef.fillMemToReg R assembly width
  else if mode = .MODE_REG_MEM_IMM then UseDef.fillMemImmToReg R assembly
  else pure ()

/-- Embeds `UseDef::fillLdrh`. -/
def UseDef.fillLdrh (R : RegisterFile) (assembly : Assembly) : Calls Unit :=
  let mode := assembly.mode
  if mode = .MODE_REG_MEM then UseDef.fillMemToReg R assembly 2 else pure ()

/-- Embeds `UseDef::fillLdrb`. -/
def UseDef.fillLdrb (R : RegisterFile) (assembly : Assembly) : Calls Unit :=
  let mode := assembly.mode
  if mode = .MODE_REG_MEM then UseDef.fillMemToReg R assembly 1 else pure ()

/-- Embeds `UseDef::fillLdrsw`. -/
def UseDef.fillLdrsw (R : RegisterFile) (assembly : Assembly) : Calls Unit :=
  let mode := assembly.mode
  if mode = .MODE_REG_MEM then UseDef.fillMemToReg R assembly 4 else pure ()

/-- Embeds `UseDef::fillLdrsh`. -/
def UseDef.fillLdrsh (R : RegisterFile) (assembly : Assembly) : Calls Unit :=
  let mode := assembly.mode
  if mode = .MODE_REG_MEM then UseDef.fillMemToReg R assembly 2 else pure ()

/-- Embeds `UseDef::fillLdrsb`. -/
def UseDef.fillLdrsb (R : RegisterFile) (assembly : Assembly) : Calls Unit :=
  let mode := assembly.mode
  if mode = .MODE_REG_MEM then UseDef.fillMemToReg R assembly 1 else pure ()

/-- Embeds `UseDef::fillLdur`. -/
def UseDef.fillLdur (R : RegisterFile) (assembly : Assembly) : Calls Unit :=
  let mode := assembly.mode
  if mode = .MODE_REG_MEM then
    let width := assembly.widthBit 0x40
    UseDef.fillMemToReg R assembly width
  else pure ()

/-- Embeds `UseDef::fillLsl`. -/
def UseDef.fillLsl (R : RegisterFile) (assembly : Assembly) : Calls Unit :=
  let mode := assembly.mode
  if mode = .MODE_REG_REG_IMM then UseDef.fillRegImmToReg R assembly
  else if mode = .MODE_REG_REG_REG then UseDef.fillRegRegToReg R assembly
  else pure ()

/-- Embeds `UseDef::fillNop`. -/
def UseDef.fillNop (_R : RegisterFile) (_assembly : Assembly) : Calls Unit := pure ()

/-- Embeds `UseDef::fillMov`. -/
def UseDef.fillMov (R : RegisterFile) (assembly : Assembly) : Calls Unit :=
  let mode := assembly.mode
  if mode = .MODE_REG_REG then UseDef.fillRegToReg R assembly
  else if mode = .MODE_REG_IMM then UseDef.fillImmToReg R assembly
  else pure ()

/-- Embeds `UseDef::fillMrs`. -/
def UseDef.fillMrs (R : RegisterFile) (assembly : Assembly) : Calls Unit := do
  let op0 := (assembly.getOperand 0).reg
  let reg0 := R.convertToPhysical op0
  let width0 := R.getWidth reg0 op0
  Calls.defReg reg0 (some (.PhysicalRegister reg0 width0))

/-- Embeds `UseDef::fillRet`. -/
def UseDef.fillRet (_R : RegisterFile) (_assembly : Assembly) : Calls Unit :=
  UseDef.useLoop 8 0

/-- Embeds `UseDef::fillStp`. -/
def UseDef.fillStp (R : RegisterFile) (assembly : Assembly) : Calls Unit :=
  let mode := assembly.mode
  if mode = .MODE_REG_REG_MEM then UseDef.fillRegRegToMem R assembly
  else if mode = .MODE_REG_REG_MEM_IMM then UseDef.fillRegRegImmToMem R assembly
  else Calls.throw "unknown mode for STP"

/-- Embeds `UseDef::fillStr`. -/
def UseDef.fillStr (R : RegisterFile) (assembly : Assembly) : Calls Unit :=
  let mode := assembly.mode
  if mode = .MODE_REG_MEM then
    let width := assembly.widthBit 0x40
    UseDef.fillRegToMem R assembly width
  else pure ()

/-- Embeds `UseDef::fillStrb`. -/
def UseDef.fillStrb (R : RegisterFile) (assembly : Assembly) : Calls Unit :=
  let mode := assembly.mode
  if mode = .MODE_REG_MEM then UseDef.fillRegToMem R assembly 1 else pure ()

/-- Embeds `UseDef::fillStrh`. -/
def UseDef.fillStrh (R : RegisterFile) (assembly : Assembly) : Calls Unit :=
  let mode := assembly.mode
  if mode = .MODE_REG_MEM then UseDef.fillRegToMem R assembly 2 else pure ()

/-- Embeds `UseDef::fillSxtw`. -/
def UseDef.fillSxtw (R : RegisterFile) (assembly : Assembly) : Calls Unit :=
  let mode := assembly.mode
  if mode = .MODE_REG_REG then UseDef.fillRegToReg R assembly else pure ()

/-- The table `UseDef::handlers`; `none` where `handlers.find(id)` is `end()`. -/
def UseDef.handlers : arm64_insn → Option (RegisterFile → Assembly → Calls Unit)
  | .ARM64_INS_ADD => some UseDef.fillAddOrSub
  | .ARM64_INS_ADR => some UseDef.fillAdr
  | .ARM64_INS_ADRP => some UseDef.fillAdrp
  | .ARM64_INS_AND => some UseDef.fillAnd
  | .ARM64_INS_B => some UseDef.fillB
  | .ARM64_INS_BL => some UseDef.fillBl
  | .ARM64_INS_BLR => some UseDef.fillBlr
  | .ARM64_INS_BR => some UseDef.fillBr
  | .ARM64_INS_CBZ => some UseDef.fillCbz
  | .ARM64_INS_CBNZ => some UseDef.fillCbnz
  | .ARM64_INS_CMP => some UseDef.fillCmp
  | .ARM64_INS_CSEL => some UseDef.fillCsel
  | .ARM64_INS_LDAXR => some UseDef.fillLdaxr
  | .ARM64_INS_LDP => some UseDef.fillLdp
  | .ARM64_INS_LDR => some UseDef.fillLdr
  | .ARM64_INS_LDRH => some UseDef.fillLdrh
  | .ARM64_INS_LDRB => some UseDef.fillLdrb
  | .ARM64_INS_LDRSW => some UseDef.fillLdrsw
  | .ARM64_INS_LDRSH => some UseDef.fillLdrsh
  | .ARM64_INS_LDRSB => some UseDef.fillLdrsb
  | .ARM64_INS_LDUR => some UseDef.fillLdur
  | .ARM64_INS_LSL => some UseDef.fillLsl
  | .ARM64_INS_MOV => some UseDef.fillMov
  | .ARM64_INS_MRS => some UseDef.fillMrs
  | .ARM64_INS_NOP => some UseDef.fillNop
  | .ARM64_INS_RET => some UseDef.fillRet
  | .ARM64_INS_STP => some UseDef.fillStp
  | .ARM64_INS_STR => some UseDef.fillStr
  | .ARM64_INS_STRB => some UseDef.fillStrb
  | .ARM64_INS_STRH => some UseDef.fillStrh
  | .ARM64_INS_SUB => some UseDef.fillAddOrSub
  | .ARM64_INS_SXTW => some UseDef.fillSxtw
  | .ARM64_INS_AT => none
  | .other _ => none

/-- Embeds `UseDef::callIfEnabled(state, assembly)`.  An enabled id without a handler makes
the source dereference `handlers.end()`; that is an error here. -/
def UseDef.callIfEnabled (R : RegisterFile) (config : UseDefConfiguration)
    (assembly : Assembly) : Calls Bool :=
  if config.isEnabled assembly.id then
    match UseDef.handlers assembly.id with
    | some f => do
      f R assembly
      pure true
    | none => Calls.throw "no handler for an enabled id"
  else pure false

/-- The calls of `UseDef::fillState(state)` for the assembly of the instruction. -/
def UseDef.fillStateCalls (R : RegisterFile) (config : UseDefConfiguration)
    (assembly : Assembly) : Calls Unit :=
  if assembly.id = .ARM64_INS_AT then Calls.throw "AT should be an alias for SYS"
  else do
    let _handled ← UseDef.callIfEnabled R config assembly
    pure ()

/-- Embeds `UseDef::fillState(state)`: the calls carried out on the work set. -/
def UseDef.fillState (R : RegisterFile) (config : UseDefConfiguration) (w : UseDefWorkSet)
    (state : UDStateRef) (assembly : Assembly) : Except String UseDefWorkSet :=
  match (UseDef.fillStateCalls R config assembly).result with
  | .ok _ => .ok (UseDef.run state w (UseDef.fillStateCalls R config assembly).calls)
  | .error e => .error e

/-- The body of the loop over the instructions of a block in `analyzeGraph`. -/
def UseDef.analyzeInstruction (R : RegisterFile) (config : UseDefConfiguration)
    (w : UseDefWorkSet) (instr : Instruction) : Except String UseDefWorkSet :=
  match instr.semantic with
  | .literal => .ok w
  | .assembly a => UseDef.fillState R config w instr.state a

/-- The body of the loop over the nodes in `analyzeGraph`. -/
def UseDef.analyzeNode (R : RegisterFile) (config : UseDefConfiguration)
    (w : UseDefWorkSet) (nodeId : Nat) : Except String UseDefWorkSet := do
  let node ← config.cfg.get nodeId
  let w1 := w.transitionTo nodeId node
  node.block.foldlM (UseDef.analyzeInstruction R config) w1

/-- Embeds `UseDef::analyzeGraph(order)`. -/
def UseDef.analyzeGraph (R : RegisterFile) (config : UseDefConfiguration)
    (w : UseDefWorkSet) (order : List Nat) : Except String UseDefWorkSet :=
  order.foldlM (UseDef.analyzeNode R config) w

/-- The body of the loop over the groups in `analyze`. -/
def UseDef.analyzeGroup (R : RegisterFile) (config : UseDefConfiguration)
    (w : UseDefWorkSet) (o : List Nat) : Except String UseDefWorkSet := do
  let w1 ← UseDef.analyzeGraph R config w o
  if o.length > 1 then UseDef.analyzeGraph R config w1 o else pure w1

/-- Embeds `UseDef::analyze(order)`. -/
def UseDef.analyze (R : RegisterFile) (config : UseDefConfiguration)
    (w : UseDefWorkSet) (order : List (List Nat)) : Except String UseDefWorkSet :=
  order.foldlM (UseDef.analyzeGroup R config) w

/-- A register file for examples: register ids below 32 are the 64-bit registers
`X0..X30, SP`, ids from 32 to 63 their 32-bit halves, id 64 is `NZCV`; id 100 is
the invalid register. -/
def RegisterFile.sample : RegisterFile :=
  { convertToPhysical := fun op =>
      if op < 32 then Int.ofNat op else if op < 64 then Int.ofNat (op - 32)
      else if op = 64 then 32 else -1
    getWidth := fun _ op => if op < 32 then 8 else if op < 64 then 4 else 8
    NZCV := 32
    INVALID_REGISTER := 100 }

/-- The invariant of a `std::map`: the keys increase strictly. -/
def StdMap.WellFormed {α : Type} (m : StdMap α) : Prop :=
  (m.map Prod.fst).Pairwise (fun a b => a < b)

/-- The origins a `RefList` holds for a register (none if the register is absent). -/
def RefList.origins (l : RefList) (reg : Int) : List UDStateRef := (RefList.get l reg).getD []

/-- Add to `l` every origin of every register of `src`, as the register loop of
`transitionTo` does through `addToRegSet`. -/
def RefList.addAll (l src : RefList) : RefList :=
  src.foldl (fun acc mr => mr.2.foldl (fun acc2 o => RefList.add acc2 mr.1 o) acc) l

instance {α : Type} (m : StdMap α) : Decidable (StdMap.WellFormed m) := by
  unfold StdMap.WellFormed; infer_instance

/-- The current `reg_exposed[reg]`, as a list (empty if the register is absent). -/
def UseDefWorkSet.regExposed (w : UseDefWorkSet) (reg : Int) : List UDStateRef :=
  (w.getRegSet reg).getD []

/-- The current `mem_exposed`, the list `memSet` points to. -/
def UseDefWorkSet.memExposed (w : UseDefWorkSet) : MemOriginList :=
  w.nodeExposedMemSetList w.memSet

/-- Example: node 0 exposes state 5 for register 0 and for the place `Const(8)`. -/
def UseDefWorkSet.selfLoopWork : UseDefWorkSet :=
  { UseDefWorkSet.empty with
    nodeExposedRegSetList := fun i => if i = 0 then [(0, [5])] else []
    nodeExposedMemSetList := fun i => if i = 0 then [⟨.Constant 8, 5⟩] else [] }

/-- Example: a node whose only predecessor is node 0. -/
def ControlFlowNode.afterZero : ControlFlowNode := { backwardLinks := [0], block := [] }

/-- Example: the two predecessors of a join expose states 10 and 11 for register 0;
both expose state 12 for register 1. -/
def UseDefWorkSet.diamondWork : UseDefWorkSet :=
  { UseDefWorkSet.empty with
    nodeExposedRegSetList := fun i =>
      if i = 0 then [(0, [10]), (1, [12])] else if i = 1 then [(0, [11]), (1, [12])] else []
    nodeExposedMemSetList := fun i =>
      if i = 0 then [⟨.Constant 8, 10⟩] else if i = 1 then [⟨.Constant 8, 11⟩] else [] }

/-- Example: a join node with predecessors 0 and 1. -/
def ControlFlowNode.join : ControlFlowNode := { backwardLinks := [0, 1], block := [] }

/-- Two work sets agree on the exposed sets and on the sets `regSet` and `memSet`
point to; they may differ in the states of the instructions. -/
def UseDefWorkSet.SameExposed (w w1 : UseDefWorkSet) : Prop :=
  w.nodeExposedRegSetList = w1.nodeExposedRegSetList ∧
    w.nodeExposedMemSetList = w1.nodeExposedMemSetList ∧
    w.regSet = w1.regSet ∧ w.memSet = w1.memSet

/-- The call is a `defReg` of register `r` that takes effect (`r` is not -1). -/
def Call.definesReg (c : Call) (r : Int) : Bool :=
  match c with
  | .defReg reg _ => decide (reg = r) && decide (reg ≠ -1)
  | _ => false

/-- The calls made for one instruction of a block, each with the state it acts on. -/
def UseDef.instructionCalls (R : RegisterFile) (config : UseDefConfiguration)
    (instr : Instruction) : List (UDStateRef × Call) :=
  match instr.semantic with
  | .literal => []
  | .assembly a => (UseDef.fillStateCalls R config a).calls.map (fun c => (instr.state, c))

/-- The calls made for the instructions of a block, in program order. -/
def UseDef.blockCalls (R : RegisterFile) (config : UseDefConfiguration)
    (block : List Instruction) : List (UDStateRef × Call) :=
  block.foldr (fun instr acc => UseDef.instructionCalls R config instr ++ acc) []

/-- Carry out calls, each on its own state. -/
def UseDef.runAll (w : UseDefWorkSet) (cs : List (UDStateRef × Call)) : UseDefWorkSet :=
  cs.foldl (fun acc sc => UseDef.runCall sc.1 acc sc.2) w

/-- The state of the last call among `cs` that defines register `r`, if any. -/
def UseDef.lastDefinition (cs : List (UDStateRef × Call)) (r : Int) : Option UDStateRef :=
  ((cs.filter (fun sc => sc.2.definesReg r)).getLast?).map Prod.fst

/-- The exposed register and memory sets of all nodes. -/
def UseDefWorkSet.exposed (w : UseDefWorkSet) : (Nat → RefList) × (Nat → MemOriginList) :=
  (w.nodeExposedRegSetList, w.nodeExposedMemSetList)

/-- Example: `MOV Xreg, #imm`. -/
def Assembly.movImm (reg : Nat) (imm : Int) : Assembly :=
  { id := .ARM64_INS_MOV, mode := .MODE_REG_IMM,
    operands := [{ AsmOperand.zero with reg := reg }, { AsmOperand.zero with imm := imm }],
    bytes := [0, 0, 0, 0], preIndex := false, postIndex := false }

/-- Example: `NOP`. -/
def Assembly.nop : Assembly :=
  { id := .ARM64_INS_NOP, mode := .other 0, operands := [], bytes := [0, 0, 0, 0],
    preIndex := false, postIndex := false }

/-- Example: node 0 is `MOV X0, #1` (state 100); node 1 follows it and is a `NOP`
(state 101). -/
def UseDefConfiguration.chain : UseDefConfiguration :=
  { cfg := { nodes := [
      { backwardLinks := [], block := [⟨100, .assembly (Assembly.movImm 0 1)⟩] },
      { backwardLinks := [0], block := [⟨101, .assembly Assembly.nop⟩] }] },
    idList := [.ARM64_INS_MOV, .ARM64_INS_NOP] }

/-- Example: a loop 0 → 1 → 2 → 0; node 0 is `MOV X0, #1` (state 100), nodes 1 and 2
are a `NOP` each (states 101 and 102). -/
def UseDefConfiguration.cycle : UseDefConfiguration :=
  { cfg := { nodes := [
      { backwardLinks := [2], block := [⟨100, .assembly (Assembly.movImm 0 1)⟩] },
      { backwardLinks := [0], block := [⟨101, .assembly Assembly.nop⟩] },
      { backwardLinks := [1], block := [⟨102, .assembly Assembly.nop⟩] }] },
    idList := [.ARM64_INS_MOV, .ARM64_INS_NOP] }

/-- Example: node 0 of `UseDefConfiguration.chain`. -/
def ControlFlowNode.chainZero : ControlFlowNode :=
  { backwardLinks := [], block := [⟨100, .assembly (Assembly.movImm 0 1)⟩] }

/-- Example: the work set after node 0 of `UseDefConfiguration.chain` is analysed,
starting from the empty work set. -/
def UseDefWorkSet.chainAfterZero : UseDefWorkSet :=
  UseDef.runAll (UseDefWorkSet.empty.transitionTo 0 ControlFlowNode.chainZero)
    (UseDef.blockCalls RegisterFile.sample UseDefConfiguration.chain
      ControlFlowNode.chainZero.block)

/-- Example: node 1 of `UseDefConfiguration.chain`. -/
def ControlFlowNode.chainOne : ControlFlowNode :=
  { backwardLinks := [0], block := [⟨101, .assembly Assembly.nop⟩] }

/-- Example: both nodes of `UseDefConfiguration.chain` expose the `MOV` state for
`X0`. -/
def UseDefWorkSet.chainStable : UseDefWorkSet :=
  { UseDefWorkSet.empty with
    nodeExposedRegSetList := fun i => if i = 0 then [(0, [100])] else
      if i = 1 then [(0, [100])] else []
    regSet := 1
    memSet := 1 }

/-- Example: the work set after one pass over the chain from `chainStable`. -/
def UseDefWorkSet.chainAgain : UseDefWorkSet :=
  UseDef.runAll
    ((UseDef.runAll (UseDefWorkSet.chainStable.transitionTo 0 ControlFlowNode.chainZero)
        (UseDef.blockCalls RegisterFile.sample UseDefConfiguration.chain
          ControlFlowNode.chainZero.block)).transitionTo 1 ControlFlowNode.chainOne)
    (UseDef.blockCalls RegisterFile.sample UseDefConfiguration.chain
      ControlFlowNode.chainOne.block)

instance (l : MemOriginList) : Decidable (MemOriginList.NoDuplicate l) := by
  unfold MemOriginList.NoDuplicate; infer_instance

/-! ## The order of the analysis -/

/-- Following the spec: the nodes in the order the driver is to visit them, each
group once, and a group of more than one node twice in succession. -/
def UseDef.schedule (order : List (List Nat)) : List Nat :=
  order.foldr (fun o acc => (if o.length > 1 then o ++ o else o) ++ acc) []

/-- The handler finished without an exception. -/
def Calls.isOk {α : Type} (x : Calls α) : Bool :=
  match x.result with
  | .ok _ => true
  | .error _ => false

/-- The instruction of a block is processed without an exception. -/
def UseDef.instructionOk (R : RegisterFile) (config : UseDefConfiguration)
    (instr : Instruction) : Bool :=
  match instr.semantic with
  | .literal => true
  | .assembly a => (UseDef.fillStateCalls R config a).isOk

/-- Example: an instruction with the opcode id `other 7`, which no configuration of
the examples enables. -/
def Assembly.unknownOpcode : Assembly :=
  { id := .other 7, mode := .MODE_REG_REG, operands := [], bytes := [0, 0, 0, 0],
    preIndex := false, postIndex := false }

/-- Example: `MOV` with an operand mode the handler does not name. -/
def Assembly.movOtherMode : Assembly :=
  { Assembly.movImm 0 1 with mode := .other 0 }

/-- Example: `LDR X0, [X1, X2]`, a load whose memory operand has an index register. -/
def Assembly.ldrIndexed : Assembly :=
  { id := .ARM64_INS_LDR, mode := .MODE_REG_MEM,
    operands := [{ AsmOperand.zero with reg := 0 },
      { AsmOperand.zero with mem := { base := 1, index := 2, disp := 0 } }],
    bytes := [0, 0, 0, 0x40], preIndex := false, postIndex := false }

/-- Example: `STR X0, [X1, X2]`, a store whose memory operand has an index register. -/
def Assembly.strIndexed : Assembly :=
  { Assembly.ldrIndexed with id := .ARM64_INS_STR }

/-- Example: `LDP` in an operand mode the handler does not name. -/
def Assembly.ldpOtherMode : Assembly :=
  { id := .ARM64_INS_LDP, mode := .MODE_REG_MEM, operands := [], bytes := [0, 0, 0, 0],
    preIndex := false, postIndex := false }

/-- Example: the instruction `AT`. -/
def Assembly.atInstruction : Assembly :=
  { id := .ARM64_INS_AT, mode := .other 0, operands := [], bytes := [0, 0, 0, 0],
    preIndex := false, postIndex := false }

/-- Example: `ADD Xd, Xn, #imm` with no shift on the immediate. -/
def Assembly.addImm (rd rn : Nat) (imm : Int) : Assembly :=
  { id := .ARM64_INS_ADD, mode := .MODE_REG_REG_IMM,
    operands := [{ AsmOperand.zero with reg := rd }, { AsmOperand.zero with reg := rn },
      { AsmOperand.zero with imm := imm }],
    bytes := [0, 0, 0, 0], preIndex := false, postIndex := false }

/-- Example: `RET`. -/
def Assembly.ret : Assembly :=
  { id := .ARM64_INS_RET, mode := .other 0, operands := [], bytes := [0, 0, 0, 0],
    preIndex := false, postIndex := false }

/-- Scenario S1: the block `MOV X0, #7; ADD X1, X0, #3; RET` with the states 100,
101 and 102; `x0` and `x1` are the operand register ids of `X0` and `X1`. -/
def ControlFlowNode.scenario1 (x0 x1 : Nat) : ControlFlowNode :=
  { backwardLinks := [],
    block := [⟨100, .assembly (Assembly.movImm x0 7)⟩,
      ⟨101, .assembly (Assembly.addImm x1 x0 3)⟩,
      ⟨102, .assembly Assembly.ret⟩] }

/-- Scenario S1: the graph of the single block, with the three opcodes enabled. -/
def UseDefConfiguration.scenario1 (x0 x1 : Nat) : UseDefConfiguration :=
  { cfg := { nodes := [ControlFlowNode.scenario1 x0 x1] },
    idList := [.ARM64_INS_MOV, .ARM64_INS_ADD, .ARM64_INS_RET] }

/-- The calls of scenario S1, each with the state it acts on. -/
def UseDef.scenario1Calls : List (UDStateRef × Call) :=
  [(100, .defReg 0 (some (.Constant 7))),
    (101, .useReg 0),
    (101, .defReg 1 (some (.Addition (.PhysicalRegister 0 8) (.Constant 3)))),
    (102, .useReg 0), (102, .useReg 1), (102, .useReg 2), (102, .useReg 3),
    (102, .useReg 4), (102, .useReg 5), (102, .useReg 6), (102, .useReg 7)]

/-- Example: `STR Xt, [Xn, #disp]!`, the pre-index store; `inv` is the operand id of
the invalid register, which stands for "no index register". -/
def Assembly.strPreIndex (rt rn inv : Nat) (disp : Int) : Assembly :=
  { id := .ARM64_INS_STR, mode := .MODE_REG_MEM,
    operands := [{ AsmOperand.zero with reg := rt },
      { AsmOperand.zero with mem := { base := rn, index := inv, disp := disp } }],
    bytes := [0xE0, 0x0F, 0x1F, 0xF8], preIndex := true, postIndex := false }

/-- Example: `LDR Xt, [Xn], #imm`, the post-index load. -/
def Assembly.ldrPostIndex (rt rn inv : Nat) (imm : Int) : Assembly :=
  { id := .ARM64_INS_LDR, mode := .MODE_REG_MEM_IMM,
    operands := [{ AsmOperand.zero with reg := rt },
      { AsmOperand.zero with mem := { base := rn, index := inv, disp := 0 } },
      { AsmOperand.zero with imm := imm }],
    bytes := [0xE0, 0x07, 0x41, 0xF8], preIndex := false, postIndex := true }

/-- Example: `LDR Xt, [Xn, #disp]`, the load with a displacement and no write-back. -/
def Assembly.ldrOffset (rt rn inv : Nat) (disp : Int) : Assembly :=
  { id := .ARM64_INS_LDR, mode := .MODE_REG_MEM,
    operands := [{ AsmOperand.zero with reg := rt },
      { AsmOperand.zero with mem := { base := rn, index := inv, disp := disp } }],
    bytes := [0xE0, 0x03, 0x5F, 0xF8], preIndex := false, postIndex := false }

/-- Scenario S2: the block `STR X0, [SP, #-16]!; LDR X0, [SP], #16` with the states
200 and 201; `x0`, `sp` and `inv` are the operand register ids. -/
def ControlFlowNode.scenario2 (x0 sp inv : Nat) : ControlFlowNode :=
  { backwardLinks := [],
    block := [⟨200, .assembly (Assembly.strPreIndex x0 sp inv (-16))⟩,
      ⟨201, .assembly (Assembly.ldrPostIndex x0 sp inv 16)⟩] }

/-- Scenario S2: the graph of the single block, with `STR` and `LDR` enabled. -/
def UseDefConfiguration.scenario2 (x0 sp inv : Nat) : UseDefConfiguration :=
  { cfg := { nodes := [ControlFlowNode.scenario2 x0 sp inv] },
    idList := [.ARM64_INS_STR, .ARM64_INS_LDR] }

/-- The calls of scenario S2, each with the state it acts on. -/
def UseDef.scenario2Calls : List (UDStateRef × Call) :=
  [(200, .useReg 0), (200, .useReg 31),
    (200, .defReg 31 (some (.Addition (.PhysicalRegister 31 8) (.Constant (-16))))),
    (200, .defMem (.Addition (.PhysicalRegister 31 8) (.Constant (-16))) 0),
    (201, .useReg 31),
    (201, .useMem (.Addition (.PhysicalRegister 31 8) (.Constant 0)) 0),
    (201, .defReg 0 (some (.Dereference
      (.Addition (.PhysicalRegister 31 8) (.Constant 0)) 8))),
    (201, .defReg 31 (some (.Addition (.PhysicalRegister 31 8) (.Constant 16))))]

/-- A variant of scenario S2 whose load names the place of the store:
`STR X0, [SP, #-16]!; LDR X0, [SP, #-16]`. -/
def ControlFlowNode.scenario2SamePlace (x0 sp inv : Nat) : ControlFlowNode :=
  { backwardLinks := [],
    block := [⟨200, .assembly (Assembly.strPreIndex x0 sp inv (-16))⟩,
      ⟨201, .assembly (Assembly.ldrOffset x0 sp inv (-16))⟩] }

/-- The graph of the variant of scenario S2. -/
def UseDefConfiguration.scenario2SamePlace (x0 sp inv : Nat) : UseDefConfiguration :=
  { cfg := { nodes := [ControlFlowNode.scenario2SamePlace x0 sp inv] },
    idList := [.ARM64_INS_STR, .ARM64_INS_LDR] }

/-- The calls of the variant of scenario S2. -/
def UseDef.scenario2SamePlaceCalls : List (UDStateRef × Call) :=
  [(200, .useReg 0), (200, .useReg 31),
    (200, .defReg 31 (some (.Addition (.PhysicalRegister 31 8) (.Constant (-16))))),
    (200, .defMem (.Addition (.PhysicalRegister 31 8) (.Constant (-16))) 0),
    (201, .useReg 31),
    (201, .useMem (.Addition (.PhysicalRegister 31 8) (.Constant (-16))) 0),
    (201, .defReg 0 (some (.Dereference
      (.Addition (.PhysicalRegister 31 8) (.Constant (-16))) 8)))]

/-! ## Chunks and links

The definitions of this part follow `src/chunk/link.cpp`.  A chunk is a value; its
field `id` stands for the identity of the object.  Addresses and sizes are natural
numbers below `2 ^ 64`, and the arithmetic of `address_t` wraps at `2 ^ 64`. -/

/-- The sum of two `address_t` values. -/
def addAddress (a b : Nat) : Nat := (a + b) % 2 ^ 64

/-- The difference of two `address_t` values. -/
def subAddress (a b : Nat) : Nat := (a + (2 ^ 64 - b % 2 ^ 64)) % 2 ^ 64

/-- The kinds of chunk the sources cast to. -/
inductive ChunkKind where
  | Module | Function | Block | Instruction | DataSection | PLTTrampoline | JumpTable
  | Marker | TLSDataRegion
  deriving DecidableEq, Repr

/-- A chunk: the identity of the object, its dynamic type, its position (absent when
`getPosition()` is null), its size, and the TLS offset of a TLS data region. -/
structure Chunk where
  id : Nat
  kind : ChunkKind
  position : Option Nat
  size : Nat
  tlsOffset : Nat
  deriving DecidableEq, Repr

/-- Embeds `chunk->getAddress()`; `none` where the source dereferences a null
position. -/
def Chunk.getAddress (c : Chunk) : Option Nat := c.position

/-- Embeds `dynamic_cast<T *>(chunk)` for the chunk type of kind `kind`. -/
def Chunk.castTo (kind : ChunkKind) (c : Option Chunk) : Option Chunk :=
  match c with
  | some x => if x.kind = kind then some x else none
  | none => none

/-- The scopes of a link that `link.cpp` names (`Link::SCOPE_*`). -/
inductive LinkScope where
  | SCOPE_WITHIN_MODULE | SCOPE_INTERNAL_JUMP | SCOPE_EXTERNAL_JUMP | SCOPE_EXTERNAL_CODE
  deriving DecidableEq, Repr

/-- An entry of the GS table: its target and its offset in the table. -/
structure GSTableEntry where
  target : Option Chunk
  offset : Nat
  deriving DecidableEq, Repr

/-- The link classes, one constructor per dynamic type; a `ChunkRef` or pointer that
may be null is an `Option`.  The classes are declared in `link.h`; `SymbolOnlyLink`,
`UnresolvedLink` and `ImmAndDispLink` carry the address their `getTargetAddress`
returns, and `AbsoluteDataLink` has the fields of `DataOffsetLink`, which it is
tested before in `writeLink`. -/
inductive Link where
  | NormalLink (target : Option Chunk) (scope : LinkScope)
  | AbsoluteNormalLink (target : Option Chunk) (scope : LinkScope)
  | ExternalNormalLink (target : Option Chunk)
  | ExternalAbsoluteNormalLink (target : Option Chunk)
  | OffsetLink (target : Option Chunk) (offset : Nat)
  | ExternalOffsetLink (target : Option Chunk) (offset : Nat)
  | PLTLink (originalTarget : Nat) (pltTrampoline : Option Chunk)
  | JumpTableLink (jumpTable : Option Chunk)
  | SymbolOnlyLink (symbol : String) (target : Nat)
  | MarkerLink (marker : Option Chunk) (addend : Nat)
  | AbsoluteDataLink (sect : Option Chunk) (target : Nat) (addend : Nat)
  | DataOffsetLink (sect : Option Chunk) (target : Nat) (addend : Nat)
  | TLSDataOffsetLink (tls : Option Chunk) (target : Nat)
  | UnresolvedLink (target : Nat)
  | ImmAndDispLink (target : Nat)
  | EgalitoLoaderLink (targetName : String)
  | GSTableLink (entry : GSTableEntry)
  | DistanceLink (base : Option Chunk) (target : Option Chunk)
  deriving DecidableEq, Repr

/-- Embeds `link->getTarget()`.  Where `link.cpp` does not define it the value is
modelled from the spec: the `target` field of the link, and null for a link that
has none. -/
def Link.getTarget : Link → Option Chunk
  | .NormalLink target _ => target
  | .AbsoluteNormalLink target _ => target
  | .ExternalNormalLink target => target
  | .ExternalAbsoluteNormalLink target => target
  | .OffsetLink target _ => target
  | .ExternalOffsetLink target _ => target
  | .PLTLink _ pltTrampoline => pltTrampoline
  | .JumpTableLink jumpTable => jumpTable
  | .SymbolOnlyLink _ _ => none
  | .MarkerLink _ _ => none
  | .AbsoluteDataLink sect _ _ => sect
  | .DataOffsetLink sect _ _ => sect
  | .TLSDataOffsetLink tls _ => tls
  | .UnresolvedLink _ => none
  | .ImmAndDispLink _ => none
  | .EgalitoLoaderLink _ => none
  | .GSTableLink entry => entry.target
  | .DistanceLink _ target => target

/-- Embeds `link->getTargetAddress()`; `none` where the source dereferences a null
pointer.  The argument `loaderBridge` is `LoaderBridge::getInstance()->getAddress`.
The variants derived from `NormalLink`, `OffsetLink` and `DataOffsetLink` inherit
the function of their base. -/
def Link.getTargetAddress (loaderBridge : String → Nat) : Link → Option Nat
  | .NormalLink target _ => target.bind Chunk.getAddress
  | .AbsoluteNormalLink target _ => target.bind Chunk.getAddress
  | .ExternalNormalLink target => target.bind Chunk.getAddress
  | .ExternalAbsoluteNormalLink target => target.bind Chunk.getAddress
  | .OffsetLink target offset =>
    (target.bind Chunk.getAddress).map (fun a => addAddress a offset)
  | .ExternalOffsetLink target offset =>
    (target.bind Chunk.getAddress).map (fun a => addAddress a offset)
  | .PLTLink _ pltTrampoline => pltTrampoline.bind Chunk.getAddress
  | .JumpTableLink jumpTable => jumpTable.bind Chunk.getAddress
  | .SymbolOnlyLink _ target => some target
  | .MarkerLink marker addend =>
    (marker.bind Chunk.getAddress).map (fun a => addAddress a addend)
  | .AbsoluteDataLink sect target addend =>
    (sect.bind Chunk.getAddress).map (fun a => addAddress (addAddress a target) addend)
  | .DataOffsetLink sect target addend =>
    (sect.bind Chunk.getAddress).map (fun a => addAddress (addAddress a target) addend)
  | .TLSDataOffsetLink tls target => tls.map (fun c => addAddress c.tlsOffset target)
  | .UnresolvedLink target => some target
  | .ImmAndDispLink target => some target
  | .EgalitoLoaderLink targetName => some (loaderBridge targetName)
  | .GSTableLink entry => some entry.offset
  | .DistanceLink base target =>
    match target, base with
    | some t, some b =>
      match t.getAddress, b.getAddress with
      | some ta, some ba => some (subAddress (addAddress ta t.size) ba)
      | _, _ => none
    | _, _ => none
/-- Example: a function at `0x1000` of size `0x20`. -/
def Chunk.sampleFunction : Chunk :=
  { id := 1, kind := .Function, position := some 0x1000, size := 0x20, tlsOffset := 0 }

/-- Example: a data section at `0x2000`. -/
def Chunk.sampleSection : Chunk :=
  { id := 2, kind := .DataSection, position := some 0x2000, size := 0x100, tlsOffset := 0 }

/-! ## The semantic serializer

The definitions of this part follow `src/instr/serializer.cpp`. -/

/-- The tags of `enum EgalitoInstrType`, by value. -/
inductive EgalitoInstrType where
  | TYPE_UNKNOWN_INSTR
  | TYPE_RawInstruction
  | TYPE_IsolatedInstruction
  | TYPE_LinkedInstruction
  | TYPE_ControlFlowInstruction
  | TYPE_ReturnInstruction
  | TYPE_IndirectJumpInstruction
  | TYPE_IndirectCallInstruction
  | TYPE_StackFrameInstruction
  | TYPE_LiteralInstruction
  | TYPE_LinkedLiteralInstruction
  deriving DecidableEq, Repr

/-- The value of an instruction tag. -/
def EgalitoInstrType.toNat : EgalitoInstrType → Nat
  | .TYPE_UNKNOWN_INSTR => 0
  | .TYPE_RawInstruction => 1
  | .TYPE_IsolatedInstruction => 2
  | .TYPE_LinkedInstruction => 3
  | .TYPE_ControlFlowInstruction => 4
  | .TYPE_ReturnInstruction => 5
  | .TYPE_IndirectJumpInstruction => 6
  | .TYPE_IndirectCallInstruction => 7
  | .TYPE_StackFrameInstruction => 8
  | .TYPE_LiteralInstruction => 9
  | .TYPE_LinkedLiteralInstruction => 10

/-- The tags of `enum EgalitoLinkType`, by value. -/
inductive EgalitoLinkType where
  | TYPE_UNKNOWN_LINK
  | TYPE_ExternalAbsoluteNormalLink
  | TYPE_ExternalNormalLink
  | TYPE_AbsoluteNormalLink
  | TYPE_NormalLink
  | TYPE_ExternalOffsetLink
  | TYPE_OffsetLink
  | TYPE_PLTLink
  | TYPE_JumpTableLink
  | TYPE_SymbolOnlyLink
  | TYPE_MarkerLink
  | TYPE_AbsoluteDataLink
  | TYPE_DataOffsetLink
  | TYPE_TLSDataOffsetLink
  | TYPE_UnresolvedLink
  | TYPE_ImmAndDispLink
  deriving DecidableEq, Repr

/-- The value of a link tag. -/
def EgalitoLinkType.toNat : EgalitoLinkType → Nat
  | .TYPE_UNKNOWN_LINK => 0
  | .TYPE_ExternalAbsoluteNormalLink => 1
  | .TYPE_ExternalNormalLink => 2
  | .TYPE_AbsoluteNormalLink => 3
  | .TYPE_NormalLink => 4
  | .TYPE_ExternalOffsetLink => 5
  | .TYPE_OffsetLink => 6
  | .TYPE_PLTLink => 7
  | .TYPE_JumpTableLink => 8
  | .TYPE_SymbolOnlyLink => 9
  | .TYPE_MarkerLink => 10
  | .TYPE_AbsoluteDataLink => 11
  | .TYPE_DataOffsetLink => 12
  | .TYPE_TLSDataOffsetLink => 13
  | .TYPE_UnresolvedLink => 14
  | .TYPE_ImmAndDispLink => 15

/-- Modelled from the spec: the archive stream of `ArchiveStreamWriter` and
`ArchiveStreamReader` (`writer.h`, not among the sources).  The spec gives the stream
as a sequence of fields of fixed width: bytes (`u8`), chunk ids (`IDWidth`) and
addresses (`addr_t`), the widths being the same for write and read. -/
inductive ArchiveItem where
  | u8 (v : Nat)
  | id (v : Nat)
  | address (v : Nat)
  deriving DecidableEq, Repr

/-- The archive stream: the fields in the order written. -/
abbrev ArchiveStream := List ArchiveItem

/-- Modelled from the spec: `writer.write<uint8_t>(v)`, one byte. -/
def ArchiveStreamWriter.writeU8 (v : Nat) : ArchiveStream := [.u8 (v % 256)]

/-- Modelled from the spec: `writer.writeBytes<uint8_t>(bytes)`, the length as one
byte followed by the bytes. -/
def ArchiveStreamWriter.writeBytes (bytes : List Nat) : ArchiveStream :=
  .u8 (bytes.length % 256) :: bytes.map (fun b => .u8 (b % 256))

/-- Modelled from the spec: `writer.writeID(id)`. -/
def ArchiveStreamWriter.writeID (id : Nat) : ArchiveStream := [.id id]

/-- Modelled from the spec: `writer.write(address)` for an `address_t`. -/
def ArchiveStreamWriter.writeAddress (v : Nat) : ArchiveStream := [.address (v % 2 ^ 64)]

/-- Modelled from the spec: `reader.read<uint8_t>()`; the value and the rest of the
stream. -/
def ArchiveStreamReader.readU8 : ArchiveStream → Except String (Nat × ArchiveStream)
  | .u8 v :: rest => .ok (v, rest)
  | _ => .error "read<uint8_t>: no byte to read"

/-- Read `n` bytes. -/
def ArchiveStreamReader.readN : Nat → ArchiveStream → Except String (List Nat × ArchiveStream)
  | 0, s => .ok ([], s)
  | n + 1, s =>
    match ArchiveStreamReader.readU8 s with
    | .ok (b, rest) =>
      match ArchiveStreamReader.readN n rest with
      | .ok (bs, rest2) => .ok (b :: bs, rest2)
      | .error e => .error e
    | .error e => .error e

/-- Modelled from the spec: `reader.readBytes<uint8_t>()`, the length byte and that
many bytes. -/
def ArchiveStreamReader.readBytes (s : ArchiveStream) :
    Except String (List Nat × ArchiveStream) :=
  match ArchiveStreamReader.readU8 s with
  | .ok (n, rest) => ArchiveStreamReader.readN n rest
  | .error e => .error e

/-- Modelled from the spec: `reader.readID()`. -/
def ArchiveStreamReader.readID : ArchiveStream → Except String (Nat × ArchiveStream)
  | .id v :: rest => .ok (v, rest)
  | _ => .error "readID: no id to read"

/-- Modelled from the spec: `reader.read<address_t>()`. -/
def ArchiveStreamReader.readAddress : ArchiveStream → Except String (Nat × ArchiveStream)
  | .address v :: rest => .ok (v, rest)
  | _ => .error "read<address_t>: no address to read"

/-- The serializer oracles `ChunkSerializerOperations`: `assign` gives the id of a
chunk (of the null pointer too), `lookup` the chunk of an id or null. -/
structure ChunkSerializerOperations where
  assign : Option Chunk → Nat
  lookup : Nat → Option Chunk

/-- The instruction semantics the serializer visits, each with the raw bytes that
`InstrWriterGetData` yields for it; a link pointer may be null. -/
inductive InstrSemantic where
  | RawInstruction (bytes : List Nat)
  | IsolatedInstruction (bytes : List Nat)
  | LinkedInstruction (bytes : List Nat) (link : Option Link) (index : Nat)
  | ControlFlowInstruction (bytes : List Nat) (link : Option Link)
  | ReturnInstruction (bytes : List Nat)
  | IndirectJumpInstruction (bytes : List Nat)
  | IndirectCallInstruction (bytes : List Nat)
  | StackFrameInstruction (bytes : List Nat)
  | LiteralInstruction (bytes : List Nat)
  | LinkedLiteralInstruction (bytes : List Nat) (link : Option Link)
  deriving DecidableEq, Repr

/-- Modelled from the spec: the raw bytes of a semantic, which `InstrWriterGetData`
(declared outside the sources) collects from it. -/
def InstrSemantic.getData : InstrSemantic → List Nat
  | .RawInstruction bytes => bytes
  | .IsolatedInstruction bytes => bytes
  | .LinkedInstruction bytes _ _ => bytes
  | .ControlFlowInstruction bytes _ => bytes
  | .ReturnInstruction bytes => bytes
  | .IndirectJumpInstruction bytes => bytes
  | .IndirectCallInstruction bytes => bytes
  | .StackFrameInstruction bytes => bytes
  | .LiteralInstruction bytes => bytes
  | .LinkedLiteralInstruction bytes _ => bytes

/-- Modelled from the spec: `semantic->getLink()`, null for a semantic without a
link. -/
def InstrSemantic.getLink : InstrSemantic → Option Link
  | .LinkedInstruction _ link _ => link
  | .ControlFlowInstruction _ link => link
  | .LinkedLiteralInstruction _ link => link
  | _ => none

/-- Modelled from the spec: `semantic->getAssembly()`, reduced to the bytes of the
assembly; null for a raw or literal semantic, which has no assembly. -/
def InstrSemantic.getAssembly : InstrSemantic → Option (List Nat)
  | .RawInstruction _ => none
  | .LiteralInstruction _ => none
  | s => some s.getData

/-- Modelled from the spec: `semantic->setLink(link)`, declared outside the sources;
on a semantic that has no link the model reports an error. -/
def InstrSemantic.setLink (s : InstrSemantic) (link : Link) : Except String InstrSemantic :=
  match s with
  | .LinkedInstruction bytes _ index => .ok (.LinkedInstruction bytes (some link) index)
  | .ControlFlowInstruction bytes _ => .ok (.ControlFlowInstruction bytes (some link))
  | .LinkedLiteralInstruction bytes _ => .ok (.LinkedLiteralInstruction bytes (some link))
  | _ => .error "setLink: the semantic has no link"

/-- Embeds `SemanticSerializer::write(type, forBytes)`. -/
def SemanticSerializer.write (type : EgalitoInstrType) (forBytes : InstrSemantic) :
    ArchiveStream :=
  ArchiveStreamWriter.writeU8 type.toNat ++ ArchiveStreamWriter.writeBytes forBytes.getData

/-- Embeds `SemanticSerializer::writeLinkReference(ref)`. -/
def SemanticSerializer.writeLinkReference (op : ChunkSerializerOperations)
    (ref : Option Chunk) : ArchiveStream :=
  ArchiveStreamWriter.writeID (op.assign ref)

/-- Embeds `SemanticSerializer::writeLinkTarget(link)`. -/
def SemanticSerializer.writeLinkTarget (op : ChunkSerializerOperations) (link : Link) :
    ArchiveStream :=
  ArchiveStreamWriter.writeID (op.assign link.getTarget)

/-- The statements of `writeLink` that write a target and the offset
`link->getTargetAddress() - target->getAddress()`; a null target or position is
dereferenced by the source and is an error here. -/
def SemanticSerializer.writeReferenceAndOffset (op : ChunkSerializerOperations)
    (loaderBridge : String → Nat) (link : Link) : Except String ArchiveStream :=
  let target := link.getTarget
  match link.getTargetAddress loaderBridge, target.bind Chunk.getAddress with
  | some ta, some a =>
    .ok (SemanticSerializer.writeLinkReference op target ++
      ArchiveStreamWriter.writeAddress (subAddress ta a))
  | _, _ => .error "null target or position"

/-- Embeds `SemanticSerializer::writeLink(link)`: the chain of `dynamic_cast` tests
is the match on the dynamic type; the link classes of `link.h` that the chain does
not name get the tag `TYPE_UNKNOWN_LINK`. -/
def SemanticSerializer.writeLink (op : ChunkSerializerOperations)
    (loaderBridge : String → Nat) (link : Link) : Except String ArchiveStream :=
  match link with
  | .ExternalAbsoluteNormalLink _ =>
    .ok (ArchiveStreamWriter.writeU8 EgalitoLinkType.TYPE_ExternalAbsoluteNormalLink.toNat ++
      SemanticSerializer.writeLinkTarget op link)
  | .ExternalNormalLink _ =>
    .ok (ArchiveStreamWriter.writeU8 EgalitoLinkType.TYPE_ExternalNormalLink.toNat ++
      SemanticSerializer.writeLinkTarget op link)
  | .AbsoluteNormalLink _ _ =>
    .ok (ArchiveStreamWriter.writeU8 EgalitoLinkType.TYPE_AbsoluteNormalLink.toNat ++
      SemanticSerializer.writeLinkTarget op link)
  | .NormalLink _ _ =>
    .ok (ArchiveStreamWriter.writeU8 EgalitoLinkType.TYPE_NormalLink.toNat ++
      SemanticSerializer.writeLinkTarget op link)
  | .ExternalOffsetLink _ _ =>
    (SemanticSerializer.writeReferenceAndOffset op loaderBridge link).map
      (fun s => ArchiveStreamWriter.writeU8 EgalitoLinkType.TYPE_ExternalOffsetLink.toNat ++ s)
  | .OffsetLink _ _ =>
    (SemanticSerializer.writeReferenceAndOffset op loaderBridge link).map
      (fun s => ArchiveStreamWriter.writeU8 EgalitoLinkType.TYPE_OffsetLink.toNat ++ s)
  | .PLTLink _ pltTrampoline =>
    .ok (ArchiveStreamWriter.writeU8 EgalitoLinkType.TYPE_PLTLink.toNat ++
      SemanticSerializer.writeLinkReference op pltTrampoline)
  | .JumpTableLink _ =>
    .ok (ArchiveStreamWriter.writeU8 EgalitoLinkType.TYPE_JumpTableLink.toNat)
  | .SymbolOnlyLink _ _ =>
    .ok (ArchiveStreamWriter.writeU8 EgalitoLinkType.TYPE_SymbolOnlyLink.toNat)
  | .MarkerLink _ _ =>
    .ok (ArchiveStreamWriter.writeU8 EgalitoLinkType.TYPE_MarkerLink.toNat)
  | .AbsoluteDataLink _ _ _ =>
    .ok (ArchiveStreamWriter.writeU8 EgalitoLinkType.TYPE_AbsoluteDataLink.toNat)
  | .DataOffsetLink _ _ _ =>
    (SemanticSerializer.writeReferenceAndOffset op loaderBridge link).map
      (fun s => ArchiveStreamWriter.writeU8 EgalitoLinkType.TYPE_DataOffsetLink.toNat ++ s)
  | .TLSDataOffsetLink _ _ =>
    .ok (ArchiveStreamWriter.writeU8 EgalitoLinkType.TYPE_TLSDataOffsetLink.toNat)
  | .UnresolvedLink _ =>
    .ok (ArchiveStreamWriter.writeU8 EgalitoLinkType.TYPE_UnresolvedLink.toNat)
  | .ImmAndDispLink _ =>
    .ok (ArchiveStreamWriter.writeU8 EgalitoLinkType.TYPE_ImmAndDispLink.toNat)
  | .EgalitoLoaderLink _ =>
    .ok (ArchiveStreamWriter.writeU8 EgalitoLinkType.TYPE_UNKNOWN_LINK.toNat)
  | .GSTableLink _ =>
    .ok (ArchiveStreamWriter.writeU8 EgalitoLinkType.TYPE_UNKNOWN_LINK.toNat)
  | .DistanceLink _ _ =>
    .ok (ArchiveStreamWriter.writeU8 EgalitoLinkType.TYPE_UNKNOWN_LINK.toNat)

/-- The class `InstrSerializer`: its member `op`, and the two things it takes from
outside the sources: the disassembler (`DisassembleInstruction::instructionSemantic`
on the bytes and the address; an error is a thrown `const char *`) and the scope that
the constructors of `NormalLink` and `AbsoluteNormalLink` give a link made from a
target alone. -/
structure InstrSerializer where
  op : ChunkSerializerOperations
  disassemble : List Nat → Nat → Except String InstrSemantic
  defaultScope : LinkScope

/-- Embeds `InstrSerializer::serialize(semantic, writer)`: the `visit` overload of
`SemanticSerializer` for the dynamic type of the semantic.  The result is what is
appended to the stream; a failed `assert` is an error. -/
def InstrSerializer.serialize (self : InstrSerializer) (loaderBridge : String → Nat)
    (semantic : InstrSemantic) : Except String ArchiveStream :=
  let op := self.op
  match semantic with
  | .RawInstruction _ => .ok (SemanticSerializer.write .TYPE_RawInstruction semantic)
  | .IsolatedInstruction _ => .ok (SemanticSerializer.write .TYPE_IsolatedInstruction semantic)
  | .LinkedInstruction _ link index =>
    match link with
    | none => .error "assert: linked->getLink()"
    | some l =>
      (SemanticSerializer.writeLink op loaderBridge l).map (fun s =>
        SemanticSerializer.write .TYPE_LinkedInstruction semantic ++ s ++
          ArchiveStreamWriter.writeU8 index)
  | .ControlFlowInstruction _ link =>
    match link with
    | none => .error "assert: controlFlow->getLink()"
    | some l =>
      (SemanticSerializer.writeLink op loaderBridge l).map (fun s =>
        SemanticSerializer.write .TYPE_ControlFlowInstruction semantic ++ s)
  | .ReturnInstruction _ => .ok (SemanticSerializer.write .TYPE_ReturnInstruction semantic)
  | .IndirectJumpInstruction _ =>
    .ok (SemanticSerializer.write .TYPE_IndirectJumpInstruction semantic)
  | .IndirectCallInstruction _ =>
    .ok (SemanticSerializer.write .TYPE_IndirectCallInstruction semantic)
  | .StackFrameInstruction _ =>
    .ok (SemanticSerializer.write .TYPE_StackFrameInstruction semantic)
  | .LiteralInstruction _ => .ok (SemanticSerializer.write .TYPE_LiteralInstruction semantic)
  | .LinkedLiteralInstruction _ _ =>
    .ok (SemanticSerializer.write .TYPE_LinkedLiteralInstruction semantic)

/-- Embeds `InstrSerializer::deserializeLinkTarget(reader)`: the chunk of the id read,
with the position `AbsolutePosition(-1)` when it had none. -/
def InstrSerializer.deserializeLinkTarget (self : InstrSerializer) (s : ArchiveStream) :
    Except String (Option Chunk × ArchiveStream) :=
  match ArchiveStreamReader.readID s with
  | .ok (id, rest) =>
    match self.op.lookup id with
    | some target =>
      match target.position with
      | none => .ok (some { target with position := some (2 ^ 64 - 1) }, rest)
      | some _ => .ok (some target, rest)
    | none => .ok (none, rest)
  | .error e => .error e

/-- The statements of `deserializeLink` that read a target and an offset. -/
def InstrSerializer.deserializeTargetAndOffset (self : InstrSerializer) (s : ArchiveStream) :
    Except String (Option Chunk × Nat × ArchiveStream) :=
  match self.deserializeLinkTarget s with
  | .ok (target, rest) =>
    match ArchiveStreamReader.readAddress rest with
    | .ok (offset, rest2) => .ok (target, offset, rest2)
    | .error e => .error e
  | .error e => .error e

/-- Embeds `InstrSerializer::deserializeLink(reader)`; the `switch` is on the value of
the tag byte.  A `DataOffsetLink` made from a section and an offset has the addend 0. -/
def InstrSerializer.deserializeLink (self : InstrSerializer) (s : ArchiveStream) :
    Except String (Link × ArchiveStream) :=
  match ArchiveStreamReader.readU8 s with
  | .error e => .error e
  | .ok (type, rest) =>
    match type with
    | 1 => (self.deserializeLinkTarget rest).map
        (fun r => (Link.ExternalAbsoluteNormalLink r.1, r.2))
    | 2 => (self.deserializeLinkTarget rest).map
        (fun r => (Link.ExternalNormalLink r.1, r.2))
    | 3 => (self.deserializeLinkTarget rest).map
        (fun r => (Link.AbsoluteNormalLink r.1 self.defaultScope, r.2))
    | 4 => (self.deserializeLinkTarget rest).map
        (fun r => (Link.NormalLink r.1 self.defaultScope, r.2))
    | 5 => (self.deserializeTargetAndOffset rest).map
        (fun r => (Link.ExternalOffsetLink r.1 r.2.1, r.2.2))
    | 6 => (self.deserializeTargetAndOffset rest).map
        (fun r => (Link.OffsetLink r.1 r.2.1, r.2.2))
    | 7 => (self.deserializeLinkTarget rest).map
        (fun r => (Link.PLTLink 0 (Chunk.castTo .PLTTrampoline r.1), r.2))
    | 8 => .error "unsupported: deserialize JumpTableLink"
    | 9 => .error "unsupported: deserialize SymbolOnlyLink"
    | 10 => .error "unsupported: deserialize MarkerLink"
    | 11 => .ok (Link.UnresolvedLink 0, rest)
    | 12 => (self.deserializeTargetAndOffset rest).map
        (fun r => (Link.DataOffsetLink (Chunk.castTo .DataSection r.1) r.2.1 0, r.2.2))
    | _ => .ok (Link.UnresolvedLink 0, rest)

/-- Embeds `InstrSerializer::defaultDeserialize(instruction, address, reader)`: the
semantic the disassembler makes of the bytes, and a `RawInstruction` of the bytes
when it throws. -/
def InstrSerializer.defaultDeserialize (self : InstrSerializer) (address : Nat)
    (s : ArchiveStream) : Except String (InstrSemantic × ArchiveStream) :=
  match ArchiveStreamReader.readBytes s with
  | .ok (bytes, rest) =>
    match self.disassemble bytes address with
    | .ok semantic => .ok (semantic, rest)
    | .error _ => .ok (.RawInstruction bytes, rest)
  | .error e => .error e

/-- Embeds `InstrSerializer::deserialize(instruction, address, reader)`: the semantic,
or `none` for the null pointer returned on an unknown tag; an error is a thrown
`const char *` or the dereference of a null assembly. -/
def InstrSerializer.deserialize (self : InstrSerializer) (address : Nat) (s : ArchiveStream) :
    Except String (Option InstrSemantic × ArchiveStream) :=
  match ArchiveStreamReader.readU8 s with
  | .error e => .error e
  | .ok (type, rest) =>
    match type with
    | 1 => (self.defaultDeserialize address rest).map (fun r => (some r.1, r.2))
    | 2 => (self.defaultDeserialize address rest).map (fun r => (some r.1, r.2))
    | 3 =>
      match self.defaultDeserialize address rest with
      | .error e => .error e
      | .ok (semantic, rest2) =>
        match semantic.getAssembly with
        | none => .error "null assembly"
        | some assembly =>
          match self.deserializeLink rest2 with
          | .error e => .error e
          | .ok (link, rest3) =>
            match ArchiveStreamReader.readU8 rest3 with
            | .error e => .error e
            | .ok (index, rest4) =>
              .ok (some (.LinkedInstruction assembly (some link) index), rest4)
    | 5 => (self.defaultDeserialize address rest).map (fun r => (some r.1, r.2))
    | 6 => (self.defaultDeserialize address rest).map (fun r => (some r.1, r.2))
    | 7 => (self.defaultDeserialize address rest).map (fun r => (some r.1, r.2))
    | 8 => .error "StackFrameInstruction?"
    | 9 => .error "LiteralInstruction?"
    | 10 => (self.defaultDeserialize address rest).map (fun r => (some r.1, r.2))
    | 4 =>
      match self.defaultDeserialize address rest with
      | .error e => .error e
      | .ok (semantic, rest2) =>
        match self.deserializeLink rest2 with
        | .error e => .error e
        | .ok (link, rest3) =>
          match semantic.setLink link with
          | .error e => .error e
          | .ok semantic2 => .ok (some semantic2, rest3)
    | _ => .ok (none, rest)

/-- The tag that the `visit` overload of the class of a semantic passes to `write`. -/
def InstrSemantic.type : InstrSemantic → EgalitoInstrType
  | .RawInstruction _ => .TYPE_RawInstruction
  | .IsolatedInstruction _ => .TYPE_IsolatedInstruction
  | .LinkedInstruction _ _ _ => .TYPE_LinkedInstruction
  | .ControlFlowInstruction _ _ => .TYPE_ControlFlowInstruction
  | .ReturnInstruction _ => .TYPE_ReturnInstruction
  | .IndirectJumpInstruction _ => .TYPE_IndirectJumpInstruction
  | .IndirectCallInstruction _ => .TYPE_IndirectCallInstruction
  | .StackFrameInstruction _ => .TYPE_StackFrameInstruction
  | .LiteralInstruction _ => .TYPE_LiteralInstruction
  | .LinkedLiteralInstruction _ _ => .TYPE_LinkedLiteralInstruction

/-- The link that the `visit` overload of the class of a semantic passes to
`writeLink`: that of a `LinkedInstruction` or a `ControlFlowInstruction`; the other
overloads write no link. -/
def InstrSemantic.serializedLink : InstrSemantic → Option Link
  | .LinkedInstruction _ link _ => link
  | .ControlFlowInstruction _ link => link
  | _ => none

/-- The links that `writeLink` writes with their target and that `deserializeLink`
makes again from it: the normal links, the offset links and the `DataOffsetLink`
with a target that has a position, and the `PLTLink`.  A `PLTLink` points to a
`PLTTrampoline` and a `DataOffsetLink` to a `DataSection` by the types of their
fields. -/
def Link.carriesTarget : Link → Bool
  | .NormalLink _ _ => true
  | .AbsoluteNormalLink _ _ => true
  | .ExternalNormalLink _ => true
  | .ExternalAbsoluteNormalLink _ => true
  | .OffsetLink target _ => (target.bind Chunk.getAddress).isSome
  | .ExternalOffsetLink target _ => (target.bind Chunk.getAddress).isSome
  | .PLTLink _ pltTrampoline =>
    match pltTrampoline with
    | some c => c.kind = .PLTTrampoline
    | none => true
  | .DataOffsetLink sect _ _ =>
    match sect with
    | some c => c.kind = .DataSection && c.position.isSome
    | none => false
  | _ => false

/-- Example oracles: the id of a chunk is its field `id` plus one, that of the null
pointer is 0; the ids 2, 3, 4 and 5 are those of a function, a data section, a PLT
trampoline and a TLS region. -/
def ChunkSerializerOperations.sample : ChunkSerializerOperations :=
  { assign := fun c =>
      match c with
      | some x => x.id + 1
      | none => 0
    lookup := fun id =>
      match id with
      | 2 => some Chunk.sampleFunction
      | 3 => some Chunk.sampleSection
      | 4 => some { id := 3, kind := .PLTTrampoline, position := some 0x3000, size := 16,
                    tlsOffset := 0 }
      | 5 => some { id := 4, kind := .TLSDataRegion, position := some 0x4000, size := 64,
                    tlsOffset := 8 }
      | _ => none }

/-- Example serializer: the disassembler makes a `ControlFlowInstruction` of four bytes
that end in `0x14` or `0x94`, a `LinkedInstruction` of four bytes that end in `0x90`,
an `IsolatedInstruction` of any other four bytes, and throws otherwise. -/
def InstrSerializer.sample : InstrSerializer :=
  { op := ChunkSerializerOperations.sample
    disassemble := fun bytes _ =>
      match bytes with
      | [_, _, _, b3] =>
        if b3 = 0x14 ∨ b3 = 0x94 then .ok (.ControlFlowInstruction bytes none)
        else if b3 = 0x90 then .ok (.LinkedInstruction bytes none 0)
        else .ok (.IsolatedInstruction bytes)
      | _ => .error "disassembly failed"
    defaultScope := .SCOPE_WITHIN_MODULE }

/-- Example: `STR Xt, [Xn], #imm` with post-index, as a store in the mode `REG_MEM_IMM`;
`inv` is the id of the invalid register. -/
def Assembly.strPostIndex (rt rn inv : Nat) (imm : Int) : Assembly :=
  { id := .ARM64_INS_STR, mode := .MODE_REG_MEM_IMM,
    operands := [{ AsmOperand.zero with reg := rt },
      { AsmOperand.zero with mem := { base := rn, index := inv, disp := 0 } },
      { AsmOperand.zero with imm := imm }],
    bytes := [0, 0, 0, 0xf8], preIndex := false, postIndex := true }
/-! ## The link factory and the link resolver

The definitions of this part follow `src/chunk/link.cpp`, lines 80 to 410.  The
functions that the resolver calls outside the sources (the spatial and named indexes
of a module, `ChunkFind`, the symbol lists, the data region list, the marker list and
the loader emulator) are parameters: fields of function type in the structures below.
Each call of one of them is recorded, in order, in the list `lookups` of the result. -/

/-- What the resolver reads of a `SymbolVersion`. -/
structure SymbolVersion where
  name : String
  hidden : Bool
  deriving DecidableEq, Repr

/-- The binding of a symbol: `Symbol::BIND_WEAK`, or another one. -/
inductive SymbolBind where
  | BIND_WEAK
  | other (n : Nat)
  deriving DecidableEq, Repr

/-- The type of a symbol: `Symbol::TYPE_FUNC`, `Symbol::TYPE_IFUNC`, or another one. -/
inductive SymbolType where
  | TYPE_FUNC
  | TYPE_IFUNC
  | other (n : Nat)
  deriving DecidableEq, Repr

/-- What the resolver reads of a `Symbol`. -/
structure Symbol where
  name : String
  address : Nat
  sectionIndex : Nat
  bind : SymbolBind
  type : SymbolType
  marker : Bool
  version : Option SymbolVersion
  deriving DecidableEq, Repr

/-- The relocation types that `resolveInternally` names, and the others. -/
inductive RelocType where
  | R_X86_64_PC32 | R_X86_64_GOTPC32 | R_X86_64_GLOB_DAT
  | R_X86_64_PC64 | R_X86_64_GOTPCREL64 | R_X86_64_GOTPC64 | R_X86_64_PLTOFF64
  | R_X86_64_GOTPCREL | R_X86_64_GOTPCRELX | R_X86_64_REX_GOTPCRELX
  | R_X86_64_PC16 | R_X86_64_PC8
  | other (n : Nat)
  deriving DecidableEq, Repr

/-- What the resolver reads of a `Reloc`; the addend is an `address_t`. -/
structure Reloc where
  address : Nat
  type : RelocType
  addend : Nat
  symbol : Option Symbol
  deriving DecidableEq, Repr

/-- The preprocessor conditions of `resolveInternally`. -/
structure BuildConfig where
  ARCH_X86_64 : Bool
  R_X86_64_GOTPCRELX : Bool
  R_X86_64_REX_GOTPCRELX : Bool
  deriving DecidableEq, Repr

/-- A symbol list: its member `find(name)`. -/
abbrev SymbolList := String → Option Symbol

/-- What the resolver asks of a `Module`: its identity, its library and the
dependencies of that library, `CIter::spatial(getFunctionList())->findContaining` and
`->find`, `ChunkFind().findInnermostInsideInstruction(getFunctionList(), _)`,
`CIter::named(getFunctionList())->find`, `getDataRegionList()->createDataLink(_, module, _)`
and `getMarkerList()->createMarkerLink(_, _, _, module)`; a pointer that may be null is
an `Option`. -/
structure Module where
  id : Nat
  library : Nat
  dependencies : List Nat
  findContaining : Nat → Option Chunk
  find : Nat → Option Chunk
  findInnermostInsideInstruction : Nat → Option Chunk
  findNamed : String → Option Chunk
  createDataLink : Nat → Bool → Option Link
  createMarkerLink : Nat → Nat → Option Symbol → Option Link

/-- What the resolver asks of an `ElfSpace`: its identity, its module, its symbol
lists, `getAliasMap()->find` and `getElfMap()->getBaseAddress()`. -/
structure ElfSpace where
  id : Nat
  module : Module
  symbolList : Option SymbolList
  dynamicSymbolList : Option SymbolList
  aliasMap : String → Option Chunk
  baseAddress : Nat

/-- What the resolver asks of a `Program`: `getMain()` and the modules in the order of
`CIter::modules(program)`, each with the value of its `getElfSpace()`. -/
structure Program where
  main : Option (Module × Option ElfSpace)
  modules : List (Module × Option ElfSpace)

/-- The functions of `ChunkFind` on a root that is a chunk. -/
structure ChunkFind where
  findInnermostInsideInstruction : Chunk → Nat → Option Chunk
  findInnermostAt : Option Chunk → Nat → Option Chunk

/-- The functions of `LoaderEmulator::getInstance()`. -/
structure LoaderEmulator where
  findFunction : String → Option Chunk
  makeDataLink : String → Bool → Option Link

/-- A call that the resolver makes outside the sources, with its arguments; a module
or ELF space is named by its identity. -/
inductive Lookup where
  | emulatorFunction (name : String)
  | emulatorData (name : String) (afterMapping : Bool)
  | dynamicSymbol (space : Nat) (name : String)
  | namedFunction (module : Nat) (name : String)
  | aliasMap (space : Nat) (name : String)
  | symbol (space : Nat) (name : String)
  | containing (module : Nat) (addr : Nat)
  | spatial (module : Nat) (addr : Nat)
  | innermostInsideInstruction (module : Nat) (addr : Nat)
  | innermostInsideInstructionIn (root : Chunk) (addr : Nat)
  | innermostAt (root : Option Chunk) (addr : Nat)
  | dataLink (module : Nat) (addr : Nat) (isRelative : Bool)
  | markerLink (module : Nat) (addr : Nat) (addend : Nat) (symbol : Option Symbol)
  deriving DecidableEq, Repr

/-- The calls a piece of the resolver makes, and how it ends: with a value, or with
an error for a failed `assert` or the dereference of a null pointer. -/
structure Lookups (α : Type) where
  lookups : List Lookup
  result : Except String α

/-- Sequencing: the calls of the first part, then those of the second unless the
first part failed. -/
def Lookups.bind {α β : Type} (x : Lookups α) (f : α → Lookups β) : Lookups β :=
  match x.result with
  | .error e => { lookups := x.lookups, result := .error e }
  | .ok a => { lookups := x.lookups ++ (f a).lookups, result := (f a).result }

instance : Monad Lookups where
  pure a := { lookups := [], result := .ok a }
  bind := Lookups.bind

/-- A failed `assert`, or the dereference of a null pointer. -/
def Lookups.fail {α : Type} (msg : String) : Lookups α :=
  { lookups := [], result := .error msg }

/-- One recorded call and its value. -/
def Lookups.ask {α : Type} (call : Lookup) (value : α) : Lookups α :=
  { lookups := [call], result := .ok value }

/-- Embeds `LinkFactory::makeNormalLink`. -/
def LinkFactory.makeNormalLink (target : Option Chunk) (isRelative isExternal : Bool) : Link :=
  if isRelative then
    .NormalLink target (if isExternal then .SCOPE_EXTERNAL_JUMP else .SCOPE_INTERNAL_JUMP)
  else
    .AbsoluteNormalLink target
      (if isExternal then .SCOPE_EXTERNAL_JUMP else .SCOPE_INTERNAL_JUMP)

/-- Embeds `LinkFactory::makeDataLink`. -/
def LinkFactory.makeDataLink (module : Module) (target : Nat) (isRelative : Bool) :
    Lookups (Option Link) :=
  Lookups.ask (.dataLink module.id target isRelative) (module.createDataLink target isRelative)

/-- Embeds `LinkFactory::makeMarkerLink`. -/
def LinkFactory.makeMarkerLink (module : Module) (target : Nat) (symbol : Option Symbol) :
    Lookups (Option Link) :=
  Lookups.ask (.markerLink module.id target 0 symbol) (module.createMarkerLink target 0 symbol)

/-- The statements of `resolveInternally` that follow the computation of `addr`: the
search for the address among the functions of the module, then the data link, then
the marker link with a null symbol. -/
def PerfectLinkResolver.searchAddress (chunkFind : ChunkFind) (module : Module) (addr : Nat) :
    Lookups (Option Link) :=
  (Lookups.ask (.containing module.id addr) (module.findContaining addr)).bind fun func =>
  match func with
  | some func =>
    match func.getAddress with
    | none => Lookups.fail "null position"
    | some funcAddress =>
      if funcAddress = addr then
        pure (some (.NormalLink (some func) .SCOPE_WITHIN_MODULE))
      else
        (Lookups.ask (.innermostInsideInstructionIn func addr)
          (chunkFind.findInnermostInsideInstruction func addr)).bind fun inner =>
        let instruction := Chunk.castTo .Instruction inner
        pure (some (.NormalLink instruction .SCOPE_WITHIN_MODULE))
  | none =>
    (LinkFactory.makeDataLink module addr true).bind fun dlink =>
    match dlink with
    | some dlink => pure (some dlink)
    | none => LinkFactory.makeMarkerLink module addr none

/-- The `assert` of `resolveInternally` on the relocation type. -/
def PerfectLinkResolver.acceptedType (config : BuildConfig) (type : RelocType) : Bool :=
  type ≠ .R_X86_64_PC64 && type ≠ .R_X86_64_GOTPCREL64 && type ≠ .R_X86_64_GOTPC64
    && type ≠ .R_X86_64_PLTOFF64 && type ≠ .R_X86_64_GOTPCREL
    && (!config.R_X86_64_GOTPCRELX || type ≠ .R_X86_64_GOTPCRELX)
    && (!config.R_X86_64_REX_GOTPCRELX || type ≠ .R_X86_64_REX_GOTPCRELX)
    && type ≠ .R_X86_64_PC16 && type ≠ .R_X86_64_PC8

/-- The name that the `R_X86_64_GLOB_DAT` branch of `resolveInternally` builds:
the name, `@`, a second `@` unless the version is hidden, and the name of the
version. -/
def PerfectLinkResolver.versionedName (name : String) (version : SymbolVersion) : String :=
  (if !version.hidden then name ++ "@" ++ "@" else name ++ "@") ++ version.name

/-- The `R_X86_64_GLOB_DAT` branch of `resolveInternally`: the search in the symbol
list of the main executable.  The value is `some dlink` where the source returns
`dlink` and `none` where it goes on to `addr = symbol->getAddress()`; `program` is
`dynamic_cast<Program *>(module->getParent())`. -/
def PerfectLinkResolver.searchExecutable (program : Option Program) (symbol : Symbol) :
    Lookups (Option (Option Link)) :=
  match program with
  | none => Lookups.fail "null program"
  | some program =>
    match program.main with
    | none => Lookups.fail "null main module"
    | some (main, space) =>
      match space with
      | none => Lookups.fail "null ElfSpace"
      | some space =>
        match space.symbolList with
        | none => pure none
        | some list =>
          (Lookups.ask (.symbol space.id symbol.name) (list symbol.name)).bind fun s =>
          match s, symbol.version with
          | none, some version =>
            let versionedName := PerfectLinkResolver.versionedName symbol.name version
            (Lookups.ask (.symbol space.id versionedName) (list versionedName)).bind fun s =>
            match s with
            | some s =>
              (LinkFactory.makeDataLink main s.address true).bind fun dlink =>
              pure (some dlink)
            | none => pure none
          | _, _ => pure none

/-- Embeds `PerfectLinkResolver::resolveInternally(reloc, module, weak)`; the value
`none` is the null pointer. -/
def PerfectLinkResolver.resolveInternally (config : BuildConfig) (chunkFind : ChunkFind)
    (program : Option Program) (reloc : Reloc) (module : Module) (weak : Bool) :
    Lookups (Option Link) :=
  let addr := reloc.addend
  match reloc.symbol with
  | none => PerfectLinkResolver.searchAddress chunkFind module addr
  | some symbol =>
    if symbol.sectionIndex = 0 then pure none
    else if !weak && symbol.bind = .BIND_WEAK then pure none
    else if symbol.marker then
      Lookups.ask (.markerLink module.id symbol.address reloc.addend (some symbol))
        (module.createMarkerLink symbol.address reloc.addend (some symbol))
    else if config.ARCH_X86_64 then
      let type := reloc.type
      if !PerfectLinkResolver.acceptedType config type then Lookups.fail "assert: type"
      else if type = .R_X86_64_PC32 ∨ type = .R_X86_64_GOTPC32 then
        (Lookups.ask (.innermostInsideInstruction module.id reloc.address)
          (module.findInnermostInsideInstruction reloc.address)).bind fun i =>
        match Chunk.castTo .Instruction i with
        | none => pure none
        | some instr =>
          match instr.getAddress with
          | none => Lookups.fail "null position"
          | some instrAddress =>
            let offset := subAddress reloc.address instrAddress
            let addr := addAddress addr
              (subAddress (addAddress symbol.address instr.size) offset)
            PerfectLinkResolver.searchAddress chunkFind module addr
      else if type = .R_X86_64_GLOB_DAT then
        (PerfectLinkResolver.searchExecutable program symbol).bind fun found =>
        match found with
        | some dlink => pure dlink
        | none =>
          let addr := symbol.address
          PerfectLinkResolver.searchAddress chunkFind module addr
      else
        let addr := addAddress addr symbol.address
        PerfectLinkResolver.searchAddress chunkFind module addr
    else
      let addr := addAddress addr symbol.address
      PerfectLinkResolver.searchAddress chunkFind module addr

/-- Embeds `PerfectLinkResolver::resolveNameAsLinkHelper2(name, space, weak,
afterMapping)`; a null `space` is dereferenced by the source. -/
def PerfectLinkResolver.resolveNameAsLinkHelper2 (name : String) (space : Option ElfSpace)
    (weak afterMapping : Bool) : Lookups (Option Link) :=
  match space with
  | none => Lookups.fail "null ElfSpace"
  | some space =>
    match space.dynamicSymbolList with
    | none => pure none
    | some list =>
      (Lookups.ask (.dynamicSymbol space.id name) (list name)).bind fun symbol =>
      match symbol with
      | none => pure none
      | some symbol =>
        if !weak && symbol.bind = .BIND_WEAK then pure none
        else
          (Lookups.ask (.namedFunction space.module.id name)
            (space.module.findNamed name)).bind fun f =>
          match f with
          | some f => pure (some (.NormalLink (some f) .SCOPE_EXTERNAL_CODE))
          | none =>
            (Lookups.ask (.aliasMap space.id name) (space.aliasMap name)).bind fun found =>
            match found with
            | some found => pure (some (.NormalLink (some found) .SCOPE_EXTERNAL_CODE))
            | none =>
              if symbol.marker then
                LinkFactory.makeMarkerLink space.module
                  (addAddress space.baseAddress symbol.address) (some symbol)
              else if symbol.address > 0 ∧ symbol.type ≠ .TYPE_FUNC
                  ∧ symbol.type ≠ .TYPE_IFUNC then
                let address :=
                  if afterMapping then addAddress symbol.address space.baseAddress
                  else symbol.address
                LinkFactory.makeDataLink space.module address true
              else pure none

/-- The statement `if(auto link = x) return link;` followed by the statements `rest`. -/
def Lookups.returnIf (x rest : Lookups (Option Link)) : Lookups (Option Link) :=
  x.bind fun link =>
  match link with
  | some link => pure (some link)
  | none => rest

/-- Embeds `PerfectLinkResolver::resolveNameAsLinkHelper(name, version, space, weak,
afterMapping)`.  The third name is `versionedName2`, to which the source appends
`@@` only: the name of the version is appended to `versionedName1` a second time. -/
def PerfectLinkResolver.resolveNameAsLinkHelper (name : String)
    (version : Option SymbolVersion) (space : Option ElfSpace) (weak afterMapping : Bool) :
    Lookups (Option Link) :=
  Lookups.returnIf
    (PerfectLinkResolver.resolveNameAsLinkHelper2 name space weak afterMapping)
    (match version with
    | none => pure none
    | some version =>
      let versionedName1 := name ++ "@" ++ version.name
      Lookups.returnIf
        (PerfectLinkResolver.resolveNameAsLinkHelper2 versionedName1 space weak afterMapping)
        (let versionedName2 := name ++ "@@"
        Lookups.returnIf
          (PerfectLinkResolver.resolveNameAsLinkHelper2 versionedName2 space weak
            afterMapping)
          (pure none)))

/-- A `for` loop whose body returns from the function with the first link that is
not null. -/
def PerfectLinkResolver.firstLink {α : Type} (body : α → Lookups (Option Link)) :
    List α → Lookups (Option Link)
  | [] => pure none
  | x :: xs => Lookups.returnIf (body x) (PerfectLinkResolver.firstLink body xs)

/-- The body of the first loop of `resolveExternally2`, over the modules whose
library is a dependency. -/
def PerfectLinkResolver.dependencyBody (name : String) (version : Option SymbolVersion)
    (elfSpace : ElfSpace) (weak afterMapping : Bool) (dependencies : List Nat)
    (module : Module × Option ElfSpace) : Lookups (Option Link) :=
  if module.1.library ∉ dependencies then pure none
  else
    match module.2 with
    | some space =>
      if space.id ≠ elfSpace.id then
        PerfectLinkResolver.resolveNameAsLinkHelper name version (some space) weak afterMapping
      else pure none
    | none => pure none

/-- Embeds `PerfectLinkResolver::resolveExternally2(name, version, conductor, elfSpace,
weak, afterMapping)`; `program` is `conductor->getProgram()`. -/
def PerfectLinkResolver.resolveExternally2 (emulator : LoaderEmulator) (name : String)
    (version : Option SymbolVersion) (program : Program) (elfSpace : ElfSpace)
    (weak afterMapping : Bool) : Lookups (Option Link) :=
  (Lookups.ask (.emulatorFunction name) (emulator.findFunction name)).bind fun func =>
  match func with
  | some func => pure (some (.NormalLink (some func) .SCOPE_EXTERNAL_CODE))
  | none =>
    Lookups.returnIf
      (Lookups.ask (.emulatorData name afterMapping) (emulator.makeDataLink name afterMapping))
      (let dependencies := elfSpace.module.dependencies
      Lookups.returnIf
        (PerfectLinkResolver.firstLink
          (PerfectLinkResolver.dependencyBody name version elfSpace weak afterMapping
            dependencies) program.modules)
        (Lookups.returnIf
          (PerfectLinkResolver.resolveNameAsLinkHelper name version (some elfSpace) weak
            afterMapping)
          (Lookups.returnIf
            (PerfectLinkResolver.firstLink
              (fun module : Module × Option ElfSpace =>
                PerfectLinkResolver.resolveNameAsLinkHelper name version module.2 weak
                  afterMapping) program.modules)
            (pure none))))

/-- Embeds `PerfectLinkResolver::resolveExternally(symbol, conductor, elfSpace, weak,
afterMapping)`. -/
def PerfectLinkResolver.resolveExternally (emulator : LoaderEmulator) (symbol : Symbol)
    (program : Program) (elfSpace : ElfSpace) (weak afterMapping : Bool) :
    Lookups (Option Link) :=
  PerfectLinkResolver.resolveExternally2 emulator symbol.name symbol.version program elfSpace
    weak afterMapping

/-- Embeds `PerfectLinkResolver::resolveInferred(address, instruction, module)`; `f` is
`dynamic_cast<Function *>(instruction->getParent()->getParent())`. -/
def PerfectLinkResolver.resolveInferred (chunkFind : ChunkFind) (address : Nat)
    (f : Option Chunk) (module : Module) : Lookups (Option Link) :=
  (Lookups.ask (.innermostAt f address) (chunkFind.findInnermostAt f address)).bind fun found =>
  match found with
  | some found => pure (some (.NormalLink (some found) .SCOPE_INTERNAL_JUMP))
  | none =>
    (Lookups.ask (.spatial module.id address) (module.find address)).bind fun found =>
    match found with
    | some found => pure (some (.NormalLink (some found) .SCOPE_WITHIN_MODULE))
    | none =>
      (Lookups.ask (.innermostInsideInstruction module.id address)
        (module.findInnermostInsideInstruction address)).bind fun chunk =>
      match chunk with
      | some chunk => pure (some (.NormalLink (some chunk) .SCOPE_WITHIN_MODULE))
      | none =>
        (LinkFactory.makeDataLink module address true).bind fun dlink =>
        match dlink with
        | some dlink => pure (some dlink)
        | none => LinkFactory.makeMarkerLink module address none

/-- The lookups of `resolveExternally2` in their order: the function of the loader
emulator, the data link of the loader emulator, the modules of the program whose
library is a dependency of the current module and whose ELF space is neither null nor
the current one, the current ELF space, and every module of the program with its ELF
space, null or not. -/
def PerfectLinkResolver.sourcesInOrder (emulator : LoaderEmulator) (name : String)
    (version : Option SymbolVersion) (program : Program) (elfSpace : ElfSpace)
    (weak afterMapping : Bool) : List (Lookups (Option Link)) :=
  [Lookups.ask (.emulatorFunction name)
      ((emulator.findFunction name).map
        (fun func => Link.NormalLink (some func) .SCOPE_EXTERNAL_CODE)),
    Lookups.ask (.emulatorData name afterMapping) (emulator.makeDataLink name afterMapping)]
  ++ (program.modules.filter (fun module =>
        decide (module.1.library ∈ elfSpace.module.dependencies) &&
          (match module.2 with
          | some space => decide (space.id ≠ elfSpace.id)
          | none => false))).map
      (fun module =>
        PerfectLinkResolver.resolveNameAsLinkHelper name version module.2 weak afterMapping)
  ++ [PerfectLinkResolver.resolveNameAsLinkHelper name version (some elfSpace) weak
        afterMapping]
  ++ program.modules.map
      (fun module =>
        PerfectLinkResolver.resolveNameAsLinkHelper name version module.2 weak afterMapping)

/-- Example: the instruction of five bytes that covers the address `a`, for the three
instructions at `0x1000`, `0x1005` and `0x100A` of the example function. -/
def Chunk.sampleInstruction (a : Nat) : Chunk :=
  { id := 10 + (a - 0x1000) / 5, kind := .Instruction,
    position := some (0x1000 + (a - 0x1000) / 5 * 5), size := 5, tlsOffset := 0 }

/-- Example: a module with one function at `0x1000` to `0x1020`, whose first fifteen
bytes are three instructions and whose rest holds no instruction, and one data region
at `0x2000` to `0x2100`; the function is named `main`; a marker link can be made for
every address. -/
def Module.sample : Module :=
  { id := 1, library := 1, dependencies := [2],
    findContaining := fun a =>
      if 0x1000 ≤ a ∧ a < 0x1020 then some Chunk.sampleFunction else none,
    find := fun a => if a = 0x1000 then some Chunk.sampleFunction else none,
    findInnermostInsideInstruction := fun a =>
      if 0x1000 ≤ a ∧ a < 0x100F then some (Chunk.sampleInstruction a) else none,
    findNamed := fun n => if n = "main" then some Chunk.sampleFunction else none,
    createDataLink := fun a _ =>
      if 0x2000 ≤ a ∧ a < 0x2100 then
        some (.DataOffsetLink (some Chunk.sampleSection) (a - 0x2000) 0)
      else none,
    createMarkerLink := fun a addend _ =>
      some (.MarkerLink (some { id := 50, kind := .Marker, position := some a, size := 0,
                                tlsOffset := 0 }) addend) }

/-- Example: `ChunkFind` on the example function. -/
def ChunkFind.sample : ChunkFind :=
  { findInnermostInsideInstruction := fun root a =>
      if root = Chunk.sampleFunction then Module.sample.findInnermostInsideInstruction a
      else none,
    findInnermostAt := fun root a =>
      if root = some Chunk.sampleFunction ∧ (a = 0x1000 ∨ a = 0x1005 ∨ a = 0x100A) then
        some (Chunk.sampleInstruction a)
      else none }

/-- Example: a defined global object symbol of the example module. -/
def Symbol.sample (name : String) (address : Nat) : Symbol :=
  { name := name, address := address, sectionIndex := 5, bind := .other 1, type := .other 1,
    marker := false, version := none }

/-- Example: the build for x86-64 with both `GOTPCRELX` relocation types defined. -/
def BuildConfig.x86_64 : BuildConfig :=
  { ARCH_X86_64 := true, R_X86_64_GOTPCRELX := true, R_X86_64_REX_GOTPCRELX := true }

/-- Example: the data section of the main executable, at `0x5000`. -/
def Chunk.sampleMainSection : Chunk :=
  { id := 3, kind := .DataSection, position := some 0x5000, size := 0x100, tlsOffset := 0 }

/-- Example: the module of the main executable, with one data region at `0x5000` to
`0x5100` and no function. -/
def Module.sampleMain : Module :=
  { id := 0, library := 0, dependencies := [1, 2],
    findContaining := fun _ => none,
    find := fun _ => none,
    findInnermostInsideInstruction := fun _ => none,
    findNamed := fun _ => none,
    createDataLink := fun a _ =>
      if 0x5000 ≤ a ∧ a < 0x5100 then
        some (.DataOffsetLink (some Chunk.sampleMainSection) (a - 0x5000) 0)
      else none,
    createMarkerLink := fun a addend _ =>
      some (.MarkerLink (some { id := 51, kind := .Marker, position := some a, size := 0,
                                tlsOffset := 0 }) addend) }

/-- Example: the ELF space of the main executable; its symbol list has `environ` at
`0x5000` under the plain name and `stdout` at `0x5008` under the versioned name
`stdout@@GLIBC_2.2.5` only. -/
def ElfSpace.sampleMain : ElfSpace :=
  { id := 0, module := Module.sampleMain,
    symbolList := some (fun n =>
      if n = "environ" then some (Symbol.sample "environ" 0x5000)
      else if n = "stdout@@GLIBC_2.2.5" then some (Symbol.sample "stdout@@GLIBC_2.2.5" 0x5008)
      else none),
    dynamicSymbolList := some (fun _ => none),
    aliasMap := fun _ => none,
    baseAddress := 0 }

/-- Example: the ELF space of the example module; its dynamic symbol list has `main`
and, under the versioned name only, `memcpy@@GLIBC_2.14`, for which the alias map has
the example function. -/
def ElfSpace.sample : ElfSpace :=
  { id := 1, module := Module.sample,
    symbolList := none,
    dynamicSymbolList := some (fun n =>
      if n = "main" then
        some { Symbol.sample "main" 0x1000 with type := .TYPE_FUNC }
      else if n = "memcpy@@GLIBC_2.14" then
        some { Symbol.sample "memcpy@@GLIBC_2.14" 0x1000 with type := .TYPE_FUNC }
      else none),
    aliasMap := fun n => if n = "memcpy@@GLIBC_2.14" then some Chunk.sampleFunction else none,
    baseAddress := 0x400000 }

/-- Example: a program of the main executable, the example module and a module
without an ELF space. -/
def Program.sample : Program :=
  { main := some (Module.sampleMain, some ElfSpace.sampleMain),
    modules := [(Module.sampleMain, some ElfSpace.sampleMain),
      (Module.sample, some ElfSpace.sample),
      ({ Module.sampleMain with id := 2, library := 2, dependencies := [] }, none)] }

/-- Example: a loader emulator that knows no name. -/
def LoaderEmulator.sample : LoaderEmulator :=
  { findFunction := fun _ => none, makeDataLink := fun _ _ => none }

/-- Example: the three-register instruction `id Rd, Rn, Rm` with no shift on `Rm`. -/
def Assembly.regRegReg (id : arm64_insn) (rd rn rm : Nat) : Assembly :=
  { id := id, mode := .MODE_REG_REG_REG,
    operands := [{ AsmOperand.zero with reg := rd }, { AsmOperand.zero with reg := rn },
      { AsmOperand.zero with reg := rm }],
    bytes := [0, 0, 0, 0], preIndex := false, postIndex := false }

/-- Example: the instruction `id Rd, Rn, #imm` with no shift on the immediate. -/
def Assembly.regRegImm (id : arm64_insn) (rd rn : Nat) (imm : Int) : Assembly :=
  { Assembly.addImm rd rn imm with id := id }

/-- Example: a configuration without graph that enables `ADD`, `SUB`, `AND` and `LSL`. -/
def UseDefConfiguration.arithmetic : UseDefConfiguration :=
  { cfg := { nodes := [] },
    idList := [.ARM64_INS_ADD, .ARM64_INS_SUB, .ARM64_INS_AND, .ARM64_INS_LSL] }

/-- The 32-bit word of the encoding, the bytes taken in little-endian order. -/
def Assembly.word (a : Assembly) : Nat :=
  a.getByte 0 + 2 ^ 8 * a.getByte 1 + 2 ^ 16 * a.getByte 2 + 2 ^ 24 * a.getByte 3

/-- The place `memTree0` (for `k = 0`) or `memTree1` (for `k = width`) of the handlers
of `STP` and `LDP`: `Add(Add(base, disp), k)` in `fillRegRegToMem` and
`fillMemToRegReg`, and `Add(base, k)` in the post-index handlers `fillRegRegImmToMem`
and `fillMemImmToRegReg`. -/
def UseDef.pairPlace (R : RegisterFile) (a : Assembly) (k : Nat) : TreeNode :=
  let mem := (a.getOperand 2).mem
  let base := R.convertToPhysical mem.base
  let baseTree := TreeNode.PhysicalRegister base (R.getWidth base mem.base)
  if a.mode = .MODE_REG_REG_MEM_IMM then .Addition baseTree (.Constant (Int.ofNat k))
  else .Addition (.Addition baseTree (.Constant mem.disp)) (.Constant (Int.ofNat k))

/-- Example: the pair instruction `id Rt, Rt2, [Rn, #disp]` whose last byte is `byte3`. -/
def Assembly.pair (id : arm64_insn) (rt rt2 rn inv : Nat) (disp : Int) (byte3 : Nat) :
    Assembly :=
  { id := id, mode := .MODE_REG_REG_MEM,
    operands := [{ AsmOperand.zero with reg := rt }, { AsmOperand.zero with reg := rt2 },
      { AsmOperand.zero with mem := { base := rn, index := inv, disp := disp } }],
    bytes := [0xE0, 0x07, 0x00, byte3], preIndex := false, postIndex := false }

/-- Example: the post-indexed pair instruction `id Rt, Rt2, [Rn], #imm` whose last
byte is `byte3`. -/
def Assembly.pairPost (id : arm64_insn) (rt rt2 rn inv : Nat) (imm : Int) (byte3 : Nat) :
    Assembly :=
  { id := id, mode := .MODE_REG_REG_MEM_IMM,
    operands := [{ AsmOperand.zero with reg := rt }, { AsmOperand.zero with reg := rt2 },
      { AsmOperand.zero with mem := { base := rn, index := inv, disp := 0 } },
      { AsmOperand.zero with imm := imm }],
    bytes := [0xE0, 0x07, 0x00, byte3], preIndex := false, postIndex := true }

/-- Example: the work set after `STR X0, [SP, #-16]!` in state 200, from the empty
work set. -/
def UseDefWorkSet.afterStore : UseDefWorkSet :=
  UseDef.run 200 UseDefWorkSet.empty
    (UseDef.fillStr RegisterFile.sample (Assembly.strPreIndex 0 31 100 (-16))).calls

/-- The call is a `useReg` or a `defReg`. -/
def Call.onRegister : Call → Bool
  | .useReg _ => true
  | .defReg _ _ => true
  | _ => false

/-- Example: `BL`. -/
def Assembly.bl : Assembly :=
  { id := .ARM64_INS_BL, mode := .other 0, operands := [{ AsmOperand.zero with imm := 0x1000 }],
    bytes := [0, 0, 0, 0x94], preIndex := false, postIndex := false }

/-- Example: `BLR Xn`. -/
def Assembly.blr (rn : Nat) : Assembly :=
  { id := .ARM64_INS_BLR, mode := .other 0, operands := [{ AsmOperand.zero with reg := rn }],
    bytes := [0, 0, 0x3F, 0xD6], preIndex := false, postIndex := false }

/-- Example: the current node exposes state 5 for `X0`, states 5 and 6 for `X9`, and
state 7 for `X19`. -/
def UseDefWorkSet.beforeCall : UseDefWorkSet :=
  { UseDefWorkSet.empty with
    nodeExposedRegSetList := fun i => if i = 0 then [(0, [5]), (9, [5, 6]), (19, [7])] else [] }

/-- Every `defReg` among the calls is for a register in `S`. -/
def Calls.DefinesOnly {α : Type} (S : Int → Prop) (x : Calls α) : Prop :=
  ∀ c ∈ x.calls, ∀ (r : Int) (t : Option TreeNode), c = Call.defReg r t → S r

/-- Example: `CMP Xn, #imm`. -/
def Assembly.cmpImm (rn : Nat) (imm : Int) : Assembly :=
  { id := .ARM64_INS_CMP, mode := .MODE_REG_IMM,
    operands := [{ AsmOperand.zero with reg := rn }, { AsmOperand.zero with imm := imm }],
    bytes := [0, 0, 0, 0], preIndex := false, postIndex := false }

/-- Example: an ELF space like the example one, mapped at `0x400000`, whose dynamic
symbol list has the marker symbol `_end` at `0x3000` and the object symbol `table` at
`0x2040`, neither of them a function or an alias. -/
def ElfSpace.sampleData : ElfSpace :=
  { ElfSpace.sample with
    dynamicSymbolList := some (fun n =>
      if n = "_end" then some { Symbol.sample "_end" 0x3000 with marker := true }
      else if n = "table" then some (Symbol.sample "table" 0x2040)
      else none),
    aliasMap := fun _ => none }

/-- The links on whose tag `deserializeLink` does not throw: every link but a
`JumpTableLink`, a `SymbolOnlyLink` and a `MarkerLink`. -/
def Link.accepted : Link → Bool
  | .JumpTableLink _ => false
  | .SymbolOnlyLink _ _ => false
  | .MarkerLink _ _ => false
  | _ => true

/-! ## Properties of memory locations and memory origin lists -/

theorem MemLocation.equals_iff (a b : Option MemLocation) :
    MemLocation.equals a b = true ↔ a = b ∧ a ≠ none := by
  cases a with
  | none => simp [MemLocation.equals]
  | some x =>
    cases b with
    | none => simp [MemLocation.equals]
    | some y => cases x; cases y; simp [MemLocation.equals]

theorem MemLocation.equals_comm (a b : Option MemLocation) :
    MemLocation.equals a b = MemLocation.equals b a := by
  cases a with
  | none => cases b <;> rfl
  | some x =>
    cases b with
    | none => rfl
    | some y =>
      simp only [MemLocation.equals]
      rw [Bool.eq_iff_iff]
      simp only [Bool.and_eq_true, decide_eq_true_eq]
      exact ⟨fun h => ⟨h.1.symm, h.2.symm⟩, fun h => ⟨h.1.symm, h.2.symm⟩⟩

theorem MemOrigin.sameLocation_iff (place : TreeNode) (e : MemOrigin) :
    MemOrigin.sameLocation place e = true ↔
      MemLocation.ofTree place = MemLocation.ofTree e.place ∧
        MemLocation.ofTree place ≠ none := by
  simp [MemOrigin.sameLocation, MemLocation.equals_iff]

theorem MemOrigin.sameLocation_self (place : TreeNode) (origin : UDStateRef)
    (h : MemLocation.ofTree place ≠ none) :
    MemOrigin.sameLocation place ⟨place, origin⟩ = true := by
  rw [MemOrigin.sameLocation_iff]
  exact ⟨rfl, h⟩

theorem MemOrigin.sameLocation_self_of_match {place : TreeNode} {e : MemOrigin}
    (origin : UDStateRef) (h : MemOrigin.sameLocation place e = true) :
    MemOrigin.sameLocation place ⟨place, origin⟩ = true :=
  MemOrigin.sameLocation_self place origin ((MemOrigin.sameLocation_iff place e).mp h).2

theorem MemOrigin.sameLocation_of_none (place : TreeNode) (e : MemOrigin)
    (h : MemLocation.ofTree place = none) : MemOrigin.sameLocation place e = false := by
  cases hs : MemOrigin.sameLocation place e with
  | false => rfl
  | true => exact absurd h ((MemOrigin.sameLocation_iff place e).mp hs).2

theorem MemOrigin.sameLocation_canonical (place : TreeNode) (e : MemOrigin)
    (h : MemLocation.ofTree place ≠ none) :
    MemOrigin.sameLocation place e = true ↔
      MemLocation.ofTree e.place = MemLocation.ofTree place := by
  rw [MemOrigin.sameLocation_iff]
  constructor
  · rintro ⟨a, _⟩
    exact a.symm
  · intro a
    exact ⟨a.symm, h⟩

theorem MemOriginList.moveBackTo_last (pre : MemOriginList) (e : MemOrigin) :
    MemOriginList.moveBackTo (pre ++ [e]) pre.length = pre := by
  have h1 : (pre ++ [e]).getLast? = some e := by simp
  simp [MemOriginList.moveBackTo, h1]

theorem MemOriginList.moveBackTo_concat (pre q : MemOriginList) (e x : MemOrigin) :
    MemOriginList.moveBackTo (pre ++ e :: (q ++ [x])) pre.length = pre ++ x :: q := by
  have h0 : pre ++ e :: (q ++ [x]) = (pre ++ e :: q) ++ [x] := by simp
  have h1 : (pre ++ e :: (q ++ [x])).getLast? = some x := by
    rw [h0, List.getLast?_append]; simp
  have h2 : pre ++ x :: (q ++ [x]) = (pre ++ x :: q) ++ [x] := by simp
  have h3 : List.set (pre ++ e :: (q ++ [x])) pre.length x = pre ++ x :: (q ++ [x]) := by
    rw [List.set_append_right _ _ (le_refl _)]; simp
  simp only [MemOriginList.moveBackTo, h1, h3]
  rw [h2, List.dropLast_concat]

/-- Moving the last element into slot `pre.length` and popping keeps `pre` and
permutes the rest. -/
theorem MemOriginList.moveBackTo_append (pre post : MemOriginList) (e : MemOrigin) :
    ∃ post1 : MemOriginList, post1.Perm post ∧
      MemOriginList.moveBackTo (pre ++ e :: post) pre.length = pre ++ post1 := by
  rcases List.eq_nil_or_concat post with h | ⟨q, x, h⟩
  · subst h
    exact ⟨[], List.Perm.refl _, by simpa using MemOriginList.moveBackTo_last pre e⟩
  · rw [List.concat_eq_append] at h
    subst h
    refine ⟨x :: q, ?_, MemOriginList.moveBackTo_concat pre q e x⟩
    simpa using (List.perm_append_singleton x q).symm

theorem MemOriginList.getElem?_concat_append (pre post : MemOriginList) (e : MemOrigin) :
    (pre ++ e :: post)[pre.length]? = some e := by
  rw [List.getElem?_append_right (le_refl _)]; simp

theorem MemOriginList.delLoop_perm (tree : TreeNode) :
    ∀ (b : Nat) (pre post : MemOriginList), pre.length = b →
      (∀ e ∈ post, MemOrigin.sameLocation tree e = false) →
      (MemOriginList.delLoop tree b (pre ++ post)).Perm
        (pre.filter (fun e => !MemOrigin.sameLocation tree e) ++ post) := by
  intro b
  induction b with
  | zero =>
    intro pre post h _
    have h0 : pre = [] := List.length_eq_zero.mp h
    subst h0
    simp [MemOriginList.delLoop]
  | succ b ih =>
    intro pre post h hpost
    rcases List.eq_nil_or_concat pre with h0 | ⟨q, x, h0⟩
    · subst h0; simp at h
    · rw [List.concat_eq_append] at h0
      subst h0
      have hq : q.length = b := by simpa using h
      subst hq
      have hl : q ++ [x] ++ post = q ++ x :: post := by simp
      rw [hl, MemOriginList.delLoop, MemOriginList.getElem?_concat_append]
      by_cases hm : MemOrigin.sameLocation tree x = true
      · obtain ⟨post1, hp, he⟩ := MemOriginList.moveBackTo_append q post x
        simp only [hm, if_true, he]
        refine (ih q post1 rfl (fun e h1 => hpost e (hp.subset h1))).trans ?_
        have hf : List.filter (fun e => !MemOrigin.sameLocation tree e) (q ++ [x]) =
            List.filter (fun e => !MemOrigin.sameLocation tree e) q := by
          simp [List.filter_append, List.filter_cons, hm]
        rw [hf]
        exact List.Perm.append_left _ hp
      · simp only [hm, if_false]
        have hx : MemOrigin.sameLocation tree x = false := by simpa using hm
        refine (ih q (x :: post) rfl ?_).trans ?_
        · intro e h1
          rcases List.mem_cons.mp h1 with h2 | h2
          · subst h2; exact hx
          · exact hpost e h2
        · simp [List.filter_append, List.filter_cons, hx]

/-- What `del` leaves: the entries at other locations, up to order. -/
theorem MemOriginList.del_perm (l : MemOriginList) (tree : TreeNode) :
    (MemOriginList.del l tree).Perm
      (l.filter (fun e => !MemOrigin.sameLocation tree e)) := by
  have h := MemOriginList.delLoop_perm tree l.length l [] rfl (by simp)
  simpa [MemOriginList.del] using h

theorem MemOriginList.setLoop_spec (place : TreeNode) (origin : UDStateRef) :
    ∀ (b : Nat) (pre post : MemOriginList) (found : Bool), pre.length = b →
      post.filter (MemOrigin.sameLocation place) =
        (if found then [⟨place, origin⟩] else []) →
      ((MemOriginList.setLoop place origin b found (pre ++ post)).2.filter
          (fun e => !MemOrigin.sameLocation place e)).Perm
        (pre.filter (fun e => !MemOrigin.sameLocation place e) ++
          post.filter (fun e => !MemOrigin.sameLocation place e)) ∧
      (MemOriginList.setLoop place origin b found (pre ++ post)).2.filter
          (MemOrigin.sameLocation place) =
        (if (MemOriginList.setLoop place origin b found (pre ++ post)).1
          then [⟨place, origin⟩] else []) := by
  intro b
  induction b with
  | zero =>
    intro pre post found h hpost
    have h0 : pre = [] := List.length_eq_zero.mp h
    subst h0
    simpa [MemOriginList.setLoop] using hpost
  | succ b ih =>
    intro pre post found h hpost
    rcases List.eq_nil_or_concat pre with h0 | ⟨q, x, h0⟩
    · subst h0; simp at h
    · rw [List.concat_eq_append] at h0
      subst h0
      have hq : q.length = b := by simpa using h
      subst hq
      have hl : q ++ [x] ++ post = q ++ x :: post := by simp
      rw [hl, MemOriginList.setLoop, MemOriginList.getElem?_concat_append]
      by_cases hm : MemOrigin.sameLocation place x = true
      · have hf : List.filter (fun e => !MemOrigin.sameLocation place e) (q ++ [x]) =
            List.filter (fun e => !MemOrigin.sameLocation place e) q := by
          simp [List.filter_append, List.filter_cons, hm]
        cases found with
        | false =>
          have hs : List.set (q ++ x :: post) q.length ⟨place, origin⟩ =
              q ++ (⟨place, origin⟩ : MemOrigin) :: post := by
            rw [List.set_append_right _ _ (le_refl _)]; simp
          simp only [hm, if_true, Bool.not_false, hs]
          have hself := MemOrigin.sameLocation_self_of_match origin hm
          have h1 := ih q (⟨place, origin⟩ :: post) true rfl (by
            simpa [List.filter_cons, hself] using hpost)
          rw [hf]
          simpa [List.filter_cons, hself] using h1
        | true =>
          obtain ⟨post1, hp, he⟩ := MemOriginList.moveBackTo_append q post x
          simp only [hm, if_true, Bool.not_true, he]
          have h2 : post1.filter (MemOrigin.sameLocation place) =
              (if true = true then [⟨place, origin⟩] else []) := by
            have h3 := hp.filter (MemOrigin.sameLocation place)
            rw [hpost] at h3
            simpa using List.perm_singleton.mp h3
          have h1 := ih q post1 true rfl h2
          rw [hf]
          refine ⟨h1.1.trans ?_, h1.2⟩
          exact List.Perm.append_left _ (hp.filter _)
      · have hx : MemOrigin.sameLocation place x = false := by simpa using hm
        simp only [hx, if_false]
        have h1 := ih q (x :: post) found rfl (by
          simpa [List.filter_cons, hx] using hpost)
        refine ⟨h1.1.trans ?_, h1.2⟩
        simp [List.filter_append, List.filter_cons, hx]

theorem MemOriginList.setLoop_nomatch (place : TreeNode) (origin : UDStateRef) :
    ∀ (b : Nat) (pre post : MemOriginList) (found : Bool), pre.length = b →
      (∀ e ∈ pre, MemOrigin.sameLocation place e = false) →
      MemOriginList.setLoop place origin b found (pre ++ post) = (found, pre ++ post) := by
  intro b
  induction b with
  | zero =>
    intro pre post found h _
    have h0 : pre = [] := List.length_eq_zero.mp h
    subst h0
    simp [MemOriginList.setLoop]
  | succ b ih =>
    intro pre post found h hpre
    rcases List.eq_nil_or_concat pre with h0 | ⟨q, x, h0⟩
    · subst h0; simp at h
    · rw [List.concat_eq_append] at h0
      subst h0
      have hq : q.length = b := by simpa using h
      subst hq
      have hl : q ++ [x] ++ post = q ++ x :: post := by simp
      have hx : MemOrigin.sameLocation place x = false := hpre x (by simp)
      rw [hl, MemOriginList.setLoop, MemOriginList.getElem?_concat_append]
      simp only [hx, Bool.false_eq_true, if_false]
      exact ih q (x :: post) found rfl (fun e he => hpre e (by simp [he]))

/-- What `set` leaves for a place of the memory form: one entry at the location of
`place`, namely the new one, and the entries at other locations, up to order. -/
theorem MemOriginList.set_spec (l : MemOriginList) (place : TreeNode) (origin : UDStateRef)
    (hc : MemLocation.ofTree place ≠ none) :
    (MemOriginList.set l place origin).filter (MemOrigin.sameLocation place) =
        [⟨place, origin⟩] ∧
      ((MemOriginList.set l place origin).filter
          (fun e => !MemOrigin.sameLocation place e)).Perm
        (l.filter (fun e => !MemOrigin.sameLocation place e)) := by
  have h := MemOriginList.setLoop_spec place origin l.length l [] false rfl (by simp)
  simp only [List.append_nil, List.filter_nil] at h
  unfold MemOriginList.set
  rcases hr : MemOriginList.setLoop place origin l.length false l with ⟨f, l1⟩
  rw [hr] at h
  cases f with
  | true => simpa using And.intro h.2 h.1
  | false =>
    simp only [Bool.false_eq_true, if_false] at h
    simp only [List.filter_append, h.2, List.filter_cons,
      MemOrigin.sameLocation_self place origin hc,
      if_true, List.filter_nil, List.nil_append, Bool.not_true, Bool.false_eq_true, if_false,
      List.append_nil, true_and]
    exact h.1

/-- What `set` does for a place whose location equals none: it appends the entry. -/
theorem MemOriginList.set_of_nomatch (l : MemOriginList) (place : TreeNode)
    (origin : UDStateRef) (h : ∀ e ∈ l, MemOrigin.sameLocation place e = false) :
    MemOriginList.set l place origin = l ++ [⟨place, origin⟩] := by
  have h1 := MemOriginList.setLoop_nomatch place origin l.length l [] false rfl h
  simp only [List.append_nil] at h1
  unfold MemOriginList.set
  rw [h1]

theorem MemOriginList.noDuplicate_perm {l1 l2 : MemOriginList} (h : l1.Perm l2) :
    MemOriginList.NoDuplicate l1 ↔ MemOriginList.NoDuplicate l2 := by
  unfold MemOriginList.NoDuplicate
  refine h.pairwise_iff ?_
  intro a b hab hba
  apply hab
  refine ⟨hba.1.symm, ?_⟩
  rw [MemLocation.equals_comm]
  exact hba.2

theorem MemOriginList.noDuplicate_filter {l : MemOriginList} (p : MemOrigin → Bool)
    (h : MemOriginList.NoDuplicate l) : MemOriginList.NoDuplicate (l.filter p) :=
  List.Pairwise.sublist (List.filter_sublist l) h

theorem MemOriginList.noDuplicate_set (l : MemOriginList) (place : TreeNode)
    (origin : UDStateRef) (h : MemOriginList.NoDuplicate l) :
    MemOriginList.NoDuplicate (MemOriginList.set l place origin) := by
  by_cases hn : MemLocation.ofTree place = none
  · rw [MemOriginList.set_of_nomatch l place origin
      (fun e _ => MemOrigin.sameLocation_of_none place e hn)]
    unfold MemOriginList.NoDuplicate
    refine List.pairwise_append.mpr ⟨h, List.pairwise_singleton _ _, ?_⟩
    intro a _ b hb hc
    have hb1 : b = ⟨place, origin⟩ := by simpa using hb
    subst hb1
    have h1 := hc.2
    rw [MemLocation.equals_comm] at h1
    exact absurd hn ((MemLocation.equals_iff _ _).mp h1).2
  obtain ⟨h1, h2⟩ := MemOriginList.set_spec l place origin hn
  have h3 := List.filter_append_perm (MemOrigin.sameLocation place)
    (MemOriginList.set l place origin)
  rw [h1] at h3
  have h4 : (MemOriginList.set l place origin).Perm
      (⟨place, origin⟩ :: l.filter (fun e => !MemOrigin.sameLocation place e)) :=
    h3.symm.trans (List.Perm.cons _ h2)
  rw [MemOriginList.noDuplicate_perm h4]
  unfold MemOriginList.NoDuplicate
  refine List.pairwise_cons.mpr ⟨?_, MemOriginList.noDuplicate_filter _ h⟩
  intro e he hc
  have h5 := (List.mem_filter.mp he).2
  have h6 : MemOrigin.sameLocation place e = true := hc.2
  simp [h6] at h5

theorem MemOriginList.noDuplicate_add (l : MemOriginList) (place : TreeNode)
    (origin : UDStateRef) (h : MemOriginList.NoDuplicate l) :
    MemOriginList.NoDuplicate (MemOriginList.add l place origin) := by
  unfold MemOriginList.add
  by_cases hd : (l.any (fun mem => decide (mem.origin = origin) &&
      MemOrigin.sameLocation place mem)) = true
  · simpa [hd] using h
  · have hd1 : (l.any (fun mem => decide (mem.origin = origin) &&
        MemOrigin.sameLocation place mem)) = false := by simpa using hd
    simp only [hd1, Bool.not_false, if_true]
    unfold MemOriginList.NoDuplicate
    refine List.pairwise_append.mpr ⟨h, List.pairwise_singleton _ _, ?_⟩
    intro a ha b hb hc
    have hb1 : b = ⟨place, origin⟩ := by simpa using hb
    subst hb1
    have h1 := List.any_eq_false.mp hd1 a ha
    have h2 : MemOrigin.sameLocation place a = true := by
      unfold MemOrigin.sameLocation
      rw [MemLocation.equals_comm]
      exact hc.2
    simp [h2, hc.1] at h1

theorem MemOriginList.noDuplicate_addList (other l : MemOriginList)
    (h : MemOriginList.NoDuplicate l) :
    MemOriginList.NoDuplicate (MemOriginList.addList l other) := by
  unfold MemOriginList.addList
  induction other generalizing l with
  | nil => simpa using h
  | cons e t ih =>
    simp only [List.foldl_cons]
    exact ih _ (MemOriginList.noDuplicate_add l e.place e.origin h)

theorem MemOriginList.noDuplicate_del (l : MemOriginList) (tree : TreeNode)
    (h : MemOriginList.NoDuplicate l) :
    MemOriginList.NoDuplicate (MemOriginList.del l tree) := by
  rw [MemOriginList.noDuplicate_perm (MemOriginList.del_perm l tree)]
  exact MemOriginList.noDuplicate_filter _ h

/-- C2: every list reachable from the empty list by `set`, `add`, `addList`, `del`
and `clear` has no two entries with the same origin and an equal `MemLocation`. -/
theorem MemOriginList.reachable_noDuplicate (l : MemOriginList)
    (h : MemOriginList.Reachable l) : MemOriginList.NoDuplicate l := by
  induction h with
  | empty => exact List.Pairwise.nil
  | set l place origin _ ih => exact MemOriginList.noDuplicate_set l place origin ih
  | add l place origin _ ih => exact MemOriginList.noDuplicate_add l place origin ih
  | addList l other _ ih => exact MemOriginList.noDuplicate_addList other l ih
  | del l tree _ ih => exact MemOriginList.noDuplicate_del l tree ih
  | clear l _ _ => exact List.Pairwise.nil

/-- Witness for C2: the list built by `add`, `add`, `set` on the empty list. -/
theorem MemOriginList.reachable_noDuplicate_witness :
    MemOriginList.Reachable
        (MemOriginList.set (MemOriginList.add (MemOriginList.add [] (.Constant 8) 1)
          (.Constant 8) 2) (.Constant 16) 3) ∧
      MemOriginList.NoDuplicate
        (MemOriginList.set (MemOriginList.add (MemOriginList.add [] (.Constant 8) 1)
          (.Constant 8) 2) (.Constant 16) 3) :=
  ⟨MemOriginList.Reachable.set _ _ _
      (MemOriginList.Reachable.add _ _ _
        (MemOriginList.Reachable.add _ _ _ MemOriginList.Reachable.empty)),
    MemOriginList.reachable_noDuplicate _
      (MemOriginList.Reachable.set _ _ _
        (MemOriginList.Reachable.add _ _ _
          (MemOriginList.Reachable.add _ _ _ MemOriginList.Reachable.empty)))⟩

/-- C4: after `del(p)` no entry is at the location of `p`, and every entry at another
location occurs as many times as before. -/
theorem MemOriginList.del_removes_location (l : MemOriginList) (p : TreeNode) :
    (∀ e ∈ MemOriginList.del l p, MemOrigin.sameLocation p e = false) ∧
      (∀ e : MemOrigin, MemOrigin.sameLocation p e = false →
        (MemOriginList.del l p).count e = l.count e) := by
  have h := MemOriginList.del_perm l p
  constructor
  · intro e he
    have h1 := (List.mem_filter.mp (h.subset he)).2
    simpa using h1
  · intro e he
    rw [h.count_eq e, List.count_filter]
    simp [he]

/-! ### Order of the entries after `set` and `del` -/

theorem MemOriginList.split_at_getElem? {l : MemOriginList} {b : Nat} {e : MemOrigin}
    (h : l[b]? = some e) : ∃ pre post : MemOriginList, l = pre ++ e :: post ∧ pre.length = b := by
  obtain ⟨hb, he⟩ := List.getElem?_eq_some_iff.mp h
  refine ⟨l.take b, l.drop (b + 1), ?_, ?_⟩
  · rw [← he, ← List.drop_eq_getElem_cons hb, List.take_append_drop]
  · simp [List.length_take, Nat.le_of_lt hb]

theorem MemOriginList.set_at_length (pre post : MemOriginList) (e x : MemOrigin) :
    List.set (pre ++ e :: post) pre.length x = pre ++ x :: post := by
  rw [List.set_append_right _ _ (le_refl _)]; simp

/-- A block of entries at other locations at the front of the list is below every
slot the loops write to. -/
theorem MemOriginList.prefix_below_match {place : TreeNode} {p0 pre post : MemOriginList}
    {e : MemOrigin} (hp0 : ∀ x ∈ p0, MemOrigin.sameLocation place x = false)
    (hpre : p0 <+: pre ++ e :: post) (hm : MemOrigin.sameLocation place e = true) :
    p0 <+: pre := by
  have hlen : p0.length ≤ pre.length := by
    by_contra hc
    have hlt : pre.length < p0.length := Nat.lt_of_not_le hc
    have h1 := hpre.getElem hlt
    have h2 : (pre ++ e :: post)[pre.length]? = some e :=
      MemOriginList.getElem?_concat_append pre post e
    obtain ⟨h3, h4⟩ := List.getElem?_eq_some_iff.mp h2
    have h5 : p0[pre.length] = e := by rw [h1]; exact h4
    have h6 := hp0 e (by rw [← h5]; exact List.getElem_mem _)
    rw [hm] at h6
    exact Bool.noConfusion h6
  exact List.prefix_of_prefix_length_le hpre (List.prefix_append _ _) hlen

theorem MemOriginList.delLoop_prefix (tree : TreeNode) (p0 : MemOriginList)
    (hp0 : ∀ x ∈ p0, MemOrigin.sameLocation tree x = false) :
    ∀ (b : Nat) (l : MemOriginList), p0 <+: l → p0 <+: MemOriginList.delLoop tree b l := by
  intro b
  induction b with
  | zero => intro l h; simpa [MemOriginList.delLoop] using h
  | succ b ih =>
    intro l h
    rw [MemOriginList.delLoop]
    cases hg : l[b]? with
    | none => simpa using h
    | some e =>
      simp only []
      by_cases hm : MemOrigin.sameLocation tree e = true
      · simp only [hm, if_true]
        apply ih
        obtain ⟨pre, post, hl, hb⟩ := MemOriginList.split_at_getElem? hg
        subst hl; subst hb
        obtain ⟨post1, _, he⟩ := MemOriginList.moveBackTo_append pre post e
        rw [he]
        exact (MemOriginList.prefix_below_match hp0 h hm).trans (List.prefix_append _ _)
      · simp only [hm, if_false]
        exact ih l h

theorem MemOriginList.setLoop_prefix (place : TreeNode) (origin : UDStateRef)
    (p0 : MemOriginList) (hp0 : ∀ x ∈ p0, MemOrigin.sameLocation place x = false) :
    ∀ (b : Nat) (found : Bool) (l : MemOriginList), p0 <+: l →
      p0 <+: (MemOriginList.setLoop place origin b found l).2 := by
  intro b
  induction b with
  | zero => intro found l h; simpa [MemOriginList.setLoop] using h
  | succ b ih =>
    intro found l h
    rw [MemOriginList.setLoop]
    cases hg : l[b]? with
    | none => simpa using h
    | some e =>
      simp only []
      by_cases hm : MemOrigin.sameLocation place e = true
      · obtain ⟨pre, post, hl, hb⟩ := MemOriginList.split_at_getElem? hg
        subst hl; subst hb
        have hpre := MemOriginList.prefix_below_match hp0 h hm
        simp only [hm, if_true]
        cases found with
        | false =>
          simp only [Bool.not_false, if_true]
          apply ih
          rw [MemOriginList.set_at_length]
          exact hpre.trans (List.prefix_append _ _)
        | true =>
          simp only [Bool.not_true, Bool.false_eq_true, if_false]
          apply ih
          obtain ⟨post1, _, he⟩ := MemOriginList.moveBackTo_append pre post e
          rw [he]
          exact hpre.trans (List.prefix_append _ _)
      · simp only [hm, if_false]
        exact ih found l h

theorem MemOriginList.set_prefix (l : MemOriginList) (place : TreeNode) (origin : UDStateRef)
    (p0 : MemOriginList) (hp0 : ∀ x ∈ p0, MemOrigin.sameLocation place x = false)
    (h : p0 <+: l) : p0 <+: MemOriginList.set l place origin := by
  have h1 := MemOriginList.setLoop_prefix place origin p0 hp0 l.length false l h
  unfold MemOriginList.set
  rcases hr : MemOriginList.setLoop place origin l.length false l with ⟨f, l1⟩
  rw [hr] at h1
  cases f with
  | true => exact h1
  | false => exact h1.trans (List.prefix_append _ _)

theorem MemOriginList.setLoop_position (place : TreeNode) (origin : UDStateRef)
    (l0 : MemOriginList) :
    ∀ (b : Nat) (pre post : MemOriginList) (found : Bool), pre.length = b → pre <+: l0 →
      (found = true → ∃ (j : Nat) (e : MemOrigin), post[j]? = some ⟨place, origin⟩ ∧
        l0[b + j]? = some e ∧ MemOrigin.sameLocation place e = true) →
      ((MemOriginList.setLoop place origin b found (pre ++ post)).1 = true →
        ∃ (j : Nat) (e : MemOrigin),
          (MemOriginList.setLoop place origin b found (pre ++ post)).2[j]? =
            some ⟨place, origin⟩ ∧
          l0[j]? = some e ∧ MemOrigin.sameLocation place e = true) ∧
      ((MemOriginList.setLoop place origin b found (pre ++ post)).1 = false →
        found = false ∧
        (MemOriginList.setLoop place origin b found (pre ++ post)).2 = pre ++ post ∧
        ∀ e ∈ pre, MemOrigin.sameLocation place e = false) := by
  intro b
  induction b with
  | zero =>
    intro pre post found h _ hf
    have h0 : pre = [] := List.length_eq_zero.mp h
    subst h0
    simp only [MemOriginList.setLoop, List.nil_append, Nat.zero_add] at hf ⊢
    refine ⟨hf, fun h1 => ?_⟩
    simp [h1]
  | succ b ih =>
    intro pre post found h hpre hf
    rcases List.eq_nil_or_concat pre with h0 | ⟨q, x, h0⟩
    · subst h0; simp at h
    · rw [List.concat_eq_append] at h0
      subst h0
      have hq : q.length = b := by simpa using h
      subst hq
      have hl : q ++ [x] ++ post = q ++ x :: post := by simp
      have hq0 : q <+: l0 := (List.prefix_append q [x]).trans hpre
      have hx0 : l0[q.length]? = some x := by
        obtain ⟨t, ht⟩ := hpre
        rw [← ht]
        simpa using MemOriginList.getElem?_concat_append q t x
      rw [hl, MemOriginList.setLoop, MemOriginList.getElem?_concat_append]
      by_cases hm : MemOrigin.sameLocation place x = true
      · cases found with
        | false =>
          simp only [hm, if_true, Bool.not_false, MemOriginList.set_at_length]
          have h1 := ih q (⟨place, origin⟩ :: post) true rfl hq0
            (fun _ => ⟨0, x, by simp, by simpa using hx0, hm⟩)
          refine ⟨h1.1, fun h2 => ?_⟩
          exact Bool.noConfusion (h1.2 h2).1
        | true =>
          obtain ⟨j, e, hj, he, hme⟩ := hf rfl
          rcases List.eq_nil_or_concat post with hp | ⟨r, y, hp⟩
          · subst hp; simp at hj
          · rw [List.concat_eq_append] at hp
            subst hp
            simp only [hm, if_true, Bool.not_true, Bool.false_eq_true, if_false,
              MemOriginList.moveBackTo_concat]
            have h1 := ih q (y :: r) true rfl hq0 (fun _ => by
              by_cases hjr : j < r.length
              · refine ⟨j + 1, e, ?_, ?_, hme⟩
                · rw [List.getElem?_append_left hjr] at hj
                  simpa using hj
                · have : q.length + (j + 1) = q.length + 1 + j := by omega
                  rw [this]
                  simpa using he
              · have hjl : j < (r ++ [y]).length := (List.getElem?_eq_some_iff.mp hj).1
                have hje : j = r.length := by
                  simp only [List.length_append, List.length_singleton] at hjl
                  omega
                subst hje
                have hy : y = ⟨place, origin⟩ := by
                  rw [List.getElem?_append_right (le_refl _)] at hj
                  simpa using hj
                exact ⟨0, x, by simp [hy], by simpa using hx0, hm⟩)
            refine ⟨h1.1, fun h2 => ?_⟩
            exact Bool.noConfusion (h1.2 h2).1
      · have hx : MemOrigin.sameLocation place x = false := by simpa using hm
        simp only [hx, Bool.false_eq_true, if_false]
        have h1 := ih q (x :: post) found rfl hq0 (fun h2 => by
          obtain ⟨j, e, hj, he, hme⟩ := hf h2
          refine ⟨j + 1, e, by simpa using hj, ?_, hme⟩
          have : q.length + (j + 1) = q.length + 1 + j := by omega
          rw [this]
          exact he)
        refine ⟨h1.1, fun h2 => ?_⟩
        obtain ⟨h3, h4, h5⟩ := h1.2 h2
        refine ⟨h3, h4, ?_⟩
        intro e he
        rcases List.mem_append.mp he with h6 | h6
        · exact h5 e h6
        · have : e = x := by simpa using h6
          rw [this]; exact hx

/-- Where `set` leaves the new entry: in a slot that held an entry at the same
location, or at the end when there was none. -/
theorem MemOriginList.set_position (l : MemOriginList) (place : TreeNode)
    (origin : UDStateRef) :
    ∃ i : Nat, (MemOriginList.set l place origin)[i]? = some ⟨place, origin⟩ ∧
      ((∃ e : MemOrigin, l[i]? = some e ∧ MemOrigin.sameLocation place e = true) ∨
        (i = l.length ∧ ∀ e ∈ l, MemOrigin.sameLocation place e = false)) := by
  have h := MemOriginList.setLoop_position place origin l l.length l [] false rfl
    (List.prefix_refl l) (fun h1 => Bool.noConfusion h1)
  simp only [List.append_nil] at h
  unfold MemOriginList.set
  rcases hr : MemOriginList.setLoop place origin l.length false l with ⟨f, l1⟩
  rw [hr] at h
  cases f with
  | true =>
    obtain ⟨j, e, hj, he, hme⟩ := h.1 rfl
    exact ⟨j, hj, Or.inl ⟨e, he, hme⟩⟩
  | false =>
    obtain ⟨_, h2, h3⟩ := h.2 rfl
    simp only at h2
    subst h2
    exact ⟨l1.length, by simp, Or.inr ⟨rfl, h3⟩⟩

theorem MemOriginList.setLoop_single (place : TreeNode) (origin : UDStateRef) :
    ∀ (b : Nat) (pre post : MemOriginList), pre.length = b →
      pre.countP (MemOrigin.sameLocation place) ≤ 1 →
      MemOriginList.setLoop place origin b false (pre ++ post) =
        (pre.any (MemOrigin.sameLocation place),
          pre.map (fun e => if MemOrigin.sameLocation place e then ⟨place, origin⟩ else e)
            ++ post) := by
  intro b
  induction b with
  | zero =>
    intro pre post h _
    have h0 : pre = [] := List.length_eq_zero.mp h
    subst h0
    simp [MemOriginList.setLoop]
  | succ b ih =>
    intro pre post h hc
    rcases List.eq_nil_or_concat pre with h0 | ⟨q, x, h0⟩
    · subst h0; simp at h
    · rw [List.concat_eq_append] at h0
      subst h0
      have hq : q.length = b := by simpa using h
      subst hq
      have hl : q ++ [x] ++ post = q ++ x :: post := by simp
      rw [hl, MemOriginList.setLoop, MemOriginList.getElem?_concat_append]
      by_cases hm : MemOrigin.sameLocation place x = true
      · have hq0 : q.countP (MemOrigin.sameLocation place) = 0 := by
          simp only [List.countP_append, List.countP_singleton, hm, if_true] at hc
          omega
        have hq1 : ∀ e ∈ q, MemOrigin.sameLocation place e = false := by
          intro e he
          have := List.countP_eq_zero.mp hq0 e he
          simpa using this
        have hmap : q.map (fun e => if MemOrigin.sameLocation place e then
            (⟨place, origin⟩ : MemOrigin) else e) = q := by
          conv_rhs => rw [← List.map_id q]
          apply List.map_congr_left
          intro e he
          simp [hq1 e he]
        simp only [hm, if_true, Bool.not_false, MemOriginList.set_at_length]
        rw [MemOriginList.setLoop_nomatch place origin q.length q _ true rfl hq1]
        simp [hm, hmap]
      · have hx : MemOrigin.sameLocation place x = false := by simpa using hm
        simp only [hx, Bool.false_eq_true, if_false]
        rw [ih q (x :: post) rfl (by
          simpa [List.countP_append, List.countP_singleton, hx] using hc)]
        simp [hx]

/-- With at most one entry at the location of `place`, `set` overwrites that entry
in place, or appends when there is none. -/
theorem MemOriginList.set_single (l : MemOriginList) (place : TreeNode)
    (origin : UDStateRef) (h : l.countP (MemOrigin.sameLocation place) ≤ 1) :
    MemOriginList.set l place origin =
      (if l.any (MemOrigin.sameLocation place) then
        l.map (fun e => if MemOrigin.sameLocation place e then ⟨place, origin⟩ else e)
      else l ++ [⟨place, origin⟩]) := by
  have h1 := MemOriginList.setLoop_single place origin l.length l [] rfl h
  simp only [List.append_nil] at h1
  unfold MemOriginList.set
  rw [h1]
  cases ha : l.any (MemOrigin.sameLocation place) with
  | true => simp
  | false =>
    have hq1 : ∀ e ∈ l, MemOrigin.sameLocation place e = false := by
      intro e he
      exact List.any_eq_false.mp ha e he |> (by simpa using ·)
    have hmap : l.map (fun e => if MemOrigin.sameLocation place e then
        (⟨place, origin⟩ : MemOrigin) else e) = l := by
      conv_rhs => rw [← List.map_id l]
      apply List.map_congr_left
      intro e he
      simp [hq1 e he]
    simp [hmap]

/-- C3, as stated, fails: `del` moves the last entry into the slot of a removed
entry, and so does `set` for every matching entry but the last.  Here `del` turns
`[a, b, c]` into `[c, b]`, and `set` turns `[a, b, a2, c]` into `[c, b, new]`. -/
theorem MemOriginList.set_del_order_counterexample :
    MemOriginList.del [⟨.Constant 1, 0⟩, ⟨.Constant 2, 1⟩, ⟨.Constant 3, 2⟩] (.Constant 1) =
        [⟨.Constant 3, 2⟩, ⟨.Constant 2, 1⟩] ∧
      ¬ (MemOriginList.del [⟨.Constant 1, 0⟩, ⟨.Constant 2, 1⟩, ⟨.Constant 3, 2⟩]
          (.Constant 1)).Sublist
        [⟨.Constant 1, 0⟩, ⟨.Constant 2, 1⟩, ⟨.Constant 3, 2⟩] ∧
      MemOriginList.set
          [⟨.Constant 1, 0⟩, ⟨.Constant 2, 1⟩, ⟨.Constant 1, 2⟩, ⟨.Constant 3, 3⟩]
          (.Constant 1) 7 =
        [⟨.Constant 3, 3⟩, ⟨.Constant 2, 1⟩, ⟨.Constant 1, 7⟩] ∧
      ¬ ((MemOriginList.set
          [⟨.Constant 1, 0⟩, ⟨.Constant 2, 1⟩, ⟨.Constant 1, 2⟩, ⟨.Constant 3, 3⟩]
          (.Constant 1) 7).filter (fun e => !MemOrigin.sameLocation (.Constant 1) e)).Sublist
        [⟨.Constant 1, 0⟩, ⟨.Constant 2, 1⟩, ⟨.Constant 1, 2⟩, ⟨.Constant 3, 3⟩] := by
  decide

/-- C3, amended: `set` and `del` leave in place the entries that precede the first
entry at the location of `place`; with at most one entry at that location `set`
overwrites it in place (or appends when there is none), so every other entry keeps
its position; and `set` always leaves the new entry in a slot that held an entry at
that location, or at the end when there was none. -/
theorem MemOriginList.set_del_order (l : MemOriginList) (place : TreeNode)
    (origin : UDStateRef) :
    (l.takeWhile (fun e => !MemOrigin.sameLocation place e) <+:
        MemOriginList.set l place origin) ∧
      (l.takeWhile (fun e => !MemOrigin.sameLocation place e) <+:
        MemOriginList.del l place) ∧
      (l.countP (MemOrigin.sameLocation place) ≤ 1 →
        MemOriginList.set l place origin =
          (if l.any (MemOrigin.sameLocation place) then
            l.map (fun e => if MemOrigin.sameLocation place e then ⟨place, origin⟩ else e)
          else l ++ [⟨place, origin⟩])) ∧
      (∃ i : Nat, (MemOriginList.set l place origin)[i]? = some ⟨place, origin⟩ ∧
        ((∃ e : MemOrigin, l[i]? = some e ∧ MemOrigin.sameLocation place e = true) ∨
          (i = l.length ∧ ∀ e ∈ l, MemOrigin.sameLocation place e = false))) := by
  have hp0 : ∀ x ∈ l.takeWhile (fun e => !MemOrigin.sameLocation place e),
      MemOrigin.sameLocation place x = false := by
    intro x hx
    simpa using List.mem_takeWhile_imp hx
  refine ⟨?_, ?_, ?_, ?_⟩
  · exact MemOriginList.set_prefix l place origin _ hp0 (List.takeWhile_prefix _)
  · exact MemOriginList.delLoop_prefix place _ hp0 l.length l (List.takeWhile_prefix _)
  · exact MemOriginList.set_single l place origin
  · exact MemOriginList.set_position l place origin

/-- Witness for C3 (amended): one entry at the location, overwritten in place. -/
theorem MemOriginList.set_del_order_witness :
    ([⟨.Constant 2, 1⟩, ⟨.Constant 1, 0⟩, ⟨.Constant 3, 2⟩] : MemOriginList).countP
        (MemOrigin.sameLocation (.Constant 1)) ≤ 1 ∧
      MemOriginList.set [⟨.Constant 2, 1⟩, ⟨.Constant 1, 0⟩, ⟨.Constant 3, 2⟩]
          (.Constant 1) 7 =
        [⟨.Constant 2, 1⟩, ⟨.Constant 1, 7⟩, ⟨.Constant 3, 2⟩] :=
  ⟨by decide,
    ((MemOriginList.set_del_order [⟨.Constant 2, 1⟩, ⟨.Constant 1, 0⟩, ⟨.Constant 3, 2⟩]
      (.Constant 1) 7).2.2.1 (by decide)).trans (by decide)⟩

/-! ### Canonical memory locations -/

theorem wrapLong_of_inLong (c : Int) (hc : InLong c) : wrapLong c = c := by
  unfold InLong at hc
  unfold wrapLong
  omega

/-- C5: `Add(PhysReg r, Const c)` and `Add(Const c, PhysReg r)` give base `r` and
offset `c`, a bare `PhysReg r` gives `(r, 0)`, a bare `Const c` gives `(none, c)`;
equality of locations is equality of base and offset, and is an equivalence. -/
theorem MemLocation.canonical_forms (r : Int) (w : Nat) (c : Int) (hc : InLong c) :
    MemLocation.ofTree (.Addition (.PhysicalRegister r w) (.Constant c)) =
        some ⟨some (.PhysicalRegister r w), c⟩ ∧
      MemLocation.ofTree (.Addition (.Constant c) (.PhysicalRegister r w)) =
        some ⟨some (.PhysicalRegister r w), c⟩ ∧
      MemLocation.ofTree (.PhysicalRegister r w) = some ⟨some (.PhysicalRegister r w), 0⟩ ∧
      MemLocation.ofTree (.Constant c) = some ⟨none, c⟩ ∧
      (∀ a b : MemLocation,
        MemLocation.equals a b = true ↔ a.reg = b.reg ∧ a.offset = b.offset) ∧
      (∀ a : MemLocation, MemLocation.equals a a = true) ∧
      (∀ a b : MemLocation, MemLocation.equals a b = true → MemLocation.equals b a = true) ∧
      (∀ a b d : MemLocation, MemLocation.equals a b = true → MemLocation.equals b d = true →
        MemLocation.equals a d = true) := by
  have hw := wrapLong_of_inLong c hc
  refine ⟨?_, ?_, ?_, ?_, ?_, ?_, ?_, ?_⟩
  · simp [MemLocation.ofTree, MemLocation.extract, MemoryForm.matches,
      MemLocation.extractStep, hw]
  · simp [MemLocation.ofTree, MemLocation.extract, MemoryForm.matches,
      MemLocation.extractStep, hw]
  · simp [MemLocation.ofTree, MemLocation.extract, MemoryForm.matches,
      MemLocation.extractStep]
  · simp [MemLocation.ofTree, MemLocation.extract, MemoryForm.matches,
      MemLocation.extractStep, hw]
  · intro a b; simp [MemLocation.equals]
  · intro a; simp [MemLocation.equals]
  · intro a b h
    rw [MemLocation.equals_comm]
    exact h
  · intro a b d h1 h2
    rw [MemLocation.equals_iff] at h1 h2 ⊢
    exact ⟨h1.1.trans h2.1, h1.2⟩

/-- Witness for C5: register 31 with displacement -16. -/
theorem MemLocation.canonical_forms_witness :
    InLong (-16) ∧
      MemLocation.ofTree (.Addition (.PhysicalRegister 31 8) (.Constant (-16))) =
        some ⟨some (.PhysicalRegister 31 8), -16⟩ :=
  ⟨by decide, (MemLocation.canonical_forms 31 8 (-16) (by decide)).1⟩

/-- C6: a tree that is none of `Add(PhysReg, Const)`, `Add(Const, PhysReg)`, a bare
`PhysReg` and a bare `Const` does not have the memory form, and its location is equal
to no location: not to that of a bare `Const(0)`, not to that of any other tree, and
not to itself.  So no loop of a `MemOriginList` and no `useMem` finds an entry for it
or finds it for another place. -/
theorem MemLocation.other_shapes (t : TreeNode)
    (h1 : ∀ r w c, t ≠ .Addition (.PhysicalRegister r w) (.Constant c))
    (h2 : ∀ c r w, t ≠ .Addition (.Constant c) (.PhysicalRegister r w))
    (h3 : ∀ r w, t ≠ .PhysicalRegister r w) (h4 : ∀ c, t ≠ .Constant c) :
    MemoryForm.matches t = none ∧ MemLocation.ofTree t = none ∧
      (∀ m : Option MemLocation,
        MemLocation.equals (MemLocation.ofTree t) m = false ∧
          MemLocation.equals m (MemLocation.ofTree t) = false) ∧
      MemLocation.equals (MemLocation.ofTree t) (MemLocation.ofTree (.Constant 0)) = false ∧
      (∀ u : TreeNode,
        MemLocation.equals (MemLocation.ofTree t) (MemLocation.ofTree u) = false ∧
          MemLocation.equals (MemLocation.ofTree u) (MemLocation.ofTree t) = false) ∧
      MemLocation.equals (MemLocation.ofTree t) (MemLocation.ofTree t) = false ∧
      (∀ (place : TreeNode) (origin : UDStateRef),
        MemOrigin.sameLocation place ⟨t, origin⟩ = false) ∧
      (∀ e : MemOrigin, MemOrigin.sameLocation t e = false) := by
  have hm : MemoryForm.matches t = none := by
    unfold MemoryForm.matches
    split
    · exact absurd rfl (h1 _ _ _)
    · exact absurd rfl (h2 _ _ _)
    · exact absurd rfl (h3 _ _)
    · exact absurd rfl (h4 _)
    · rfl
  have ho : MemLocation.ofTree t = none := by
    unfold MemLocation.ofTree
    rw [hm]
  have hl : ∀ m : Option MemLocation, MemLocation.equals none m = false := by
    intro m; cases m <;> rfl
  have hr : ∀ m : Option MemLocation, MemLocation.equals m none = false := by
    intro m; cases m <;> rfl
  refine ⟨hm, ho, ?_, ?_, ?_, ?_, ?_, ?_⟩
  · intro m
    rw [ho]
    exact ⟨hl m, hr m⟩
  · rw [ho]
    exact hl _
  · intro u
    rw [ho]
    exact ⟨hl _, hr _⟩
  · rw [ho]
    rfl
  · intro place origin
    unfold MemOrigin.sameLocation
    rw [ho]
    exact hr _
  · intro e
    exact MemOrigin.sameLocation_of_none t e ho

/-- Witness for C6: a dereference, and the place `Add(Add(PhysReg, Const), Const)` of
the handlers of `STP` and `LDP`, are equal to no location. -/
theorem MemLocation.other_shapes_witness :
    MemLocation.equals (MemLocation.ofTree (.Dereference (.PhysicalRegister 1 8) 8))
        (MemLocation.ofTree (.Dereference (.PhysicalRegister 1 8) 8)) = false ∧
      MemLocation.equals
        (MemLocation.ofTree
          (.Addition (.Addition (.PhysicalRegister 31 8) (.Constant 16)) (.Constant 0)))
        (MemLocation.ofTree (.Constant 0)) = false :=
  ⟨(MemLocation.other_shapes (.Dereference (.PhysicalRegister 1 8) 8)
      (by simp) (by simp) (by simp) (by simp)).2.2.2.2.2.1,
    (MemLocation.other_shapes
      (.Addition (.Addition (.PhysicalRegister 31 8) (.Constant 16)) (.Constant 0))
      (by simp) (by simp) (by simp) (by simp)).2.2.2.1⟩

/-! ### Shifts -/

/-- C7: `shiftExtend` returns the tree unchanged for `Invalid`, the shift node of
the kind with children `t` and `Const(v)` for `LSL`, `LSR`, `ASR`, `ROR`, and it
throws exactly for `MSL`. -/
theorem UseDef.shiftExtend_spec (t : TreeNode) (v : Nat) :
    UseDef.shiftExtend t .ARM64_SFT_INVALID v = .ok t ∧
      UseDef.shiftExtend t .ARM64_SFT_LSL v =
        .ok (.LogicalShiftLeft t (.Constant (Int.ofNat v))) ∧
      UseDef.shiftExtend t .ARM64_SFT_LSR v =
        .ok (.LogicalShiftRight t (.Constant (Int.ofNat v))) ∧
      UseDef.shiftExtend t .ARM64_SFT_ASR v =
        .ok (.ArithmeticShiftRight t (.Constant (Int.ofNat v))) ∧
      UseDef.shiftExtend t .ARM64_SFT_ROR v =
        .ok (.RotateRight t (.Constant (Int.ofNat v))) ∧
      (∀ k : arm64_shifter,
        (∃ msg : String, UseDef.shiftExtend t k v = .error msg) ↔
          k = .ARM64_SFT_MSL) := by
  refine ⟨rfl, rfl, rfl, rfl, rfl, ?_⟩
  intro k
  cases k <;> simp [UseDef.shiftExtend]

/-! ### Maps and reference lists -/

theorem StdMap.find_insert {α : Type} (m : StdMap α) (key : Int) (v : α) (k : Int) :
    StdMap.find (StdMap.insert m key v) k = if k = key then some v else StdMap.find m k := by
  induction m with
  | nil =>
    by_cases h : k = key
    · simp [StdMap.insert, StdMap.find, h]
    · have h1 : ¬ key = k := fun h2 => h h2.symm
      simp [StdMap.insert, StdMap.find, h, h1]
  | cons e t ih =>
    obtain ⟨k0, x⟩ := e
    unfold StdMap.insert
    by_cases h1 : key < k0
    · simp only [h1, if_true]
      by_cases h : k = key
      · simp [StdMap.find, h]
      · have h2 : ¬ key = k := fun h3 => h h3.symm
        simp [StdMap.find, h, h2]
    · simp only [h1, if_false]
      by_cases h2 : k0 = key
      · simp only [h2, if_true]
        by_cases h : k = key
        · simp [StdMap.find, h]
        · have h3 : ¬ key = k := fun h4 => h h4.symm
          simp [StdMap.find, h, h3]
      · simp only [h2, if_false]
        by_cases h : k = key
        · subst h
          simp [StdMap.find, h2, ih]
        · by_cases h3 : k0 = k
          · simp [StdMap.find, h3, h]
          · simp [StdMap.find, h3, h, ih]

theorem StdMap.keys_insert {α : Type} (m : StdMap α) (key : Int) (v : α) :
    ∀ k ∈ (StdMap.insert m key v).map Prod.fst, k = key ∨ k ∈ m.map Prod.fst := by
  induction m with
  | nil => intro k hk; simp [StdMap.insert] at hk; exact Or.inl hk
  | cons e t ih =>
    obtain ⟨k0, x⟩ := e
    intro k hk
    unfold StdMap.insert at hk
    by_cases h1 : key < k0
    · simp only [h1, if_true, List.map_cons, List.mem_cons] at hk
      rcases hk with h | h | h
      · exact Or.inl h
      · exact Or.inr (by simp [h])
      · exact Or.inr (by simp [h])
    · simp only [h1, if_false] at hk
      by_cases h2 : k0 = key
      · simp only [h2, if_true, List.map_cons, List.mem_cons] at hk
        rcases hk with h | h
        · exact Or.inl h
        · exact Or.inr (by simp [h])
      · simp only [h2, if_false, List.map_cons, List.mem_cons] at hk
        rcases hk with h | h
        · exact Or.inr (by simp [h])
        · rcases ih k h with h3 | h3
          · exact Or.inl h3
          · exact Or.inr (by simp [h3])

theorem StdMap.wellFormed_insert {α : Type} (m : StdMap α) (key : Int) (v : α)
    (h : StdMap.WellFormed m) : StdMap.WellFormed (StdMap.insert m key v) := by
  induction m with
  | nil => simp [StdMap.insert, StdMap.WellFormed]
  | cons e t ih =>
    obtain ⟨k0, x⟩ := e
    unfold StdMap.WellFormed at h ih ⊢
    simp only [List.map_cons, List.pairwise_cons] at h
    unfold StdMap.insert
    by_cases h1 : key < k0
    · simp only [h1, if_true, List.map_cons, List.pairwise_cons]
      refine ⟨?_, h⟩
      intro a ha
      rcases List.mem_cons.mp ha with h2 | h2
      · rw [h2]; exact h1
      · exact lt_trans h1 (h.1 a h2)
    · simp only [h1, if_false]
      by_cases h2 : k0 = key
      · simp only [h2, if_true, List.map_cons, List.pairwise_cons]
        subst h2
        exact h
      · simp only [h2, if_false, List.map_cons, List.pairwise_cons]
        refine ⟨?_, ih h.2⟩
        intro a ha
        rcases StdMap.keys_insert t key v a ha with h3 | h3
        · rw [h3]; omega
        · exact h.1 a h3

theorem StdMap.find_of_mem {α : Type} (m : StdMap α) (h : StdMap.WellFormed m)
    (k : Int) (v : α) (hm : (k, v) ∈ m) : StdMap.find m k = some v := by
  induction m with
  | nil => simp at hm
  | cons e t ih =>
    obtain ⟨k0, x⟩ := e
    unfold StdMap.WellFormed at h ih
    simp only [List.map_cons, List.pairwise_cons] at h
    rcases List.mem_cons.mp hm with h1 | h1
    · simp only [Prod.mk.injEq] at h1
      simp [StdMap.find, h1.1, h1.2]
    · have h2 : k0 < k := h.1 k (List.mem_map.mpr ⟨(k, v), h1, rfl⟩)
      have h3 : ¬ k0 = k := by omega
      simp only [StdMap.find, h3, if_false]
      exact ih h.2 h1

theorem StdMap.mem_of_find {α : Type} (m : StdMap α) (k : Int) (v : α)
    (hm : StdMap.find m k = some v) : (k, v) ∈ m := by
  induction m with
  | nil => simp [StdMap.find] at hm
  | cons e t ih =>
    obtain ⟨k0, x⟩ := e
    unfold StdMap.find at hm
    by_cases h : k0 = k
    · simp only [h, if_true, Option.some.injEq] at hm
      simp [h, hm]
    · simp only [h, if_false] at hm
      exact List.mem_cons_of_mem _ (ih hm)

theorem RefList.add_eq (l : RefList) (reg : Int) (o : UDStateRef) :
    RefList.add l reg o =
      (match StdMap.find l reg with
        | some v => if o ∈ v then l else StdMap.insert l reg (v ++ [o])
        | none => StdMap.insert l reg [o]) := by
  unfold RefList.add RefList.addIfExist
  cases h : StdMap.find l reg with
  | none => simp [h]
  | some v =>
    by_cases ho : o ∈ v
    · have : (v.any fun s => decide (s = o)) = true := by
        simp only [List.any_eq_true, decide_eq_true_eq]
        exact ⟨o, ho, rfl⟩
      simp [this, ho]
    · have : (v.any fun s => decide (s = o)) = false := by
        simp only [List.any_eq_false, decide_eq_true_eq]
        intro x hx hxo
        exact ho (hxo ▸ hx)
      simp [this, ho]

theorem RefList.add_of_mem_origins (l : RefList) (reg : Int) (o : UDStateRef)
    (h : o ∈ RefList.origins l reg) : RefList.add l reg o = l := by
  rw [RefList.add_eq]
  unfold RefList.origins RefList.get at h
  cases hf : StdMap.find l reg with
  | none => simp [hf] at h
  | some v =>
    rw [hf] at h
    simp only [Option.getD_some] at h
    simp [h]

theorem RefList.origins_add (l : RefList) (reg : Int) (o : UDStateRef) (r : Int) :
    RefList.origins (RefList.add l reg o) r =
      if r = reg then
        (if o ∈ RefList.origins l reg then RefList.origins l reg
          else RefList.origins l reg ++ [o])
      else RefList.origins l r := by
  rw [RefList.add_eq]
  unfold RefList.origins RefList.get
  cases hf : StdMap.find l reg with
  | none =>
    simp only [StdMap.find_insert, Option.getD_none, List.not_mem_nil, if_false,
      List.nil_append]
    by_cases h : r = reg
    · simp [h]
    · simp [h]
  | some v =>
    simp only [Option.getD_some]
    by_cases ho : o ∈ v
    · simp only [ho, if_true]
      by_cases h : r = reg
      · simp [h, hf]
      · simp [h]
    · simp only [ho, if_false, StdMap.find_insert]
      by_cases h : r = reg
      · simp [h]
      · simp [h]

theorem RefList.wellFormed_add (l : RefList) (reg : Int) (o : UDStateRef)
    (h : StdMap.WellFormed l) : StdMap.WellFormed (RefList.add l reg o) := by
  rw [RefList.add_eq]
  cases hf : StdMap.find l reg with
  | none => exact StdMap.wellFormed_insert l reg _ h
  | some v =>
    simp only []
    by_cases ho : o ∈ v
    · simpa [ho] using h
    · simpa [ho] using StdMap.wellFormed_insert l reg _ h

theorem RefList.mem_origins_add (l : RefList) (reg : Int) (o : UDStateRef) (r : Int)
    (x : UDStateRef) :
    x ∈ RefList.origins (RefList.add l reg o) r ↔
      x ∈ RefList.origins l r ∨ (r = reg ∧ x = o) := by
  rw [RefList.origins_add]
  by_cases h : r = reg
  · subst h
    by_cases ho : o ∈ RefList.origins l r
    · simp only [if_true, ho, true_and]
      constructor
      · exact Or.inl
      · rintro (h1 | h1)
        · exact h1
        · rw [h1]; exact ho
    · simp [ho]
  · simp [h]

theorem RefList.nodup_origins_add (l : RefList) (reg : Int) (o : UDStateRef) (r : Int)
    (h : (RefList.origins l r).Nodup) : (RefList.origins (RefList.add l reg o) r).Nodup := by
  rw [RefList.origins_add]
  by_cases hr : r = reg
  · subst hr
    by_cases ho : o ∈ RefList.origins l r
    · simpa [ho] using h
    · simp only [if_true, ho, if_false]
      refine List.nodup_append.mpr ⟨h, List.nodup_singleton o, ?_⟩
      intro a ha hb
      have : a = o := by simpa using hb
      exact ho (this ▸ ha)
  · simpa [hr] using h

/-- The effect of the inner loop `for(auto o : mr.second) addToRegSet(mr.first, o)`. -/
theorem RefList.addOrigins_spec (reg : Int) (v : List UDStateRef) :
    ∀ l : RefList,
      (StdMap.WellFormed l →
        StdMap.WellFormed (v.foldl (fun acc o => RefList.add acc reg o) l)) ∧
      (∀ r, (RefList.origins l r).Nodup →
        (RefList.origins (v.foldl (fun acc o => RefList.add acc reg o) l) r).Nodup) ∧
      (∀ r x, x ∈ RefList.origins (v.foldl (fun acc o => RefList.add acc reg o) l) r ↔
        x ∈ RefList.origins l r ∨ (r = reg ∧ x ∈ v)) ∧
      ((∀ o ∈ v, o ∈ RefList.origins l reg) →
        v.foldl (fun acc o => RefList.add acc reg o) l = l) := by
  induction v with
  | nil => intro l; simp
  | cons o t ih =>
    intro l
    simp only [List.foldl_cons]
    obtain ⟨h1, h2, h3, h4⟩ := ih (RefList.add l reg o)
    refine ⟨?_, ?_, ?_, ?_⟩
    · intro hw
      exact h1 (RefList.wellFormed_add l reg o hw)
    · intro r hn
      exact h2 r (RefList.nodup_origins_add l reg o r hn)
    · intro r x
      rw [h3 r x, RefList.mem_origins_add]
      simp only [List.mem_cons]
      constructor
      · rintro ((h | ⟨h, h5⟩) | ⟨h, h5⟩)
        · exact Or.inl h
        · exact Or.inr ⟨h, Or.inl h5⟩
        · exact Or.inr ⟨h, Or.inr h5⟩
      · rintro (h | ⟨h, h5 | h5⟩)
        · exact Or.inl (Or.inl h)
        · exact Or.inl (Or.inr ⟨h, h5⟩)
        · exact Or.inr ⟨h, h5⟩
    · intro hall
      have h5 := RefList.add_of_mem_origins l reg o (hall o (by simp))
      rw [h5] at h4 ⊢
      exact h4 (fun o1 ho1 => hall o1 (by simp [ho1]))

/-- The effect of the register loop of `transitionTo` for one predecessor. -/
theorem RefList.addAll_spec (src : RefList) :
    ∀ l : RefList,
      (StdMap.WellFormed l → StdMap.WellFormed (RefList.addAll l src)) ∧
      (∀ r, (RefList.origins l r).Nodup → (RefList.origins (RefList.addAll l src) r).Nodup) ∧
      (∀ r x, x ∈ RefList.origins (RefList.addAll l src) r ↔
        x ∈ RefList.origins l r ∨ ∃ v, (r, v) ∈ src ∧ x ∈ v) ∧
      ((∀ mr ∈ src, ∀ o ∈ mr.2, o ∈ RefList.origins l mr.1) → RefList.addAll l src = l) := by
  unfold RefList.addAll
  induction src with
  | nil => intro l; simp
  | cons mr t ih =>
    intro l
    simp only [List.foldl_cons]
    obtain ⟨g1, g2, g3, g4⟩ := RefList.addOrigins_spec mr.1 mr.2 l
    obtain ⟨h1, h2, h3, h4⟩ := ih (mr.2.foldl (fun acc2 o => RefList.add acc2 mr.1 o) l)
    refine ⟨fun hw => h1 (g1 hw), fun r hn => h2 r (g2 r hn), ?_, ?_⟩
    · intro r x
      rw [h3 r x, g3 r x]
      simp only [List.mem_cons]
      constructor
      · rintro ((h | ⟨h, h5⟩) | ⟨v, h, h5⟩)
        · exact Or.inl h
        · exact Or.inr ⟨mr.2, Or.inl (by rw [h]), h5⟩
        · exact Or.inr ⟨v, Or.inr h, h5⟩
      · rintro (h | ⟨v, h | h, h5⟩)
        · exact Or.inl (Or.inl h)
        · have h6 : r = mr.1 ∧ v = mr.2 := by
            have := congrArg Prod.fst h
            have := congrArg Prod.snd h
            simp_all
          exact Or.inl (Or.inr ⟨h6.1, h6.2 ▸ h5⟩)
        · exact Or.inr ⟨v, h, h5⟩
    · intro hall
      have h5 := g4 (fun o ho => hall mr (by simp) o ho)
      rw [h5] at h4 ⊢
      exact h4 (fun mr1 hmr1 o ho => hall mr1 (by simp [hmr1]) o ho)

/-! ### The work set -/

theorem UseDefWorkSet.modifyRegSet_modifyRegSet (w : UseDefWorkSet) (f g : RefList → RefList) :
    (w.modifyRegSet f).modifyRegSet g = w.modifyRegSet (fun l => g (f l)) := by
  unfold UseDefWorkSet.modifyRegSet
  simp only [UseDefWorkSet.mk.injEq, and_true, if_true]
  funext i
  by_cases h : i = w.regSet <;> simp [h]

theorem UseDefWorkSet.modifyRegSet_id (w : UseDefWorkSet) :
    w.modifyRegSet (fun l => l) = w := by
  unfold UseDefWorkSet.modifyRegSet
  cases w
  simp only [UseDefWorkSet.mk.injEq, and_true]
  funext i
  split
  · next h => rw [h]
  · rfl

theorem UseDefWorkSet.foldl_addToRegSet_inner (reg : Int) (v : List UDStateRef) :
    ∀ w : UseDefWorkSet,
      v.foldl (fun acc2 o => acc2.addToRegSet reg o) w =
        w.modifyRegSet (fun l => v.foldl (fun acc o => RefList.add acc reg o) l) := by
  induction v with
  | nil => intro w; simp [UseDefWorkSet.modifyRegSet_id]
  | cons o t ih =>
    intro w
    simp only [List.foldl_cons]
    rw [ih, UseDefWorkSet.addToRegSet, UseDefWorkSet.modifyRegSet_modifyRegSet]

theorem UseDefWorkSet.foldl_addToRegSet (src : RefList) :
    ∀ w : UseDefWorkSet,
      src.foldl (fun acc mr => mr.2.foldl (fun acc2 o => acc2.addToRegSet mr.1 o) acc) w =
        w.modifyRegSet (fun l => RefList.addAll l src) := by
  unfold RefList.addAll
  induction src with
  | nil => intro w; simp [UseDefWorkSet.modifyRegSet_id]
  | cons mr t ih =>
    intro w
    simp only [List.foldl_cons]
    rw [UseDefWorkSet.foldl_addToRegSet_inner, ih, UseDefWorkSet.modifyRegSet_modifyRegSet]

/-- The fields of the work set after the loop body of `transitionTo` for `link`. -/
theorem UseDefWorkSet.transitionLink_fields (w : UseDefWorkSet) (link : Nat) :
    (w.transitionLink link).regSet = w.regSet ∧
      (w.transitionLink link).memSet = w.memSet ∧
      (w.transitionLink link).stateList = w.stateList ∧
      (∀ i, (w.transitionLink link).nodeExposedRegSetList i =
        if i = w.regSet then
          RefList.addAll (w.nodeExposedRegSetList w.regSet) (w.nodeExposedRegSetList link)
        else w.nodeExposedRegSetList i) ∧
      (∀ i, (w.transitionLink link).nodeExposedMemSetList i =
        if i = w.memSet then
          MemOriginList.addList (w.nodeExposedMemSetList w.memSet)
            (w.nodeExposedMemSetList link)
        else w.nodeExposedMemSetList i) := by
  unfold UseDefWorkSet.transitionLink
  simp only [UseDefWorkSet.foldl_addToRegSet]
  simp [UseDefWorkSet.modifyRegSet, UseDefWorkSet.modifyMemSet]

theorem MemOriginList.add_of_mem (l : MemOriginList) (e : MemOrigin) (h : e ∈ l)
    (hc : MemLocation.ofTree e.place ≠ none) :
    MemOriginList.add l e.place e.origin = l := by
  unfold MemOriginList.add
  have : (l.any fun mem => decide (mem.origin = e.origin) &&
      MemOrigin.sameLocation e.place mem) = true := by
    simp only [List.any_eq_true, Bool.and_eq_true, decide_eq_true_eq]
    exact ⟨e, h, rfl, MemOrigin.sameLocation_self e.place e.origin hc⟩
  simp [this]

theorem MemOriginList.addList_of_subset (src l : MemOriginList) (h : ∀ e ∈ src, e ∈ l)
    (hc : ∀ e ∈ src, MemLocation.ofTree e.place ≠ none) :
    MemOriginList.addList l src = l := by
  unfold MemOriginList.addList
  induction src with
  | nil => rfl
  | cons e t ih =>
    simp only [List.foldl_cons]
    rw [MemOriginList.add_of_mem l e (h e (by simp)) (hc e (by simp))]
    exact ih (fun x hx => h x (by simp [hx])) (fun x hx => hc x (by simp [hx]))

theorem MemOriginList.mem_add (l : MemOriginList) (place : TreeNode) (origin : UDStateRef)
    (e : MemOrigin) (h : e ∈ MemOriginList.add l place origin) :
    e ∈ l ∨ e = ⟨place, origin⟩ := by
  unfold MemOriginList.add at h
  dsimp only at h
  split at h
  · simpa using h
  · exact Or.inl h

theorem MemOriginList.mem_addList (src : MemOriginList) :
    ∀ (l : MemOriginList) (e : MemOrigin), e ∈ MemOriginList.addList l src → e ∈ l ∨ e ∈ src := by
  unfold MemOriginList.addList
  induction src with
  | nil => intro l e h; exact Or.inl h
  | cons x t ih =>
    intro l e h
    simp only [List.foldl_cons] at h
    rcases ih _ e h with h1 | h1
    · rcases MemOriginList.mem_add _ _ _ e h1 with h2 | h2
      · exact Or.inl h2
      · exact Or.inr (by rw [h2]; exact List.mem_cons_self _ _)
    · exact Or.inr (List.mem_cons_of_mem _ h1)

theorem MemOriginList.mem_foldl_addList (lists : Nat → MemOriginList) (ps : List Nat) :
    ∀ (l : MemOriginList) (e : MemOrigin),
      e ∈ ps.foldl (fun acc p => MemOriginList.addList acc (lists p)) l →
      e ∈ l ∨ ∃ p ∈ ps, e ∈ lists p := by
  induction ps with
  | nil => intro l e h; exact Or.inl h
  | cons p t ih =>
    intro l e h
    simp only [List.foldl_cons] at h
    rcases ih _ e h with h1 | ⟨q, hq, h1⟩
    · rcases MemOriginList.mem_addList _ _ e h1 with h2 | h2
      · exact Or.inl h2
      · exact Or.inr ⟨p, by simp, h2⟩
    · exact Or.inr ⟨q, by simp [hq], h1⟩

theorem RefList.origins_of_wellFormed (src : RefList) (h : StdMap.WellFormed src)
    (r : Int) (x : UDStateRef) :
    (∃ v, (r, v) ∈ src ∧ x ∈ v) ↔ x ∈ RefList.origins src r := by
  unfold RefList.origins RefList.get
  constructor
  · rintro ⟨v, hv, hx⟩
    rw [StdMap.find_of_mem src h r v hv]
    exact hx
  · intro hx
    cases hf : StdMap.find src r with
    | none => simp [hf] at hx
    | some v =>
      rw [hf] at hx
      exact ⟨v, StdMap.mem_of_find src r v hf, hx⟩

/-- What the loop over the predecessors in `transitionTo` has built after the links
`links`, starting from the cleared sets of node `n`. -/
theorem UseDefWorkSet.transitionLinks_spec (w : UseDefWorkSet) (n : Nat) (links : List Nat)
    (hwf : ∀ p ∈ links, p ≠ n → StdMap.WellFormed (w.nodeExposedRegSetList p)) :
    (links.foldl UseDefWorkSet.transitionLink
        ((({ w with regSet := n, memSet := n } : UseDefWorkSet).modifyRegSet
          RefList.clear).modifyMemSet MemOriginList.clear)).regSet = n ∧
      (links.foldl UseDefWorkSet.transitionLink
        ((({ w with regSet := n, memSet := n } : UseDefWorkSet).modifyRegSet
          RefList.clear).modifyMemSet MemOriginList.clear)).memSet = n ∧
      (links.foldl UseDefWorkSet.transitionLink
        ((({ w with regSet := n, memSet := n } : UseDefWorkSet).modifyRegSet
          RefList.clear).modifyMemSet MemOriginList.clear)).stateList = w.stateList ∧
      (∀ i, i ≠ n →
        (links.foldl UseDefWorkSet.transitionLink
          ((({ w with regSet := n, memSet := n } : UseDefWorkSet).modifyRegSet
            RefList.clear).modifyMemSet MemOriginList.clear)).nodeExposedRegSetList i =
          w.nodeExposedRegSetList i ∧
        (links.foldl UseDefWorkSet.transitionLink
          ((({ w with regSet := n, memSet := n } : UseDefWorkSet).modifyRegSet
            RefList.clear).modifyMemSet MemOriginList.clear)).nodeExposedMemSetList i =
          w.nodeExposedMemSetList i) ∧
      StdMap.WellFormed
        ((links.foldl UseDefWorkSet.transitionLink
          ((({ w with regSet := n, memSet := n } : UseDefWorkSet).modifyRegSet
            RefList.clear).modifyMemSet MemOriginList.clear)).nodeExposedRegSetList n) ∧
      (∀ r, (RefList.origins
        ((links.foldl UseDefWorkSet.transitionLink
          ((({ w with regSet := n, memSet := n } : UseDefWorkSet).modifyRegSet
            RefList.clear).modifyMemSet MemOriginList.clear)).nodeExposedRegSetList n)
        r).Nodup) ∧
      (∀ r x, x ∈ RefList.origins
        ((links.foldl UseDefWorkSet.transitionLink
          ((({ w with regSet := n, memSet := n } : UseDefWorkSet).modifyRegSet
            RefList.clear).modifyMemSet MemOriginList.clear)).nodeExposedRegSetList n) r ↔
        ∃ p ∈ links, p ≠ n ∧ x ∈ RefList.origins (w.nodeExposedRegSetList p) r) ∧
      ((n ∈ links → ∀ p ∈ links, p ≠ n → ∀ e ∈ w.nodeExposedMemSetList p,
          MemLocation.ofTree e.place ≠ none) →
        (links.foldl UseDefWorkSet.transitionLink
          ((({ w with regSet := n, memSet := n } : UseDefWorkSet).modifyRegSet
            RefList.clear).modifyMemSet MemOriginList.clear)).nodeExposedMemSetList n =
          (links.filter (fun p => decide (p ≠ n))).foldl
            (fun acc p => MemOriginList.addList acc (w.nodeExposedMemSetList p)) []) := by
  induction links using List.reverseRecOn with
  | nil =>
    simp [UseDefWorkSet.modifyRegSet, UseDefWorkSet.modifyMemSet, RefList.clear,
      MemOriginList.clear, StdMap.WellFormed, RefList.origins, RefList.get, StdMap.find]
    intro i hi
    simp [hi]
  | append_singleton done p ih =>
    have ih1 := ih (fun q hq hn => hwf q (by simp [hq]) hn)
    simp only [List.foldl_append, List.foldl_cons, List.foldl_nil]
    generalize hk : (done.foldl UseDefWorkSet.transitionLink
        ((({ w with regSet := n, memSet := n } : UseDefWorkSet).modifyRegSet
          RefList.clear).modifyMemSet MemOriginList.clear)) = wk at ih1 ⊢
    obtain ⟨i1, i2, i3, i4, i5, i6, i7, i8⟩ := ih1
    obtain ⟨f1, f2, f3, f4, f5⟩ := UseDefWorkSet.transitionLink_fields wk p
    rw [f1, f2, f3]
    refine ⟨i1, i2, i3, ?_, ?_⟩
    · intro i hi
      rw [f4 i, f5 i, i1, i2]
      simp only [hi, if_false]
      exact i4 i hi
    · rw [f4 n, f5 n, i1, i2]
      simp only [if_true]
      by_cases hp : p = n
      · have hcan : (n ∈ done ++ [p] → ∀ q ∈ done ++ [p], q ≠ n →
            ∀ e ∈ w.nodeExposedMemSetList q, MemLocation.ofTree e.place ≠ none) →
            (wk.nodeExposedMemSetList n =
              (done.filter (fun p => decide (p ≠ n))).foldl
                (fun acc p => MemOriginList.addList acc (w.nodeExposedMemSetList p)) []) ∧
            ∀ e ∈ wk.nodeExposedMemSetList n, MemLocation.ofTree e.place ≠ none := by
          intro hself
          have i9 := i8 (fun hn q hq => hself (by simp [hn]) q (by simp [hq]))
          refine ⟨i9, ?_⟩
          intro e he
          rw [i9] at he
          rcases MemOriginList.mem_foldl_addList _ _ _ e he with h | ⟨q, hq, h⟩
          · simp at h
          · obtain ⟨hq1, hq2⟩ := List.mem_filter.mp hq
            exact hself (by simp [hp]) q (by simp [hq1]) (by simpa using hq2) e h
        subst hp
        have hno : RefList.addAll (wk.nodeExposedRegSetList p) (wk.nodeExposedRegSetList p) =
            wk.nodeExposedRegSetList p := by
          apply (RefList.addAll_spec _ _).2.2.2
          intro mr hmr o ho
          exact (RefList.origins_of_wellFormed _ i5 mr.1 o).mp ⟨mr.2, hmr, ho⟩
        rw [hno]
        refine ⟨i5, i6, ?_, ?_⟩
        · intro r x
          rw [i7 r x]
          constructor
          · rintro ⟨q, hq, hqn, hx⟩
            exact ⟨q, by simp [hq], hqn, hx⟩
          · rintro ⟨q, hq, hqn, hx⟩
            rcases List.mem_append.mp hq with h | h
            · exact ⟨q, h, hqn, hx⟩
            · exact absurd (by simpa using h) hqn
        · intro hself
          obtain ⟨i9, hc⟩ := hcan hself
          rw [MemOriginList.addList_of_subset _ _ (fun e he => he) hc, i9]
          simp [List.filter_append]
      · obtain ⟨g1, g2, g3, _⟩ := RefList.addAll_spec (wk.nodeExposedRegSetList p)
          (wk.nodeExposedRegSetList n)
        rw [(i4 p hp).1] at g1 g2 g3 ⊢
        rw [(i4 p hp).2]
        refine ⟨g1 i5, fun r => g2 r (i6 r), ?_, ?_⟩
        · intro r x
          rw [g3 r x, i7 r x,
            RefList.origins_of_wellFormed _ (hwf p (by simp) hp) r x]
          constructor
          · rintro (⟨q, hq, hqn, hx⟩ | hx)
            · exact ⟨q, by simp [hq], hqn, hx⟩
            · exact ⟨p, by simp, hp, hx⟩
          · rintro ⟨q, hq, hqn, hx⟩
            rcases List.mem_append.mp hq with h | h
            · exact Or.inl ⟨q, h, hqn, hx⟩
            · have : q = p := by simpa using h
              exact Or.inr (this ▸ hx)
        · intro hself
          rw [i8 (fun hn q hq => hself (by simp [hn]) q (by simp [hq]))]
          simp [List.filter_append, hp, List.foldl_append]

theorem UseDefWorkSet.sameExposed_refl (w : UseDefWorkSet) : w.SameExposed w :=
  ⟨rfl, rfl, rfl, rfl⟩

theorem UseDefWorkSet.sameExposed_symm {w w1 : UseDefWorkSet} (h : w.SameExposed w1) :
    w1.SameExposed w :=
  ⟨h.1.symm, h.2.1.symm, h.2.2.1.symm, h.2.2.2.symm⟩

theorem UseDefWorkSet.sameExposed_trans {w w1 w2 : UseDefWorkSet} (h : w.SameExposed w1)
    (h1 : w1.SameExposed w2) : w.SameExposed w2 :=
  ⟨h.1.trans h1.1, h.2.1.trans h1.2.1, h.2.2.1.trans h1.2.2.1, h.2.2.2.trans h1.2.2.2⟩

theorem UseDefWorkSet.sameExposed_modifyState (w : UseDefWorkSet) (state : UDStateRef)
    (f : UDState → UDState) : (w.modifyState state f).SameExposed w :=
  ⟨rfl, rfl, rfl, rfl⟩

theorem UseDefWorkSet.sameExposed_foldl {β : Type} (step : UseDefWorkSet → β → UseDefWorkSet)
    (hstep : ∀ acc b, (step acc b).SameExposed acc) (l : List β) :
    ∀ w : UseDefWorkSet, (l.foldl step w).SameExposed w := by
  induction l with
  | nil => intro w; exact UseDefWorkSet.sameExposed_refl w
  | cons b t ih =>
    intro w
    simp only [List.foldl_cons]
    exact UseDefWorkSet.sameExposed_trans (ih (step w b)) (hstep w b)

theorem UseDef.sameExposed_useReg (w : UseDefWorkSet) (state : UDStateRef) (reg : Int) :
    (UseDef.useReg w state reg).SameExposed w := by
  unfold UseDef.useReg
  cases w.getRegSet reg with
  | none => exact UseDefWorkSet.sameExposed_refl w
  | some origins =>
    exact UseDefWorkSet.sameExposed_foldl _
      (fun acc _ => UseDefWorkSet.sameExposed_modifyState acc state _) origins w

theorem UseDef.sameExposed_useMem (w : UseDefWorkSet) (state : UDStateRef)
    (place : TreeNode) (reg : Int) : (UseDef.useMem w state place reg).SameExposed w := by
  unfold UseDef.useMem UseDefWorkSet.copyFromMemSetFor
  apply UseDefWorkSet.sameExposed_foldl
  intro acc m
  split
  · exact UseDefWorkSet.sameExposed_modifyState acc state _
  · exact UseDefWorkSet.sameExposed_refl acc

/-- Calls carried out on work sets with the same exposed sets give the same
exposed sets. -/
theorem UseDef.sameExposed_runCall (state : UDStateRef) (c : Call) (w w1 : UseDefWorkSet)
    (h : w.SameExposed w1) :
    (UseDef.runCall state w c).SameExposed (UseDef.runCall state w1 c) := by
  cases c with
  | useReg reg =>
    exact UseDefWorkSet.sameExposed_trans (UseDef.sameExposed_useReg w state reg)
      (UseDefWorkSet.sameExposed_trans h
        (UseDefWorkSet.sameExposed_symm (UseDef.sameExposed_useReg w1 state reg)))
  | useMem place reg =>
    exact UseDefWorkSet.sameExposed_trans (UseDef.sameExposed_useMem w state place reg)
      (UseDefWorkSet.sameExposed_trans h
        (UseDefWorkSet.sameExposed_symm (UseDef.sameExposed_useMem w1 state place reg)))
  | defReg reg tree =>
    obtain ⟨h1, h2, h3, h4⟩ := h
    unfold UseDef.runCall UseDef.defReg
    by_cases hr : reg ≠ -1
    · simp only [hr, if_true, ne_eq, not_false_eq_true]
      simp [UseDefWorkSet.SameExposed, UseDefWorkSet.setAsRegSet, UseDefWorkSet.modifyRegSet,
        UseDefWorkSet.modifyState, h1, h2, h3, h4]
    · simp only [hr, if_false]
      exact ⟨h1, h2, h3, h4⟩
  | defMem place reg =>
    obtain ⟨h1, h2, h3, h4⟩ := h
    simp [UseDef.runCall, UseDef.defMem, UseDefWorkSet.SameExposed,
      UseDefWorkSet.setAsMemSet, UseDefWorkSet.modifyMemSet, UseDefWorkSet.modifyState,
      h1, h2, h3, h4]

/-- What a call does to the current `reg_exposed[r]`. -/
theorem UseDef.getRegSet_runCall (state : UDStateRef) (c : Call) (w : UseDefWorkSet)
    (r : Int) :
    (UseDef.runCall state w c).regSet = w.regSet ∧
      (UseDef.runCall state w c).getRegSet r =
        if c.definesReg r then some [state] else w.getRegSet r := by
  cases c with
  | useReg reg =>
    obtain ⟨h1, _, h3, _⟩ := UseDef.sameExposed_useReg w state reg
    simp [UseDef.runCall, UseDefWorkSet.getRegSet, Call.definesReg, h1, h3]
  | useMem place reg =>
    obtain ⟨h1, _, h3, _⟩ := UseDef.sameExposed_useMem w state place reg
    simp [UseDef.runCall, UseDefWorkSet.getRegSet, Call.definesReg, h1, h3]
  | defMem place reg =>
    simp [UseDef.runCall, UseDef.defMem, UseDefWorkSet.getRegSet, Call.definesReg,
      UseDefWorkSet.setAsMemSet, UseDefWorkSet.modifyMemSet, UseDefWorkSet.modifyState]
  | defReg reg tree =>
    unfold UseDef.runCall UseDef.defReg
    by_cases hr : reg ≠ -1
    · simp only [hr, if_true, ne_eq, not_false_eq_true]
      simp only [UseDefWorkSet.getRegSet, UseDefWorkSet.setAsRegSet,
        UseDefWorkSet.modifyRegSet, UseDefWorkSet.modifyState, if_true, RefList.get,
        RefList.set, StdMap.find_insert, Call.definesReg, true_and]
      by_cases h : r = reg
      · simp [h, hr]
      · have h2 : ¬ reg = r := fun h3 => h h3.symm
        simp [h, h2]
    · have h1 : reg = -1 := by simpa using hr
      simp [h1, Call.definesReg]

theorem UseDef.getRegSet_runAll (cs : List (UDStateRef × Call)) (r : Int) :
    ∀ w : UseDefWorkSet,
      (UseDef.runAll w cs).regSet = w.regSet ∧
      (UseDef.runAll w cs).getRegSet r =
        (match UseDef.lastDefinition cs r with
          | some s => some [s]
          | none => w.getRegSet r) := by
  unfold UseDef.runAll UseDef.lastDefinition
  induction cs with
  | nil => intro w; simp
  | cons sc t ih =>
    intro w
    simp only [List.foldl_cons]
    obtain ⟨h1, h2⟩ := ih (UseDef.runCall sc.1 w sc.2)
    obtain ⟨g1, g2⟩ := UseDef.getRegSet_runCall sc.1 sc.2 w r
    refine ⟨h1.trans g1, ?_⟩
    rw [h2, g2]
    by_cases hd : sc.2.definesReg r = true
    · simp only [List.filter_cons, hd, if_true]
      cases ht : (t.filter (fun sc => sc.2.definesReg r)).getLast? with
      | none =>
        have : t.filter (fun sc => sc.2.definesReg r) = [] := by
          simpa using ht
        simp [this]
      | some x =>
        rcases List.getLast?_eq_some_iff.mp ht with ⟨ys, hys⟩
        have : (sc :: List.filter (fun sc => sc.2.definesReg r) t).getLast? = some x := by
          rw [hys, ← List.cons_append, List.getLast?_append]; simp
        simp [this]
    · have hd1 : sc.2.definesReg r = false := by simpa using hd
      simp only [List.filter_cons, hd1, Bool.false_eq_true, if_false]

theorem UseDef.runAll_append (w : UseDefWorkSet) (cs ds : List (UDStateRef × Call)) :
    UseDef.runAll w (cs ++ ds) = UseDef.runAll (UseDef.runAll w cs) ds := by
  simp [UseDef.runAll, List.foldl_append]

theorem UseDef.analyzeInstruction_ok (R : RegisterFile) (config : UseDefConfiguration)
    (w w1 : UseDefWorkSet) (instr : Instruction)
    (h : UseDef.analyzeInstruction R config w instr = .ok w1) :
    w1 = UseDef.runAll w (UseDef.instructionCalls R config instr) := by
  unfold UseDef.analyzeInstruction at h
  unfold UseDef.instructionCalls
  cases hs : instr.semantic with
  | literal =>
    rw [hs] at h
    simp only [Except.ok.injEq] at h
    simp [UseDef.runAll, h]
  | assembly a =>
    rw [hs] at h
    simp only [UseDef.fillState] at h
    cases hr : (UseDef.fillStateCalls R config a).result with
    | error e => rw [hr] at h; simp at h
    | ok u =>
      rw [hr] at h
      simp only [Except.ok.injEq] at h
      simp only [UseDef.runAll, UseDef.run, List.foldl_map] at h ⊢
      exact h.symm

theorem UseDef.analyzeBlock_ok (R : RegisterFile) (config : UseDefConfiguration)
    (block : List Instruction) :
    ∀ w w1 : UseDefWorkSet,
      block.foldlM (UseDef.analyzeInstruction R config) w = .ok w1 →
      w1 = UseDef.runAll w (UseDef.blockCalls R config block) := by
  induction block with
  | nil =>
    intro w w1 h
    simp only [List.foldlM_nil, pure, Except.pure, Except.ok.injEq] at h
    simp [UseDef.blockCalls, UseDef.runAll, h]
  | cons instr t ih =>
    intro w w1 h
    simp only [List.foldlM_cons, bind, Except.bind] at h
    cases hi : UseDef.analyzeInstruction R config w instr with
    | error e => rw [hi] at h; simp at h
    | ok w2 =>
      rw [hi] at h
      simp only at h
      have h1 := UseDef.analyzeInstruction_ok R config w w2 instr hi
      have h2 := ih w2 w1 h
      rw [h2, h1]
      simp only [UseDef.blockCalls, List.foldr_cons]
      rw [UseDef.runAll_append]

theorem UseDef.analyzeNode_ok (R : RegisterFile) (config : UseDefConfiguration)
    (w w1 : UseDefWorkSet) (n : Nat) (h : UseDef.analyzeNode R config w n = .ok w1) :
    ∃ node : ControlFlowNode, config.cfg.get n = .ok node ∧
      w1 = UseDef.runAll (w.transitionTo n node) (UseDef.blockCalls R config node.block) := by
  unfold UseDef.analyzeNode at h
  cases hg : config.cfg.get n with
  | error e => rw [hg] at h; simp [bind, Except.bind] at h
  | ok node =>
    rw [hg] at h
    simp only [bind, Except.bind] at h
    exact ⟨node, rfl, UseDef.analyzeBlock_ok R config node.block _ _ h⟩

theorem UseDefWorkSet.transitionLinks_regSet (links : List Nat) :
    ∀ w : UseDefWorkSet, (links.foldl UseDefWorkSet.transitionLink w).regSet = w.regSet := by
  induction links with
  | nil => intro w; rfl
  | cons p t ih =>
    intro w
    simp only [List.foldl_cons]
    rw [ih, (UseDefWorkSet.transitionLink_fields w p).1]

theorem UseDefWorkSet.transitionTo_regSet (w : UseDefWorkSet) (n : Nat)
    (node : ControlFlowNode) : (w.transitionTo n node).regSet = n := by
  unfold UseDefWorkSet.transitionTo
  simp only []
  rw [UseDefWorkSet.transitionLinks_regSet]
  rfl

theorem UseDef.lastDefinition_mem (R : RegisterFile) (config : UseDefConfiguration)
    (block : List Instruction) (r : Int) (s : UDStateRef)
    (h : UseDef.lastDefinition (UseDef.blockCalls R config block) r = some s) :
    ∃ instr ∈ block, instr.state = s ∧
      ∃ c : Call, (s, c) ∈ UseDef.instructionCalls R config instr ∧ c.definesReg r = true := by
  unfold UseDef.lastDefinition at h
  cases hl : ((UseDef.blockCalls R config block).filter
      (fun sc => sc.2.definesReg r)).getLast? with
  | none => rw [hl] at h; simp at h
  | some sc =>
    rw [hl] at h
    simp only [Option.map_some', Option.some.injEq] at h
    have h1 := List.mem_of_getLast?_eq_some hl
    obtain ⟨h2, h3⟩ := List.mem_filter.mp h1
    have h4 : ∀ (b : List Instruction), sc ∈ UseDef.blockCalls R config b →
        ∃ instr ∈ b, sc ∈ UseDef.instructionCalls R config instr := by
      intro b
      induction b with
      | nil => intro hb; simp [UseDef.blockCalls] at hb
      | cons i t ih =>
        intro hb
        simp only [UseDef.blockCalls, List.foldr_cons, List.mem_append] at hb
        rcases hb with hb | hb
        · exact ⟨i, by simp, hb⟩
        · obtain ⟨j, hj, hj2⟩ := ih hb
          exact ⟨j, by simp [hj], hj2⟩
    obtain ⟨instr, hi, hi2⟩ := h4 block h2
    have h5 : sc.1 = instr.state := by
      unfold UseDef.instructionCalls at hi2
      cases hs : instr.semantic with
      | literal => rw [hs] at hi2; simp at hi2
      | assembly a =>
        rw [hs] at hi2
        simp only [List.mem_map] at hi2
        obtain ⟨c, _, hc⟩ := hi2
        rw [← hc]
    refine ⟨instr, hi, by rw [← h5, h], sc.2, ?_, h3⟩
    rw [← h]
    exact hi2

/-- C10, as stated, fails: a node that does not define a register exposes the states
its predecessors expose for it.  In the chain `MOV X0, #1` (node 0, state 100) then
`NOP` (node 1, state 101), node 1 exposes state 100 for `X0`, which is no state of
an instruction of node 1, and no call of node 1 defines `X0`. -/
theorem UseDef.analyzeNode_regExposed_counterexample :
    (UseDef.analyzeGraph RegisterFile.sample UseDefConfiguration.chain UseDefWorkSet.empty
        [0, 1]).toOption.map (fun w => RefList.get (w.nodeExposedRegSetList 1) 0) =
        some (some [100]) ∧
      (UseDefConfiguration.chain.cfg.get 1).toOption.map
        (fun node => node.block.map (fun instr => instr.state)) = some [101] ∧
      (UseDefConfiguration.chain.cfg.get 1).toOption.map
        (fun node => UseDef.lastDefinition
          (UseDef.blockCalls RegisterFile.sample UseDefConfiguration.chain node.block) 0) =
        some none := by
  decide

/-- C10, amended: after node `n` has been analysed, `reg_exposed[n][r]` is exactly
the state of the last instruction of `n` whose handler defined `r`, if the block has
one (such a state is not followed within `n` by another definition of `r`);
otherwise it is what `transitionTo(n)` seeded from the predecessors. -/
theorem UseDef.analyzeNode_regExposed (R : RegisterFile) (config : UseDefConfiguration)
    (w w1 : UseDefWorkSet) (n : Nat) (node : ControlFlowNode)
    (hnode : config.cfg.get n = .ok node)
    (h : UseDef.analyzeNode R config w n = .ok w1) :
    (∀ r : Int, RefList.get (w1.nodeExposedRegSetList n) r =
        (match UseDef.lastDefinition (UseDef.blockCalls R config node.block) r with
          | some s => some [s]
          | none => RefList.get ((w.transitionTo n node).nodeExposedRegSetList n) r)) ∧
      (∀ (r : Int) (s : UDStateRef),
        UseDef.lastDefinition (UseDef.blockCalls R config node.block) r = some s →
        ∃ instr ∈ node.block, instr.state = s ∧
          ∃ c : Call, (s, c) ∈ UseDef.instructionCalls R config instr ∧
            c.definesReg r = true) := by
  obtain ⟨node1, hn1, hw1⟩ := UseDef.analyzeNode_ok R config w w1 n h
  rw [hnode] at hn1
  simp only [Except.ok.injEq] at hn1
  subst hn1
  refine ⟨?_, fun r s hs => UseDef.lastDefinition_mem R config node.block r s hs⟩
  intro r
  obtain ⟨g1, g2⟩ := UseDef.getRegSet_runAll (UseDef.blockCalls R config node.block) r
    (w.transitionTo n node)
  rw [← hw1] at g1 g2
  have h3 := UseDefWorkSet.transitionTo_regSet w n node
  unfold UseDefWorkSet.getRegSet at g2
  rw [g1, h3] at g2
  exact g2

/-- Witness for C10 (amended): node 0 of the chain exposes the `MOV` state for `X0`. -/
theorem UseDef.analyzeNode_regExposed_witness :
    UseDefConfiguration.chain.cfg.get 0 = .ok ControlFlowNode.chainZero ∧
      UseDef.analyzeNode RegisterFile.sample UseDefConfiguration.chain UseDefWorkSet.empty 0
        = .ok UseDefWorkSet.chainAfterZero ∧
      RefList.get (UseDefWorkSet.chainAfterZero.nodeExposedRegSetList 0) 0 = some [100] :=
  ⟨rfl, rfl,
    ((UseDef.analyzeNode_regExposed RegisterFile.sample UseDefConfiguration.chain
      UseDefWorkSet.empty UseDefWorkSet.chainAfterZero 0 ControlFlowNode.chainZero
      rfl rfl).1 0).trans (by decide)⟩

/-! ### Passes over a group -/

theorem UseDef.sameExposed_runAll (cs : List (UDStateRef × Call)) :
    ∀ w w1 : UseDefWorkSet, w.SameExposed w1 →
      (UseDef.runAll w cs).SameExposed (UseDef.runAll w1 cs) := by
  unfold UseDef.runAll
  induction cs with
  | nil => intro w w1 h; exact h
  | cons sc t ih =>
    intro w w1 h
    simp only [List.foldl_cons]
    exact ih _ _ (UseDef.sameExposed_runCall sc.1 sc.2 w w1 h)

theorem UseDefWorkSet.sameExposed_transitionLink (w w1 : UseDefWorkSet) (link : Nat)
    (h : w.SameExposed w1) : (w.transitionLink link).SameExposed (w1.transitionLink link) := by
  obtain ⟨h1, h2, h3, h4⟩ := h
  obtain ⟨f1, f2, _, f4, f5⟩ := UseDefWorkSet.transitionLink_fields w link
  obtain ⟨g1, g2, _, g4, g5⟩ := UseDefWorkSet.transitionLink_fields w1 link
  refine ⟨?_, ?_, ?_, ?_⟩
  · funext i
    rw [f4 i, g4 i, h1, h3]
  · funext i
    rw [f5 i, g5 i, h2, h4]
  · rw [f1, g1, h3]
  · rw [f2, g2, h4]

theorem UseDefWorkSet.sameExposed_transitionLinks (links : List Nat) :
    ∀ w w1 : UseDefWorkSet, w.SameExposed w1 →
      (links.foldl UseDefWorkSet.transitionLink w).SameExposed
        (links.foldl UseDefWorkSet.transitionLink w1) := by
  induction links with
  | nil => intro w w1 h; exact h
  | cons p t ih =>
    intro w w1 h
    simp only [List.foldl_cons]
    exact ih _ _ (UseDefWorkSet.sameExposed_transitionLink w w1 p h)

theorem UseDefWorkSet.sameExposed_transitionTo (w w1 : UseDefWorkSet) (n : Nat)
    (node : ControlFlowNode) (h : w.exposed = w1.exposed) :
    (w.transitionTo n node).SameExposed (w1.transitionTo n node) := by
  unfold UseDefWorkSet.exposed at h
  simp only [Prod.mk.injEq] at h
  unfold UseDefWorkSet.transitionTo
  apply UseDefWorkSet.sameExposed_transitionLinks
  simp [UseDefWorkSet.SameExposed, UseDefWorkSet.modifyRegSet, UseDefWorkSet.modifyMemSet,
    h.1, h.2]

theorem UseDefWorkSet.exposed_of_sameExposed {w w1 : UseDefWorkSet} (h : w.SameExposed w1) :
    w.exposed = w1.exposed := by
  unfold UseDefWorkSet.exposed
  rw [h.1, h.2.1]

theorem UseDef.analyzeInstruction_transfer (R : RegisterFile) (config : UseDefConfiguration)
    (w w1 a : UseDefWorkSet) (instr : Instruction)
    (h : UseDef.analyzeInstruction R config w instr = .ok a) :
    UseDef.analyzeInstruction R config w1 instr =
      .ok (UseDef.runAll w1 (UseDef.instructionCalls R config instr)) := by
  unfold UseDef.analyzeInstruction at h ⊢
  unfold UseDef.instructionCalls
  cases hs : instr.semantic with
  | literal => simp [UseDef.runAll]
  | assembly a1 =>
    rw [hs] at h
    simp only [UseDef.fillState] at h ⊢
    cases hr : (UseDef.fillStateCalls R config a1).result with
    | error e => rw [hr] at h; simp at h
    | ok u => simp [UseDef.runAll, UseDef.run, List.foldl_map]

theorem UseDef.analyzeBlock_transfer (R : RegisterFile) (config : UseDefConfiguration)
    (block : List Instruction) :
    ∀ w w1 a : UseDefWorkSet,
      block.foldlM (UseDef.analyzeInstruction R config) w = .ok a →
      block.foldlM (UseDef.analyzeInstruction R config) w1 =
        .ok (UseDef.runAll w1 (UseDef.blockCalls R config block)) := by
  induction block with
  | nil => intro w w1 a _; simp [UseDef.blockCalls, UseDef.runAll, pure, Except.pure]
  | cons instr t ih =>
    intro w w1 a h
    simp only [List.foldlM_cons, bind, Except.bind] at h ⊢
    cases hi : UseDef.analyzeInstruction R config w instr with
    | error e => rw [hi] at h; simp at h
    | ok w2 =>
      rw [hi] at h
      simp only at h
      rw [UseDef.analyzeInstruction_transfer R config w w1 w2 instr hi]
      simp only
      rw [ih w2 _ a h]
      simp only [UseDef.blockCalls, List.foldr_cons]
      rw [UseDef.runAll_append]

/-- A node analysed from two work sets with the same exposed sets: if one analysis
succeeds so does the other, and the exposed sets agree afterwards. -/
theorem UseDef.analyzeNode_transfer (R : RegisterFile) (config : UseDefConfiguration)
    (w w1 a : UseDefWorkSet) (n : Nat) (h : UseDef.analyzeNode R config w n = .ok a)
    (he : w.exposed = w1.exposed) :
    ∃ b : UseDefWorkSet, UseDef.analyzeNode R config w1 n = .ok b ∧ a.SameExposed b := by
  obtain ⟨node, hn, ha⟩ := UseDef.analyzeNode_ok R config w a n h
  unfold UseDef.analyzeNode at h ⊢
  rw [hn] at h ⊢
  simp only [bind, Except.bind] at h ⊢
  refine ⟨_, UseDef.analyzeBlock_transfer R config node.block _ _ a h, ?_⟩
  rw [ha]
  exact UseDef.sameExposed_runAll _ _ _ (UseDefWorkSet.sameExposed_transitionTo w w1 n node he)

/-- The exposed sets after a pass over a group depend only on the exposed sets
before it. -/
theorem UseDef.analyzeGraph_transfer (R : RegisterFile) (config : UseDefConfiguration)
    (order : List Nat) :
    ∀ w w1 a : UseDefWorkSet, UseDef.analyzeGraph R config w order = .ok a →
      w.exposed = w1.exposed →
      ∃ b : UseDefWorkSet, UseDef.analyzeGraph R config w1 order = .ok b ∧
        a.exposed = b.exposed := by
  unfold UseDef.analyzeGraph
  induction order with
  | nil =>
    intro w w1 a h he
    simp only [List.foldlM_nil, pure, Except.pure, Except.ok.injEq] at h
    exact ⟨w1, rfl, h ▸ he⟩
  | cons n t ih =>
    intro w w1 a h he
    simp only [List.foldlM_cons, bind, Except.bind] at h ⊢
    cases hi : UseDef.analyzeNode R config w n with
    | error e => rw [hi] at h; simp at h
    | ok w2 =>
      rw [hi] at h
      simp only at h
      obtain ⟨b2, hb2, hs⟩ := UseDef.analyzeNode_transfer R config w w1 w2 n hi he
      rw [hb2]
      simp only
      exact ih w2 b2 a h (UseDefWorkSet.exposed_of_sameExposed hs)

/-! ### Frame: only the sets of the current node change -/

theorem UseDef.frame_runCall (state : UDStateRef) (c : Call) (w : UseDefWorkSet) :
    (UseDef.runCall state w c).regSet = w.regSet ∧
      (UseDef.runCall state w c).memSet = w.memSet ∧
      (∀ i, i ≠ w.regSet →
        (UseDef.runCall state w c).nodeExposedRegSetList i = w.nodeExposedRegSetList i) ∧
      (∀ i, i ≠ w.memSet →
        (UseDef.runCall state w c).nodeExposedMemSetList i = w.nodeExposedMemSetList i) := by
  cases c with
  | useReg reg =>
    obtain ⟨h1, h2, h3, h4⟩ := UseDef.sameExposed_useReg w state reg
    exact ⟨h3, h4, fun i _ => by simp [UseDef.runCall, h1],
      fun i _ => by simp [UseDef.runCall, h2]⟩
  | useMem place reg =>
    obtain ⟨h1, h2, h3, h4⟩ := UseDef.sameExposed_useMem w state place reg
    exact ⟨h3, h4, fun i _ => by simp [UseDef.runCall, h1],
      fun i _ => by simp [UseDef.runCall, h2]⟩
  | defReg reg tree =>
    unfold UseDef.runCall UseDef.defReg
    by_cases hr : reg ≠ -1
    · simp only [hr, if_true, ne_eq, not_false_eq_true]
      refine ⟨rfl, rfl, ?_, fun i _ => rfl⟩
      intro i hi
      simp [UseDefWorkSet.setAsRegSet, UseDefWorkSet.modifyRegSet, UseDefWorkSet.modifyState, hi]
    · have hr1 : reg = -1 := by simpa using hr
      subst hr1
      exact ⟨rfl, rfl, fun i _ => rfl, fun i _ => rfl⟩
  | defMem place reg =>
    refine ⟨rfl, rfl, fun i _ => rfl, ?_⟩
    intro i hi
    simp [UseDef.runCall, UseDef.defMem, UseDefWorkSet.setAsMemSet,
      UseDefWorkSet.modifyMemSet, UseDefWorkSet.modifyState, hi]

theorem UseDef.frame_runAll (cs : List (UDStateRef × Call)) :
    ∀ w : UseDefWorkSet,
      (UseDef.runAll w cs).regSet = w.regSet ∧
      (UseDef.runAll w cs).memSet = w.memSet ∧
      (∀ i, i ≠ w.regSet →
        (UseDef.runAll w cs).nodeExposedRegSetList i = w.nodeExposedRegSetList i) ∧
      (∀ i, i ≠ w.memSet →
        (UseDef.runAll w cs).nodeExposedMemSetList i = w.nodeExposedMemSetList i) := by
  unfold UseDef.runAll
  induction cs with
  | nil => intro w; exact ⟨rfl, rfl, fun i _ => rfl, fun i _ => rfl⟩
  | cons sc t ih =>
    intro w
    simp only [List.foldl_cons]
    obtain ⟨h1, h2, h3, h4⟩ := ih (UseDef.runCall sc.1 w sc.2)
    obtain ⟨g1, g2, g3, g4⟩ := UseDef.frame_runCall sc.1 sc.2 w
    refine ⟨h1.trans g1, h2.trans g2, ?_, ?_⟩
    · intro i hi
      rw [h3 i (by rw [g1]; exact hi), g3 i hi]
    · intro i hi
      rw [h4 i (by rw [g2]; exact hi), g4 i hi]

theorem UseDefWorkSet.frame_transitionLinks (links : List Nat) :
    ∀ w : UseDefWorkSet,
      (links.foldl UseDefWorkSet.transitionLink w).regSet = w.regSet ∧
      (links.foldl UseDefWorkSet.transitionLink w).memSet = w.memSet ∧
      (∀ i, i ≠ w.regSet →
        (links.foldl UseDefWorkSet.transitionLink w).nodeExposedRegSetList i =
          w.nodeExposedRegSetList i) ∧
      (∀ i, i ≠ w.memSet →
        (links.foldl UseDefWorkSet.transitionLink w).nodeExposedMemSetList i =
          w.nodeExposedMemSetList i) := by
  induction links with
  | nil => intro w; exact ⟨rfl, rfl, fun i _ => rfl, fun i _ => rfl⟩
  | cons p t ih =>
    intro w
    simp only [List.foldl_cons]
    obtain ⟨h1, h2, h3, h4⟩ := ih (w.transitionLink p)
    obtain ⟨g1, g2, _, g4, g5⟩ := UseDefWorkSet.transitionLink_fields w p
    refine ⟨h1.trans g1, h2.trans g2, ?_, ?_⟩
    · intro i hi
      rw [h3 i (by rw [g1]; exact hi), g4 i]
      simp [hi]
    · intro i hi
      rw [h4 i (by rw [g2]; exact hi), g5 i]
      simp [hi]

theorem UseDefWorkSet.frame_transitionTo (w : UseDefWorkSet) (n : Nat)
    (node : ControlFlowNode) :
    (w.transitionTo n node).regSet = n ∧ (w.transitionTo n node).memSet = n ∧
      (∀ i, i ≠ n →
        (w.transitionTo n node).nodeExposedRegSetList i = w.nodeExposedRegSetList i) ∧
      (∀ i, i ≠ n →
        (w.transitionTo n node).nodeExposedMemSetList i = w.nodeExposedMemSetList i) := by
  unfold UseDefWorkSet.transitionTo
  simp only []
  obtain ⟨h1, h2, h3, h4⟩ := UseDefWorkSet.frame_transitionLinks node.backwardLinks
    ((({ w with regSet := n, memSet := n } : UseDefWorkSet).modifyRegSet
      RefList.clear).modifyMemSet MemOriginList.clear)
  refine ⟨h1, h2, ?_, ?_⟩
  · intro i hi
    rw [h3 i hi]
    simp [UseDefWorkSet.modifyRegSet, UseDefWorkSet.modifyMemSet, hi]
  · intro i hi
    rw [h4 i hi]
    simp [UseDefWorkSet.modifyRegSet, UseDefWorkSet.modifyMemSet, hi]

/-- Analysing node `n` leaves the exposed sets of every other node as they were. -/
theorem UseDef.frame_analyzeNode (R : RegisterFile) (config : UseDefConfiguration)
    (w a : UseDefWorkSet) (n : Nat) (h : UseDef.analyzeNode R config w n = .ok a) :
    ∀ i, i ≠ n → a.nodeExposedRegSetList i = w.nodeExposedRegSetList i ∧
      a.nodeExposedMemSetList i = w.nodeExposedMemSetList i := by
  obtain ⟨node, _, ha⟩ := UseDef.analyzeNode_ok R config w a n h
  obtain ⟨g1, g2, g3, g4⟩ := UseDefWorkSet.frame_transitionTo w n node
  obtain ⟨_, _, h3, h4⟩ := UseDef.frame_runAll (UseDef.blockCalls R config node.block)
    (w.transitionTo n node)
  intro i hi
  rw [ha, h3 i (by rw [g1]; exact hi), h4 i (by rw [g2]; exact hi), g3 i hi, g4 i hi]
  exact ⟨rfl, rfl⟩

/-- A pass over a group leaves the exposed sets of the nodes outside it as they
were. -/
theorem UseDef.frame_analyzeGraph (R : RegisterFile) (config : UseDefConfiguration)
    (order : List Nat) :
    ∀ w a : UseDefWorkSet, UseDef.analyzeGraph R config w order = .ok a →
      ∀ i, i ∉ order → a.nodeExposedRegSetList i = w.nodeExposedRegSetList i ∧
        a.nodeExposedMemSetList i = w.nodeExposedMemSetList i := by
  unfold UseDef.analyzeGraph
  induction order with
  | nil =>
    intro w a h i _
    simp only [List.foldlM_nil, pure, Except.pure, Except.ok.injEq] at h
    rw [h]
    exact ⟨rfl, rfl⟩
  | cons n t ih =>
    intro w a h i hi
    simp only [List.foldlM_cons, bind, Except.bind] at h
    cases hn : UseDef.analyzeNode R config w n with
    | error e => rw [hn] at h; simp at h
    | ok w2 =>
      rw [hn] at h
      simp only at h
      have hi1 : i ≠ n := fun hc => hi (by simp [hc])
      have hi2 : i ∉ t := fun hc => hi (by simp [hc])
      obtain ⟨h1, h2⟩ := ih w2 a h i hi2
      obtain ⟨g1, g2⟩ := UseDef.frame_analyzeNode R config w w2 n hn i hi1
      exact ⟨h1.trans g1, h2.trans g2⟩

/-- C9, as stated, fails: in the loop 0 → 1 → 2 → 0 with `MOV X0, #1` in node 0,
analysed in the order 2, 1, 0, node 2 exposes nothing for `X0` after the two
passes of `analyze`, and the `MOV` state after a third pass. -/
theorem UseDef.third_pass_counterexample :
    (UseDef.analyze RegisterFile.sample UseDefConfiguration.cycle UseDefWorkSet.empty
        [[2, 1, 0]]).toOption.map (fun w => w.nodeExposedRegSetList 2) = some [] ∧
      ((UseDef.analyze RegisterFile.sample UseDefConfiguration.cycle UseDefWorkSet.empty
        [[2, 1, 0]]).bind (fun w => UseDef.analyzeGraph RegisterFile.sample
          UseDefConfiguration.cycle w [2, 1, 0])).toOption.map
            (fun w => w.nodeExposedRegSetList 2) = some [(0, [100])] := by
  decide

/-- C9, amended: the exposed sets after a pass over a group depend only on the
exposed sets before it; so when a pass leaves every node's exposed register and
memory sets as it found them, the next pass over the group succeeds and leaves them
so again. -/
theorem UseDef.third_pass_of_stable (R : RegisterFile) (config : UseDefConfiguration)
    (order : List Nat) (w1 w2 : UseDefWorkSet)
    (h : UseDef.analyzeGraph R config w1 order = .ok w2)
    (hs : w2.exposed = w1.exposed) :
    ∃ w3 : UseDefWorkSet, UseDef.analyzeGraph R config w2 order = .ok w3 ∧
      w3.exposed = w2.exposed := by
  obtain ⟨b, hb, he⟩ := UseDef.analyzeGraph_transfer R config order w1 w2 w2 h hs.symm
  exact ⟨b, hb, he.symm⟩

theorem UseDefWorkSet.chainAgain_exposed :
    UseDefWorkSet.chainAgain.exposed = UseDefWorkSet.chainStable.exposed := by
  have h : UseDef.analyzeGraph RegisterFile.sample UseDefConfiguration.chain
      UseDefWorkSet.chainStable [0, 1] = .ok UseDefWorkSet.chainAgain := rfl
  have hf := UseDef.frame_analyzeGraph RegisterFile.sample UseDefConfiguration.chain [0, 1]
    UseDefWorkSet.chainStable UseDefWorkSet.chainAgain h
  unfold UseDefWorkSet.exposed
  refine Prod.ext (funext fun i => ?_) (funext fun i => ?_)
  · by_cases h0 : i = 0
    · subst h0; decide
    · by_cases h1 : i = 1
      · subst h1; decide
      · exact (hf i (by simp [h0, h1])).1
  · by_cases h0 : i = 0
    · subst h0; decide
    · by_cases h1 : i = 1
      · subst h1; decide
      · exact (hf i (by simp [h0, h1])).2

/-- Witness for C9 (amended): a pass over the chain that leaves the exposed sets as
they were, and the pass after it. -/
theorem UseDef.third_pass_of_stable_witness :
    UseDef.analyzeGraph RegisterFile.sample UseDefConfiguration.chain
        UseDefWorkSet.chainStable [0, 1] = .ok UseDefWorkSet.chainAgain ∧
      UseDefWorkSet.chainAgain.exposed = UseDefWorkSet.chainStable.exposed ∧
      ∃ w3 : UseDefWorkSet,
        UseDef.analyzeGraph RegisterFile.sample UseDefConfiguration.chain
          UseDefWorkSet.chainAgain [0, 1] = .ok w3 ∧
        w3.exposed = UseDefWorkSet.chainAgain.exposed :=
  ⟨rfl, UseDefWorkSet.chainAgain_exposed,
    UseDef.third_pass_of_stable RegisterFile.sample UseDefConfiguration.chain [0, 1]
      UseDefWorkSet.chainStable UseDefWorkSet.chainAgain rfl
      UseDefWorkSet.chainAgain_exposed⟩

/-! ### The order of the analysis -/

theorem UseDef.analyzeGraph_append (R : RegisterFile) (config : UseDefConfiguration)
    (w : UseDefWorkSet) (o1 o2 : List Nat) :
    UseDef.analyzeGraph R config w (o1 ++ o2) =
      (UseDef.analyzeGraph R config w o1).bind (fun w1 => UseDef.analyzeGraph R config w1 o2) := by
  unfold UseDef.analyzeGraph
  rw [List.foldlM_append]
  rfl

theorem UseDef.analyzeGroup_eq (R : RegisterFile) (config : UseDefConfiguration)
    (w : UseDefWorkSet) (o : List Nat) :
    UseDef.analyzeGroup R config w o =
      UseDef.analyzeGraph R config w (if o.length > 1 then o ++ o else o) := by
  unfold UseDef.analyzeGroup
  by_cases h : o.length > 1
  · simp only [h, if_true, UseDef.analyzeGraph_append]
    rfl
  · simp only [h, if_false]
    cases UseDef.analyzeGraph R config w o <;> rfl

/-- C11: `analyze(order)` visits the nodes in the order of the schedule: the groups
in the given order, a group of at most one node once and a larger group twice in
succession, the nodes of a group in the given order; and a node is analysed by
`transitionTo` followed by its instructions in program order. -/
theorem UseDef.analyze_schedule (R : RegisterFile) (config : UseDefConfiguration)
    (order : List (List Nat)) :
    (∀ w : UseDefWorkSet, UseDef.analyze R config w order =
        (UseDef.schedule order).foldlM (UseDef.analyzeNode R config) w) ∧
      (∀ (w : UseDefWorkSet) (o : List Nat), UseDef.analyzeGroup R config w o =
        (if o.length > 1 then (o ++ o).foldlM (UseDef.analyzeNode R config) w
          else o.foldlM (UseDef.analyzeNode R config) w)) ∧
      (∀ (w : UseDefWorkSet) (n : Nat), UseDef.analyzeNode R config w n =
        (config.cfg.get n).bind (fun node =>
          node.block.foldlM (UseDef.analyzeInstruction R config) (w.transitionTo n node))) := by
  refine ⟨?_, ?_, fun w n => rfl⟩
  · unfold UseDef.analyze UseDef.schedule
    induction order with
    | nil => intro w; rfl
    | cons o t ih =>
      intro w
      simp only [List.foldlM_cons, List.foldr_cons, List.foldlM_append]
      rw [UseDef.analyzeGroup_eq]
      unfold UseDef.analyzeGraph
      congr 1
      funext w1
      exact ih w1
  · intro w o
    rw [UseDef.analyzeGroup_eq]
    unfold UseDef.analyzeGraph
    by_cases h : o.length > 1 <;> simp [h]

/-! ### Disabled opcodes, literals and errors -/

theorem UseDefConfiguration.isEnabled_iff (config : UseDefConfiguration) (id : arm64_insn) :
    config.isEnabled id = true ↔ id ∈ config.idList := by
  unfold UseDefConfiguration.isEnabled
  simp only [List.any_eq_true, decide_eq_true_eq]
  constructor
  · rintro ⟨x, hx, rfl⟩; exact hx
  · intro h; exact ⟨id, h, rfl⟩

theorem UseDef.fillStateCalls_disabled (R : RegisterFile) (config : UseDefConfiguration)
    (a : Assembly) (hd : a.id ∉ config.idList) (hat : a.id ≠ .ARM64_INS_AT) :
    (UseDef.fillStateCalls R config a).calls = [] ∧
      (UseDef.fillStateCalls R config a).result = .ok () := by
  have he : config.isEnabled a.id = false := by
    cases h : config.isEnabled a.id with
    | false => rfl
    | true => exact absurd ((UseDefConfiguration.isEnabled_iff config a.id).mp h) hd
  simp [UseDef.fillStateCalls, UseDef.callIfEnabled, hat, he, bind, Calls.bind, pure]

/-- C12: an instruction whose semantic is a literal data word, or whose opcode id is
not in the enabled list and is not `AT`, makes no call of a primitive and leaves the
whole work set as it was: the tables of its state and the exposed sets. -/
theorem UseDef.skipped_instruction_unchanged (R : RegisterFile)
    (config : UseDefConfiguration) (w : UseDefWorkSet) (instr : Instruction)
    (h : instr.semantic = .literal ∨
      ∃ a : Assembly, instr.semantic = .assembly a ∧ a.id ∉ config.idList ∧
        a.id ≠ .ARM64_INS_AT) :
    UseDef.analyzeInstruction R config w instr = .ok w ∧
      UseDef.instructionCalls R config instr = [] := by
  rcases h with h | ⟨a, h, hd, hat⟩
  · simp [UseDef.analyzeInstruction, UseDef.instructionCalls, h]
  · obtain ⟨h1, h2⟩ := UseDef.fillStateCalls_disabled R config a hd hat
    simp [UseDef.analyzeInstruction, UseDef.instructionCalls, h, UseDef.fillState, h1, h2,
      UseDef.run]

/-- Witness for C12: an instruction with an opcode id outside the enabled list. -/
theorem UseDef.skipped_instruction_unchanged_witness :
    (∃ a : Assembly, (⟨7, .assembly Assembly.unknownOpcode⟩ : Instruction).semantic =
        .assembly a ∧ a.id ∉ UseDefConfiguration.chain.idList ∧ a.id ≠ .ARM64_INS_AT) ∧
      UseDef.instructionCalls RegisterFile.sample UseDefConfiguration.chain
        ⟨7, .assembly Assembly.unknownOpcode⟩ = [] :=
  ⟨⟨Assembly.unknownOpcode, rfl, by decide, by decide⟩,
    (UseDef.skipped_instruction_unchanged RegisterFile.sample UseDefConfiguration.chain
      UseDefWorkSet.chainStable ⟨7, .assembly Assembly.unknownOpcode⟩
      (Or.inr ⟨Assembly.unknownOpcode, rfl, by decide, by decide⟩)).2⟩

/-- C15: `AT` throws whether or not its id is enabled; `LDP` and `STP` throw in every
mode other than `REG_REG_MEM` and `REG_REG_MEM_IMM`, `LDAXR` in every mode other
than `REG_MEM`; none of them calls a primitive before it throws. -/
theorem UseDef.fatal_errors (R : RegisterFile) :
    (∀ (config : UseDefConfiguration) (a : Assembly), a.id = .ARM64_INS_AT →
        (UseDef.fillStateCalls R config a).calls = [] ∧
        (UseDef.fillStateCalls R config a).result = .error "AT should be an alias for SYS" ∧
        ∀ (w : UseDefWorkSet) (state : UDStateRef),
          UseDef.fillState R config w state a = .error "AT should be an alias for SYS") ∧
      (∀ a : Assembly, a.mode ≠ .MODE_REG_REG_MEM → a.mode ≠ .MODE_REG_REG_MEM_IMM →
        (UseDef.fillLdp R a).calls = [] ∧
        (UseDef.fillLdp R a).result = .error "unknown mode for LDP") ∧
      (∀ a : Assembly, a.mode ≠ .MODE_REG_REG_MEM → a.mode ≠ .MODE_REG_REG_MEM_IMM →
        (UseDef.fillStp R a).calls = [] ∧
        (UseDef.fillStp R a).result = .error "unknown mode for STP") ∧
      (∀ a : Assembly, a.mode ≠ .MODE_REG_MEM →
        (UseDef.fillLdaxr R a).calls = [] ∧
        (UseDef.fillLdaxr R a).result = .error "unknown mode for LDAXR") ∧
      (∀ (config : UseDefConfiguration) (a : Assembly) (w : UseDefWorkSet)
        (state : UDStateRef), a.id ∈ config.idList →
        ((a.id = .ARM64_INS_LDP ∨ a.id = .ARM64_INS_STP) ∧
            a.mode ≠ .MODE_REG_REG_MEM ∧ a.mode ≠ .MODE_REG_REG_MEM_IMM) ∨
          (a.id = .ARM64_INS_LDAXR ∧ a.mode ≠ .MODE_REG_MEM) →
        (UseDef.fillStateCalls R config a).calls = [] ∧
        ∃ msg : String, UseDef.fillState R config w state a = .error msg) := by
  refine ⟨?_, ?_, ?_, ?_, ?_⟩
  · intro config a h
    simp [UseDef.fillStateCalls, UseDef.fillState, h, Calls.throw]
  · intro a h1 h2
    simp [UseDef.fillLdp, h1, h2, Calls.throw]
  · intro a h1 h2
    simp [UseDef.fillStp, h1, h2, Calls.throw]
  · intro a h1
    simp [UseDef.fillLdaxr, h1, Calls.throw]
  · intro config a w state hen hm
    have he : config.isEnabled a.id = true := (UseDefConfiguration.isEnabled_iff config a.id).mpr hen
    rcases hm with ⟨hid | hid, h1, h2⟩ | ⟨hid, h1⟩
    · rw [hid] at he
      simp [UseDef.fillStateCalls, UseDef.fillState, UseDef.callIfEnabled, hid, he,
        UseDef.handlers, UseDef.fillLdp, h1, h2, Calls.throw, bind, Calls.bind]
    · rw [hid] at he
      simp [UseDef.fillStateCalls, UseDef.fillState, UseDef.callIfEnabled, hid, he,
        UseDef.handlers, UseDef.fillStp, h1, h2, Calls.throw, bind, Calls.bind]
    · rw [hid] at he
      simp [UseDef.fillStateCalls, UseDef.fillState, UseDef.callIfEnabled, hid, he,
        UseDef.handlers, UseDef.fillLdaxr, h1, Calls.throw, bind, Calls.bind]

/-- Witness for C15: `AT` with a configuration that does not enable it, and `LDP` in
the mode `REG_MEM`. -/
theorem UseDef.fatal_errors_witness :
    (Assembly.atInstruction.id = .ARM64_INS_AT ∧
        (UseDef.fillStateCalls RegisterFile.sample UseDefConfiguration.chain
          Assembly.atInstruction).calls = []) ∧
      (Assembly.ldpOtherMode.mode ≠ .MODE_REG_REG_MEM ∧
        Assembly.ldpOtherMode.mode ≠ .MODE_REG_REG_MEM_IMM ∧
        (UseDef.fillLdp RegisterFile.sample Assembly.ldpOtherMode).result =
          .error "unknown mode for LDP") :=
  ⟨⟨rfl, ((UseDef.fatal_errors RegisterFile.sample).1 UseDefConfiguration.chain
      Assembly.atInstruction rfl).1⟩,
    by decide, by decide,
    ((UseDef.fatal_errors RegisterFile.sample).2.1 Assembly.ldpOtherMode
      (by decide) (by decide)).2⟩

/-! ### Unrecognised modes and index registers -/

/-- C16, as stated, fails: a handler that meets an operand mode it does not name
returns without any call (here `MOV` and `LDR`), and a store whose memory operand
has an index register only uses its two registers; neither defines a register. -/
theorem UseDef.havoc_counterexample :
    (UseDef.fillMov RegisterFile.sample Assembly.movOtherMode).calls = [] ∧
      (UseDef.fillMov RegisterFile.sample Assembly.movOtherMode).isOk = true ∧
      (UseDef.fillLdr RegisterFile.sample
        { Assembly.ldrIndexed with mode := .other 0 }).calls = [] ∧
      (UseDef.fillStr RegisterFile.sample Assembly.strIndexed).calls =
        [.useReg 0, .useReg 1] ∧
      (UseDef.fillStr RegisterFile.sample Assembly.strIndexed).isOk = true := by
  decide

/-- C16, amended: a load in the mode `REG_MEM` whose memory operand has an index
register uses the base and emits the self-definition `def r0 := PhysReg(r0, w0)`,
after which `reg_exposed[r0]` is the current state alone; a store with an index
register uses its register and the base and defines nothing; and the handlers that
log `skipping mode` for an operand mode they do not name make no call at all. -/
theorem UseDef.havoc_cases (R : RegisterFile) (a : Assembly) :
    (a.postIndex = false → (a.getOperand 1).mem.index ≠ R.INVALID_REGISTER →
      ∀ width : Nat,
        (UseDef.fillMemToReg R a width).calls =
          [.useReg (R.convertToPhysical (a.getOperand 1).mem.base),
            .defReg (R.convertToPhysical (a.getOperand 0).reg)
              (some (.PhysicalRegister (R.convertToPhysical (a.getOperand 0).reg)
                (R.getWidth (R.convertToPhysical (a.getOperand 0).reg)
                  (a.getOperand 0).reg)))] ∧
        (UseDef.fillMemToReg R a width).result = .ok () ∧
        (R.convertToPhysical (a.getOperand 0).reg ≠ -1 →
          ∀ (w : UseDefWorkSet) (state : UDStateRef),
            (UseDef.run state w (UseDef.fillMemToReg R a width).calls).getRegSet
              (R.convertToPhysical (a.getOperand 0).reg) = some [state])) ∧
      (a.postIndex = false → (a.getOperand 1).mem.index ≠ R.INVALID_REGISTER →
        ∀ width : Nat,
          (UseDef.fillRegToMem R a width).calls =
            [.useReg (R.convertToPhysical (a.getOperand 0).reg),
              .useReg (R.convertToPhysical (a.getOperand 1).mem.base)] ∧
          (UseDef.fillRegToMem R a width).result = .ok ()) ∧
      (a.mode ≠ .MODE_REG_MEM →
        (UseDef.fillLdrh R a).calls = [] ∧ (UseDef.fillLdrb R a).calls = [] ∧
        (UseDef.fillLdrsw R a).calls = [] ∧ (UseDef.fillLdrsh R a).calls = [] ∧
        (UseDef.fillLdrsb R a).calls = [] ∧ (UseDef.fillLdur R a).calls = [] ∧
        (UseDef.fillStr R a).calls = [] ∧ (UseDef.fillStrb R a).calls = [] ∧
        (UseDef.fillStrh R a).calls = [] ∧
        (a.mode ≠ .MODE_REG_MEM_IMM → (UseDef.fillLdr R a).calls = [])) ∧
      (a.mode ≠ .MODE_REG_REG_IMM → a.mode ≠ .MODE_REG_REG_REG →
        (UseDef.fillAddOrSub R a).calls = [] ∧ (UseDef.fillLsl R a).calls = []) ∧
      (a.mode ≠ .MODE_REG_REG →
        (UseDef.fillSxtw R a).calls = [] ∧
        (a.mode ≠ .MODE_REG_IMM → (UseDef.fillMov R a).calls = [])) := by
  refine ⟨?_, ?_, ?_, ?_, ?_⟩
  · intro hp hi width
    have hc : (UseDef.fillMemToReg R a width).calls =
        [.useReg (R.convertToPhysical (a.getOperand 1).mem.base),
          .defReg (R.convertToPhysical (a.getOperand 0).reg)
            (some (.PhysicalRegister (R.convertToPhysical (a.getOperand 0).reg)
              (R.getWidth (R.convertToPhysical (a.getOperand 0).reg)
                (a.getOperand 0).reg)))] := by
      simp [UseDef.fillMemToReg, hp, hi, Calls.assert, Calls.useReg, Calls.defReg, bind,
        Calls.bind, pure]
    refine ⟨hc, ?_, ?_⟩
    · simp [UseDef.fillMemToReg, hp, hi, Calls.assert, Calls.useReg, Calls.defReg, bind,
        Calls.bind, pure]
    · intro hr w state
      rw [hc]
      simp only [UseDef.run, List.foldl_cons, List.foldl_nil]
      rw [(UseDef.getRegSet_runCall state _ _ _).2]
      simp [Call.definesReg, hr]
  · intro hp hi width
    simp [UseDef.fillRegToMem, hp, hi, Calls.assert, Calls.useReg, bind, Calls.bind, pure]
  · intro hm
    simp [UseDef.fillLdrh, UseDef.fillLdrb, UseDef.fillLdrsw, UseDef.fillLdrsh,
      UseDef.fillLdrsb, UseDef.fillLdur, UseDef.fillStr, UseDef.fillStrb, UseDef.fillStrh,
      UseDef.fillLdr, hm, pure]
    intro h2
    simp [h2]
  · intro h1 h2
    simp [UseDef.fillAddOrSub, UseDef.fillLsl, h1, h2, pure]
  · intro h1
    simp [UseDef.fillSxtw, UseDef.fillMov, h1, pure]
    intro h2
    simp [h2]

/-- Witness for C16 (amended): `LDR X0, [X1, X2]` uses `X1` and havocs `X0`. -/
theorem UseDef.havoc_cases_witness :
    Assembly.ldrIndexed.postIndex = false ∧
      (Assembly.ldrIndexed.getOperand 1).mem.index ≠ RegisterFile.sample.INVALID_REGISTER ∧
      (UseDef.fillMemToReg RegisterFile.sample Assembly.ldrIndexed 8).calls =
        [.useReg 1, .defReg 0 (some (.PhysicalRegister 0 8))] :=
  ⟨rfl, by decide,
    ((UseDef.havoc_cases RegisterFile.sample Assembly.ldrIndexed).1 rfl (by decide) 8).1⟩

/-! ### Scenarios -/

theorem UseDef.analyzeInstruction_of_ok (R : RegisterFile) (config : UseDefConfiguration)
    (w : UseDefWorkSet) (instr : Instruction)
    (h : UseDef.instructionOk R config instr = true) :
    UseDef.analyzeInstruction R config w instr =
      .ok (UseDef.runAll w (UseDef.instructionCalls R config instr)) := by
  unfold UseDef.instructionOk at h
  unfold UseDef.analyzeInstruction UseDef.instructionCalls
  cases hs : instr.semantic with
  | literal => simp [UseDef.runAll]
  | assembly a =>
    rw [hs] at h
    simp only [Calls.isOk] at h
    simp only [UseDef.fillState]
    cases hr : (UseDef.fillStateCalls R config a).result with
    | error e => rw [hr] at h; simp at h
    | ok u => simp [UseDef.runAll, UseDef.run, List.foldl_map]

theorem UseDef.analyzeBlock_of_ok (R : RegisterFile) (config : UseDefConfiguration)
    (block : List Instruction) :
    ∀ w : UseDefWorkSet, (∀ instr ∈ block, UseDef.instructionOk R config instr = true) →
      block.foldlM (UseDef.analyzeInstruction R config) w =
        .ok (UseDef.runAll w (UseDef.blockCalls R config block)) := by
  induction block with
  | nil => intro w _; simp [UseDef.blockCalls, UseDef.runAll, pure, Except.pure]
  | cons instr t ih =>
    intro w h
    simp only [List.foldlM_cons, bind, Except.bind]
    rw [UseDef.analyzeInstruction_of_ok R config w instr (h instr (by simp))]
    simp only
    rw [ih _ (fun i hi => h i (by simp [hi]))]
    simp only [UseDef.blockCalls, List.foldr_cons]
    rw [UseDef.runAll_append]

/-- The analysis of a single group holding a single node whose instructions are
processed without an exception. -/
theorem UseDef.analyze_single_node (R : RegisterFile) (config : UseDefConfiguration)
    (w : UseDefWorkSet) (n : Nat) (node : ControlFlowNode)
    (hn : config.cfg.get n = .ok node)
    (hok : ∀ instr ∈ node.block, UseDef.instructionOk R config instr = true) :
    UseDef.analyze R config w [[n]] =
      .ok (UseDef.runAll (w.transitionTo n node) (UseDef.blockCalls R config node.block)) := by
  have h1 : UseDef.analyzeNode R config w n =
      .ok (UseDef.runAll (w.transitionTo n node) (UseDef.blockCalls R config node.block)) := by
    unfold UseDef.analyzeNode
    rw [hn]
    simp only [bind, Except.bind]
    exact UseDef.analyzeBlock_of_ok R config node.block _ hok
  simp [UseDef.analyze, UseDef.analyzeGroup, UseDef.analyzeGraph, List.foldlM_cons,
    List.foldlM_nil, bind, Except.bind, h1, pure, Except.pure]

theorem UseDef.scenario1_calls (R : RegisterFile) (x0 x1 : Nat)
    (h0 : R.convertToPhysical x0 = 0) (h1 : R.convertToPhysical x1 = 1)
    (hw : R.getWidth 0 x0 = 8) :
    UseDef.blockCalls R (UseDefConfiguration.scenario1 x0 x1)
        (ControlFlowNode.scenario1 x0 x1).block = UseDef.scenario1Calls ∧
      ∀ instr ∈ (ControlFlowNode.scenario1 x0 x1).block,
        UseDef.instructionOk R (UseDefConfiguration.scenario1 x0 x1) instr = true := by
  unfold ControlFlowNode.scenario1
  constructor
  · simp [UseDef.blockCalls, UseDef.instructionCalls, UseDef.fillStateCalls,
      UseDef.callIfEnabled, UseDefConfiguration.isEnabled, UseDefConfiguration.scenario1,
      UseDef.handlers, UseDef.fillMov, UseDef.fillImmToReg, UseDef.fillAddOrSub,
      UseDef.fillRegImmToReg, UseDef.shiftExtend, UseDef.binaryTree, UseDef.fillRet,
      UseDef.useLoop, Assembly.movImm, Assembly.addImm, Assembly.ret, Assembly.getOperand,
      AsmOperand.zero, Calls.useReg, Calls.defReg, Calls.ofExcept, bind, Calls.bind, pure,
      h0, h1, hw, UseDef.scenario1Calls]
  · intro instr hi
    simp only [List.mem_cons, List.mem_singleton, List.not_mem_nil, or_false] at hi
    rcases hi with rfl | rfl | rfl <;>
    simp [UseDef.instructionOk, Calls.isOk, UseDef.fillStateCalls,
      UseDef.callIfEnabled, UseDefConfiguration.isEnabled, UseDefConfiguration.scenario1,
      UseDef.handlers, UseDef.fillMov, UseDef.fillImmToReg, UseDef.fillAddOrSub,
      UseDef.fillRegImmToReg, UseDef.shiftExtend, UseDef.binaryTree, UseDef.fillRet,
      UseDef.useLoop, Assembly.movImm, Assembly.addImm, Assembly.ret, Assembly.getOperand,
      AsmOperand.zero, Calls.useReg, Calls.defReg, Calls.ofExcept, bind, Calls.bind, pure]

/-- C13: scenario S1.  Analysing `MOV X0, #7; ADD X1, X0, #3; RET` from the empty
work set defines `X0 := Const(7)` on the `MOV` state and
`X1 := Add(PhysReg(X0, 8), Const(3))` on the `ADD` state, whose `reg_refs[X0]` is the
`MOV` state; on the `RET` state `reg_refs[X0]` is the `MOV` state and `reg_refs[X1]`
the `ADD` state. -/
theorem UseDef.scenario1_result (R : RegisterFile) (x0 x1 : Nat)
    (h0 : R.convertToPhysical x0 = 0) (h1 : R.convertToPhysical x1 = 1)
    (hw : R.getWidth 0 x0 = 8) :
    ∃ w : UseDefWorkSet,
      UseDef.analyze R (UseDefConfiguration.scenario1 x0 x1) UseDefWorkSet.empty [[0]] =
        .ok w ∧
      DefList.get (w.stateList 100).regList 0 = some (.Constant 7) ∧
      DefList.get (w.stateList 101).regList 1 =
        some (.Addition (.PhysicalRegister 0 8) (.Constant 3)) ∧
      RefList.get (w.stateList 101).regRefList 0 = some [100] ∧
      RefList.get (w.stateList 102).regRefList 0 = some [100] ∧
      RefList.get (w.stateList 102).regRefList 1 = some [101] := by
  obtain ⟨hc, hok⟩ := UseDef.scenario1_calls R x0 x1 h0 h1 hw
  have ha := UseDef.analyze_single_node R (UseDefConfiguration.scenario1 x0 x1)
    UseDefWorkSet.empty 0 (ControlFlowNode.scenario1 x0 x1) rfl hok
  have ht : UseDefWorkSet.empty.transitionTo 0 (ControlFlowNode.scenario1 x0 x1) =
      UseDefWorkSet.empty.transitionTo 0 { backwardLinks := [], block := [] } := rfl
  rw [hc, ht] at ha
  exact ⟨_, ha, by decide, by decide, by decide, by decide, by decide⟩

/-- Witness for C13: the sample register file, where the operand ids 0 and 1 are
`X0` and `X1`. -/
theorem UseDef.scenario1_result_witness :
    RegisterFile.sample.convertToPhysical 0 = 0 ∧
      RegisterFile.sample.convertToPhysical 1 = 1 ∧
      RegisterFile.sample.getWidth 0 0 = 8 ∧
      ∃ w : UseDefWorkSet,
        UseDef.analyze RegisterFile.sample (UseDefConfiguration.scenario1 0 1)
          UseDefWorkSet.empty [[0]] = .ok w ∧
        DefList.get (w.stateList 100).regList 0 = some (.Constant 7) ∧
        DefList.get (w.stateList 101).regList 1 =
          some (.Addition (.PhysicalRegister 0 8) (.Constant 3)) ∧
        RefList.get (w.stateList 101).regRefList 0 = some [100] ∧
        RefList.get (w.stateList 102).regRefList 0 = some [100] ∧
        RefList.get (w.stateList 102).regRefList 1 = some [101] :=
  ⟨rfl, rfl, rfl, UseDef.scenario1_result RegisterFile.sample 0 1 rfl rfl rfl⟩


theorem UseDef.scenario2_calls (R : RegisterFile) (x0 sp inv : Nat)
    (h0 : R.convertToPhysical x0 = 0) (hs : R.convertToPhysical sp = 31)
    (hw : R.getWidth 31 sp = 8) (hi : inv = R.INVALID_REGISTER) :
    UseDef.blockCalls R (UseDefConfiguration.scenario2 x0 sp inv)
        (ControlFlowNode.scenario2 x0 sp inv).block = UseDef.scenario2Calls ∧
      ∀ instr ∈ (ControlFlowNode.scenario2 x0 sp inv).block,
        UseDef.instructionOk R (UseDefConfiguration.scenario2 x0 sp inv) instr = true := by
  unfold ControlFlowNode.scenario2
  constructor
  · simp [UseDef.blockCalls, UseDef.instructionCalls, UseDef.fillStateCalls,
      UseDef.callIfEnabled, UseDefConfiguration.isEnabled, UseDefConfiguration.scenario2,
      UseDef.handlers, UseDef.fillStr, UseDef.fillRegToMem, UseDef.fillLdr,
      UseDef.fillMemImmToReg, Assembly.strPreIndex, Assembly.ldrPostIndex,
      Assembly.getOperand, Assembly.widthBit, Assembly.getByte,
      AsmOperand.zero, Calls.useReg, Calls.defReg, Calls.defMem, Calls.useMem, Calls.assert,
      bind, Calls.bind, pure, h0, hs, hw, hi, UseDef.scenario2Calls]
  · intro instr hm
    simp only [List.mem_cons, List.mem_singleton, List.not_mem_nil, or_false] at hm
    rcases hm with rfl | rfl <;>
    simp [UseDef.instructionOk, Calls.isOk, UseDef.fillStateCalls,
      UseDef.callIfEnabled, UseDefConfiguration.isEnabled, UseDefConfiguration.scenario2,
      UseDef.handlers, UseDef.fillStr, UseDef.fillRegToMem, UseDef.fillLdr,
      UseDef.fillMemImmToReg, Assembly.strPreIndex, Assembly.ldrPostIndex,
      Assembly.getOperand, Assembly.widthBit, Assembly.getByte,
      AsmOperand.zero, Calls.useReg, Calls.defReg, Calls.defMem, Calls.useMem, Calls.assert,
      bind, Calls.bind, pure, hi]

theorem UseDef.scenario2SamePlace_calls (R : RegisterFile) (x0 sp inv : Nat)
    (h0 : R.convertToPhysical x0 = 0) (hs : R.convertToPhysical sp = 31)
    (hw : R.getWidth 31 sp = 8) (hi : inv = R.INVALID_REGISTER) :
    UseDef.blockCalls R (UseDefConfiguration.scenario2SamePlace x0 sp inv)
        (ControlFlowNode.scenario2SamePlace x0 sp inv).block =
        UseDef.scenario2SamePlaceCalls ∧
      ∀ instr ∈ (ControlFlowNode.scenario2SamePlace x0 sp inv).block,
        UseDef.instructionOk R (UseDefConfiguration.scenario2SamePlace x0 sp inv) instr =
          true := by
  unfold ControlFlowNode.scenario2SamePlace
  constructor
  · simp [UseDef.blockCalls, UseDef.instructionCalls, UseDef.fillStateCalls,
      UseDef.callIfEnabled, UseDefConfiguration.isEnabled,
      UseDefConfiguration.scenario2SamePlace,
      UseDef.handlers, UseDef.fillStr, UseDef.fillRegToMem, UseDef.fillLdr,
      UseDef.fillMemToReg, Assembly.strPreIndex, Assembly.ldrOffset,
      Assembly.getOperand, Assembly.widthBit, Assembly.getByte,
      AsmOperand.zero, Calls.useReg, Calls.defReg, Calls.defMem, Calls.useMem, Calls.assert,
      bind, Calls.bind, pure, h0, hs, hw, hi, UseDef.scenario2SamePlaceCalls]
  · intro instr hm
    simp only [List.mem_cons, List.mem_singleton, List.not_mem_nil, or_false] at hm
    rcases hm with rfl | rfl <;>
    simp [UseDef.instructionOk, Calls.isOk, UseDef.fillStateCalls,
      UseDef.callIfEnabled, UseDefConfiguration.isEnabled,
      UseDefConfiguration.scenario2SamePlace,
      UseDef.handlers, UseDef.fillStr, UseDef.fillRegToMem, UseDef.fillLdr,
      UseDef.fillMemToReg, Assembly.strPreIndex, Assembly.ldrOffset,
      Assembly.getOperand, Assembly.widthBit, Assembly.getByte,
      AsmOperand.zero, Calls.useReg, Calls.defReg, Calls.defMem, Calls.useMem, Calls.assert,
      bind, Calls.bind, pure, hi]

/-- C14, as stated, fails: after `STR X0, [SP, #-16]!; LDR X0, [SP], #16` the `LDR`
state has no memory reference at all, so not `(X0, STR)`. -/
theorem UseDef.scenario2_counterexample :
    (UseDef.analyze RegisterFile.sample (UseDefConfiguration.scenario2 0 31 100)
        UseDefWorkSet.empty [[0]]).toOption.map (fun w => (w.stateList 201).memRefList) =
      some [] := by
  decide

/-- C14, amended: in scenario S2 the store is exposed under the place
`Add(PhysReg(SP, 8), Const(-16))` and the post-index load reads the place
`Add(PhysReg(SP, 8), Const(0))`; the two locations differ, so the `LDR` state
records no memory origin, while its `reg_defs[SP]` is `Add(PhysReg(SP, 8), Const(16))`.
A load that names the place of the store, `LDR X0, [SP, #-16]`, records `(X0, STR)`. -/
theorem UseDef.scenario2_result (R : RegisterFile) (x0 sp inv : Nat)
    (h0 : R.convertToPhysical x0 = 0) (hs : R.convertToPhysical sp = 31)
    (hw : R.getWidth 31 sp = 8) (hi : inv = R.INVALID_REGISTER) :
    (∃ w : UseDefWorkSet,
      UseDef.analyze R (UseDefConfiguration.scenario2 x0 sp inv) UseDefWorkSet.empty [[0]] =
        .ok w ∧
      (w.stateList 201).memRefList = [] ∧
      w.memExposed = [⟨.Addition (.PhysicalRegister 31 8) (.Constant (-16)), 200⟩] ∧
      DefList.get (w.stateList 200).regList 31 =
        some (.Addition (.PhysicalRegister 31 8) (.Constant (-16))) ∧
      DefList.get (w.stateList 201).regList 31 =
        some (.Addition (.PhysicalRegister 31 8) (.Constant 16))) ∧
    (∃ w : UseDefWorkSet,
      UseDef.analyze R (UseDefConfiguration.scenario2SamePlace x0 sp inv)
        UseDefWorkSet.empty [[0]] = .ok w ∧
      (w.stateList 201).memRefList = [(0, 200)]) := by
  constructor
  · obtain ⟨hc, hok⟩ := UseDef.scenario2_calls R x0 sp inv h0 hs hw hi
    have ha := UseDef.analyze_single_node R (UseDefConfiguration.scenario2 x0 sp inv)
      UseDefWorkSet.empty 0 (ControlFlowNode.scenario2 x0 sp inv) rfl hok
    have ht : UseDefWorkSet.empty.transitionTo 0 (ControlFlowNode.scenario2 x0 sp inv) =
        UseDefWorkSet.empty.transitionTo 0 { backwardLinks := [], block := [] } := rfl
    rw [hc, ht] at ha
    exact ⟨_, ha, by decide, by decide, by decide, by decide⟩
  · obtain ⟨hc, hok⟩ := UseDef.scenario2SamePlace_calls R x0 sp inv h0 hs hw hi
    have ha := UseDef.analyze_single_node R
      (UseDefConfiguration.scenario2SamePlace x0 sp inv)
      UseDefWorkSet.empty 0 (ControlFlowNode.scenario2SamePlace x0 sp inv) rfl hok
    have ht : UseDefWorkSet.empty.transitionTo 0
        (ControlFlowNode.scenario2SamePlace x0 sp inv) =
        UseDefWorkSet.empty.transitionTo 0 { backwardLinks := [], block := [] } := rfl
    rw [hc, ht] at ha
    exact ⟨_, ha, by decide⟩

/-- Witness for C14 (amended): the sample register file, where the operand id 31 is
`SP` and 100 the invalid register. -/
theorem UseDef.scenario2_result_witness :
    RegisterFile.sample.convertToPhysical 0 = 0 ∧
      RegisterFile.sample.convertToPhysical 31 = 31 ∧
      RegisterFile.sample.getWidth 31 31 = 8 ∧
      100 = RegisterFile.sample.INVALID_REGISTER ∧
      ∃ w : UseDefWorkSet,
        UseDef.analyze RegisterFile.sample (UseDefConfiguration.scenario2SamePlace 0 31 100)
          UseDefWorkSet.empty [[0]] = .ok w ∧
        (w.stateList 201).memRefList = [(0, 200)] :=
  ⟨rfl, rfl, rfl, rfl, (UseDef.scenario2_result RegisterFile.sample 0 31 100 rfl rfl rfl rfl).2⟩

/-! ### Target addresses of links -/

theorem addAddress_spec (a b : Nat) :
    addAddress a b < 2 ^ 64 ∧ (addAddress a b : Int) ≡ (a : Int) + b [ZMOD 2 ^ 64] := by
  unfold addAddress
  refine ⟨Nat.mod_lt _ (by norm_num), ?_⟩
  unfold Int.ModEq
  omega

theorem subAddress_spec (a b : Nat) :
    subAddress a b < 2 ^ 64 ∧ (subAddress a b : Int) ≡ (a : Int) - b [ZMOD 2 ^ 64] := by
  unfold subAddress
  refine ⟨Nat.mod_lt _ (by norm_num), ?_⟩
  unfold Int.ModEq
  omega

/-- C17: the target address of each link variant is the documented arithmetic on the
addresses of its chunks, modulo `2 ^ 64`. -/
theorem Link.getTargetAddress_arithmetic (loaderBridge : String → Nat) (t b : Chunk)
    (a ab : Nat) (ht : t.position = some a) (hb : b.position = some ab) :
    (∀ scope, Link.getTargetAddress loaderBridge (.NormalLink (some t) scope) = some a) ∧
      (∀ offset, ∃ v, Link.getTargetAddress loaderBridge (.OffsetLink (some t) offset) =
          some v ∧ v < 2 ^ 64 ∧ (v : Int) ≡ (a : Int) + offset [ZMOD 2 ^ 64]) ∧
      (∀ orig, Link.getTargetAddress loaderBridge (.PLTLink orig (some t)) = some a) ∧
      Link.getTargetAddress loaderBridge (.JumpTableLink (some t)) = some a ∧
      (∀ addend, ∃ v, Link.getTargetAddress loaderBridge (.MarkerLink (some t) addend) =
          some v ∧ v < 2 ^ 64 ∧ (v : Int) ≡ (a : Int) + addend [ZMOD 2 ^ 64]) ∧
      (∃ v, Link.getTargetAddress loaderBridge (.DistanceLink (some b) (some t)) = some v ∧
          v < 2 ^ 64 ∧ (v : Int) ≡ (a : Int) + t.size - ab [ZMOD 2 ^ 64]) ∧
      (∀ target addend, ∃ v,
        Link.getTargetAddress loaderBridge (.DataOffsetLink (some t) target addend) =
          some v ∧ v < 2 ^ 64 ∧ (v : Int) ≡ (a : Int) + target + addend [ZMOD 2 ^ 64]) ∧
      (∀ target, ∃ v,
        Link.getTargetAddress loaderBridge (.TLSDataOffsetLink (some t) target) = some v ∧
          v < 2 ^ 64 ∧ (v : Int) ≡ (t.tlsOffset : Int) + target [ZMOD 2 ^ 64]) := by
  refine ⟨?_, ?_, ?_, ?_, ?_, ?_, ?_, ?_⟩
  · intro scope
    simp [Link.getTargetAddress, Chunk.getAddress, ht]
  · intro offset
    exact ⟨addAddress a offset, by simp [Link.getTargetAddress, Chunk.getAddress, ht],
      addAddress_spec a offset⟩
  · intro orig
    simp [Link.getTargetAddress, Chunk.getAddress, ht]
  · simp [Link.getTargetAddress, Chunk.getAddress, ht]
  · intro addend
    exact ⟨addAddress a addend, by simp [Link.getTargetAddress, Chunk.getAddress, ht],
      addAddress_spec a addend⟩
  · refine ⟨subAddress (addAddress a t.size) ab,
      by simp [Link.getTargetAddress, Chunk.getAddress, ht, hb], (subAddress_spec _ _).1, ?_⟩
    exact (subAddress_spec _ _).2.trans (Int.ModEq.sub_right _ (addAddress_spec a t.size).2)
  · intro target addend
    refine ⟨addAddress (addAddress a target) addend,
      by simp [Link.getTargetAddress, Chunk.getAddress, ht], (addAddress_spec _ _).1, ?_⟩
    exact (addAddress_spec _ _).2.trans (Int.ModEq.add_right _ (addAddress_spec a target).2)
  · intro target
    exact ⟨addAddress t.tlsOffset target, by simp [Link.getTargetAddress],
      addAddress_spec _ _⟩

theorem Link.getTargetAddress_arithmetic_witness :
    (∀ offset, ∃ v, Link.getTargetAddress (fun _ => 0)
        (.OffsetLink (some Chunk.sampleFunction) offset) = some v ∧ v < 2 ^ 64 ∧
        (v : Int) ≡ (0x1000 : Int) + offset [ZMOD 2 ^ 64]) ∧
      (∃ v, Link.getTargetAddress (fun _ => 0)
          (.DistanceLink (some Chunk.sampleSection) (some Chunk.sampleFunction)) = some v ∧
        v < 2 ^ 64 ∧
        (v : Int) ≡ (0x1000 : Int) + Chunk.sampleFunction.size - 0x2000 [ZMOD 2 ^ 64]) :=
  ⟨(Link.getTargetAddress_arithmetic (fun _ => 0) Chunk.sampleFunction Chunk.sampleSection
      0x1000 0x2000 rfl rfl).2.1,
    (Link.getTargetAddress_arithmetic (fun _ => 0) Chunk.sampleFunction Chunk.sampleSection
      0x1000 0x2000 rfl rfl).2.2.2.2.2.1⟩

/-! ## Properties of the semantic serializer -/

theorem ArchiveStreamReader.readN_map (bytes : List Nat) (rest : ArchiveStream) :
    ArchiveStreamReader.readN bytes.length (bytes.map (fun b => ArchiveItem.u8 (b % 256)) ++ rest)
      = .ok (bytes.map (fun b => b % 256), rest) := by
  induction bytes with
  | nil => rfl
  | cons b bs ih =>
    simp only [List.length_cons, List.map_cons, List.cons_append, ArchiveStreamReader.readN,
      ArchiveStreamReader.readU8, ih]

theorem ArchiveStreamWriter.map_mod_of_lt (bytes : List Nat) (h : ∀ b ∈ bytes, b < 256) :
    bytes.map (fun b => b % 256) = bytes := by
  induction bytes with
  | nil => rfl
  | cons b bs ih =>
    simp only [List.map_cons, List.cons.injEq]
    exact ⟨Nat.mod_eq_of_lt (h b (List.mem_cons_self _ _)),
      ih (fun x hx => h x (List.mem_cons_of_mem _ hx))⟩

theorem ArchiveStreamReader.readBytes_writeBytes (bytes : List Nat) (rest : ArchiveStream)
    (hlen : bytes.length < 256) (hb : ∀ b ∈ bytes, b < 256) :
    ArchiveStreamReader.readBytes (ArchiveStreamWriter.writeBytes bytes ++ rest)
      = .ok (bytes, rest) := by
  unfold ArchiveStreamReader.readBytes ArchiveStreamWriter.writeBytes
  simp only [List.cons_append, ArchiveStreamReader.readU8, Nat.mod_eq_of_lt hlen,
    ArchiveStreamReader.readN_map, ArchiveStreamWriter.map_mod_of_lt bytes hb]

theorem SemanticSerializer.write_eq (type : EgalitoInstrType) (forBytes : InstrSemantic)
    (hlen : forBytes.getData.length < 256) (hb : ∀ b ∈ forBytes.getData, b < 256) :
    SemanticSerializer.write type forBytes
      = ArchiveItem.u8 type.toNat :: ArchiveItem.u8 forBytes.getData.length ::
          forBytes.getData.map ArchiveItem.u8 := by
  unfold SemanticSerializer.write ArchiveStreamWriter.writeU8 ArchiveStreamWriter.writeBytes
  have ht : type.toNat % 256 = type.toNat := by cases type <;> rfl
  have hm : forBytes.getData.map (fun b => ArchiveItem.u8 (b % 256))
      = forBytes.getData.map ArchiveItem.u8 := by
    apply List.map_congr_left
    intro b hb1
    rw [Nat.mod_eq_of_lt (hb b hb1)]
  simp only [ht, Nat.mod_eq_of_lt hlen, hm, List.singleton_append]

theorem InstrSerializer.defaultDeserialize_writeBytes (self : InstrSerializer) (address : Nat)
    (bytes : List Nat) (rest : ArchiveStream)
    (hlen : bytes.length < 256) (hb : ∀ b ∈ bytes, b < 256) :
    self.defaultDeserialize address (ArchiveStreamWriter.writeBytes bytes ++ rest)
      = match self.disassemble bytes address with
        | .ok semantic => .ok (semantic, rest)
        | .error _ => .ok (.RawInstruction bytes, rest) := by
  unfold InstrSerializer.defaultDeserialize
  rw [ArchiveStreamReader.readBytes_writeBytes bytes rest hlen hb]

theorem InstrSerializer.deserializeLinkTarget_writeID (self : InstrSerializer)
    (t : Option Chunk) (rest : ArchiveStream) (h : self.op.lookup (self.op.assign t) = t) :
    ∃ t2, self.deserializeLinkTarget (ArchiveStreamWriter.writeID (self.op.assign t) ++ rest)
        = .ok (t2, rest) ∧ t2.map Chunk.id = t.map Chunk.id ∧
      t2.map Chunk.kind = t.map Chunk.kind ∧ (t.bind Chunk.getAddress ≠ none → t2 = t) := by
  unfold InstrSerializer.deserializeLinkTarget ArchiveStreamWriter.writeID
  simp only [List.singleton_append, ArchiveStreamReader.readID, h]
  cases t with
  | none => exact ⟨none, rfl, rfl, rfl, fun _ => rfl⟩
  | some c =>
    cases hp : c.position with
    | none =>
      refine ⟨some { c with position := some (2 ^ 64 - 1) }, by simp only [hp], rfl, rfl, ?_⟩
      intro hne
      exact absurd (by simp [Chunk.getAddress, hp]) hne
    | some a => exact ⟨some c, by simp only [hp], rfl, rfl, fun _ => rfl⟩

theorem subAddress_addAddress (a x : Nat) :
    addAddress a (subAddress (addAddress a x) a) = addAddress a x := by
  unfold addAddress subAddress
  omega

theorem subAddress_addAddress_two (a x y : Nat) :
    addAddress (addAddress a (subAddress (addAddress (addAddress a x) y) a)) 0
      = addAddress (addAddress a x) y := by
  unfold addAddress subAddress
  omega

theorem InstrSerializer.deserializeTargetAndOffset_write (self : InstrSerializer)
    (c : Chunk) (a v : Nat) (rest : ArchiveStream)
    (h : self.op.lookup (self.op.assign (some c)) = some c) (hp : c.position = some a) :
    self.deserializeTargetAndOffset (ArchiveStreamWriter.writeID (self.op.assign (some c)) ++
        ArchiveStreamWriter.writeAddress v ++ rest) = .ok (some c, v % 2 ^ 64, rest) := by
  obtain ⟨t2, h1, _, _, h4⟩ := self.deserializeLinkTarget_writeID (some c)
    (ArchiveStreamWriter.writeAddress v ++ rest) h
  have ht : t2 = some c := h4 (by simp [Chunk.getAddress, hp])
  subst ht
  unfold InstrSerializer.deserializeTargetAndOffset
  rw [List.append_assoc, h1]
  rfl

theorem SemanticSerializer.writeReferenceAndOffset_eq (op : ChunkSerializerOperations)
    (loaderBridge : String → Nat) (link : Link) (c : Chunk) (a ta : Nat)
    (ht : link.getTarget = some c) (hp : c.position = some a)
    (hta : link.getTargetAddress loaderBridge = some ta) :
    SemanticSerializer.writeReferenceAndOffset op loaderBridge link
      = .ok [.id (op.assign (some c)), .address (subAddress ta a)] := by
  unfold SemanticSerializer.writeReferenceAndOffset
  have hs : subAddress ta a % 2 ^ 64 = subAddress ta a :=
    Nat.mod_eq_of_lt (subAddress_spec ta a).1
  simp only [ht, hta, Chunk.getAddress, hp, SemanticSerializer.writeLinkReference,
    ArchiveStreamWriter.writeID, ArchiveStreamWriter.writeAddress, hs, Option.some_bind,
    List.singleton_append]

/-- The link that `deserializeLink` makes of what `writeLink` wrote for an
`OffsetLink`, an `ExternalOffsetLink` or a `DataOffsetLink`. -/
theorem InstrSerializer.deserializeLink_offsets (self : InstrSerializer)
    (loaderBridge : String → Nat) (c : Chunk) (a : Nat) (rest : ArchiveStream)
    (h : self.op.lookup (self.op.assign (some c)) = some c) (hp : c.position = some a) :
    (∀ offset,
      SemanticSerializer.writeLink self.op loaderBridge (.OffsetLink (some c) offset)
          = .ok [.u8 6, .id (self.op.assign (some c)),
              .address (subAddress (addAddress a offset) a)] ∧
        self.deserializeLink ([.u8 6, .id (self.op.assign (some c)),
              .address (subAddress (addAddress a offset) a)] ++ rest)
          = .ok (.OffsetLink (some c) (subAddress (addAddress a offset) a), rest)) ∧
      (∀ offset,
        SemanticSerializer.writeLink self.op loaderBridge (.ExternalOffsetLink (some c) offset)
            = .ok [.u8 5, .id (self.op.assign (some c)),
                .address (subAddress (addAddress a offset) a)] ∧
          self.deserializeLink ([.u8 5, .id (self.op.assign (some c)),
                .address (subAddress (addAddress a offset) a)] ++ rest)
            = .ok (.ExternalOffsetLink (some c) (subAddress (addAddress a offset) a), rest)) ∧
      (∀ target addend, c.kind = .DataSection →
        SemanticSerializer.writeLink self.op loaderBridge
            (.DataOffsetLink (some c) target addend)
            = .ok [.u8 12, .id (self.op.assign (some c)),
                .address (subAddress (addAddress (addAddress a target) addend) a)] ∧
          self.deserializeLink ([.u8 12, .id (self.op.assign (some c)),
                .address (subAddress (addAddress (addAddress a target) addend) a)] ++ rest)
            = .ok (.DataOffsetLink (some c)
                (subAddress (addAddress (addAddress a target) addend) a) 0, rest)) := by
  have hd : ∀ v, self.deserializeTargetAndOffset
      (.id (self.op.assign (some c)) :: .address (subAddress v a) :: rest)
      = .ok (some c, subAddress v a, rest) := by
    intro v
    have := self.deserializeTargetAndOffset_write c a (subAddress v a) rest h hp
    rw [Nat.mod_eq_of_lt (subAddress_spec v a).1] at this
    simp only [ArchiveStreamWriter.writeID, ArchiveStreamWriter.writeAddress,
      Nat.mod_eq_of_lt (subAddress_spec v a).1, List.singleton_append, List.cons_append,
      List.nil_append] at this
    exact this
  refine ⟨?_, ?_, ?_⟩
  · intro offset
    constructor
    · unfold SemanticSerializer.writeLink
      rw [SemanticSerializer.writeReferenceAndOffset_eq self.op loaderBridge
        (.OffsetLink (some c) offset) c a
        (addAddress a offset) rfl hp (by simp [Link.getTargetAddress, Chunk.getAddress, hp])]
      rfl
    · unfold InstrSerializer.deserializeLink
      simp only [List.cons_append, List.nil_append, ArchiveStreamReader.readU8, hd]
      rfl
  · intro offset
    constructor
    · unfold SemanticSerializer.writeLink
      rw [SemanticSerializer.writeReferenceAndOffset_eq self.op loaderBridge
        (.ExternalOffsetLink (some c) offset) c a
        (addAddress a offset) rfl hp (by simp [Link.getTargetAddress, Chunk.getAddress, hp])]
      rfl
    · unfold InstrSerializer.deserializeLink
      simp only [List.cons_append, List.nil_append, ArchiveStreamReader.readU8, hd]
      rfl
  · intro target addend hk
    constructor
    · unfold SemanticSerializer.writeLink
      rw [SemanticSerializer.writeReferenceAndOffset_eq self.op loaderBridge
        (.DataOffsetLink (some c) target addend) c a
        (addAddress (addAddress a target) addend) rfl hp
        (by simp [Link.getTargetAddress, Chunk.getAddress, hp])]
      rfl
    · unfold InstrSerializer.deserializeLink
      simp only [List.cons_append, List.nil_append, ArchiveStreamReader.readU8, hd]
      simp [Except.map, Chunk.castTo, hk]

/-- What `deserializeLink` makes of what `writeLink` wrote for a link that carries
its target: a link to the same chunk. -/
theorem InstrSerializer.deserializeLink_writeLink (self : InstrSerializer)
    (loaderBridge : String → Nat) (l : Link) (rest : ArchiveStream)
    (hc : l.carriesTarget = true)
    (h : self.op.lookup (self.op.assign l.getTarget) = l.getTarget) :
    ∃ s l2, SemanticSerializer.writeLink self.op loaderBridge l = .ok s ∧
      self.deserializeLink (s ++ rest) = .ok (l2, rest) ∧
      l2.getTarget.map Chunk.id = l.getTarget.map Chunk.id := by
  have hn : ∀ (tag : Nat) (t : Option Chunk) (mk : Option Chunk → Link),
      self.op.lookup (self.op.assign t) = t →
      ∃ t2, (self.deserializeLinkTarget
          (ArchiveStreamWriter.writeID (self.op.assign t) ++ rest)).map
            (fun r => (mk r.1, r.2)) = .ok (mk t2, rest) ∧
        t2.map Chunk.id = t.map Chunk.id ∧ t2.map Chunk.kind = t.map Chunk.kind := by
    intro _ t mk ht
    obtain ⟨t2, h1, h2, h3, _⟩ := self.deserializeLinkTarget_writeID t rest ht
    exact ⟨t2, by rw [h1]; rfl, h2, h3⟩
  cases l with
  | NormalLink target scope =>
    obtain ⟨t2, h1, h2, _⟩ := hn 4 target (fun t => .NormalLink t self.defaultScope) h
    exact ⟨_, _, rfl, h1, h2⟩
  | AbsoluteNormalLink target scope =>
    obtain ⟨t2, h1, h2, _⟩ := hn 3 target (fun t => .AbsoluteNormalLink t self.defaultScope) h
    exact ⟨_, _, rfl, h1, h2⟩
  | ExternalNormalLink target =>
    obtain ⟨t2, h1, h2, _⟩ := hn 2 target (fun t => .ExternalNormalLink t) h
    exact ⟨_, _, rfl, h1, h2⟩
  | ExternalAbsoluteNormalLink target =>
    obtain ⟨t2, h1, h2, _⟩ := hn 1 target (fun t => .ExternalAbsoluteNormalLink t) h
    exact ⟨_, _, rfl, h1, h2⟩
  | OffsetLink target offset =>
    cases target with
    | none => simp [Link.carriesTarget] at hc
    | some c =>
      cases hp : c.position with
      | none => simp [Link.carriesTarget, Chunk.getAddress, hp] at hc
      | some a =>
        obtain ⟨h1, h2⟩ := (self.deserializeLink_offsets loaderBridge c a rest h hp).1 offset
        exact ⟨_, _, h1, h2, rfl⟩
  | ExternalOffsetLink target offset =>
    cases target with
    | none => simp [Link.carriesTarget] at hc
    | some c =>
      cases hp : c.position with
      | none => simp [Link.carriesTarget, Chunk.getAddress, hp] at hc
      | some a =>
        obtain ⟨h1, h2⟩ := (self.deserializeLink_offsets loaderBridge c a rest h hp).2.1 offset
        exact ⟨_, _, h1, h2, rfl⟩
  | PLTLink orig pltTrampoline =>
    obtain ⟨t2, h1, h2, h3⟩ := hn 7 pltTrampoline
      (fun t => .PLTLink 0 (Chunk.castTo .PLTTrampoline t)) h
    refine ⟨_, _, rfl, h1, ?_⟩
    cases pltTrampoline with
    | none =>
      cases t2 with
      | none => rfl
      | some x => simp at h2
    | some c =>
      cases t2 with
      | none => simp at h2
      | some x =>
        have hk : c.kind = .PLTTrampoline := by simpa [Link.carriesTarget] using hc
        have hx : x.kind = .PLTTrampoline := by
          simp only [Option.map_some', Option.some.injEq] at h3
          rw [h3, hk]
        simpa [Link.getTarget, Chunk.castTo, hx] using h2
  | DataOffsetLink sect target addend =>
    cases sect with
    | none => simp [Link.carriesTarget] at hc
    | some c =>
      cases hp : c.position with
      | none => simp [Link.carriesTarget, hp] at hc
      | some a =>
        have hk : c.kind = .DataSection := by
          simp [Link.carriesTarget, hp] at hc
          exact hc
        obtain ⟨h1, h2⟩ :=
          (self.deserializeLink_offsets loaderBridge c a rest h hp).2.2 target addend hk
        exact ⟨_, _, h1, h2, rfl⟩
  | JumpTableLink _ => simp [Link.carriesTarget] at hc
  | SymbolOnlyLink _ _ => simp [Link.carriesTarget] at hc
  | MarkerLink _ _ => simp [Link.carriesTarget] at hc
  | AbsoluteDataLink _ _ _ => simp [Link.carriesTarget] at hc
  | TLSDataOffsetLink _ _ => simp [Link.carriesTarget] at hc
  | UnresolvedLink _ => simp [Link.carriesTarget] at hc
  | ImmAndDispLink _ => simp [Link.carriesTarget] at hc
  | EgalitoLoaderLink _ => simp [Link.carriesTarget] at hc
  | GSTableLink _ => simp [Link.carriesTarget] at hc
  | DistanceLink _ _ => simp [Link.carriesTarget] at hc

theorem InstrSemantic.getData_setLink (d d2 : InstrSemantic) (l : Link)
    (h : d.setLink l = .ok d2) : d2.getData = d.getData ∧ d2.getLink = some l := by
  cases d <;> simp [InstrSemantic.setLink] at h <;> subst h <;> exact ⟨rfl, rfl⟩

theorem InstrSemantic.getAssembly_eq (d : InstrSemantic) (a : List Nat)
    (h : d.getAssembly = some a) : a = d.getData := by
  cases d <;> simp [InstrSemantic.getAssembly] at h <;> exact h.symm

theorem InstrSerializer.defaultDeserialize_getData (self : InstrSerializer) (address : Nat)
    (bytes : List Nat) (rest : ArchiveStream)
    (hlen : bytes.length < 256) (hb : ∀ b ∈ bytes, b < 256)
    (hdis : ∀ d, self.disassemble bytes address = .ok d → d.getData = bytes) :
    ∃ d, self.defaultDeserialize address (ArchiveStreamWriter.writeBytes bytes ++ rest)
        = .ok (d, rest) ∧ d.getData = bytes ∧
      (∀ d0, self.disassemble bytes address = .ok d0 → d = d0) := by
  rw [self.defaultDeserialize_writeBytes address bytes rest hlen hb]
  cases hd : self.disassemble bytes address with
  | ok d0 =>
    exact ⟨d0, rfl, hdis d0 hd, fun d1 h1 => by injection h1⟩
  | error e =>
    exact ⟨.RawInstruction bytes, rfl, rfl, fun d1 h1 => by cases h1⟩

/-- The semantic that `deserialize` makes of what the serializer wrote for one of
the classes that are written as tag, length and bytes and read with
`defaultDeserialize`. -/
theorem InstrSerializer.deserialize_plain (self : InstrSerializer) (address : Nat)
    (type : EgalitoInstrType) (S : InstrSemantic) (rest : ArchiveStream)
    (ht : type = .TYPE_RawInstruction ∨ type = .TYPE_IsolatedInstruction ∨
      type = .TYPE_ReturnInstruction ∨ type = .TYPE_IndirectJumpInstruction ∨
      type = .TYPE_IndirectCallInstruction ∨ type = .TYPE_LinkedLiteralInstruction)
    (hlen : S.getData.length < 256) (hb : ∀ b ∈ S.getData, b < 256)
    (hdis : ∀ d, self.disassemble S.getData address = .ok d → d.getData = S.getData) :
    ∃ d, self.deserialize address (SemanticSerializer.write type S ++ rest)
        = .ok (some d, rest) ∧ d.getData = S.getData := by
  obtain ⟨d, h1, h2, _⟩ :=
    self.defaultDeserialize_getData address S.getData rest hlen hb hdis
  refine ⟨d, ?_, h2⟩
  unfold SemanticSerializer.write ArchiveStreamWriter.writeU8 InstrSerializer.deserialize
  rcases ht with h | h | h | h | h | h <;> subst h <;>
    simp only [List.singleton_append, List.cons_append, ArchiveStreamReader.readU8,
      EgalitoInstrType.toNat, Nat.reduceMod, List.nil_append, h1] <;> rfl

/-- C18 (the claim as stated fails): with the example serializer, a
`LiteralInstruction` and a `StackFrameInstruction` are serialized but `deserialize`
throws on their tags; for a `ControlFlowInstruction` with a `MarkerLink` the
deserializer throws on the link tag; a `LinkedInstruction` with a
`TLSDataOffsetLink` to a TLS region that the oracles resolve comes back with an
`UnresolvedLink`, which has no target. -/
theorem InstrSerializer.round_trip_counterexample :
    (InstrSerializer.sample.serialize (fun _ => 0) (.LiteralInstruction [1, 2, 3, 4])
        = .ok [.u8 9, .u8 4, .u8 1, .u8 2, .u8 3, .u8 4] ∧
      InstrSerializer.sample.deserialize 0 [.u8 9, .u8 4, .u8 1, .u8 2, .u8 3, .u8 4]
        = .error "LiteralInstruction?") ∧
    (InstrSerializer.sample.serialize (fun _ => 0) (.StackFrameInstruction [1, 2, 3, 4])
        = .ok [.u8 8, .u8 4, .u8 1, .u8 2, .u8 3, .u8 4] ∧
      InstrSerializer.sample.deserialize 0 [.u8 8, .u8 4, .u8 1, .u8 2, .u8 3, .u8 4]
        = .error "StackFrameInstruction?") ∧
    (InstrSerializer.sample.serialize (fun _ => 0)
          (.ControlFlowInstruction [0, 0, 0, 0x14]
            (some (.MarkerLink (some Chunk.sampleFunction) 0)))
        = .ok [.u8 4, .u8 4, .u8 0, .u8 0, .u8 0, .u8 0x14, .u8 10] ∧
      InstrSerializer.sample.deserialize 0
          [.u8 4, .u8 4, .u8 0, .u8 0, .u8 0, .u8 0x14, .u8 10]
        = .error "unsupported: deserialize MarkerLink") ∧
    (ChunkSerializerOperations.sample.lookup (ChunkSerializerOperations.sample.assign
          (some { id := 4, kind := .TLSDataRegion, position := some 0x4000, size := 64,
                  tlsOffset := 8 }))
        = some { id := 4, kind := .TLSDataRegion, position := some 0x4000, size := 64,
                 tlsOffset := 8 } ∧
      InstrSerializer.sample.serialize (fun _ => 0)
          (.LinkedInstruction [0, 0, 0, 0x90]
            (some (.TLSDataOffsetLink
              (some { id := 4, kind := .TLSDataRegion, position := some 0x4000, size := 64,
                      tlsOffset := 8 }) 16)) 1)
        = .ok [.u8 3, .u8 4, .u8 0, .u8 0, .u8 0, .u8 0x90, .u8 13, .u8 1] ∧
      InstrSerializer.sample.deserialize 0
          [.u8 3, .u8 4, .u8 0, .u8 0, .u8 0, .u8 0x90, .u8 13, .u8 1]
        = .ok (some (.LinkedInstruction [0, 0, 0, 0x90] (some (.UnresolvedLink 0)) 1), []) ∧
      (Link.UnresolvedLink 0).getTarget = none) :=
  ⟨⟨rfl, rfl⟩, ⟨rfl, rfl⟩, ⟨rfl, rfl⟩, rfl, rfl, rfl, rfl⟩

/-- C18 (amended): a semantic other than a `StackFrameInstruction` or a
`LiteralInstruction`, with at most 255 raw bytes, whose link (for a
`LinkedInstruction` or `ControlFlowInstruction`) carries its target and is resolved
by the oracles, is serialized, and `deserialize` of the stream succeeds, consumes
exactly what was written and yields a semantic with the same raw bytes and a link to
the same chunk; this holds when the disassembler keeps the bytes, gives a
`LinkedInstruction` an assembly and a `ControlFlowInstruction` a semantic that takes
a link. -/
theorem InstrSerializer.round_trip (self : InstrSerializer) (loaderBridge : String → Nat)
    (address : Nat) (S : InstrSemantic) (rest : ArchiveStream)
    (hlen : S.getData.length < 256) (hb : ∀ b ∈ S.getData, b < 256)
    (hty : S.type ≠ .TYPE_StackFrameInstruction ∧ S.type ≠ .TYPE_LiteralInstruction)
    (hlink : S.type = .TYPE_LinkedInstruction ∨ S.type = .TYPE_ControlFlowInstruction →
      ∃ l, S.serializedLink = some l ∧ l.carriesTarget = true ∧
        self.op.lookup (self.op.assign l.getTarget) = l.getTarget)
    (hdis : ∀ d, self.disassemble S.getData address = .ok d → d.getData = S.getData)
    (hasm : S.type = .TYPE_LinkedInstruction →
      ∃ d, self.disassemble S.getData address = .ok d ∧ d.getAssembly ≠ none)
    (hset : S.type = .TYPE_ControlFlowInstruction →
      ∃ d, self.disassemble S.getData address = .ok d ∧ ∀ l, ∃ d2, d.setLink l = .ok d2) :
    ∃ s d, self.serialize loaderBridge S = .ok s ∧
      self.deserialize address (s ++ rest) = .ok (some d, rest) ∧
      d.getData = S.getData ∧
      ∀ l, S.serializedLink = some l →
        ∃ l2, d.getLink = some l2 ∧ l2.getTarget.map Chunk.id = l.getTarget.map Chunk.id := by
  have hplain : ∀ type,
      (type = .TYPE_RawInstruction ∨ type = .TYPE_IsolatedInstruction ∨
        type = .TYPE_ReturnInstruction ∨ type = .TYPE_IndirectJumpInstruction ∨
        type = .TYPE_IndirectCallInstruction ∨ type = .TYPE_LinkedLiteralInstruction) →
      S.serializedLink = none →
      self.serialize loaderBridge S = .ok (SemanticSerializer.write type S) →
      ∃ s d, self.serialize loaderBridge S = .ok s ∧
        self.deserialize address (s ++ rest) = .ok (some d, rest) ∧
        d.getData = S.getData ∧
        ∀ l, S.serializedLink = some l →
          ∃ l2, d.getLink = some l2 ∧
            l2.getTarget.map Chunk.id = l.getTarget.map Chunk.id := by
    intro type ht hn hs
    obtain ⟨d, h1, h2⟩ := self.deserialize_plain address type S rest ht hlen hb hdis
    exact ⟨_, d, hs, h1, h2, fun l hl => by rw [hn] at hl; cases hl⟩
  cases S with
  | RawInstruction bytes => exact hplain _ (Or.inl rfl) rfl rfl
  | IsolatedInstruction bytes => exact hplain _ (Or.inr (Or.inl rfl)) rfl rfl
  | ReturnInstruction bytes => exact hplain _ (Or.inr (Or.inr (Or.inl rfl))) rfl rfl
  | IndirectJumpInstruction bytes =>
    exact hplain _ (Or.inr (Or.inr (Or.inr (Or.inl rfl)))) rfl rfl
  | IndirectCallInstruction bytes =>
    exact hplain _ (Or.inr (Or.inr (Or.inr (Or.inr (Or.inl rfl))))) rfl rfl
  | LinkedLiteralInstruction bytes link =>
    exact hplain _ (Or.inr (Or.inr (Or.inr (Or.inr (Or.inr rfl))))) rfl rfl
  | StackFrameInstruction bytes => exact absurd rfl hty.1
  | LiteralInstruction bytes => exact absurd rfl hty.2
  | LinkedInstruction bytes link index =>
    obtain ⟨l, hl, hc, hr⟩ := hlink (Or.inl rfl)
    have hl2 : link = some l := hl
    subst hl2
    obtain ⟨d0, hd0, ha⟩ := hasm rfl
    obtain ⟨sl, l2, hw, hdl, htg⟩ := self.deserializeLink_writeLink loaderBridge l
      (ArchiveStreamWriter.writeU8 index ++ rest) hc hr
    obtain ⟨d, h1, h2, h3⟩ := self.defaultDeserialize_getData address bytes
      (sl ++ (ArchiveStreamWriter.writeU8 index ++ rest)) hlen hb hdis
    have hdd : d = d0 := h3 d0 hd0
    subst hdd
    cases hasm2 : d.getAssembly with
    | none => exact absurd hasm2 ha
    | some a =>
      have haa : a = bytes := (d.getAssembly_eq a hasm2).trans h2
      subst haa
      refine ⟨SemanticSerializer.write .TYPE_LinkedInstruction
          (.LinkedInstruction a (some l) index) ++ sl ++ ArchiveStreamWriter.writeU8 index,
        .LinkedInstruction a (some l2) (index % 256), ?_, ?_, rfl, ?_⟩
      · simp only [InstrSerializer.serialize, hw]
        rfl
      · unfold SemanticSerializer.write ArchiveStreamWriter.writeU8
          InstrSerializer.deserialize
        simp only [List.singleton_append, List.cons_append, List.append_assoc,
          ArchiveStreamReader.readU8, EgalitoInstrType.toNat, Nat.reduceMod,
          List.nil_append, InstrSemantic.getData]
        simp only [ArchiveStreamWriter.writeU8, List.singleton_append] at h1 hdl
        simp only [h1, hasm2, hdl, ArchiveStreamReader.readU8]
      · intro l3 h3
        have : l3 = l := by
          simp only [InstrSemantic.serializedLink, Option.some.injEq] at h3
          exact h3.symm
        subst this
        exact ⟨l2, rfl, htg⟩
  | ControlFlowInstruction bytes link =>
    obtain ⟨l, hl, hc, hr⟩ := hlink (Or.inr rfl)
    have hl2 : link = some l := hl
    subst hl2
    obtain ⟨d0, hd0, hs0⟩ := hset rfl
    obtain ⟨sl, l2, hw, hdl, htg⟩ := self.deserializeLink_writeLink loaderBridge l rest hc hr
    obtain ⟨d, h1, h2, h3⟩ := self.defaultDeserialize_getData address bytes
      (sl ++ rest) hlen hb hdis
    have hdd : d = d0 := h3 d0 hd0
    subst hdd
    obtain ⟨d2, hd2⟩ := hs0 l2
    obtain ⟨hg1, hg2⟩ := d.getData_setLink d2 l2 hd2
    refine ⟨SemanticSerializer.write .TYPE_ControlFlowInstruction
        (.ControlFlowInstruction bytes (some l)) ++ sl, d2, ?_, ?_, hg1.trans h2, ?_⟩
    · simp only [InstrSerializer.serialize, hw]
      rfl
    · unfold SemanticSerializer.write ArchiveStreamWriter.writeU8
        InstrSerializer.deserialize
      simp only [List.singleton_append, List.cons_append, List.append_assoc,
        ArchiveStreamReader.readU8, EgalitoInstrType.toNat, Nat.reduceMod,
        List.nil_append, InstrSemantic.getData]
      simp only [h1, hdl, hd2]
    · intro l3 h3
      have : l3 = l := by
        simp only [InstrSemantic.serializedLink, Option.some.injEq] at h3
        exact h3.symm
      subst this
      exact ⟨l2, hg2, htg⟩

theorem InstrSerializer.round_trip_witness :
    ∃ s d, InstrSerializer.sample.serialize (fun _ => 0)
        (.ControlFlowInstruction [0, 0, 0, 0x14]
          (some (.NormalLink (some Chunk.sampleFunction) .SCOPE_EXTERNAL_CODE))) = .ok s ∧
      InstrSerializer.sample.deserialize 0 (s ++ [.u8 7]) = .ok (some d, [.u8 7]) ∧
      d.getData = [0, 0, 0, 0x14] ∧
      ∀ l, (some (Link.NormalLink (some Chunk.sampleFunction) .SCOPE_EXTERNAL_CODE)) = some l →
        ∃ l2, d.getLink = some l2 ∧ l2.getTarget.map Chunk.id = l.getTarget.map Chunk.id :=
  InstrSerializer.round_trip InstrSerializer.sample (fun _ => 0) 0
    (.ControlFlowInstruction [0, 0, 0, 0x14]
      (some (.NormalLink (some Chunk.sampleFunction) .SCOPE_EXTERNAL_CODE))) [.u8 7]
    (by decide) (by decide) (by decide)
    (fun _ => ⟨_, rfl, rfl, rfl⟩)
    (fun d h => by cases h; rfl)
    (fun h => by cases h)
    (fun _ => ⟨.ControlFlowInstruction [0, 0, 0, 0x14] none, rfl, fun l => ⟨_, rfl⟩⟩)

/-- C19: a `ControlFlowInstruction` with four raw bytes and a `NormalLink` to `F` is
written as the byte `TYPE_ControlFlowInstruction`, the length byte 4, the four bytes,
the byte `TYPE_NormalLink` and the id `assign(F)`.  In general (for at most 255 raw
bytes) a `LinkedInstruction` is written as tag, length, bytes, the serialized link and
one index byte, a `ControlFlowInstruction` as tag, length, bytes and the serialized
link, and every other semantic as tag, length and bytes only. -/
theorem InstrSerializer.serialize_layout (self : InstrSerializer)
    (loaderBridge : String → Nat) (b : List Nat)
    (hlen : b.length < 256) (hb : ∀ x ∈ b, x < 256) :
    (∀ F scope, b.length = 4 →
      self.serialize loaderBridge (.ControlFlowInstruction b (some (.NormalLink F scope)))
        = .ok (.u8 EgalitoInstrType.TYPE_ControlFlowInstruction.toNat :: .u8 4 ::
            b.map .u8 ++ [.u8 EgalitoLinkType.TYPE_NormalLink.toNat,
              .id (self.op.assign F)])) ∧
    (∀ l index sl, SemanticSerializer.writeLink self.op loaderBridge l = .ok sl →
      self.serialize loaderBridge (.LinkedInstruction b (some l) index)
        = .ok (.u8 EgalitoInstrType.TYPE_LinkedInstruction.toNat :: .u8 b.length ::
            b.map .u8 ++ sl ++ [.u8 (index % 256)])) ∧
    (∀ l sl, SemanticSerializer.writeLink self.op loaderBridge l = .ok sl →
      self.serialize loaderBridge (.ControlFlowInstruction b (some l))
        = .ok (.u8 EgalitoInstrType.TYPE_ControlFlowInstruction.toNat :: .u8 b.length ::
            b.map .u8 ++ sl)) ∧
    self.serialize loaderBridge (.RawInstruction b)
      = .ok (.u8 EgalitoInstrType.TYPE_RawInstruction.toNat :: .u8 b.length :: b.map .u8) ∧
    self.serialize loaderBridge (.IsolatedInstruction b)
      = .ok (.u8 EgalitoInstrType.TYPE_IsolatedInstruction.toNat :: .u8 b.length ::
          b.map .u8) ∧
    self.serialize loaderBridge (.ReturnInstruction b)
      = .ok (.u8 EgalitoInstrType.TYPE_ReturnInstruction.toNat :: .u8 b.length ::
          b.map .u8) ∧
    self.serialize loaderBridge (.IndirectJumpInstruction b)
      = .ok (.u8 EgalitoInstrType.TYPE_IndirectJumpInstruction.toNat :: .u8 b.length ::
          b.map .u8) ∧
    self.serialize loaderBridge (.IndirectCallInstruction b)
      = .ok (.u8 EgalitoInstrType.TYPE_IndirectCallInstruction.toNat :: .u8 b.length ::
          b.map .u8) ∧
    self.serialize loaderBridge (.StackFrameInstruction b)
      = .ok (.u8 EgalitoInstrType.TYPE_StackFrameInstruction.toNat :: .u8 b.length ::
          b.map .u8) ∧
    self.serialize loaderBridge (.LiteralInstruction b)
      = .ok (.u8 EgalitoInstrType.TYPE_LiteralInstruction.toNat :: .u8 b.length ::
          b.map .u8) ∧
    (∀ link, self.serialize loaderBridge (.LinkedLiteralInstruction b link)
      = .ok (.u8 EgalitoInstrType.TYPE_LinkedLiteralInstruction.toNat :: .u8 b.length ::
          b.map .u8)) := by
  have hw : ∀ type (S : InstrSemantic), S.getData = b →
      SemanticSerializer.write type S = .u8 type.toNat :: .u8 b.length :: b.map .u8 := by
    intro type S hS
    have := SemanticSerializer.write_eq type S (by rw [hS]; exact hlen) (by rw [hS]; exact hb)
    rw [hS] at this
    exact this
  refine ⟨?_, ?_, ?_, ?_, ?_, ?_, ?_, ?_, ?_, ?_, ?_⟩
  · intro F scope h4
    simp only [InstrSerializer.serialize, SemanticSerializer.writeLink, Except.map,
      hw _ (.ControlFlowInstruction b (some (.NormalLink F scope))) rfl, h4,
      SemanticSerializer.writeLinkTarget, ArchiveStreamWriter.writeU8,
      ArchiveStreamWriter.writeID, Link.getTarget, EgalitoLinkType.toNat, Nat.reduceMod,
      List.singleton_append, List.cons_append, List.nil_append]
  · intro l index sl hl
    simp only [InstrSerializer.serialize, hl, Except.map,
      hw _ (.LinkedInstruction b (some l) index) rfl,
      ArchiveStreamWriter.writeU8, List.cons_append]
  · intro l sl hl
    simp only [InstrSerializer.serialize, hl, Except.map,
      hw _ (.ControlFlowInstruction b (some l)) rfl, List.cons_append]
  · simp only [InstrSerializer.serialize, hw _ (.RawInstruction b) rfl]
  · simp only [InstrSerializer.serialize, hw _ (.IsolatedInstruction b) rfl]
  · simp only [InstrSerializer.serialize, hw _ (.ReturnInstruction b) rfl]
  · simp only [InstrSerializer.serialize, hw _ (.IndirectJumpInstruction b) rfl]
  · simp only [InstrSerializer.serialize, hw _ (.IndirectCallInstruction b) rfl]
  · simp only [InstrSerializer.serialize, hw _ (.StackFrameInstruction b) rfl]
  · simp only [InstrSerializer.serialize, hw _ (.LiteralInstruction b) rfl]
  · intro link
    simp only [InstrSerializer.serialize, hw _ (.LinkedLiteralInstruction b link) rfl]

theorem InstrSerializer.serialize_layout_witness :
    InstrSerializer.sample.serialize (fun _ => 0)
        (.ControlFlowInstruction [0x10, 0x20, 0x30, 0x14]
          (some (.NormalLink (some Chunk.sampleFunction) .SCOPE_WITHIN_MODULE)))
      = .ok [.u8 4, .u8 4, .u8 0x10, .u8 0x20, .u8 0x30, .u8 0x14, .u8 4, .id 2] :=
  (InstrSerializer.serialize_layout InstrSerializer.sample (fun _ => 0)
    [0x10, 0x20, 0x30, 0x14] (by decide) (by decide)).1
    (some Chunk.sampleFunction) .SCOPE_WITHIN_MODULE rfl

/-- C20: for an `OffsetLink`, an `ExternalOffsetLink` and a `DataOffsetLink` whose
target chunk has an address and is resolved by the oracles, the serialized link is
the tag, the id of the target and the delta `targetAddress - target.address`, and
`deserializeLink` makes of it a link of the same class, with the same target chunk
and the same target address. -/
theorem InstrSerializer.offset_link_delta (self : InstrSerializer)
    (loaderBridge : String → Nat) (c : Chunk) (a : Nat) (rest : ArchiveStream)
    (h : self.op.lookup (self.op.assign (some c)) = some c) (hp : c.position = some a) :
    (∀ offset, ∃ ta delta,
      Link.getTargetAddress loaderBridge (.OffsetLink (some c) offset) = some ta ∧
      delta = subAddress ta a ∧
      SemanticSerializer.writeLink self.op loaderBridge (.OffsetLink (some c) offset)
        = .ok [.u8 EgalitoLinkType.TYPE_OffsetLink.toNat, .id (self.op.assign (some c)),
            .address delta] ∧
      self.deserializeLink ([.u8 EgalitoLinkType.TYPE_OffsetLink.toNat,
          .id (self.op.assign (some c)), .address delta] ++ rest)
        = .ok (.OffsetLink (some c) delta, rest) ∧
      (Link.OffsetLink (some c) delta).getTarget = (Link.OffsetLink (some c) offset).getTarget ∧
      Link.getTargetAddress loaderBridge (.OffsetLink (some c) delta) = some ta) ∧
    (∀ offset, ∃ ta delta,
      Link.getTargetAddress loaderBridge (.ExternalOffsetLink (some c) offset) = some ta ∧
      delta = subAddress ta a ∧
      SemanticSerializer.writeLink self.op loaderBridge (.ExternalOffsetLink (some c) offset)
        = .ok [.u8 EgalitoLinkType.TYPE_ExternalOffsetLink.toNat,
            .id (self.op.assign (some c)), .address delta] ∧
      self.deserializeLink ([.u8 EgalitoLinkType.TYPE_ExternalOffsetLink.toNat,
          .id (self.op.assign (some c)), .address delta] ++ rest)
        = .ok (.ExternalOffsetLink (some c) delta, rest) ∧
      (Link.ExternalOffsetLink (some c) delta).getTarget
        = (Link.ExternalOffsetLink (some c) offset).getTarget ∧
      Link.getTargetAddress loaderBridge (.ExternalOffsetLink (some c) delta) = some ta) ∧
    (∀ target addend, c.kind = .DataSection → ∃ ta delta,
      Link.getTargetAddress loaderBridge (.DataOffsetLink (some c) target addend) = some ta ∧
      delta = subAddress ta a ∧
      SemanticSerializer.writeLink self.op loaderBridge
          (.DataOffsetLink (some c) target addend)
        = .ok [.u8 EgalitoLinkType.TYPE_DataOffsetLink.toNat,
            .id (self.op.assign (some c)), .address delta] ∧
      self.deserializeLink ([.u8 EgalitoLinkType.TYPE_DataOffsetLink.toNat,
          .id (self.op.assign (some c)), .address delta] ++ rest)
        = .ok (.DataOffsetLink (some c) delta 0, rest) ∧
      (Link.DataOffsetLink (some c) delta 0).getTarget
        = (Link.DataOffsetLink (some c) target addend).getTarget ∧
      Link.getTargetAddress loaderBridge (.DataOffsetLink (some c) delta 0) = some ta) := by
  obtain ⟨h1, h2, h3⟩ := self.deserializeLink_offsets loaderBridge c a rest h hp
  refine ⟨?_, ?_, ?_⟩
  · intro offset
    refine ⟨addAddress a offset, _, ?_, rfl, (h1 offset).1, (h1 offset).2, rfl, ?_⟩
    · simp [Link.getTargetAddress, Chunk.getAddress, hp]
    · simp only [Link.getTargetAddress, Chunk.getAddress, hp, Option.some_bind, Option.map_some',
        subAddress_addAddress]
  · intro offset
    refine ⟨addAddress a offset, _, ?_, rfl, (h2 offset).1, (h2 offset).2, rfl, ?_⟩
    · simp [Link.getTargetAddress, Chunk.getAddress, hp]
    · simp only [Link.getTargetAddress, Chunk.getAddress, hp, Option.some_bind, Option.map_some',
        subAddress_addAddress]
  · intro target addend hk
    refine ⟨addAddress (addAddress a target) addend, _, ?_, rfl, (h3 target addend hk).1,
      (h3 target addend hk).2, rfl, ?_⟩
    · simp [Link.getTargetAddress, Chunk.getAddress, hp]
    · simp only [Link.getTargetAddress, Chunk.getAddress, hp, Option.some_bind, Option.map_some',
        subAddress_addAddress_two]

theorem InstrSerializer.offset_link_delta_witness :
    ∃ ta delta,
      Link.getTargetAddress (fun _ => 0) (.DataOffsetLink (some Chunk.sampleSection) 0x40 8)
        = some ta ∧
      delta = subAddress ta 0x2000 ∧
      SemanticSerializer.writeLink InstrSerializer.sample.op (fun _ => 0)
          (.DataOffsetLink (some Chunk.sampleSection) 0x40 8)
        = .ok [.u8 EgalitoLinkType.TYPE_DataOffsetLink.toNat,
            .id (InstrSerializer.sample.op.assign (some Chunk.sampleSection)),
            .address delta] ∧
      InstrSerializer.sample.deserializeLink ([.u8 EgalitoLinkType.TYPE_DataOffsetLink.toNat,
          .id (InstrSerializer.sample.op.assign (some Chunk.sampleSection)),
          .address delta] ++ [])
        = .ok (.DataOffsetLink (some Chunk.sampleSection) delta 0, []) ∧
      (Link.DataOffsetLink (some Chunk.sampleSection) delta 0).getTarget
        = (Link.DataOffsetLink (some Chunk.sampleSection) 0x40 8).getTarget ∧
      Link.getTargetAddress (fun _ => 0) (.DataOffsetLink (some Chunk.sampleSection) delta 0)
        = some ta :=
  (InstrSerializer.offset_link_delta InstrSerializer.sample (fun _ => 0)
    Chunk.sampleSection 0x2000 [] rfl rfl).2.2 0x40 8 rfl


/-! ### Tags the deserializer does not rebuild -/

/-- C21, as stated, fails: the serializer writes the tags of a `JumpTableLink`, a
`SymbolOnlyLink` and a `MarkerLink`, and `deserializeLink` throws on each of them. -/
theorem InstrSerializer.deserializeLink_counterexample :
    SemanticSerializer.writeLink InstrSerializer.sample.op (fun _ => 0)
        (.MarkerLink (some Chunk.sampleFunction) 0) = .ok [.u8 10] ∧
      InstrSerializer.sample.deserializeLink [.u8 10]
        = .error "unsupported: deserialize MarkerLink" ∧
      InstrSerializer.sample.deserializeLink [.u8 9]
        = .error "unsupported: deserialize SymbolOnlyLink" ∧
      InstrSerializer.sample.deserializeLink [.u8 8]
        = .error "unsupported: deserialize JumpTableLink" :=
  ⟨rfl, rfl, rfl, rfl⟩

/-- C21, amended: for the tag bytes of `AbsoluteDataLink` (11), `TLSDataOffsetLink`
(13), `UnresolvedLink` (14), `ImmAndDispLink` (15), the unknown link (0) and every
value above 15, `deserializeLink` returns `UnresolvedLink(0)` and reads nothing after
the tag; for the tag bytes of `JumpTableLink` (8), `SymbolOnlyLink` (9) and
`MarkerLink` (10) it throws. -/
theorem InstrSerializer.deserializeLink_payloadless (self : InstrSerializer) (tag : Nat)
    (rest : ArchiveStream) :
    (tag = 0 ∨ tag = 11 ∨ 13 ≤ tag →
      self.deserializeLink (.u8 tag :: rest) = .ok (.UnresolvedLink 0, rest)) ∧
    (tag = EgalitoLinkType.TYPE_JumpTableLink.toNat →
      self.deserializeLink (.u8 tag :: rest)
        = .error "unsupported: deserialize JumpTableLink") ∧
    (tag = EgalitoLinkType.TYPE_SymbolOnlyLink.toNat →
      self.deserializeLink (.u8 tag :: rest)
        = .error "unsupported: deserialize SymbolOnlyLink") ∧
    (tag = EgalitoLinkType.TYPE_MarkerLink.toNat →
      self.deserializeLink (.u8 tag :: rest)
        = .error "unsupported: deserialize MarkerLink") := by
  refine ⟨?_, ?_, ?_, ?_⟩
  · intro h
    unfold InstrSerializer.deserializeLink
    simp only [ArchiveStreamReader.readU8]
    split <;> first | rfl | omega
  · intro h
    subst h
    rfl
  · intro h
    subst h
    rfl
  · intro h
    subst h
    rfl

theorem InstrSerializer.deserializeLink_payloadless_witness :
    InstrSerializer.sample.deserializeLink [.u8 13, .u8 1]
      = .ok (.UnresolvedLink 0, [.u8 1]) :=
  (InstrSerializer.deserializeLink_payloadless InstrSerializer.sample 13 [.u8 1]).1
    (by decide)

/-- C22, as stated, fails: on the tags of a `StackFrameInstruction` and a
`LiteralInstruction`, which the serializer writes, `deserialize` throws, and on an
unknown tag it returns the null pointer, not a `RawInstruction`. -/
theorem InstrSerializer.deserialize_counterexample :
    InstrSerializer.sample.serialize (fun _ => 0) (.StackFrameInstruction [1, 2, 3, 4])
        = .ok [.u8 8, .u8 4, .u8 1, .u8 2, .u8 3, .u8 4] ∧
      InstrSerializer.sample.deserialize 0 [.u8 8, .u8 4, .u8 1, .u8 2, .u8 3, .u8 4]
        = .error "StackFrameInstruction?" ∧
      InstrSerializer.sample.deserialize 0 [.u8 9, .u8 4, .u8 1, .u8 2, .u8 3, .u8 4]
        = .error "LiteralInstruction?" ∧
      InstrSerializer.sample.deserialize 0 [.u8 0, .u8 4, .u8 1, .u8 2, .u8 3, .u8 4]
        = .ok (none, [.u8 4, .u8 1, .u8 2, .u8 3, .u8 4]) ∧
      InstrSerializer.sample.deserialize 0 [.u8 200, .u8 4, .u8 1, .u8 2, .u8 3, .u8 4]
        = .ok (none, [.u8 4, .u8 1, .u8 2, .u8 3, .u8 4]) :=
  ⟨rfl, rfl, rfl, rfl, rfl⟩

/-- C22, amended: on an unknown tag byte (0 or above 10) `deserialize` returns the
null pointer and reads nothing after the tag; on the tags of `StackFrameInstruction`
and `LiteralInstruction` it throws; a `RawInstruction` holding the bytes read is the
result for the tags read by `defaultDeserialize` alone (Raw, Isolated, Return,
IndirectJump, IndirectCall, LinkedLiteral) when the disassembler throws on the
bytes. -/
theorem InstrSerializer.deserialize_tags (self : InstrSerializer) (address tag : Nat)
    (rest : ArchiveStream) :
    (tag = 0 ∨ 11 ≤ tag → self.deserialize address (.u8 tag :: rest) = .ok (none, rest)) ∧
    (tag = EgalitoInstrType.TYPE_StackFrameInstruction.toNat →
      self.deserialize address (.u8 tag :: rest) = .error "StackFrameInstruction?") ∧
    (tag = EgalitoInstrType.TYPE_LiteralInstruction.toNat →
      self.deserialize address (.u8 tag :: rest) = .error "LiteralInstruction?") ∧
    (tag = 1 ∨ tag = 2 ∨ tag = 5 ∨ tag = 6 ∨ tag = 7 ∨ tag = 10 →
      ∀ bytes rest2 msg, ArchiveStreamReader.readBytes rest = .ok (bytes, rest2) →
        self.disassemble bytes address = .error msg →
        self.deserialize address (.u8 tag :: rest)
          = .ok (some (.RawInstruction bytes), rest2)) := by
  refine ⟨?_, ?_, ?_, ?_⟩
  · intro h
    unfold InstrSerializer.deserialize
    simp only [ArchiveStreamReader.readU8]
    split <;> first | rfl | omega
  · intro h
    subst h
    rfl
  · intro h
    subst h
    rfl
  · intro h bytes rest2 msg hr hd
    have hdd : self.defaultDeserialize address rest = .ok (.RawInstruction bytes, rest2) := by
      unfold InstrSerializer.defaultDeserialize
      rw [hr]
      simp only [hd]
    unfold InstrSerializer.deserialize
    simp only [ArchiveStreamReader.readU8]
    rcases h with h | h | h | h | h | h <;> subst h <;> simp only [hdd] <;> rfl

theorem InstrSerializer.deserialize_tags_witness :
    InstrSerializer.sample.deserialize 0 [.u8 11, .u8 0] = .ok (none, [.u8 0]) ∧
      InstrSerializer.sample.deserialize 0 [.u8 1, .u8 2, .u8 7, .u8 9, .u8 3]
        = .ok (some (.RawInstruction [7, 9]), [.u8 3]) :=
  ⟨(InstrSerializer.deserialize_tags InstrSerializer.sample 0 11 [.u8 0]).1 (by decide),
    (InstrSerializer.deserialize_tags InstrSerializer.sample 0 1
      [.u8 2, .u8 7, .u8 9, .u8 3]).2.2.2 (by decide) [7, 9] [.u8 3] "disassembly failed"
      rfl rfl⟩

/-! ### Write-back of the base register -/

theorem UseDef.getRegSet_run_defReg_last (state : UDStateRef) (w : UseDefWorkSet)
    (cs : List Call) (reg : Int) (tree : Option TreeNode) (h : reg ≠ -1)
    (hl : cs.getLast? = some (.defReg reg tree)) :
    (UseDef.run state w cs).getRegSet reg = some [state] := by
  obtain ⟨ys, hys⟩ := List.getLast?_eq_some_iff.mp hl
  subst hys
  unfold UseDef.run
  rw [List.foldl_append]
  simp only [List.foldl_cons, List.foldl_nil]
  rw [(UseDef.getRegSet_runCall state _ _ _).2]
  simp [Call.definesReg, h]

/-- C30, as stated, fails for `STR`: the handler of `STR` runs in the mode `REG_MEM`
only, so the post-index store `STR X0, [SP], #16` (mode `REG_MEM_IMM`) makes no call:
no memory definition and no write-back of the base. -/
theorem UseDef.write_back_counterexample :
    (Assembly.strPostIndex 0 31 100 16).postIndex = true ∧
      (UseDef.fillStr RegisterFile.sample (Assembly.strPostIndex 0 31 100 16)).calls = [] ∧
      (UseDef.fillStr RegisterFile.sample (Assembly.strPostIndex 0 31 100 16)).isOk = true ∧
      (UseDef.fillStr RegisterFile.sample
        { Assembly.strPostIndex 0 31 100 16 with mode := .MODE_REG_MEM }).isOk = false := by
  decide

/-- C30, amended: `LDR`, `STR`, `LDP` and `STP` with pre-index (and no index register)
define `base := Add(PhysReg(base, wB), Const(disp))` besides their normal effect.
`LDR`, `LDP` and `STP` with post-index (modes `REG_MEM_IMM`, `REG_REG_MEM_IMM`; no index
register, displacement 0) access memory at `Add(PhysReg(base, wB), Const(0))` and
define `base := Add(PhysReg(base, wB), Const(imm))` as their last call, after which
the current state is the only exposed origin of `base` (for a valid base register).
`STR` with post-index makes no call at all in the mode `REG_MEM_IMM`, and fails the
assertion of `fillRegToMem` in the mode `REG_MEM`. -/
theorem UseDef.write_back (R : RegisterFile) (a : Assembly) :
    (let reg0 := R.convertToPhysical (a.getOperand 0).reg
     let base := R.convertToPhysical (a.getOperand 1).mem.base
     let memTree := TreeNode.Addition
       (.PhysicalRegister base (R.getWidth base (a.getOperand 1).mem.base))
       (.Constant (a.getOperand 1).mem.disp)
     a.mode = .MODE_REG_MEM → a.postIndex = false → a.preIndex = true →
     (a.getOperand 1).mem.index = R.INVALID_REGISTER →
      ((UseDef.fillLdr R a).calls =
          [.useReg base, .useMem memTree reg0, .defReg base (some memTree),
            .defReg reg0 (some (.Dereference memTree (a.widthBit 0x40)))] ∧
        (UseDef.fillLdr R a).result = .ok ()) ∧
      ((UseDef.fillStr R a).calls =
          [.useReg reg0, .useReg base, .defReg base (some memTree), .defMem memTree reg0] ∧
        (UseDef.fillStr R a).result = .ok ())) ∧
    (let reg0 := R.convertToPhysical (a.getOperand 0).reg
     let reg1 := R.convertToPhysical (a.getOperand 1).reg
     let base := R.convertToPhysical (a.getOperand 2).mem.base
     let memTree := TreeNode.Addition
       (.PhysicalRegister base (R.getWidth base (a.getOperand 2).mem.base))
       (.Constant (a.getOperand 2).mem.disp)
     let width := a.widthBit 0x80
     let memTree0 := TreeNode.Addition memTree (.Constant 0)
     let memTree1 := TreeNode.Addition memTree (.Constant (Int.ofNat width))
     a.mode = .MODE_REG_REG_MEM → a.postIndex = false → a.preIndex = true →
     (a.getOperand 2).mem.index = R.INVALID_REGISTER →
      ((UseDef.fillLdp R a).calls =
          [.useReg base, .defReg base (some memTree), .useMem memTree0 reg0,
            .useMem memTree1 reg1, .defReg reg0 (some (.Dereference memTree0 width)),
            .defReg reg1 (some (.Dereference memTree1 width))] ∧
        (UseDef.fillLdp R a).result = .ok ()) ∧
      ((UseDef.fillStp R a).calls =
          [.useReg reg0, .useReg reg1, .useReg base, .defReg base (some memTree),
            .defMem memTree0 reg0, .defMem memTree1 reg1] ∧
        (UseDef.fillStp R a).result = .ok ())) ∧
    (let reg0 := R.convertToPhysical (a.getOperand 0).reg
     let base := R.convertToPhysical (a.getOperand 1).mem.base
     let baseTree := TreeNode.PhysicalRegister base (R.getWidth base (a.getOperand 1).mem.base)
     let memTree := TreeNode.Addition baseTree (.Constant 0)
     a.mode = .MODE_REG_MEM_IMM → a.postIndex = true →
     (a.getOperand 1).mem.index = R.INVALID_REGISTER → (a.getOperand 1).mem.disp = 0 →
      (UseDef.fillLdr R a).calls =
          [.useReg base, .useMem memTree reg0,
            .defReg reg0 (some (.Dereference memTree (a.widthBit 0x40))),
            .defReg base (some (.Addition baseTree (.Constant (a.getOperand 2).imm)))] ∧
        (UseDef.fillLdr R a).result = .ok () ∧
        (base ≠ -1 → ∀ (w : UseDefWorkSet) (state : UDStateRef),
          (UseDef.run state w (UseDef.fillLdr R a).calls).getRegSet base = some [state])) ∧
    (let reg0 := R.convertToPhysical (a.getOperand 0).reg
     let reg1 := R.convertToPhysical (a.getOperand 1).reg
     let base := R.convertToPhysical (a.getOperand 2).mem.base
     let baseTree := TreeNode.PhysicalRegister base (R.getWidth base (a.getOperand 2).mem.base)
     let width := a.widthBit 0x80
     let memTree0 := TreeNode.Addition baseTree (.Constant 0)
     let memTree1 := TreeNode.Addition baseTree (.Constant (Int.ofNat width))
     let wbTree := TreeNode.Addition baseTree (.Constant (a.getOperand 3).imm)
     a.mode = .MODE_REG_REG_MEM_IMM → a.postIndex = true →
     (a.getOperand 2).mem.index = R.INVALID_REGISTER → (a.getOperand 2).mem.disp = 0 →
      ((UseDef.fillLdp R a).calls =
          [.useReg base, .useMem memTree0 reg0, .useMem memTree1 reg1,
            .defReg reg0 (some (.Dereference memTree0 width)),
            .defReg reg1 (some (.Dereference memTree1 width)), .defReg base (some wbTree)] ∧
        (UseDef.fillLdp R a).result = .ok () ∧
        (base ≠ -1 → ∀ (w : UseDefWorkSet) (state : UDStateRef),
          (UseDef.run state w (UseDef.fillLdp R a).calls).getRegSet base = some [state])) ∧
      ((UseDef.fillStp R a).calls =
          [.useReg reg0, .useReg reg1, .useReg base, .defMem memTree0 reg0,
            .defMem memTree1 reg1, .defReg base (some wbTree)] ∧
        (UseDef.fillStp R a).result = .ok () ∧
        (base ≠ -1 → ∀ (w : UseDefWorkSet) (state : UDStateRef),
          (UseDef.run state w (UseDef.fillStp R a).calls).getRegSet base = some [state]))) ∧
    (a.mode ≠ .MODE_REG_MEM →
      (UseDef.fillStr R a).calls = [] ∧ (UseDef.fillStr R a).result = .ok ()) ∧
    (a.mode = .MODE_REG_MEM → a.postIndex = true →
      (UseDef.fillStr R a).calls = [] ∧
        (UseDef.fillStr R a).result = .error "assert: !isPostIndex") := by
  refine ⟨?_, ?_, ?_, ?_, ?_, ?_⟩
  · dsimp only
    intro hm hp hq hi
    simp [UseDef.fillLdr, UseDef.fillStr, UseDef.fillMemToReg, UseDef.fillRegToMem, hm, hp,
      hq, hi, Calls.assert, Calls.useReg, Calls.defReg, Calls.useMem, Calls.defMem, bind,
      Calls.bind, pure]
  · dsimp only
    intro hm hp hq hi
    simp [UseDef.fillLdp, UseDef.fillStp, UseDef.fillMemToRegReg, UseDef.fillRegRegToMem, hm,
      hp, hq, hi, Calls.assert, Calls.useReg, Calls.defReg, Calls.useMem, Calls.defMem, bind,
      Calls.bind, pure]
  · dsimp only
    intro hm hp hi hd
    have hc : (UseDef.fillLdr R a).calls =
        [.useReg (R.convertToPhysical (a.getOperand 1).mem.base),
          .useMem (.Addition (.PhysicalRegister (R.convertToPhysical (a.getOperand 1).mem.base)
              (R.getWidth (R.convertToPhysical (a.getOperand 1).mem.base)
                (a.getOperand 1).mem.base)) (.Constant 0))
            (R.convertToPhysical (a.getOperand 0).reg),
          .defReg (R.convertToPhysical (a.getOperand 0).reg)
            (some (.Dereference (.Addition
              (.PhysicalRegister (R.convertToPhysical (a.getOperand 1).mem.base)
                (R.getWidth (R.convertToPhysical (a.getOperand 1).mem.base)
                  (a.getOperand 1).mem.base)) (.Constant 0)) (a.widthBit 0x40))),
          .defReg (R.convertToPhysical (a.getOperand 1).mem.base)
            (some (.Addition
              (.PhysicalRegister (R.convertToPhysical (a.getOperand 1).mem.base)
                (R.getWidth (R.convertToPhysical (a.getOperand 1).mem.base)
                  (a.getOperand 1).mem.base)) (.Constant (a.getOperand 2).imm)))] := by
      simp [UseDef.fillLdr, UseDef.fillMemImmToReg, hm, hp, hi, hd, Calls.assert,
        Calls.useReg, Calls.defReg, Calls.useMem, bind, Calls.bind, pure]
    refine ⟨hc, ?_, ?_⟩
    · simp [UseDef.fillLdr, UseDef.fillMemImmToReg, hm, hp, hi, hd, Calls.assert,
        Calls.useReg, Calls.defReg, Calls.useMem, bind, Calls.bind, pure]
    · intro hb w state
      exact UseDef.getRegSet_run_defReg_last state w _ _ _ hb (by rw [hc]; rfl)
  · dsimp only
    intro hm hp hi hd
    have hc1 : (UseDef.fillLdp R a).calls.getLast? =
        some (.defReg (R.convertToPhysical (a.getOperand 2).mem.base)
          (some (.Addition
            (.PhysicalRegister (R.convertToPhysical (a.getOperand 2).mem.base)
              (R.getWidth (R.convertToPhysical (a.getOperand 2).mem.base)
                (a.getOperand 2).mem.base)) (.Constant (a.getOperand 3).imm)))) := by
      simp [UseDef.fillLdp, UseDef.fillMemImmToRegReg, hm, hp, hi, hd, Calls.assert,
        Calls.useReg, Calls.defReg, Calls.useMem, bind, Calls.bind, pure]
    have hc2 : (UseDef.fillStp R a).calls.getLast? =
        some (.defReg (R.convertToPhysical (a.getOperand 2).mem.base)
          (some (.Addition
            (.PhysicalRegister (R.convertToPhysical (a.getOperand 2).mem.base)
              (R.getWidth (R.convertToPhysical (a.getOperand 2).mem.base)
                (a.getOperand 2).mem.base)) (.Constant (a.getOperand 3).imm)))) := by
      simp [UseDef.fillStp, UseDef.fillRegRegImmToMem, hm, hp, hi, hd, Calls.assert,
        Calls.useReg, Calls.defReg, Calls.defMem, bind, Calls.bind, pure]
    refine ⟨⟨?_, ?_, ?_⟩, ?_, ?_, ?_⟩
    · simp [UseDef.fillLdp, UseDef.fillMemImmToRegReg, hm, hp, hi, hd, Calls.assert,
        Calls.useReg, Calls.defReg, Calls.useMem, bind, Calls.bind, pure]
    · simp [UseDef.fillLdp, UseDef.fillMemImmToRegReg, hm, hp, hi, hd, Calls.assert,
        Calls.useReg, Calls.defReg, Calls.useMem, bind, Calls.bind, pure]
    · intro hb w state
      exact UseDef.getRegSet_run_defReg_last state w _ _ _ hb hc1
    · simp [UseDef.fillStp, UseDef.fillRegRegImmToMem, hm, hp, hi, hd, Calls.assert,
        Calls.useReg, Calls.defReg, Calls.defMem, bind, Calls.bind, pure]
    · simp [UseDef.fillStp, UseDef.fillRegRegImmToMem, hm, hp, hi, hd, Calls.assert,
        Calls.useReg, Calls.defReg, Calls.defMem, bind, Calls.bind, pure]
    · intro hb w state
      exact UseDef.getRegSet_run_defReg_last state w _ _ _ hb hc2
  · intro hm
    simp [UseDef.fillStr, hm, pure]
  · intro hm hp
    simp [UseDef.fillStr, UseDef.fillRegToMem, hm, hp, Calls.assert, Calls.throw, bind,
      Calls.bind]

theorem UseDef.write_back_witness :
    (UseDef.fillLdr RegisterFile.sample (Assembly.ldrPostIndex 0 31 100 16)).calls =
        [.useReg 31, .useMem (.Addition (.PhysicalRegister 31 8) (.Constant 0)) 0,
          .defReg 0 (some (.Dereference (.Addition (.PhysicalRegister 31 8) (.Constant 0)) 8)),
          .defReg 31 (some (.Addition (.PhysicalRegister 31 8) (.Constant 16)))] ∧
      (UseDef.fillStr RegisterFile.sample (Assembly.strPreIndex 0 31 100 (-16))).calls =
        [.useReg 0, .useReg 31,
          .defReg 31 (some (.Addition (.PhysicalRegister 31 8) (.Constant (-16)))),
          .defMem (.Addition (.PhysicalRegister 31 8) (.Constant (-16))) 0] :=
  ⟨((UseDef.write_back RegisterFile.sample (Assembly.ldrPostIndex 0 31 100 16)).2.2.1
      rfl rfl rfl rfl).1,
    ((UseDef.write_back RegisterFile.sample (Assembly.strPreIndex 0 31 100 (-16))).1
      rfl rfl rfl rfl).2.1⟩

/-! ### The link resolver -/

theorem Lookups.ext_iff {α : Type} (x y : Lookups α) :
    x = y ↔ x.lookups = y.lookups ∧ x.result = y.result := by
  constructor
  · intro h
    subst h
    exact ⟨rfl, rfl⟩
  · intro h
    cases x
    cases y
    simp only at h
    obtain ⟨h1, h2⟩ := h
    subst h1
    subst h2
    rfl

theorem Lookups.ask_bind {α β : Type} (call : Lookup) (value : α) (f : α → Lookups β) :
    (Lookups.ask call value).bind f
      = { lookups := call :: (f value).lookups, result := (f value).result } := rfl

theorem Lookups.bind_ok {α β : Type} (ls : List Lookup) (a : α) (f : α → Lookups β) :
    ({ lookups := ls, result := .ok a } : Lookups α).bind f
      = { lookups := ls ++ (f a).lookups, result := (f a).result } := rfl

theorem Lookups.pure_bind {α β : Type} (a : α) (f : α → Lookups β) :
    (pure a : Lookups α).bind f = f a := rfl

/-- C23: for a relocation with a symbol, `resolveInternally` returns null when the
section index of the symbol is 0; otherwise null when `weak` is false and the symbol
is weak; otherwise, for a marker symbol, the marker link created for the address of
the symbol, the addend of the relocation and the symbol.  No lookup of an address is
made in these cases: the creation of the marker link is the only call. -/
theorem PerfectLinkResolver.resolveInternally_early_exits (config : BuildConfig)
    (chunkFind : ChunkFind) (program : Option Program) (reloc : Reloc) (module : Module)
    (weak : Bool) (symbol : Symbol) (hs : reloc.symbol = some symbol) :
    (symbol.sectionIndex = 0 →
      (PerfectLinkResolver.resolveInternally config chunkFind program reloc module weak).result
          = .ok none ∧
        (PerfectLinkResolver.resolveInternally config chunkFind program reloc module
          weak).lookups = []) ∧
    (symbol.sectionIndex ≠ 0 → weak = false → symbol.bind = .BIND_WEAK →
      (PerfectLinkResolver.resolveInternally config chunkFind program reloc module weak).result
          = .ok none ∧
        (PerfectLinkResolver.resolveInternally config chunkFind program reloc module
          weak).lookups = []) ∧
    (symbol.sectionIndex ≠ 0 → (weak = true ∨ symbol.bind ≠ .BIND_WEAK) →
      symbol.marker = true →
      (PerfectLinkResolver.resolveInternally config chunkFind program reloc module weak).result
          = .ok (module.createMarkerLink symbol.address reloc.addend (some symbol)) ∧
        (PerfectLinkResolver.resolveInternally config chunkFind program reloc module
          weak).lookups
          = [.markerLink module.id symbol.address reloc.addend (some symbol)]) := by
  refine ⟨?_, ?_, ?_⟩
  · intro h0
    simp [PerfectLinkResolver.resolveInternally, hs, h0, pure]
  · intro h0 hw hb
    simp [PerfectLinkResolver.resolveInternally, hs, h0, hw, hb, pure]
  · intro h0 hw hm
    have hw2 : (!weak && decide (symbol.bind = .BIND_WEAK)) = false := by
      rcases hw with h | h
      · simp [h]
      · simp [h]
    simp [PerfectLinkResolver.resolveInternally, hs, h0, hw2, hm, Lookups.ask]

theorem PerfectLinkResolver.resolveInternally_early_exits_witness :
    (PerfectLinkResolver.resolveInternally BuildConfig.x86_64 ChunkFind.sample none
        { address := 0x1004, type := .R_X86_64_PC32, addend := 0,
          symbol := some { Symbol.sample "puts" 0 with sectionIndex := 0 } }
        Module.sample true).result = .ok none ∧
      (PerfectLinkResolver.resolveInternally BuildConfig.x86_64 ChunkFind.sample none
        { address := 0x1004, type := .R_X86_64_PC32, addend := 0,
          symbol := some { Symbol.sample "puts" 0 with sectionIndex := 0 } }
        Module.sample true).lookups = [] :=
  (PerfectLinkResolver.resolveInternally_early_exits BuildConfig.x86_64 ChunkFind.sample none
    { address := 0x1004, type := .R_X86_64_PC32, addend := 0,
      symbol := some { Symbol.sample "puts" 0 with sectionIndex := 0 } }
    Module.sample true { Symbol.sample "puts" 0 with sectionIndex := 0 } rfl).1 rfl

/-- The first call of the search for an address asks the functions of the module for
the one that contains the address. -/
theorem PerfectLinkResolver.searchAddress_head (chunkFind : ChunkFind) (module : Module)
    (addr : Nat) :
    ∃ rest, (PerfectLinkResolver.searchAddress chunkFind module addr).lookups =
      .containing module.id addr :: rest := by
  unfold PerfectLinkResolver.searchAddress
  rw [Lookups.ask_bind]
  exact ⟨_, rfl⟩

/-- C24: for a relocation whose symbol is defined, not deferred as weak and no marker:
on x86-64 with the type `R_X86_64_PC32` or `R_X86_64_GOTPC32` and the address of the
relocation inside an instruction, `resolveInternally` looks up the address
`symbolAddr + instrSize - (relocAddr - instrAddr) + addend` (modulo `2 ^ 64`); for
every other accepted type except `R_X86_64_GLOB_DAT`, and on other architectures, it
looks up `symbolAddr + addend`.  To look up an address `a` is: to ask the functions of
the module for the one containing `a`; if it starts at `a`, the link is to the
function; if it starts elsewhere, the instruction of the function at `a` is asked for
and the link is to it; if no function contains `a`, the data link at `a` is asked for,
and if there is none, the marker link at `a` with no symbol. -/
theorem PerfectLinkResolver.resolveInternally_address (config : BuildConfig)
    (chunkFind : ChunkFind) (program : Option Program) (reloc : Reloc) (module : Module)
    (weak : Bool) (symbol : Symbol) (hs : reloc.symbol = some symbol)
    (h0 : symbol.sectionIndex ≠ 0) (hw : weak = true ∨ symbol.bind ≠ .BIND_WEAK)
    (hm : symbol.marker = false) :
    (config.ARCH_X86_64 = true →
      reloc.type = .R_X86_64_PC32 ∨ reloc.type = .R_X86_64_GOTPC32 →
      ∀ (instr : Chunk) (instrAddr : Nat),
        module.findInnermostInsideInstruction reloc.address = some instr →
        instr.kind = .Instruction → instr.position = some instrAddr →
        ∃ addr : Nat, addr < 2 ^ 64 ∧
          (addr : Int) ≡ (symbol.address : Int) + instr.size
            - ((reloc.address : Int) - instrAddr) + reloc.addend [ZMOD 2 ^ 64] ∧
          addr = addAddress reloc.addend (subAddress (addAddress symbol.address instr.size)
            (subAddress reloc.address instrAddr)) ∧
          (PerfectLinkResolver.resolveInternally config chunkFind program reloc module
            weak).lookups
            = .innermostInsideInstruction module.id reloc.address ::
              (PerfectLinkResolver.searchAddress chunkFind module addr).lookups ∧
          (PerfectLinkResolver.resolveInternally config chunkFind program reloc module
            weak).result
            = (PerfectLinkResolver.searchAddress chunkFind module addr).result ∧
          ∃ rest, (PerfectLinkResolver.resolveInternally config chunkFind program reloc
            module weak).lookups
            = .innermostInsideInstruction module.id reloc.address ::
              .containing module.id addr :: rest) ∧
    ((config.ARCH_X86_64 = false ∨
        (PerfectLinkResolver.acceptedType config reloc.type = true ∧
          reloc.type ≠ .R_X86_64_PC32 ∧ reloc.type ≠ .R_X86_64_GOTPC32 ∧
          reloc.type ≠ .R_X86_64_GLOB_DAT)) →
      ∃ addr : Nat, addr < 2 ^ 64 ∧
        (addr : Int) ≡ (symbol.address : Int) + reloc.addend [ZMOD 2 ^ 64] ∧
        PerfectLinkResolver.resolveInternally config chunkFind program reloc module weak
          = PerfectLinkResolver.searchAddress chunkFind module addr ∧
        ∃ rest, (PerfectLinkResolver.resolveInternally config chunkFind program reloc
          module weak).lookups = .containing module.id addr :: rest) ∧
    (∀ a : Nat,
      (∀ f : Chunk, module.findContaining a = some f → f.position = some a →
        PerfectLinkResolver.searchAddress chunkFind module a =
          { lookups := [.containing module.id a],
            result := .ok (some (.NormalLink (some f) .SCOPE_WITHIN_MODULE)) }) ∧
      (∀ (f : Chunk) (fa : Nat), module.findContaining a = some f → f.position = some fa →
        fa ≠ a →
        PerfectLinkResolver.searchAddress chunkFind module a =
          { lookups := [.containing module.id a, .innermostInsideInstructionIn f a],
            result := .ok (some (.NormalLink
              (Chunk.castTo .Instruction (chunkFind.findInnermostInsideInstruction f a))
              .SCOPE_WITHIN_MODULE)) }) ∧
      (∀ d : Link, module.findContaining a = none → module.createDataLink a true = some d →
        PerfectLinkResolver.searchAddress chunkFind module a =
          { lookups := [.containing module.id a, .dataLink module.id a true],
            result := .ok (some d) }) ∧
      (module.findContaining a = none → module.createDataLink a true = none →
        PerfectLinkResolver.searchAddress chunkFind module a =
          { lookups := [.containing module.id a, .dataLink module.id a true,
              .markerLink module.id a 0 none],
            result := .ok (module.createMarkerLink a 0 none) })) := by
  have hw2 : (!weak && decide (symbol.bind = .BIND_WEAK)) = false := by
    rcases hw with h | h
    · simp [h]
    · simp [h]
  refine ⟨?_, ?_, ?_⟩
  · intro hx ht instr instrAddr hi hk hp
    have ha : PerfectLinkResolver.acceptedType config reloc.type = true := by
      rcases ht with h | h <;> simp [PerfectLinkResolver.acceptedType, h]
    have hl : (PerfectLinkResolver.resolveInternally config chunkFind program reloc module
        weak).lookups
        = .innermostInsideInstruction module.id reloc.address ::
          (PerfectLinkResolver.searchAddress chunkFind module
            (addAddress reloc.addend (subAddress (addAddress symbol.address instr.size)
              (subAddress reloc.address instrAddr)))).lookups := by
      simp [PerfectLinkResolver.resolveInternally, hs, h0, hw2, hm, hx, ha, ht, hi,
        Lookups.ask_bind, Chunk.castTo, hk, Chunk.getAddress, hp]
    refine ⟨_, (addAddress_spec _ _).1, ?_, rfl, hl, ?_, ?_⟩
    · have e1 := (addAddress_spec reloc.addend (subAddress (addAddress symbol.address instr.size)
        (subAddress reloc.address instrAddr))).2
      have e2 := (subAddress_spec (addAddress symbol.address instr.size)
        (subAddress reloc.address instrAddr)).2
      have e3 := (addAddress_spec symbol.address instr.size).2
      have e4 := (subAddress_spec reloc.address instrAddr).2
      have e5 := (e2.trans (Int.ModEq.sub e3 e4))
      have e6 := e1.trans (Int.ModEq.add_left _ e5)
      refine e6.trans ?_
      have : (reloc.addend : Int) + ((symbol.address : Int) + instr.size
          - ((reloc.address : Int) - instrAddr))
          = (symbol.address : Int) + instr.size - ((reloc.address : Int) - instrAddr)
            + reloc.addend := by ring
      rw [this]
    · simp [PerfectLinkResolver.resolveInternally, hs, h0, hw2, hm, hx, ha, ht, hi,
        Lookups.ask_bind, Chunk.castTo, hk, Chunk.getAddress, hp]
    · obtain ⟨rest, hrest⟩ := PerfectLinkResolver.searchAddress_head chunkFind module
        (addAddress reloc.addend (subAddress (addAddress symbol.address instr.size)
          (subAddress reloc.address instrAddr)))
      exact ⟨rest, by rw [hl, hrest]⟩
  · intro h
    have he : PerfectLinkResolver.resolveInternally config chunkFind program reloc module weak
        = PerfectLinkResolver.searchAddress chunkFind module
          (addAddress reloc.addend symbol.address) := by
      rcases h with hx | ⟨ha, h1, h2, h3⟩
      · simp [PerfectLinkResolver.resolveInternally, hs, h0, hw2, hm, hx]
      · by_cases hx : config.ARCH_X86_64 = true
        · simp [PerfectLinkResolver.resolveInternally, hs, h0, hw2, hm, hx, ha, h1, h2, h3]
        · simp [PerfectLinkResolver.resolveInternally, hs, h0, hw2, hm, hx]
    refine ⟨addAddress reloc.addend symbol.address, (addAddress_spec _ _).1, ?_, he, ?_⟩
    · refine (addAddress_spec _ _).2.trans ?_
      rw [add_comm]
    · rw [he]
      exact PerfectLinkResolver.searchAddress_head chunkFind module _
  · intro a
    refine ⟨?_, ?_, ?_, ?_⟩
    · intro f hf hp
      simp [PerfectLinkResolver.searchAddress, Lookups.ask_bind, hf, Chunk.getAddress, hp,
        pure]
    · intro f fa hf hp hne
      simp [PerfectLinkResolver.searchAddress, Lookups.ask_bind, hf, Chunk.getAddress, hp,
        hne, pure]
    · intro d hf hd
      simp [PerfectLinkResolver.searchAddress, Lookups.ask_bind, hf, hd,
        LinkFactory.makeDataLink, pure]
    · intro hf hd
      simp [PerfectLinkResolver.searchAddress, Lookups.bind_ok, hf, hd,
        LinkFactory.makeDataLink, LinkFactory.makeMarkerLink, Lookups.ask]

/-- The example of C24: symbol address `0x2000`, relocation at `0x1004` inside the
instruction of five bytes at `0x1000`, addend `-4`: the address looked up is `0x1FFD`.
No function of the example module contains it and it has no data link, so the calls
are the four below, each after the first at `0x1FFD`. -/
theorem PerfectLinkResolver.resolveInternally_address_witness :
    (PerfectLinkResolver.resolveInternally BuildConfig.x86_64 ChunkFind.sample none
        { address := 0x1004, type := .R_X86_64_PC32, addend := 2 ^ 64 - 4,
          symbol := some (Symbol.sample "counter" 0x2000) } Module.sample false).lookups
      = [.innermostInsideInstruction 1 0x1004, .containing 1 0x1FFD,
          .dataLink 1 0x1FFD true, .markerLink 1 0x1FFD 0 none] := by
  obtain ⟨addr, _, _, h3, h4, _, _⟩ :=
    (PerfectLinkResolver.resolveInternally_address BuildConfig.x86_64 ChunkFind.sample none
      { address := 0x1004, type := .R_X86_64_PC32, addend := 2 ^ 64 - 4,
        symbol := some (Symbol.sample "counter" 0x2000) } Module.sample false
      (Symbol.sample "counter" 0x2000) rfl (by decide) (Or.inr (by decide)) rfl).1 rfl
      (Or.inl rfl) (Chunk.sampleInstruction 0x1004) 0x1000 rfl rfl rfl
  have h5 : addr = 0x1FFD := by
    rw [h3]
    decide
  rw [h4, h5,
    ((PerfectLinkResolver.resolveInternally_address BuildConfig.x86_64 ChunkFind.sample none
      { address := 0x1004, type := .R_X86_64_PC32, addend := 2 ^ 64 - 4,
        symbol := some (Symbol.sample "counter" 0x2000) } Module.sample false
      (Symbol.sample "counter" 0x2000) rfl (by decide) (Or.inr (by decide)) rfl).2.2
      0x1FFD).2.2.2 rfl rfl]
  rfl

/-- C25 (the code departs from the claim): for an `R_X86_64_GLOB_DAT` relocation on
x86-64 whose symbol the symbol list of the main executable has under its plain name,
`resolveInternally` does not use the symbol found: it searches the address of the
referencing module's own symbol in the referencing module.  Only when the plain name
is absent and the versioned name is found does it return the data link made in the
main executable at the address of the symbol found. -/
theorem PerfectLinkResolver.resolveInternally_glob_dat (config : BuildConfig)
    (chunkFind : ChunkFind) (p : Program) (main : Module) (space : ElfSpace)
    (list : SymbolList) (reloc : Reloc) (module : Module) (weak : Bool) (symbol : Symbol)
    (hs : reloc.symbol = some symbol) (h0 : symbol.sectionIndex ≠ 0)
    (hw : weak = true ∨ symbol.bind ≠ .BIND_WEAK) (hm : symbol.marker = false)
    (hx : config.ARCH_X86_64 = true) (ht : reloc.type = .R_X86_64_GLOB_DAT)
    (hmain : p.main = some (main, some space)) (hlist : space.symbolList = some list) :
    (∀ s, list symbol.name = some s →
      (PerfectLinkResolver.resolveInternally config chunkFind (some p) reloc module
          weak).lookups
        = .symbol space.id symbol.name ::
          (PerfectLinkResolver.searchAddress chunkFind module symbol.address).lookups ∧
      (PerfectLinkResolver.resolveInternally config chunkFind (some p) reloc module
          weak).result
        = (PerfectLinkResolver.searchAddress chunkFind module symbol.address).result) ∧
    (∀ version s, list symbol.name = none → symbol.version = some version →
      list (PerfectLinkResolver.versionedName symbol.name version) = some s →
      (PerfectLinkResolver.resolveInternally config chunkFind (some p) reloc module
          weak).lookups
        = [.symbol space.id symbol.name,
            .symbol space.id (PerfectLinkResolver.versionedName symbol.name version),
            .dataLink main.id s.address true] ∧
      (PerfectLinkResolver.resolveInternally config chunkFind (some p) reloc module
          weak).result
        = .ok (main.createDataLink s.address true)) := by
  have hw2 : (!weak && decide (symbol.bind = .BIND_WEAK)) = false := by
    rcases hw with h | h
    · simp [h]
    · simp [h]
  have ha : PerfectLinkResolver.acceptedType config .R_X86_64_GLOB_DAT = true := by
    simp [PerfectLinkResolver.acceptedType]
  refine ⟨?_, ?_⟩
  · intro s hfound
    have he : PerfectLinkResolver.searchExecutable (some p) symbol
        = { lookups := [.symbol space.id symbol.name], result := .ok none } := by
      simp only [PerfectLinkResolver.searchExecutable, hmain, hlist, Lookups.ask_bind, hfound]
      rfl
    simp only [PerfectLinkResolver.resolveInternally, hs, h0, hw2, hm, hx, ht, ha, he]
    simp [Lookups.bind]
  · intro version s hnone hv hfound
    have he : PerfectLinkResolver.searchExecutable (some p) symbol
        = { lookups := [.symbol space.id symbol.name,
              .symbol space.id (PerfectLinkResolver.versionedName symbol.name version),
              .dataLink main.id s.address true],
            result := .ok (some (main.createDataLink s.address true)) } := by
      simp only [PerfectLinkResolver.searchExecutable, hmain, hlist, Lookups.ask_bind, hnone,
        hv, hfound, LinkFactory.makeDataLink]
      rfl
    simp only [PerfectLinkResolver.resolveInternally, hs, h0, hw2, hm, hx, ht, ha, he]
    simp [Lookups.bind, pure]

/-- The failing input of C25: the main executable has `environ` at `0x5000`; the
`R_X86_64_GLOB_DAT` relocation of the example module for its symbol `environ` at
`0x2010` is resolved to the module's own data at `0x2010`, and no data link is asked
of the main executable. -/
theorem PerfectLinkResolver.resolveInternally_glob_dat_witness :
    (PerfectLinkResolver.resolveInternally BuildConfig.x86_64 ChunkFind.sample
        (some Program.sample)
        { address := 0x2080, type := .R_X86_64_GLOB_DAT, addend := 0,
          symbol := some (Symbol.sample "environ" 0x2010) } Module.sample false).lookups
      = .symbol ElfSpace.sampleMain.id "environ" ::
        (PerfectLinkResolver.searchAddress ChunkFind.sample Module.sample 0x2010).lookups ∧
    (PerfectLinkResolver.resolveInternally BuildConfig.x86_64 ChunkFind.sample
        (some Program.sample)
        { address := 0x2080, type := .R_X86_64_GLOB_DAT, addend := 0,
          symbol := some (Symbol.sample "environ" 0x2010) } Module.sample false).result
      = (PerfectLinkResolver.searchAddress ChunkFind.sample Module.sample 0x2010).result :=
  (PerfectLinkResolver.resolveInternally_glob_dat BuildConfig.x86_64 ChunkFind.sample
    Program.sample Module.sampleMain ElfSpace.sampleMain
    (fun n =>
      if n = "environ" then some (Symbol.sample "environ" 0x5000)
      else if n = "stdout@@GLIBC_2.2.5" then some (Symbol.sample "stdout@@GLIBC_2.2.5" 0x5008)
      else none)
    { address := 0x2080, type := .R_X86_64_GLOB_DAT, addend := 0,
      symbol := some (Symbol.sample "environ" 0x2010) } Module.sample false
    (Symbol.sample "environ" 0x2010) rfl (by decide) (Or.inr (by decide)) rfl rfl rfl rfl
    rfl).1 (Symbol.sample "environ" 0x5000) rfl

/-- The failing input of C25, evaluated: the result is the data link into the example
module's own section at offset `0x10`; with the versioned name alone in the main
executable (`stdout@@GLIBC_2.2.5`) the result is the data link into the main
executable. -/
theorem PerfectLinkResolver.resolveInternally_glob_dat_example :
    (PerfectLinkResolver.resolveInternally BuildConfig.x86_64 ChunkFind.sample
        (some Program.sample)
        { address := 0x2080, type := .R_X86_64_GLOB_DAT, addend := 0,
          symbol := some (Symbol.sample "environ" 0x2010) } Module.sample false).result
      = .ok (some (.DataOffsetLink (some Chunk.sampleSection) 0x10 0)) ∧
    (PerfectLinkResolver.resolveInternally BuildConfig.x86_64 ChunkFind.sample
        (some Program.sample)
        { address := 0x2080, type := .R_X86_64_GLOB_DAT, addend := 0,
          symbol := some (Symbol.sample "environ" 0x2010) } Module.sample false).lookups
      = [.symbol 0 "environ", .containing 1 0x2010, .dataLink 1 0x2010 true] ∧
    (PerfectLinkResolver.resolveInternally BuildConfig.x86_64 ChunkFind.sample
        (some Program.sample)
        { address := 0x2088, type := .R_X86_64_GLOB_DAT, addend := 0,
          symbol := some { Symbol.sample "stdout" 0x2018 with
            version := some { name := "GLIBC_2.2.5", hidden := false } } }
        Module.sample false).result
      = .ok (some (.DataOffsetLink (some Chunk.sampleMainSection) 8 0)) :=
  ⟨rfl, rfl, rfl⟩

/-- C26 (the code departs from the claim): the search of `resolveInternally` for the
computed address (here for a relocation without a symbol, whose address is the
addend).  A function that contains the address and starts at it gives
`NormalLink(function, WithinModule)`.  A function that contains the address and does
not start at it gives `NormalLink(instruction, WithinModule)` with the result of the
cast of the innermost chunk to an instruction, which is null when no instruction of
the function contains the address: then the link has a null target, and neither the
data link nor the marker link is tried.  Outside every function the result is the
data link if one can be made, and else the marker link with a null symbol. -/
theorem PerfectLinkResolver.resolveInternally_search (config : BuildConfig)
    (chunkFind : ChunkFind) (program : Option Program) (reloc : Reloc) (module : Module)
    (weak : Bool) (hs : reloc.symbol = none) :
    PerfectLinkResolver.resolveInternally config chunkFind program reloc module weak
      = PerfectLinkResolver.searchAddress chunkFind module reloc.addend ∧
    (∀ addr func, module.findContaining addr = some func → func.position = some addr →
      (PerfectLinkResolver.searchAddress chunkFind module addr).result
        = .ok (some (.NormalLink (some func) .SCOPE_WITHIN_MODULE))) ∧
    (∀ addr func funcAddr instr, module.findContaining addr = some func →
      func.position = some funcAddr → funcAddr ≠ addr →
      chunkFind.findInnermostInsideInstruction func addr = some instr →
      instr.kind = .Instruction →
      (PerfectLinkResolver.searchAddress chunkFind module addr).result
        = .ok (some (.NormalLink (some instr) .SCOPE_WITHIN_MODULE))) ∧
    (∀ addr func funcAddr, module.findContaining addr = some func →
      func.position = some funcAddr → funcAddr ≠ addr →
      chunkFind.findInnermostInsideInstruction func addr = none →
      (PerfectLinkResolver.searchAddress chunkFind module addr).result
          = .ok (some (.NormalLink none .SCOPE_WITHIN_MODULE)) ∧
        (PerfectLinkResolver.searchAddress chunkFind module addr).lookups
          = [.containing module.id addr, .innermostInsideInstructionIn func addr]) ∧
    (∀ addr dlink, module.findContaining addr = none →
      module.createDataLink addr true = some dlink →
      (PerfectLinkResolver.searchAddress chunkFind module addr).result = .ok (some dlink)) ∧
    (∀ addr, module.findContaining addr = none → module.createDataLink addr true = none →
      (PerfectLinkResolver.searchAddress chunkFind module addr).result
          = .ok (module.createMarkerLink addr 0 none) ∧
        (PerfectLinkResolver.searchAddress chunkFind module addr).lookups
          = [.containing module.id addr, .dataLink module.id addr true,
              .markerLink module.id addr 0 none]) := by
  refine ⟨?_, ?_, ?_, ?_, ?_, ?_⟩
  · simp [PerfectLinkResolver.resolveInternally, hs]
  · intro addr func hf hp
    simp [PerfectLinkResolver.searchAddress, Lookups.ask_bind, hf, Chunk.getAddress, hp, pure]
  · intro addr func funcAddr instr hf hp hne hi hk
    simp [PerfectLinkResolver.searchAddress, Lookups.ask_bind, hf, Chunk.getAddress, hp, hne,
      hi, Chunk.castTo, hk, pure]
  · intro addr func funcAddr hf hp hne hi
    simp [PerfectLinkResolver.searchAddress, Lookups.ask_bind, hf, Chunk.getAddress, hp, hne,
      hi, Chunk.castTo, pure]
  · intro addr dlink hf hd
    simp [PerfectLinkResolver.searchAddress, Lookups.ask_bind, hf, LinkFactory.makeDataLink,
      hd, pure]
  · intro addr hf hd
    simp [PerfectLinkResolver.searchAddress, Lookups.bind_ok, hf, LinkFactory.makeDataLink,
      hd, LinkFactory.makeMarkerLink, Lookups.ask]

/-- The failing input of C26: the address `0x1018` lies inside the example function
(`0x1000` to `0x1020`) and inside none of its instructions; the result is a
`NormalLink` with a null target. -/
theorem PerfectLinkResolver.resolveInternally_search_witness :
    (PerfectLinkResolver.resolveInternally BuildConfig.x86_64 ChunkFind.sample none
        { address := 0x2080, type := .other 1, addend := 0x1018, symbol := none }
        Module.sample false).result
      = .ok (some (.NormalLink none .SCOPE_WITHIN_MODULE)) := by
  rw [(PerfectLinkResolver.resolveInternally_search BuildConfig.x86_64 ChunkFind.sample none
    { address := 0x2080, type := .other 1, addend := 0x1018, symbol := none }
    Module.sample false rfl).1]
  exact ((PerfectLinkResolver.resolveInternally_search BuildConfig.x86_64 ChunkFind.sample
    none { address := 0x2080, type := .other 1, addend := 0x1018, symbol := none }
    Module.sample false rfl).2.2.2.1 0x1018 Chunk.sampleFunction 0x1000 rfl rfl (by decide)
    rfl).1

/-- C29: `resolveInferred` ends without an error, and its result is the first
available of: the `NormalLink` with scope `InternalJump` to the innermost chunk at the
address inside the function of the instruction; the `NormalLink` with scope
`WithinModule` to the function of the module that starts at the address; the
`NormalLink` with scope `WithinModule` to the instruction that contains the address;
the data link for the address; and the marker link for the address with a null
symbol.  The result is not null when the marker list makes a marker link for the
address. -/
theorem PerfectLinkResolver.resolveInferred_total (chunkFind : ChunkFind) (address : Nat)
    (f : Option Chunk) (module : Module)
    (hmarker : module.createMarkerLink address 0 none ≠ none) :
    (∃ link, (PerfectLinkResolver.resolveInferred chunkFind address f module).result
      = .ok (some link)) ∧
    (∀ found, chunkFind.findInnermostAt f address = some found →
      (PerfectLinkResolver.resolveInferred chunkFind address f module).result
        = .ok (some (.NormalLink (some found) .SCOPE_INTERNAL_JUMP))) ∧
    (∀ found, chunkFind.findInnermostAt f address = none →
      module.find address = some found →
      (PerfectLinkResolver.resolveInferred chunkFind address f module).result
        = .ok (some (.NormalLink (some found) .SCOPE_WITHIN_MODULE))) ∧
    (∀ chunk, chunkFind.findInnermostAt f address = none → module.find address = none →
      module.findInnermostInsideInstruction address = some chunk →
      (PerfectLinkResolver.resolveInferred chunkFind address f module).result
        = .ok (some (.NormalLink (some chunk) .SCOPE_WITHIN_MODULE))) ∧
    (∀ dlink, chunkFind.findInnermostAt f address = none → module.find address = none →
      module.findInnermostInsideInstruction address = none →
      module.createDataLink address true = some dlink →
      (PerfectLinkResolver.resolveInferred chunkFind address f module).result
        = .ok (some dlink)) ∧
    (chunkFind.findInnermostAt f address = none → module.find address = none →
      module.findInnermostInsideInstruction address = none →
      module.createDataLink address true = none →
      (PerfectLinkResolver.resolveInferred chunkFind address f module).result
        = .ok (module.createMarkerLink address 0 none)) := by
  have h2 : ∀ found, chunkFind.findInnermostAt f address = some found →
      (PerfectLinkResolver.resolveInferred chunkFind address f module).result
        = .ok (some (.NormalLink (some found) .SCOPE_INTERNAL_JUMP)) := by
    intro found h
    simp [PerfectLinkResolver.resolveInferred, Lookups.ask_bind, h, pure]
  have h3 : ∀ found, chunkFind.findInnermostAt f address = none →
      module.find address = some found →
      (PerfectLinkResolver.resolveInferred chunkFind address f module).result
        = .ok (some (.NormalLink (some found) .SCOPE_WITHIN_MODULE)) := by
    intro found h1 h
    simp [PerfectLinkResolver.resolveInferred, Lookups.ask_bind, h1, h, pure]
  have h4 : ∀ chunk, chunkFind.findInnermostAt f address = none →
      module.find address = none →
      module.findInnermostInsideInstruction address = some chunk →
      (PerfectLinkResolver.resolveInferred chunkFind address f module).result
        = .ok (some (.NormalLink (some chunk) .SCOPE_WITHIN_MODULE)) := by
    intro chunk h1 h2 h
    simp [PerfectLinkResolver.resolveInferred, Lookups.ask_bind, h1, h2, h, pure]
  have h5 : ∀ dlink, chunkFind.findInnermostAt f address = none →
      module.find address = none → module.findInnermostInsideInstruction address = none →
      module.createDataLink address true = some dlink →
      (PerfectLinkResolver.resolveInferred chunkFind address f module).result
        = .ok (some dlink) := by
    intro dlink h1 h2 h3 h
    simp [PerfectLinkResolver.resolveInferred, Lookups.ask_bind, h1, h2, h3,
      LinkFactory.makeDataLink, h, pure]
  have h6 : chunkFind.findInnermostAt f address = none → module.find address = none →
      module.findInnermostInsideInstruction address = none →
      module.createDataLink address true = none →
      (PerfectLinkResolver.resolveInferred chunkFind address f module).result
        = .ok (module.createMarkerLink address 0 none) := by
    intro h1 h2 h3 h
    simp [PerfectLinkResolver.resolveInferred, Lookups.bind_ok, h1, h2, h3,
      LinkFactory.makeDataLink, h, LinkFactory.makeMarkerLink, Lookups.ask]
  refine ⟨?_, h2, h3, h4, h5, h6⟩
  cases e1 : chunkFind.findInnermostAt f address with
  | some found => exact ⟨_, h2 found e1⟩
  | none =>
    cases e2 : module.find address with
    | some found => exact ⟨_, h3 found e1 e2⟩
    | none =>
      cases e3 : module.findInnermostInsideInstruction address with
      | some chunk => exact ⟨_, h4 chunk e1 e2 e3⟩
      | none =>
        cases e4 : module.createDataLink address true with
        | some dlink => exact ⟨_, h5 dlink e1 e2 e3 e4⟩
        | none =>
          cases e5 : module.createMarkerLink address 0 none with
          | none => exact absurd e5 hmarker
          | some link => exact ⟨link, by rw [h6 e1 e2 e3 e4, e5]⟩

theorem PerfectLinkResolver.resolveInferred_total_witness :
    (PerfectLinkResolver.resolveInferred ChunkFind.sample 0x1008 (some Chunk.sampleFunction)
        Module.sample).result
      = .ok (some (.NormalLink (some (Chunk.sampleInstruction 0x1008))
          .SCOPE_WITHIN_MODULE)) :=
  (PerfectLinkResolver.resolveInferred_total ChunkFind.sample 0x1008
    (some Chunk.sampleFunction) Module.sample (by decide)).2.2.2.1
    (Chunk.sampleInstruction 0x1008) rfl rfl rfl

theorem Lookups.returnIf_pure_none (rest : Lookups (Option Link)) :
    Lookups.returnIf (pure none) rest = rest := rfl

theorem Lookups.returnIf_none_right (x : Lookups (Option Link)) :
    Lookups.returnIf x (pure none) = x := by
  cases x with
  | mk ls r =>
    cases r with
    | error e => rfl
    | ok v =>
      cases v with
      | none => simp [Lookups.returnIf, Lookups.bind, pure]
      | some l => simp [Lookups.returnIf, Lookups.bind, pure]

theorem Lookups.returnIf_assoc (a b c : Lookups (Option Link)) :
    Lookups.returnIf (Lookups.returnIf a b) c
      = Lookups.returnIf a (Lookups.returnIf b c) := by
  cases a with
  | mk la ra =>
    cases ra with
    | error e => rfl
    | ok va =>
      cases va with
      | some l => simp [Lookups.returnIf, Lookups.bind, pure]
      | none =>
        cases b with
        | mk lb rb =>
          cases rb with
          | error e => simp [Lookups.returnIf, Lookups.bind]
          | ok vb =>
            cases vb with
            | some l => simp [Lookups.returnIf, Lookups.bind, pure]
            | none => simp [Lookups.returnIf, Lookups.bind]

theorem Lookups.returnIf_result_none (a b : Lookups (Option Link)) :
    (Lookups.returnIf a b).result = .ok none ↔ a.result = .ok none ∧ b.result = .ok none := by
  cases a with
  | mk la ra =>
    cases ra with
    | error e => simp [Lookups.returnIf, Lookups.bind]
    | ok va =>
      cases va with
      | some l => simp [Lookups.returnIf, Lookups.bind, pure]
      | none => simp [Lookups.returnIf, Lookups.bind]

theorem PerfectLinkResolver.firstLink_append (xs ys : List (Lookups (Option Link))) :
    PerfectLinkResolver.firstLink (fun s => s) (xs ++ ys)
      = Lookups.returnIf (PerfectLinkResolver.firstLink (fun s => s) xs)
          (PerfectLinkResolver.firstLink (fun s => s) ys) := by
  induction xs with
  | nil => rfl
  | cons x xs ih =>
    show Lookups.returnIf x (PerfectLinkResolver.firstLink (fun s => s) (xs ++ ys))
      = Lookups.returnIf
          (Lookups.returnIf x (PerfectLinkResolver.firstLink (fun s => s) xs))
          (PerfectLinkResolver.firstLink (fun s => s) ys)
    rw [ih, Lookups.returnIf_assoc]

theorem PerfectLinkResolver.firstLink_map {α : Type} (body : α → Lookups (Option Link))
    (xs : List α) :
    PerfectLinkResolver.firstLink (fun s => s) (xs.map body)
      = PerfectLinkResolver.firstLink body xs := by
  induction xs with
  | nil => rfl
  | cons x xs ih => simp only [List.map_cons, PerfectLinkResolver.firstLink, ih]

theorem PerfectLinkResolver.firstLink_result_none (ss : List (Lookups (Option Link))) :
    (PerfectLinkResolver.firstLink (fun s => s) ss).result = .ok none
      ↔ ∀ s ∈ ss, s.result = .ok none := by
  induction ss with
  | nil => simp [PerfectLinkResolver.firstLink, pure]
  | cons s ss ih =>
    simp only [PerfectLinkResolver.firstLink, Lookups.returnIf_result_none, ih,
      List.mem_cons, forall_eq_or_imp]

theorem PerfectLinkResolver.firstLink_dependencies (name : String)
    (version : Option SymbolVersion) (elfSpace : ElfSpace) (weak afterMapping : Bool)
    (dependencies : List Nat) (modules : List (Module × Option ElfSpace)) :
    PerfectLinkResolver.firstLink
        (PerfectLinkResolver.dependencyBody name version elfSpace weak afterMapping
          dependencies) modules
      = PerfectLinkResolver.firstLink (fun s => s)
          ((modules.filter (fun module =>
              decide (module.1.library ∈ dependencies) &&
                (match module.2 with
                | some space => decide (space.id ≠ elfSpace.id)
                | none => false))).map
            (fun module =>
              PerfectLinkResolver.resolveNameAsLinkHelper name version module.2 weak
                afterMapping)) := by
  induction modules with
  | nil => rfl
  | cons m ms ih =>
    obtain ⟨module, space⟩ := m
    by_cases hd : module.library ∈ dependencies
    · cases space with
      | none =>
        simp [PerfectLinkResolver.firstLink, PerfectLinkResolver.dependencyBody, hd, ih,
          Lookups.returnIf_pure_none]
      | some space =>
        by_cases hi : space.id = elfSpace.id
        · simp [PerfectLinkResolver.firstLink, PerfectLinkResolver.dependencyBody, hd, hi, ih,
            Lookups.returnIf_pure_none]
        · simp [PerfectLinkResolver.firstLink, PerfectLinkResolver.dependencyBody, hd, hi, ih]
    · simp [PerfectLinkResolver.firstLink, PerfectLinkResolver.dependencyBody, hd, ih,
        Lookups.returnIf_pure_none]

theorem PerfectLinkResolver.resolveExternally2_eq (emulator : LoaderEmulator) (name : String)
    (version : Option SymbolVersion) (program : Program) (elfSpace : ElfSpace)
    (weak afterMapping : Bool) :
    PerfectLinkResolver.resolveExternally2 emulator name version program elfSpace weak
        afterMapping
      = PerfectLinkResolver.firstLink (fun s => s)
          (PerfectLinkResolver.sourcesInOrder emulator name version program elfSpace weak
            afterMapping) := by
  have hsrc : PerfectLinkResolver.sourcesInOrder emulator name version program elfSpace weak
      afterMapping
      = Lookups.ask (.emulatorFunction name)
          ((emulator.findFunction name).map
            (fun func => Link.NormalLink (some func) .SCOPE_EXTERNAL_CODE)) ::
        Lookups.ask (.emulatorData name afterMapping)
          (emulator.makeDataLink name afterMapping) ::
        ((program.modules.filter (fun module =>
              decide (module.1.library ∈ elfSpace.module.dependencies) &&
                (match module.2 with
                | some space => decide (space.id ≠ elfSpace.id)
                | none => false))).map
            (fun module =>
              PerfectLinkResolver.resolveNameAsLinkHelper name version module.2 weak
                afterMapping)
          ++ ([PerfectLinkResolver.resolveNameAsLinkHelper name version (some elfSpace) weak
                afterMapping]
            ++ program.modules.map
              (fun module =>
                PerfectLinkResolver.resolveNameAsLinkHelper name version module.2 weak
                  afterMapping))) := by
    unfold PerfectLinkResolver.sourcesInOrder
    simp only [List.cons_append, List.nil_append, List.append_assoc]
  rw [hsrc]
  show _ = Lookups.returnIf _ (Lookups.returnIf _ (PerfectLinkResolver.firstLink (fun s => s) _))
  rw [PerfectLinkResolver.firstLink_append, PerfectLinkResolver.firstLink_append,
    ← PerfectLinkResolver.firstLink_dependencies, PerfectLinkResolver.firstLink_map]
  show _ = Lookups.returnIf _ (Lookups.returnIf _ (Lookups.returnIf _
    (Lookups.returnIf (Lookups.returnIf _ (pure none)) _)))
  rw [Lookups.returnIf_none_right]
  unfold PerfectLinkResolver.resolveExternally2
  simp only [Lookups.returnIf_none_right]
  cases emulator.findFunction name with
  | none => rfl
  | some func => rfl

theorem PerfectLinkResolver.firstLink_result_some (ss : List (Lookups (Option Link)))
    (link : Link)
    (h : (PerfectLinkResolver.firstLink (fun s => s) ss).result = .ok (some link)) :
    ∃ pre s post, ss = pre ++ s :: post ∧ (∀ t ∈ pre, t.result = .ok none) ∧
      s.result = .ok (some link) := by
  induction ss with
  | nil => simp [PerfectLinkResolver.firstLink, pure] at h
  | cons s ss ih =>
    cases s with
    | mk ls r =>
      cases r with
      | error e => simp [PerfectLinkResolver.firstLink, Lookups.returnIf, Lookups.bind] at h
      | ok v =>
        cases v with
        | some l =>
          simp [PerfectLinkResolver.firstLink, Lookups.returnIf, Lookups.bind, pure] at h
          subst h
          exact ⟨[], _, ss, rfl, by simp, rfl⟩
        | none =>
          have h2 : (PerfectLinkResolver.firstLink (fun s => s) ss).result
              = .ok (some link) := by
            simpa [PerfectLinkResolver.firstLink, Lookups.returnIf, Lookups.bind] using h
          obtain ⟨pre, s, post, h3, h4, h5⟩ := ih h2
          refine ⟨{ lookups := ls, result := .ok none } :: pre, s, post, by rw [h3]; rfl, ?_,
            h5⟩
          intro t ht
          rcases List.mem_cons.mp ht with h6 | h6
          · rw [h6]
          · exact h4 t h6

theorem PerfectLinkResolver.resolveNameAsLinkHelper_null (name : String)
    (version : Option SymbolVersion) (weak afterMapping : Bool) :
    (PerfectLinkResolver.resolveNameAsLinkHelper name version none weak afterMapping).result
      = .error "null ElfSpace" := rfl

/-- C27 (the code departs from the claim): `resolveExternally2` returns the first
link that is not null of its sources in their order: the function of the loader
emulator, its data link, the program modules whose library is a dependency of the
current module (with an ELF space that is not the current one), the current ELF
space, and then every module of the program once more; it returns null exactly when
every one of these lookups ends with null.  The last loop passes the ELF space of a
module to the lookup without the test for null that the first loop makes, so that a
program with a module without an ELF space never gets the result null: the lookup
fails on the null pointer. -/
theorem PerfectLinkResolver.resolveExternally2_order (emulator : LoaderEmulator)
    (name : String) (version : Option SymbolVersion) (program : Program) (elfSpace : ElfSpace)
    (weak afterMapping : Bool) :
    PerfectLinkResolver.resolveExternally2 emulator name version program elfSpace weak
        afterMapping
      = PerfectLinkResolver.firstLink (fun s => s)
          (PerfectLinkResolver.sourcesInOrder emulator name version program elfSpace weak
            afterMapping) ∧
    ((PerfectLinkResolver.resolveExternally2 emulator name version program elfSpace weak
        afterMapping).result = .ok none
      ↔ ∀ s ∈ PerfectLinkResolver.sourcesInOrder emulator name version program elfSpace weak
          afterMapping, s.result = .ok none) ∧
    (∀ link, (PerfectLinkResolver.resolveExternally2 emulator name version program elfSpace
        weak afterMapping).result = .ok (some link) →
      ∃ pre s post, PerfectLinkResolver.sourcesInOrder emulator name version program elfSpace
          weak afterMapping = pre ++ s :: post ∧
        (∀ t ∈ pre, t.result = .ok none) ∧ s.result = .ok (some link)) ∧
    ((∃ module ∈ program.modules, module.2 = none) →
      (PerfectLinkResolver.resolveExternally2 emulator name version program elfSpace weak
        afterMapping).result ≠ .ok none) := by
  have he := PerfectLinkResolver.resolveExternally2_eq emulator name version program elfSpace
    weak afterMapping
  have hn := PerfectLinkResolver.firstLink_result_none
    (PerfectLinkResolver.sourcesInOrder emulator name version program elfSpace weak
      afterMapping)
  refine ⟨he, ?_, ?_, ?_⟩
  · rw [he]
    exact hn
  · intro link h
    rw [he] at h
    exact PerfectLinkResolver.firstLink_result_some _ link h
  · rintro ⟨module, hmem, hnull⟩ hres
    rw [he] at hres
    have hall := hn.mp hres
    have hsrc : PerfectLinkResolver.resolveNameAsLinkHelper name version module.2 weak
        afterMapping ∈ PerfectLinkResolver.sourcesInOrder emulator name version program
          elfSpace weak afterMapping := by
      unfold PerfectLinkResolver.sourcesInOrder
      apply List.mem_append_right
      exact List.mem_map.mpr ⟨module, hmem, rfl⟩
    have h1 := hall _ hsrc
    rw [hnull, PerfectLinkResolver.resolveNameAsLinkHelper_null] at h1
    cases h1

/-- The failing input of C27: the example program has a module without an ELF space;
for a name that no source has, `resolveExternally2` does not return null. -/
theorem PerfectLinkResolver.resolveExternally2_order_witness :
    (PerfectLinkResolver.resolveExternally2 LoaderEmulator.sample "missing" none
        Program.sample ElfSpace.sample false false).result ≠ .ok none :=
  (PerfectLinkResolver.resolveExternally2_order LoaderEmulator.sample "missing" none
    Program.sample ElfSpace.sample false false).2.2.2
    ⟨({ Module.sampleMain with id := 2, library := 2, dependencies := [] }, none),
      by simp [Program.sample], rfl⟩

/-- The failing input of C27, evaluated: every lookup misses, and the last loop fails
on the null ELF space of the third module. -/
theorem PerfectLinkResolver.resolveExternally2_example :
    (PerfectLinkResolver.resolveExternally2 LoaderEmulator.sample "missing" none
        Program.sample ElfSpace.sample false false).result = .error "null ElfSpace" ∧
    (PerfectLinkResolver.resolveExternally2 LoaderEmulator.sample "missing" none
        Program.sample ElfSpace.sample false false).lookups
      = [.emulatorFunction "missing", .emulatorData "missing" false,
          .dynamicSymbol 1 "missing", .dynamicSymbol 0 "missing",
          .dynamicSymbol 1 "missing"] ∧
    (PerfectLinkResolver.resolveExternally2 LoaderEmulator.sample "missing" none
        { Program.sample with modules := Program.sample.modules.take 2 }
        ElfSpace.sample false false).result = .ok none :=
  ⟨rfl, rfl, rfl⟩

/-- C28 (the code departs from the claim): with a version, `resolveNameAsLinkHelper`
looks up, in this order and up to the first hit, the three names `name`, `name@ver`
and `name@@`: the third name lacks the name of the version.  With no version it looks
up `name` only.  In the example ELF space, which has `memcpy@@GLIBC_2.14` alone, the
lookup of `memcpy` with the version `GLIBC_2.14` misses, though the lookup of
`memcpy@@GLIBC_2.14` hits. -/
theorem PerfectLinkResolver.resolveNameAsLinkHelper_names (name : String)
    (version : SymbolVersion) (space : Option ElfSpace) (weak afterMapping : Bool) :
    PerfectLinkResolver.resolveNameAsLinkHelper name (some version) space weak afterMapping
      = PerfectLinkResolver.firstLink
          (fun n => PerfectLinkResolver.resolveNameAsLinkHelper2 n space weak afterMapping)
          [name, name ++ "@" ++ version.name, name ++ "@@"] ∧
    PerfectLinkResolver.resolveNameAsLinkHelper name none space weak afterMapping
      = PerfectLinkResolver.firstLink
          (fun n => PerfectLinkResolver.resolveNameAsLinkHelper2 n space weak afterMapping)
          [name] ∧
    (PerfectLinkResolver.resolveNameAsLinkHelper "memcpy"
        (some { name := "GLIBC_2.14", hidden := false }) (some ElfSpace.sample) true
        false).lookups
      = [.dynamicSymbol 1 "memcpy", .dynamicSymbol 1 "memcpy@GLIBC_2.14",
          .dynamicSymbol 1 "memcpy@@"] ∧
    (PerfectLinkResolver.resolveNameAsLinkHelper "memcpy"
        (some { name := "GLIBC_2.14", hidden := false }) (some ElfSpace.sample) true
        false).result = .ok none ∧
    (PerfectLinkResolver.resolveNameAsLinkHelper2 "memcpy@@GLIBC_2.14" (some ElfSpace.sample)
        true false).result
      = .ok (some (.NormalLink (some Chunk.sampleFunction) .SCOPE_EXTERNAL_CODE)) :=
  ⟨rfl, rfl, rfl, rfl, rfl⟩


/-! ### The tables of a state after a call -/

theorem UDState.addMemRef_spec (s : UDState) (reg : Int) (o : UDStateRef) :
    (s.addMemRef reg o).regList = s.regList ∧
      (s.addMemRef reg o).regRefList = s.regRefList ∧
      (s.addMemRef reg o).memList = s.memList ∧
      ∀ p, p ∈ (s.addMemRef reg o).memRefList ↔ p ∈ s.memRefList ∨ p = (reg, o) := by
  unfold UDState.addMemRef
  by_cases h : (s.memRefList.any (fun e => decide (e.1 = reg) && decide (e.2 = o))) = true
  · simp only [h, if_true, true_and]
    intro p
    constructor
    · exact Or.inl
    · rintro (h1 | h1)
      · exact h1
      · obtain ⟨e, he, he2⟩ := List.any_eq_true.mp h
        simp only [Bool.and_eq_true, decide_eq_true_eq] at he2
        have : e = (reg, o) := Prod.ext he2.1 he2.2
        rw [h1, ← this]
        exact he
  · simp only [h, Bool.false_eq_true, if_false, true_and]
    intro p
    simp

theorem UseDefWorkSet.stateList_foldl {β : Type} (state : UDStateRef)
    (g : UDState → β → UDState) (c : β → Bool) (l : List β) :
    ∀ w : UseDefWorkSet,
      (l.foldl (fun acc b => if c b then acc.modifyState state (fun s => g s b) else acc)
          w).stateList state =
        l.foldl (fun s b => if c b then g s b else s) (w.stateList state) ∧
      ∀ i, i ≠ state →
        (l.foldl (fun acc b => if c b then acc.modifyState state (fun s => g s b) else acc)
          w).stateList i = w.stateList i := by
  induction l with
  | nil => intro w; exact ⟨rfl, fun _ _ => rfl⟩
  | cons b t ih =>
    intro w
    simp only [List.foldl_cons]
    by_cases hc : c b = true
    · simp only [hc, if_true]
      obtain ⟨h1, h2⟩ := ih (w.modifyState state (fun s => g s b))
      refine ⟨?_, ?_⟩
      · rw [h1]
        simp [UseDefWorkSet.modifyState]
      · intro i hi
        rw [h2 i hi]
        simp [UseDefWorkSet.modifyState, hi]
    · simp only [hc, Bool.false_eq_true, if_false]
      exact ih w

/-- What `useMem(state, place, reg)` does to the tables of the states: the state gets
the pair `(reg, origin)` for exactly the exposed entries at the location of `place`. -/
theorem UseDef.useMem_state (w : UseDefWorkSet) (state : UDStateRef) (place : TreeNode)
    (reg : Int) :
    ((UseDef.useMem w state place reg).stateList state).regList =
        (w.stateList state).regList ∧
      ((UseDef.useMem w state place reg).stateList state).regRefList =
        (w.stateList state).regRefList ∧
      ((UseDef.useMem w state place reg).stateList state).memList =
        (w.stateList state).memList ∧
      (∀ p, p ∈ ((UseDef.useMem w state place reg).stateList state).memRefList ↔
        p ∈ (w.stateList state).memRefList ∨
          (p.1 = reg ∧ ∃ e ∈ w.memExposed,
            MemOrigin.sameLocation place e = true ∧ e.origin = p.2)) ∧
      ∀ i, i ≠ state → (UseDef.useMem w state place reg).stateList i = w.stateList i := by
  unfold UseDef.useMem UseDefWorkSet.copyFromMemSetFor UseDefWorkSet.memExposed
  obtain ⟨h1, h2⟩ := UseDefWorkSet.stateList_foldl state
    (fun s (m : MemOrigin) => s.addMemRef reg m.origin)
    (fun m => MemLocation.equals (MemLocation.ofTree place) (MemLocation.ofTree m.place))
    (w.nodeExposedMemSetList w.memSet) w
  refine ⟨?_, ?_, ?_, ?_, h2⟩
  all_goals rw [h1]
  all_goals generalize w.stateList state = s
  all_goals generalize w.nodeExposedMemSetList w.memSet = l
  all_goals induction l generalizing s with
    | nil => simp
    | cons m t ih =>
      simp only [List.foldl_cons]
      obtain ⟨g1, g2, g3, g4⟩ := UDState.addMemRef_spec s reg m.origin
      by_cases hc : MemLocation.equals (MemLocation.ofTree place)
          (MemLocation.ofTree m.place) = true
      · simp only [hc, if_true]
        first
          | rw [ih, g1]
          | rw [ih, g2]
          | rw [ih, g3]
          | (intro p
             rw [ih, g4]
             simp only [List.mem_cons]
             constructor
             · rintro ((h | h) | ⟨h, e, he, he2⟩)
               · exact Or.inl h
               · exact Or.inr ⟨by rw [h], m, Or.inl rfl, hc, by rw [h]⟩
               · exact Or.inr ⟨h, e, Or.inr he, he2⟩
             · rintro (h | ⟨h, e, he | he, he2⟩)
               · exact Or.inl (Or.inl h)
               · subst he
                 exact Or.inl (Or.inr (Prod.ext h he2.2.symm))
               · exact Or.inr ⟨h, e, he, he2⟩)
      · simp only [hc, Bool.false_eq_true, if_false]
        first
          | exact ih s
          | (intro p
             rw [ih]
             simp only [List.mem_cons]
             constructor
             · rintro (h | ⟨h, e, he, he2⟩)
               · exact Or.inl h
               · exact Or.inr ⟨h, e, Or.inr he, he2⟩
             · rintro (h | ⟨h, e, he | he, he2⟩)
               · exact Or.inl h
               · subst he
                 exact absurd he2.1 hc
               · exact Or.inr ⟨h, e, he, he2⟩)

/-- What `useReg(state, reg)` does to the tables of the states: the state gets every
origin exposed for `reg`. -/
theorem UseDef.useReg_state (w : UseDefWorkSet) (state : UDStateRef) (reg : Int) :
    ((UseDef.useReg w state reg).stateList state).regList = (w.stateList state).regList ∧
      ((UseDef.useReg w state reg).stateList state).memList = (w.stateList state).memList ∧
      ((UseDef.useReg w state reg).stateList state).memRefList =
        (w.stateList state).memRefList ∧
      (∀ r o, o ∈ RefList.origins ((UseDef.useReg w state reg).stateList state).regRefList r ↔
        o ∈ RefList.origins (w.stateList state).regRefList r ∨
          (r = reg ∧ o ∈ w.regExposed reg)) ∧
      ∀ i, i ≠ state → (UseDef.useReg w state reg).stateList i = w.stateList i := by
  unfold UseDef.useReg UseDefWorkSet.regExposed
  cases hg : w.getRegSet reg with
  | none => simp
  | some origins =>
    simp only [Option.getD_some]
    obtain ⟨h1, h2⟩ := UseDefWorkSet.stateList_foldl state
      (fun s (o : UDStateRef) => s.addRegRef reg o) (fun _ => true) origins w
    simp only [if_true] at h1 h2
    refine ⟨?_, ?_, ?_, ?_, h2⟩
    all_goals rw [h1]
    all_goals clear h1 h2 hg
    all_goals generalize w.stateList state = s
    all_goals induction origins generalizing s with
      | nil => simp
      | cons o t ih =>
        simp only [List.foldl_cons]
        first
          | (rw [ih]; rfl)
          | (intro r x
             rw [ih]
             simp only [UDState.addRegRef, RefList.mem_origins_add, List.mem_cons]
             constructor
             · rintro ((h | ⟨h, h3⟩) | ⟨h, h3⟩)
               · exact Or.inl h
               · exact Or.inr ⟨h, Or.inl h3⟩
               · exact Or.inr ⟨h, Or.inr h3⟩
             · rintro (h | ⟨h, h3 | h3⟩)
               · exact Or.inl (Or.inl h)
               · exact Or.inl (Or.inr ⟨h, h3⟩)
               · exact Or.inr ⟨h, h3⟩)

/-- What `defReg(state, reg, tree)` does to the tables of the states, for a register
other than -1. -/
theorem UseDef.defReg_state (w : UseDefWorkSet) (state : UDStateRef) (reg : Int)
    (tree : Option TreeNode) (h : reg ≠ -1) :
    (UseDef.defReg w state reg tree).stateList state =
        (w.stateList state).addRegDef reg tree ∧
      (∀ i, i ≠ state → (UseDef.defReg w state reg tree).stateList i = w.stateList i) ∧
      (UseDef.defReg w state reg tree).memExposed = w.memExposed := by
  simp [UseDef.defReg, h, UseDefWorkSet.setAsRegSet, UseDefWorkSet.modifyRegSet,
    UseDefWorkSet.modifyState, UseDefWorkSet.memExposed]
  intro i hi
  simp [hi]

/-- What `defMem(state, place, reg)` does to the tables of the states and to
`mem_exposed`. -/
theorem UseDef.defMem_state (w : UseDefWorkSet) (state : UDStateRef) (place : TreeNode)
    (reg : Int) :
    (UseDef.defMem w state place reg).stateList state =
        (w.stateList state).addMemDef reg place ∧
      (∀ i, i ≠ state → (UseDef.defMem w state place reg).stateList i = w.stateList i) ∧
      (UseDef.defMem w state place reg).memExposed =
        MemOriginList.set w.memExposed place state := by
  simp [UseDef.defMem, UseDefWorkSet.setAsMemSet, UseDefWorkSet.modifyMemSet,
    UseDefWorkSet.modifyState, UseDefWorkSet.memExposed]
  intro i hi
  simp [hi]

theorem UseDef.memExposed_useReg (w : UseDefWorkSet) (state : UDStateRef) (reg : Int) :
    (UseDef.useReg w state reg).memExposed = w.memExposed := by
  obtain ⟨_, h2, _, h4⟩ := UseDef.sameExposed_useReg w state reg
  unfold UseDefWorkSet.memExposed
  rw [h2, h4]

theorem UseDef.memExposed_useMem (w : UseDefWorkSet) (state : UDStateRef) (place : TreeNode)
    (reg : Int) : (UseDef.useMem w state place reg).memExposed = w.memExposed := by
  obtain ⟨_, h2, _, h4⟩ := UseDef.sameExposed_useMem w state place reg
  unfold UseDefWorkSet.memExposed
  rw [h2, h4]

theorem UseDef.memExposed_defReg (w : UseDefWorkSet) (state : UDStateRef) (reg : Int)
    (tree : Option TreeNode) : (UseDef.defReg w state reg tree).memExposed = w.memExposed := by
  by_cases h : reg ≠ -1
  · exact (UseDef.defReg_state w state reg tree h).2.2
  · simp [UseDef.defReg, h]

theorem UseDef.regExposed_useReg (w : UseDefWorkSet) (state : UDStateRef) (reg r : Int) :
    (UseDef.useReg w state reg).getRegSet r = w.getRegSet r := by
  have h := (UseDef.getRegSet_runCall state (.useReg reg) w r).2
  simpa [UseDef.runCall, Call.definesReg] using h

theorem UseDef.regExposed_useMem (w : UseDefWorkSet) (state : UDStateRef) (place : TreeNode)
    (reg r : Int) : (UseDef.useMem w state place reg).getRegSet r = w.getRegSet r := by
  have h := (UseDef.getRegSet_runCall state (.useMem place reg) w r).2
  simpa [UseDef.runCall, Call.definesReg] using h

theorem UseDef.regExposed_defMem (w : UseDefWorkSet) (state : UDStateRef) (place : TreeNode)
    (reg r : Int) : (UseDef.defMem w state place reg).getRegSet r = w.getRegSet r := by
  have h := (UseDef.getRegSet_runCall state (.defMem place reg) w r).2
  simpa [UseDef.runCall, Call.definesReg] using h

theorem UseDef.regExposed_defReg (w : UseDefWorkSet) (state : UDStateRef) (reg r : Int)
    (tree : Option TreeNode) :
    (UseDef.defReg w state reg tree).getRegSet r =
      if reg = r ∧ reg ≠ -1 then some [state] else w.getRegSet r := by
  have h := (UseDef.getRegSet_runCall state (.defReg reg tree) w r).2
  simpa [UseDef.runCall, Call.definesReg] using h

/-! ### Arithmetic handlers -/

theorem UseDef.fillStateCalls_enabled (R : RegisterFile) (config : UseDefConfiguration)
    (a : Assembly) (f : RegisterFile → Assembly → Calls Unit)
    (hen : config.isEnabled a.id = true) (hh : UseDef.handlers a.id = some f) :
    (UseDef.fillStateCalls R config a).calls = (f R a).calls ∧
      (UseDef.fillStateCalls R config a).result = (f R a).result := by
  have hat : a.id ≠ .ARM64_INS_AT := by
    intro h
    rw [h] at hh
    simp [UseDef.handlers] at hh
  unfold UseDef.fillStateCalls UseDef.callIfEnabled
  simp only [hat, if_false, hen, if_true, hh]
  cases hr : (f R a).result with
  | error e => simp [bind, Calls.bind, hr]
  | ok u => simp [bind, Calls.bind, hr, pure]

theorem UseDef.regList_run_defReg_last (state : UDStateRef) (w : UseDefWorkSet)
    (cs : List Call) (reg : Int) (tree : Option TreeNode) (h : reg ≠ -1)
    (hl : cs.getLast? = some (.defReg reg tree)) :
    StdMap.find ((UseDef.run state w cs).stateList state).regList reg = some tree := by
  obtain ⟨ys, hys⟩ := List.getLast?_eq_some_iff.mp hl
  subst hys
  unfold UseDef.run
  rw [List.foldl_append]
  simp only [List.foldl_cons, List.foldl_nil, UseDef.runCall]
  rw [(UseDef.defReg_state _ state reg tree h).1]
  simp [UDState.addRegDef, DefList.set, StdMap.find_insert]

/-- C31, as the code has it: for `ADD` and `SUB` in the mode `REG_REG_REG` the handler
uses `r1` and `r2` and defines `r0 := Op(PhysReg(r1, w1), shiftExtend(PhysReg(r2, w2),
shift))`, where `w1` is the width of the register of operand 1 and `w2` is
`getWidth(reg2, op1)`: the width `getWidth` gives for the physical register of
operand 2 and the register id of operand 1, not of operand 2. -/
theorem UseDef.add_sub_registers (R : RegisterFile) (a : Assembly) (t2 : TreeNode)
    (hid : a.id = .ARM64_INS_ADD ∨ a.id = .ARM64_INS_SUB)
    (hm : a.mode = .MODE_REG_REG_REG)
    (hs : UseDef.shiftExtend
        (.PhysicalRegister (R.convertToPhysical (a.getOperand 2).reg)
          (R.getWidth (R.convertToPhysical (a.getOperand 2).reg) (a.getOperand 1).reg))
        (a.getOperand 2).shift.type (a.getOperand 2).shift.value = .ok t2) :
    UseDef.handlers a.id = some UseDef.fillAddOrSub ∧
      (UseDef.fillAddOrSub R a).calls =
        [.useReg (R.convertToPhysical (a.getOperand 1).reg),
          .useReg (R.convertToPhysical (a.getOperand 2).reg),
          .defReg (R.convertToPhysical (a.getOperand 0).reg)
            (some (if a.id = .ARM64_INS_ADD then
              .Addition (.PhysicalRegister (R.convertToPhysical (a.getOperand 1).reg)
                (R.getWidth (R.convertToPhysical (a.getOperand 1).reg)
                  (a.getOperand 1).reg)) t2
              else
              .Subtraction (.PhysicalRegister (R.convertToPhysical (a.getOperand 1).reg)
                (R.getWidth (R.convertToPhysical (a.getOperand 1).reg)
                  (a.getOperand 1).reg)) t2))] ∧
      (UseDef.fillAddOrSub R a).result = .ok () := by
  rcases hid with hid | hid
  · simp [UseDef.handlers, UseDef.fillAddOrSub, UseDef.fillRegRegToReg, hid, hm, hs,
      Calls.ofExcept, Calls.useReg, Calls.defReg, UseDef.binaryTree, bind, Calls.bind]
  · simp [UseDef.handlers, UseDef.fillAddOrSub, UseDef.fillRegRegToReg, hid, hm, hs,
      Calls.ofExcept, Calls.useReg, Calls.defReg, UseDef.binaryTree, bind, Calls.bind]

/-- Witness for C31: for `ADD X0, X1, W2` the tree defined for `X0` has the register of
operand 2 with the width 8 of operand 1, where the register `W2` has the width 4. -/
theorem UseDef.add_sub_registers_witness :
    (UseDef.fillAddOrSub RegisterFile.sample (Assembly.regRegReg .ARM64_INS_ADD 0 1 34)).calls =
        [.useReg 1, .useReg 2,
          .defReg 0 (some (.Addition (.PhysicalRegister 1 8) (.PhysicalRegister 2 8)))] ∧
      RegisterFile.sample.getWidth 2 34 = 4 :=
  ⟨(UseDef.add_sub_registers RegisterFile.sample (Assembly.regRegReg .ARM64_INS_ADD 0 1 34)
      (.PhysicalRegister 2 8) (Or.inl rfl) rfl rfl).2.1, rfl⟩

/-- C32, as stated, fails: the handler of `AND` asserts the mode `REG_REG_IMM`, so for
the enabled instruction `AND X0, X1, X2` in the mode `REG_REG_REG` the assertion
fails and no register is used or defined. -/
theorem UseDef.fillAnd_counterexample :
    UseDefConfiguration.arithmetic.isEnabled .ARM64_INS_AND = true ∧
      (UseDef.fillStateCalls RegisterFile.sample UseDefConfiguration.arithmetic
        (Assembly.regRegReg .ARM64_INS_AND 0 1 2)).calls = [] ∧
      (UseDef.fillStateCalls RegisterFile.sample UseDefConfiguration.arithmetic
        (Assembly.regRegReg .ARM64_INS_AND 0 1 2)).result =
          .error "assert: mode == MODE_REG_REG_IMM" :=
  ⟨rfl, rfl, rfl⟩

/-- C32, amended: the handler of `AND` supports the mode `REG_REG_IMM` only.  For an
enabled `AND` in that mode it uses `r1` and defines
`r0 := And(PhysReg(r1, w1), shiftExtend(Const(imm), shift))`; in every other mode,
`REG_REG_REG` included, its assertion on the mode fails before any call is made. -/
theorem UseDef.fillAnd_modes (R : RegisterFile) (config : UseDefConfiguration)
    (a : Assembly) (hid : a.id = .ARM64_INS_AND) (hen : config.isEnabled a.id = true) :
    (a.mode = .MODE_REG_REG_IMM → ∀ t : TreeNode,
      UseDef.shiftExtend (.Constant (a.getOperand 2).imm) (a.getOperand 2).shift.type
        (a.getOperand 2).shift.value = .ok t →
      (UseDef.fillStateCalls R config a).calls =
          [.useReg (R.convertToPhysical (a.getOperand 1).reg),
            .defReg (R.convertToPhysical (a.getOperand 0).reg)
              (some (.And (.PhysicalRegister (R.convertToPhysical (a.getOperand 1).reg)
                (R.getWidth (R.convertToPhysical (a.getOperand 1).reg)
                  (a.getOperand 1).reg)) t))] ∧
        (UseDef.fillStateCalls R config a).result = .ok ()) ∧
      (a.mode ≠ .MODE_REG_REG_IMM →
        (UseDef.fillStateCalls R config a).calls = [] ∧
          (UseDef.fillStateCalls R config a).result =
            .error "assert: mode == MODE_REG_REG_IMM") := by
  obtain ⟨h1, h2⟩ := UseDef.fillStateCalls_enabled R config a UseDef.fillAnd hen
    (by rw [hid]; rfl)
  rw [h1, h2]
  refine ⟨?_, ?_⟩
  · intro hm t hs
    simp [UseDef.fillAnd, UseDef.fillRegImmToReg, hm, hs, hid, Calls.assert, Calls.ofExcept,
      Calls.useReg, Calls.defReg, UseDef.binaryTree, bind, Calls.bind, pure]
  · intro hm
    simp [UseDef.fillAnd, hm, Calls.assert, Calls.throw, bind, Calls.bind]

/-- Witness for C32 (amended): `AND X0, X1, #3` and `AND X0, X1, X2`. -/
theorem UseDef.fillAnd_modes_witness :
    (UseDef.fillStateCalls RegisterFile.sample UseDefConfiguration.arithmetic
        (Assembly.regRegImm .ARM64_INS_AND 0 1 3)).calls =
        [.useReg 1, .defReg 0 (some (.And (.PhysicalRegister 1 8) (.Constant 3)))] ∧
      (UseDef.fillStateCalls RegisterFile.sample UseDefConfiguration.arithmetic
        (Assembly.regRegReg .ARM64_INS_AND 0 1 2)).calls = [] :=
  ⟨((UseDef.fillAnd_modes RegisterFile.sample UseDefConfiguration.arithmetic
      (Assembly.regRegImm .ARM64_INS_AND 0 1 3) rfl rfl).1 rfl (.Constant 3) rfl).1,
    ((UseDef.fillAnd_modes RegisterFile.sample UseDefConfiguration.arithmetic
      (Assembly.regRegReg .ARM64_INS_AND 0 1 2) rfl rfl).2 (by decide)).1⟩

/-- C33, as stated, fails: the `switch` on the opcode in `fillRegImmToReg` and
`fillRegRegToReg` has no case for `LSL`, so the tree is the null pointer.  For the
enabled `LSL X0, X1, #3` and `LSL X0, X1, X2` the handler defines `X0` with the null
tree, which is what `reg_defs[X0]` holds afterwards. -/
theorem UseDef.fillLsl_counterexample :
    (UseDef.fillStateCalls RegisterFile.sample UseDefConfiguration.arithmetic
        (Assembly.regRegImm .ARM64_INS_LSL 0 1 3)).calls = [.useReg 1, .defReg 0 none] ∧
      (UseDef.fillStateCalls RegisterFile.sample UseDefConfiguration.arithmetic
        (Assembly.regRegReg .ARM64_INS_LSL 0 1 2)).calls =
          [.useReg 1, .useReg 2, .defReg 0 none] ∧
      StdMap.find ((UseDef.run 100 UseDefWorkSet.empty
        (UseDef.fillStateCalls RegisterFile.sample UseDefConfiguration.arithmetic
          (Assembly.regRegImm .ARM64_INS_LSL 0 1 3)).calls).stateList 100).regList 0 =
        some none := by
  decide

/-- C33, amended: for an enabled `LSL` whose operand 2 has no `MSL` shift, the handler
uses `r1` (and `r2` in the mode `REG_REG_REG`) and defines `r0` with the null tree:
`reg_defs[r0]` is null afterwards, and `reg_exposed[r0]` is the current state alone
(for a register `r0` other than -1). -/
theorem UseDef.fillLsl_null (R : RegisterFile) (config : UseDefConfiguration)
    (a : Assembly) (hid : a.id = .ARM64_INS_LSL) (hen : config.isEnabled a.id = true)
    (hs : (a.getOperand 2).shift.type ≠ .ARM64_SFT_MSL) :
    (a.mode = .MODE_REG_REG_IMM →
      (UseDef.fillStateCalls R config a).calls =
          [.useReg (R.convertToPhysical (a.getOperand 1).reg),
            .defReg (R.convertToPhysical (a.getOperand 0).reg) none] ∧
        (UseDef.fillStateCalls R config a).result = .ok ()) ∧
      (a.mode = .MODE_REG_REG_REG →
        (UseDef.fillStateCalls R config a).calls =
            [.useReg (R.convertToPhysical (a.getOperand 1).reg),
              .useReg (R.convertToPhysical (a.getOperand 2).reg),
              .defReg (R.convertToPhysical (a.getOperand 0).reg) none] ∧
          (UseDef.fillStateCalls R config a).result = .ok ()) ∧
      ((a.mode = .MODE_REG_REG_IMM ∨ a.mode = .MODE_REG_REG_REG) →
        R.convertToPhysical (a.getOperand 0).reg ≠ -1 →
        ∀ (w : UseDefWorkSet) (state : UDStateRef),
          StdMap.find ((UseDef.run state w
              (UseDef.fillStateCalls R config a).calls).stateList state).regList
              (R.convertToPhysical (a.getOperand 0).reg) = some none ∧
            DefList.get ((UseDef.run state w
              (UseDef.fillStateCalls R config a).calls).stateList state).regList
              (R.convertToPhysical (a.getOperand 0).reg) = none ∧
            (UseDef.run state w (UseDef.fillStateCalls R config a).calls).getRegSet
              (R.convertToPhysical (a.getOperand 0).reg) = some [state]) := by
  obtain ⟨h1, h2⟩ := UseDef.fillStateCalls_enabled R config a UseDef.fillLsl hen
    (by rw [hid]; rfl)
  rw [h1, h2]
  have hi : a.mode = .MODE_REG_REG_IMM →
      (UseDef.fillLsl R a).calls =
          [.useReg (R.convertToPhysical (a.getOperand 1).reg),
            .defReg (R.convertToPhysical (a.getOperand 0).reg) none] ∧
        (UseDef.fillLsl R a).result = .ok () := by
    intro hm
    cases ht : (a.getOperand 2).shift.type <;>
      first
        | exact absurd ht hs
        | simp [UseDef.fillLsl, UseDef.fillRegImmToReg, hm, hid, ht, UseDef.shiftExtend,
            Calls.ofExcept, Calls.useReg, Calls.defReg, UseDef.binaryTree, bind, Calls.bind]
  have hr : a.mode = .MODE_REG_REG_REG →
      (UseDef.fillLsl R a).calls =
          [.useReg (R.convertToPhysical (a.getOperand 1).reg),
            .useReg (R.convertToPhysical (a.getOperand 2).reg),
            .defReg (R.convertToPhysical (a.getOperand 0).reg) none] ∧
        (UseDef.fillLsl R a).result = .ok () := by
    intro hm
    cases ht : (a.getOperand 2).shift.type <;>
      first
        | exact absurd ht hs
        | simp [UseDef.fillLsl, UseDef.fillRegRegToReg, hm, hid, ht, UseDef.shiftExtend,
            Calls.ofExcept, Calls.useReg, Calls.defReg, UseDef.binaryTree, bind, Calls.bind]
  refine ⟨hi, hr, ?_⟩
  intro hm h0 w state
  have hl : (UseDef.fillLsl R a).calls.getLast? =
      some (.defReg (R.convertToPhysical (a.getOperand 0).reg) none) := by
    rcases hm with hm | hm
    · rw [(hi hm).1]; rfl
    · rw [(hr hm).1]; rfl
  have h3 := UseDef.regList_run_defReg_last state w _ _ _ h0 hl
  refine ⟨h3, ?_, UseDef.getRegSet_run_defReg_last state w _ _ _ h0 hl⟩
  simp [DefList.get, h3]

/-- Witness for C33 (amended): `LSL X0, X1, #3`. -/
theorem UseDef.fillLsl_null_witness :
    (UseDef.fillStateCalls RegisterFile.sample UseDefConfiguration.arithmetic
        (Assembly.regRegImm .ARM64_INS_LSL 0 1 3)).calls = [.useReg 1, .defReg 0 none] ∧
      (UseDef.fillStateCalls RegisterFile.sample UseDefConfiguration.arithmetic
        (Assembly.regRegImm .ARM64_INS_LSL 0 1 3)).result = .ok () :=
  (UseDef.fillLsl_null RegisterFile.sample UseDefConfiguration.arithmetic
    (Assembly.regRegImm .ARM64_INS_LSL 0 1 3) rfl rfl (by decide)).1 rfl

/-! ### Loads and pairs -/

theorem Assembly.widthBit_testBit (a : Assembly) (k : Nat) :
    a.widthBit (2 ^ k) = if (a.getByte 3).testBit k then 8 else 4 := by
  unfold Assembly.widthBit
  rw [Nat.and_two_pow]
  cases h : (a.getByte 3).testBit k with
  | true => simp
  | false => simp

theorem Assembly.word_testBit (a : Assembly) (h : ∀ i, a.getByte i < 256) :
    a.word.testBit 30 = (a.getByte 3).testBit 6 ∧
      a.word.testBit 31 = (a.getByte 3).testBit 7 := by
  have h0 := h 0
  have h1 := h 1
  have h2 := h 2
  have h3 := h 3
  unfold Assembly.word
  simp only [Nat.testBit_to_div_mod]
  refine ⟨?_, ?_⟩
  · congr 1
    apply propext
    norm_num
    omega
  · congr 1
    apply propext
    norm_num
    omega

theorem Assembly.widthBit_cases (a : Assembly) (mask : Nat) :
    a.widthBit mask = 4 ∨ a.widthBit mask = 8 := by
  unfold Assembly.widthBit
  split
  · exact Or.inr rfl
  · exact Or.inl rfl

theorem UseDef.memRefList_defReg (w : UseDefWorkSet) (state : UDStateRef) (reg : Int)
    (tree : Option TreeNode) :
    ((UseDef.defReg w state reg tree).stateList state).memRefList =
      (w.stateList state).memRefList := by
  by_cases h : reg ≠ -1
  · rw [(UseDef.defReg_state w state reg tree h).1]
    rfl
  · simp [UseDef.defReg, h]

/-- C34: in the mode `REG_MEM` the handlers of `LDR`, `LDUR` and `LDAXR` are
`fillMemToReg` with the width 8 if bit 30 of the encoding (mask `0x40` of byte 3) is
set and 4 otherwise, those of `LDRH` and `LDRSH` with width 2, of `LDRB` and `LDRSB`
with width 1 and of `LDRSW` with width 4.  Without an index register `fillMemToReg`
uses the base, calls `useMem` for `mem = Add(PhysReg(base, wB), Const(disp))` and `r0`,
defines the base as `mem` if the instruction is pre-indexed, and defines
`r0 := Deref(mem, width)`; the state gets the memory reference `(r0, origin)` for
exactly the entries of `mem_exposed` whose `MemLocation` equals that of `mem`.  With
an index register it uses the base, defines `r0 := PhysReg(r0, w0)` and records no
memory reference. -/
theorem UseDef.load_effects (R : RegisterFile) (a : Assembly)
    (hm : a.mode = .MODE_REG_MEM) (hp : a.postIndex = false) :
    (UseDef.fillLdr R a = UseDef.fillMemToReg R a (a.widthBit 0x40) ∧
      UseDef.fillLdur R a = UseDef.fillMemToReg R a (a.widthBit 0x40) ∧
      UseDef.fillLdaxr R a = UseDef.fillMemToReg R a (a.widthBit 0x40) ∧
      UseDef.fillLdrh R a = UseDef.fillMemToReg R a 2 ∧
      UseDef.fillLdrsh R a = UseDef.fillMemToReg R a 2 ∧
      UseDef.fillLdrb R a = UseDef.fillMemToReg R a 1 ∧
      UseDef.fillLdrsb R a = UseDef.fillMemToReg R a 1 ∧
      UseDef.fillLdrsw R a = UseDef.fillMemToReg R a 4) ∧
    (a.widthBit 0x40 = (if (a.getByte 3).testBit 6 then 8 else 4) ∧
      ((∀ i, a.getByte i < 256) →
        a.widthBit 0x40 = if a.word.testBit 30 then 8 else 4)) ∧
    ((a.getOperand 1).mem.index = R.INVALID_REGISTER → ∀ width : Nat,
      (UseDef.fillMemToReg R a width).calls =
          [.useReg (R.convertToPhysical (a.getOperand 1).mem.base),
            .useMem (.Addition
                (.PhysicalRegister (R.convertToPhysical (a.getOperand 1).mem.base)
                  (R.getWidth (R.convertToPhysical (a.getOperand 1).mem.base)
                    (a.getOperand 1).mem.base))
                (.Constant (a.getOperand 1).mem.disp))
              (R.convertToPhysical (a.getOperand 0).reg)] ++
          (if a.preIndex then
            [.defReg (R.convertToPhysical (a.getOperand 1).mem.base)
              (some (.Addition
                (.PhysicalRegister (R.convertToPhysical (a.getOperand 1).mem.base)
                  (R.getWidth (R.convertToPhysical (a.getOperand 1).mem.base)
                    (a.getOperand 1).mem.base))
                (.Constant (a.getOperand 1).mem.disp)))]
            else []) ++
          [.defReg (R.convertToPhysical (a.getOperand 0).reg)
            (some (.Dereference (.Addition
                (.PhysicalRegister (R.convertToPhysical (a.getOperand 1).mem.base)
                  (R.getWidth (R.convertToPhysical (a.getOperand 1).mem.base)
                    (a.getOperand 1).mem.base))
                (.Constant (a.getOperand 1).mem.disp)) width))] ∧
        (UseDef.fillMemToReg R a width).result = .ok () ∧
        ∀ (w : UseDefWorkSet) (state : UDStateRef) (p : Int × UDStateRef),
          p ∈ ((UseDef.run state w (UseDef.fillMemToReg R a width).calls).stateList
              state).memRefList ↔
            p ∈ (w.stateList state).memRefList ∨
              (p.1 = R.convertToPhysical (a.getOperand 0).reg ∧
                ∃ e ∈ w.memExposed,
                  MemLocation.ofTree e.place =
                    MemLocation.ofTree (.Addition
                      (.PhysicalRegister (R.convertToPhysical (a.getOperand 1).mem.base)
                        (R.getWidth (R.convertToPhysical (a.getOperand 1).mem.base)
                          (a.getOperand 1).mem.base))
                      (.Constant (a.getOperand 1).mem.disp)) ∧
                  e.origin = p.2)) ∧
    ((a.getOperand 1).mem.index ≠ R.INVALID_REGISTER → ∀ width : Nat,
      (UseDef.fillMemToReg R a width).calls =
          [.useReg (R.convertToPhysical (a.getOperand 1).mem.base),
            .defReg (R.convertToPhysical (a.getOperand 0).reg)
              (some (.PhysicalRegister (R.convertToPhysical (a.getOperand 0).reg)
                (R.getWidth (R.convertToPhysical (a.getOperand 0).reg)
                  (a.getOperand 0).reg)))] ∧
        (UseDef.fillMemToReg R a width).result = .ok () ∧
        ∀ (w : UseDefWorkSet) (state : UDStateRef),
          ((UseDef.run state w (UseDef.fillMemToReg R a width).calls).stateList
              state).memRefList = (w.stateList state).memRefList) := by
  refine ⟨?_, ⟨?_, ?_⟩, ?_, ?_⟩
  · simp [UseDef.fillLdr, UseDef.fillLdur, UseDef.fillLdaxr, UseDef.fillLdrh,
      UseDef.fillLdrsh, UseDef.fillLdrb, UseDef.fillLdrsb, UseDef.fillLdrsw, hm]
  · exact Assembly.widthBit_testBit a 6
  · intro hb
    rw [(Assembly.word_testBit a hb).1]
    exact Assembly.widthBit_testBit a 6
  · intro hi width
    have hc : (UseDef.fillMemToReg R a width).calls =
          [.useReg (R.convertToPhysical (a.getOperand 1).mem.base),
            .useMem (.Addition
                (.PhysicalRegister (R.convertToPhysical (a.getOperand 1).mem.base)
                  (R.getWidth (R.convertToPhysical (a.getOperand 1).mem.base)
                    (a.getOperand 1).mem.base))
                (.Constant (a.getOperand 1).mem.disp))
              (R.convertToPhysical (a.getOperand 0).reg)] ++
          (if a.preIndex then
            [.defReg (R.convertToPhysical (a.getOperand 1).mem.base)
              (some (.Addition
                (.PhysicalRegister (R.convertToPhysical (a.getOperand 1).mem.base)
                  (R.getWidth (R.convertToPhysical (a.getOperand 1).mem.base)
                    (a.getOperand 1).mem.base))
                (.Constant (a.getOperand 1).mem.disp)))]
            else []) ++
          [.defReg (R.convertToPhysical (a.getOperand 0).reg)
            (some (.Dereference (.Addition
                (.PhysicalRegister (R.convertToPhysical (a.getOperand 1).mem.base)
                  (R.getWidth (R.convertToPhysical (a.getOperand 1).mem.base)
                    (a.getOperand 1).mem.base))
                (.Constant (a.getOperand 1).mem.disp)) width))] := by
      cases hq : a.preIndex <;>
        simp [UseDef.fillMemToReg, hp, hi, hq, Calls.assert, Calls.useReg, Calls.defReg,
          Calls.useMem, bind, Calls.bind, pure]
    refine ⟨hc, ?_, ?_⟩
    · cases hq : a.preIndex <;>
        simp [UseDef.fillMemToReg, hp, hi, hq, Calls.assert, Calls.useReg, Calls.defReg,
          Calls.useMem, bind, Calls.bind, pure]
    · intro w state p
      rw [hc]
      have hu := (UseDef.useMem_state
        (UseDef.useReg w state (R.convertToPhysical (a.getOperand 1).mem.base)) state
        (.Addition
          (.PhysicalRegister (R.convertToPhysical (a.getOperand 1).mem.base)
            (R.getWidth (R.convertToPhysical (a.getOperand 1).mem.base)
              (a.getOperand 1).mem.base))
          (.Constant (a.getOperand 1).mem.disp))
        (R.convertToPhysical (a.getOperand 0).reg)).2.2.2.1 p
      rw [(UseDef.useReg_state w state _).2.2.1, UseDef.memExposed_useReg] at hu
      simp only [MemOrigin.sameLocation_canonical _ _
        (show MemLocation.ofTree (.Addition
          (.PhysicalRegister (R.convertToPhysical (a.getOperand 1).mem.base)
            (R.getWidth (R.convertToPhysical (a.getOperand 1).mem.base)
              (a.getOperand 1).mem.base))
          (.Constant (a.getOperand 1).mem.disp)) ≠ none by
            simp [MemLocation.ofTree, MemoryForm.matches])] at hu
      cases hq : a.preIndex
      · simp only [Bool.false_eq_true, if_false, List.append_nil, List.cons_append,
          List.nil_append, UseDef.run, List.foldl_cons, List.foldl_nil, UseDef.runCall]
        rw [UseDef.memRefList_defReg]
        exact hu
      · simp only [if_true, List.cons_append, List.nil_append, UseDef.run, List.foldl_cons,
          List.foldl_nil, UseDef.runCall]
        rw [UseDef.memRefList_defReg, UseDef.memRefList_defReg]
        exact hu
  · intro hi width
    have hc : (UseDef.fillMemToReg R a width).calls =
        [.useReg (R.convertToPhysical (a.getOperand 1).mem.base),
          .defReg (R.convertToPhysical (a.getOperand 0).reg)
            (some (.PhysicalRegister (R.convertToPhysical (a.getOperand 0).reg)
              (R.getWidth (R.convertToPhysical (a.getOperand 0).reg)
                (a.getOperand 0).reg)))] := by
      simp [UseDef.fillMemToReg, hp, hi, Calls.assert, Calls.useReg, Calls.defReg, bind,
        Calls.bind, pure]
    refine ⟨hc, ?_, ?_⟩
    · simp [UseDef.fillMemToReg, hp, hi, Calls.assert, Calls.useReg, Calls.defReg, bind,
        Calls.bind, pure]
    · intro w state
      rw [hc]
      simp only [UseDef.run, List.foldl_cons, List.foldl_nil, UseDef.runCall]
      rw [UseDef.memRefList_defReg, (UseDef.useReg_state w state _).2.2.1]

/-- Witness for C34: after `STR X0, [SP, #-16]!` in state 200, the load
`LDR X0, [SP, #-16]` in state 201 records the memory reference `(X0, 200)`. -/
theorem UseDef.load_effects_witness :
    ((0 : Int), 200) ∈ ((UseDef.run 201 UseDefWorkSet.afterStore
        (UseDef.fillMemToReg RegisterFile.sample (Assembly.ldrOffset 0 31 100 (-16))
          8).calls).stateList 201).memRefList ∧
      UseDef.fillLdr RegisterFile.sample (Assembly.ldrOffset 0 31 100 (-16)) =
        UseDef.fillMemToReg RegisterFile.sample (Assembly.ldrOffset 0 31 100 (-16))
          ((Assembly.ldrOffset 0 31 100 (-16)).widthBit 0x40) :=
  ⟨(((UseDef.load_effects RegisterFile.sample (Assembly.ldrOffset 0 31 100 (-16)) rfl
      rfl).2.2.1 rfl 8).2.2 UseDefWorkSet.afterStore 201 (0, 200)).mpr
      (Or.inr ⟨rfl, ⟨.Addition (.PhysicalRegister 31 8) (.Constant (-16)), 200⟩,
        by decide, by decide, rfl⟩),
    (UseDef.load_effects RegisterFile.sample (Assembly.ldrOffset 0 31 100 (-16)) rfl
      rfl).1.1⟩

theorem MemOriginList.mem_set (l : MemOriginList) (place : TreeNode) (origin : UDStateRef) :
    (⟨place, origin⟩ : MemOrigin) ∈ MemOriginList.set l place origin := by
  by_cases hn : MemLocation.ofTree place = none
  · rw [MemOriginList.set_of_nomatch l place origin
      (fun e _ => MemOrigin.sameLocation_of_none place e hn)]
    simp
  · have h := (MemOriginList.set_spec l place origin hn).1
    have h1 : (⟨place, origin⟩ : MemOrigin) ∈
        (MemOriginList.set l place origin).filter (MemOrigin.sameLocation place) := by
      rw [h]; simp
    exact (List.mem_filter.mp h1).1

/-- An entry that is not at the location of `place` is kept by `set(place, origin)`. -/
theorem MemOriginList.mem_set_of_mem (l : MemOriginList) (place : TreeNode)
    (origin : UDStateRef) (e : MemOrigin) (h : e ∈ l)
    (hn : MemOrigin.sameLocation place e = false) :
    e ∈ MemOriginList.set l place origin := by
  by_cases hc : MemLocation.ofTree place = none
  · rw [MemOriginList.set_of_nomatch l place origin
      (fun e _ => MemOrigin.sameLocation_of_none place e hc)]
    exact List.mem_append_left _ h
  · have h2 := (MemOriginList.set_spec l place origin hc).2
    have h3 : e ∈ l.filter (fun e => !MemOrigin.sameLocation place e) :=
      List.mem_filter.mpr ⟨h, by simp [hn]⟩
    exact (List.mem_filter.mp (h2.mem_iff.mpr h3)).1

/-- Entries at another location than `place` are kept by `set(place, origin)`. -/
theorem MemOriginList.filter_set_other (l : MemOriginList) (place other : TreeNode)
    (origin : UDStateRef) (hc : MemLocation.ofTree place ≠ none)
    (h : MemLocation.ofTree other ≠ MemLocation.ofTree place) :
    ((MemOriginList.set l place origin).filter (MemOrigin.sameLocation other)).Perm
      (l.filter (MemOrigin.sameLocation other)) := by
  have h2 := (MemOriginList.set_spec l place origin hc).2
  have hp : ∀ e : MemOrigin, MemOrigin.sameLocation other e = true →
      (!MemOrigin.sameLocation place e) = true := by
    intro e he
    rw [MemOrigin.sameLocation_iff] at he
    cases hq : MemOrigin.sameLocation place e with
    | false => rfl
    | true =>
      rw [MemOrigin.sameLocation_iff] at hq
      exact absurd (he.1.trans hq.1.symm) h
  have hf : ∀ x : MemOriginList, x.filter (MemOrigin.sameLocation other) =
      (x.filter (fun e => !MemOrigin.sameLocation place e)).filter
        (MemOrigin.sameLocation other) := by
    intro x
    rw [List.filter_filter]
    apply List.filter_congr
    intro e _
    cases hq : MemOrigin.sameLocation other e with
    | false => simp
    | true => simp [hp e hq]
  rw [hf (MemOriginList.set l place origin), hf l]
  exact h2.filter _

/-- A use of a place that is not of the memory form finds no entry. -/
theorem UseDef.useMem_of_none (w : UseDefWorkSet) (state : UDStateRef) (place : TreeNode)
    (reg : Int) (h : MemLocation.ofTree place = none) :
    UseDef.useMem w state place reg = w := by
  unfold UseDef.useMem UseDefWorkSet.copyFromMemSetFor
  rw [h]
  have hl : ∀ (l : List MemOrigin) (v : UseDefWorkSet),
      l.foldl (fun acc m =>
        if MemLocation.equals none (MemLocation.ofTree m.place) then
          acc.modifyState state (fun s => s.addMemRef reg m.origin)
        else acc) v = v := by
    intro l
    induction l with
    | nil => intro v; rfl
    | cons m t ih =>
      intro v
      simp only [List.foldl_cons]
      have hf : MemLocation.equals none (MemLocation.ofTree m.place) = false := by
        cases MemLocation.ofTree m.place <;> rfl
      rw [hf]
      exact ih v
  exact hl _ w

/-- Two loads from places that the state `s1` exposes: the state gets both memory
references. -/
theorem UseDef.useMem_pair (w : UseDefWorkSet) (state s1 : UDStateRef) (m0 m1 : TreeNode)
    (r0 r1 : Int) (h0 : (⟨m0, s1⟩ : MemOrigin) ∈ w.memExposed)
    (h1 : (⟨m1, s1⟩ : MemOrigin) ∈ w.memExposed)
    (hc0 : MemLocation.ofTree m0 ≠ none) (hc1 : MemLocation.ofTree m1 ≠ none) :
    (r0, s1) ∈ ((UseDef.useMem (UseDef.useMem w state m0 r0) state m1 r1).stateList
        state).memRefList ∧
      (r1, s1) ∈ ((UseDef.useMem (UseDef.useMem w state m0 r0) state m1 r1).stateList
        state).memRefList := by
  have a := (UseDef.useMem_state w state m0 r0).2.2.2.1
  have b := (UseDef.useMem_state (UseDef.useMem w state m0 r0) state m1 r1).2.2.2.1
  refine ⟨?_, ?_⟩
  · rw [b]
    left
    rw [a]
    exact Or.inr ⟨rfl, ⟨m0, s1⟩, h0, MemOrigin.sameLocation_self m0 s1 hc0, rfl⟩
  · rw [b]
    right
    refine ⟨rfl, ⟨m1, s1⟩, ?_, MemOrigin.sameLocation_self m1 s1 hc1, rfl⟩
    rw [UseDef.memExposed_useMem]
    exact h1

theorem UseDef.run_append (state : UDStateRef) (w : UseDefWorkSet) (cs ds : List Call) :
    UseDef.run state w (cs ++ ds) = UseDef.run state (UseDef.run state w cs) ds := by
  simp [UseDef.run, List.foldl_append]

/-- Calls on registers leave the exposed memory and the memory tables of the state. -/
theorem UseDef.run_register_calls (state : UDStateRef) (cs : List Call) :
    ∀ w : UseDefWorkSet, (∀ c ∈ cs, c.onRegister = true) →
      (UseDef.run state w cs).memExposed = w.memExposed ∧
      ((UseDef.run state w cs).stateList state).memList = (w.stateList state).memList ∧
      ((UseDef.run state w cs).stateList state).memRefList =
        (w.stateList state).memRefList := by
  induction cs with
  | nil => intro w _; exact ⟨rfl, rfl, rfl⟩
  | cons c t ih =>
    intro w h
    have hc := h c (by simp)
    obtain ⟨g1, g2, g3⟩ := ih (UseDef.runCall state w c) (fun d hd => h d (by simp [hd]))
    simp only [UseDef.run, List.foldl_cons] at g1 g2 g3 ⊢
    rw [g1, g2, g3]
    cases c with
    | useReg reg =>
      obtain ⟨_, u2, u3, _, _⟩ := UseDef.useReg_state w state reg
      exact ⟨UseDef.memExposed_useReg w state reg, u2, u3⟩
    | defReg reg tree =>
      refine ⟨UseDef.memExposed_defReg w state reg tree, ?_,
        UseDef.memRefList_defReg w state reg tree⟩
      by_cases hr : reg ≠ -1
      · simp only [UseDef.runCall]
        rw [(UseDef.defReg_state w state reg tree hr).1]
        rfl
      · simp [UseDef.runCall, UseDef.defReg, hr]
    | defMem place reg => simp [Call.onRegister] at hc
    | useMem place reg => simp [Call.onRegister] at hc

/-- Two stores between calls on registers. -/
theorem UseDef.run_stores (state : UDStateRef) (w : UseDefWorkSet) (pre post : List Call)
    (m0 m1 : TreeNode) (r0 r1 : Int) (hpre : ∀ c ∈ pre, c.onRegister = true)
    (hpost : ∀ c ∈ post, c.onRegister = true) :
    ((UseDef.run state w (pre ++ [.defMem m0 r0, .defMem m1 r1] ++ post)).stateList
        state).memList = (w.stateList state).memList ++ [(m0, r0), (m1, r1)] ∧
      (UseDef.run state w (pre ++ [.defMem m0 r0, .defMem m1 r1] ++ post)).memExposed =
        MemOriginList.set (MemOriginList.set w.memExposed m0 state) m1 state := by
  rw [UseDef.run_append, UseDef.run_append]
  obtain ⟨p1, p2, _⟩ := UseDef.run_register_calls state pre w hpre
  obtain ⟨q1, q2, _⟩ := UseDef.run_register_calls state post
    (UseDef.run state (UseDef.run state w pre) [.defMem m0 r0, .defMem m1 r1]) hpost
  obtain ⟨a1, _, a3⟩ := UseDef.defMem_state (UseDef.run state w pre) state m0 r0
  obtain ⟨b1, _, b3⟩ := UseDef.defMem_state
    (UseDef.defMem (UseDef.run state w pre) state m0 r0) state m1 r1
  rw [q1, q2]
  have e : UseDef.run state (UseDef.run state w pre) [.defMem m0 r0, .defMem m1 r1] =
      UseDef.defMem (UseDef.defMem (UseDef.run state w pre) state m0 r0) state m1 r1 := rfl
  rw [e, b1, a1, b3, a3, p1]
  refine ⟨?_, rfl⟩
  simp [UDState.addMemDef, p2]

/-- Two loads between calls on registers, from places of the memory form. -/
theorem UseDef.run_loads (state s1 : UDStateRef) (w : UseDefWorkSet) (pre post : List Call)
    (m0 m1 : TreeNode) (r0 r1 : Int) (hpre : ∀ c ∈ pre, c.onRegister = true)
    (hpost : ∀ c ∈ post, c.onRegister = true)
    (h0 : (⟨m0, s1⟩ : MemOrigin) ∈ w.memExposed)
    (h1 : (⟨m1, s1⟩ : MemOrigin) ∈ w.memExposed)
    (hc0 : MemLocation.ofTree m0 ≠ none) (hc1 : MemLocation.ofTree m1 ≠ none) :
    (r0, s1) ∈ ((UseDef.run state w (pre ++ [.useMem m0 r0, .useMem m1 r1] ++ post)).stateList
        state).memRefList ∧
      (r1, s1) ∈ ((UseDef.run state w (pre ++ [.useMem m0 r0, .useMem m1 r1] ++
        post)).stateList state).memRefList := by
  rw [UseDef.run_append, UseDef.run_append]
  obtain ⟨p1, _, _⟩ := UseDef.run_register_calls state pre w hpre
  obtain ⟨_, _, q3⟩ := UseDef.run_register_calls state post
    (UseDef.run state (UseDef.run state w pre) [.useMem m0 r0, .useMem m1 r1]) hpost
  rw [q3]
  have h := UseDef.useMem_pair (UseDef.run state w pre) state s1 m0 m1 r0 r1
    (by rw [p1]; exact h0) (by rw [p1]; exact h1) hc0 hc1
  simpa only [UseDef.run, List.foldl_cons, List.foldl_nil, UseDef.runCall] using h

/-- Two loads between calls on registers, from places that are not of the memory
form: the state gets no memory reference. -/
theorem UseDef.run_loads_none (state : UDStateRef) (w : UseDefWorkSet) (pre post : List Call)
    (m0 m1 : TreeNode) (r0 r1 : Int) (hpre : ∀ c ∈ pre, c.onRegister = true)
    (hpost : ∀ c ∈ post, c.onRegister = true)
    (h0 : MemLocation.ofTree m0 = none) (h1 : MemLocation.ofTree m1 = none) :
    ((UseDef.run state w (pre ++ [.useMem m0 r0, .useMem m1 r1] ++ post)).stateList
        state).memRefList = (w.stateList state).memRefList := by
  rw [UseDef.run_append, UseDef.run_append]
  obtain ⟨_, _, p3⟩ := UseDef.run_register_calls state pre w hpre
  obtain ⟨_, _, q3⟩ := UseDef.run_register_calls state post
    (UseDef.run state (UseDef.run state w pre) [.useMem m0 r0, .useMem m1 r1]) hpost
  rw [q3]
  have e : UseDef.run state (UseDef.run state w pre) [.useMem m0 r0, .useMem m1 r1] =
      UseDef.useMem (UseDef.useMem (UseDef.run state w pre) state m0 r0) state m1 r1 := rfl
  rw [e, UseDef.useMem_of_none _ _ _ _ h1, UseDef.useMem_of_none _ _ _ _ h0, p3]

/-- The calls of the handler of `STP`: two stores to the places at the offsets 0 and
`width` between calls on registers. -/
theorem UseDef.fillStp_shape (R : RegisterFile) (a : Assembly)
    (hmode : (a.mode = .MODE_REG_REG_MEM ∧ a.postIndex = false) ∨
      (a.mode = .MODE_REG_REG_MEM_IMM ∧ a.postIndex = true ∧
        (a.getOperand 2).mem.disp = 0))
    (hidx : (a.getOperand 2).mem.index = R.INVALID_REGISTER) :
    (UseDef.fillStp R a).result = .ok () ∧
      ∃ pre post : List Call, (∀ c ∈ pre, c.onRegister = true) ∧
        (∀ c ∈ post, c.onRegister = true) ∧
        (UseDef.fillStp R a).calls =
          pre ++ [.defMem (UseDef.pairPlace R a 0) (R.convertToPhysical (a.getOperand 0).reg),
            .defMem (UseDef.pairPlace R a (a.widthBit 0x80))
              (R.convertToPhysical (a.getOperand 1).reg)] ++ post := by
  rcases hmode with ⟨hm, hp⟩ | ⟨hm, hp, hd⟩
  · cases hq : a.preIndex
    · refine ⟨?_, [.useReg (R.convertToPhysical (a.getOperand 0).reg),
        .useReg (R.convertToPhysical (a.getOperand 1).reg),
        .useReg (R.convertToPhysical (a.getOperand 2).mem.base)], [], by simp [Call.onRegister],
        by simp, ?_⟩ <;>
      simp [UseDef.fillStp, UseDef.fillRegRegToMem, UseDef.pairPlace, hm, hp, hq, hidx,
        Calls.assert, Calls.useReg, Calls.defReg, Calls.defMem, bind, Calls.bind, pure]
    · refine ⟨?_, [.useReg (R.convertToPhysical (a.getOperand 0).reg),
        .useReg (R.convertToPhysical (a.getOperand 1).reg),
        .useReg (R.convertToPhysical (a.getOperand 2).mem.base),
        .defReg (R.convertToPhysical (a.getOperand 2).mem.base)
          (some (.Addition
            (.PhysicalRegister (R.convertToPhysical (a.getOperand 2).mem.base)
              (R.getWidth (R.convertToPhysical (a.getOperand 2).mem.base)
                (a.getOperand 2).mem.base))
            (.Constant (a.getOperand 2).mem.disp)))], [], by simp [Call.onRegister],
        by simp, ?_⟩ <;>
      simp [UseDef.fillStp, UseDef.fillRegRegToMem, UseDef.pairPlace, hm, hp, hq, hidx,
        Calls.assert, Calls.useReg, Calls.defReg, Calls.defMem, bind, Calls.bind, pure]
  · refine ⟨?_, [.useReg (R.convertToPhysical (a.getOperand 0).reg),
      .useReg (R.convertToPhysical (a.getOperand 1).reg),
      .useReg (R.convertToPhysical (a.getOperand 2).mem.base)],
      [.defReg (R.convertToPhysical (a.getOperand 2).mem.base)
        (some (.Addition
          (.PhysicalRegister (R.convertToPhysical (a.getOperand 2).mem.base)
            (R.getWidth (R.convertToPhysical (a.getOperand 2).mem.base)
              (a.getOperand 2).mem.base))
          (.Constant (a.getOperand 3).imm)))], by simp [Call.onRegister],
      by simp [Call.onRegister], ?_⟩ <;>
    simp [UseDef.fillStp, UseDef.fillRegRegImmToMem, UseDef.pairPlace, hm, hp, hd, hidx,
      Calls.assert, Calls.useReg, Calls.defReg, Calls.defMem, bind, Calls.bind, pure]

/-- The calls of the handler of `LDP`: two loads from the places at the offsets 0 and
`width` between calls on registers. -/
theorem UseDef.fillLdp_shape (R : RegisterFile) (a : Assembly)
    (hmode : (a.mode = .MODE_REG_REG_MEM ∧ a.postIndex = false) ∨
      (a.mode = .MODE_REG_REG_MEM_IMM ∧ a.postIndex = true ∧
        (a.getOperand 2).mem.disp = 0))
    (hidx : (a.getOperand 2).mem.index = R.INVALID_REGISTER) :
    (UseDef.fillLdp R a).result = .ok () ∧
      ∃ pre post : List Call, (∀ c ∈ pre, c.onRegister = true) ∧
        (∀ c ∈ post, c.onRegister = true) ∧
        (UseDef.fillLdp R a).calls =
          pre ++ [.useMem (UseDef.pairPlace R a 0) (R.convertToPhysical (a.getOperand 0).reg),
            .useMem (UseDef.pairPlace R a (a.widthBit 0x80))
              (R.convertToPhysical (a.getOperand 1).reg)] ++ post := by
  rcases hmode with ⟨hm, hp⟩ | ⟨hm, hp, hd⟩
  · cases hq : a.preIndex
    · refine ⟨?_, [.useReg (R.convertToPhysical (a.getOperand 2).mem.base)],
        [.defReg (R.convertToPhysical (a.getOperand 0).reg)
            (some (.Dereference (UseDef.pairPlace R a 0) (a.widthBit 0x80))),
          .defReg (R.convertToPhysical (a.getOperand 1).reg)
            (some (.Dereference (UseDef.pairPlace R a (a.widthBit 0x80))
              (a.widthBit 0x80)))],
        by simp [Call.onRegister], by simp [Call.onRegister], ?_⟩ <;>
      simp [UseDef.fillLdp, UseDef.fillMemToRegReg, UseDef.pairPlace, hm, hp, hq, hidx,
        Calls.assert, Calls.useReg, Calls.defReg, Calls.useMem, bind, Calls.bind, pure]
    · refine ⟨?_, [.useReg (R.convertToPhysical (a.getOperand 2).mem.base),
        .defReg (R.convertToPhysical (a.getOperand 2).mem.base)
          (some (.Addition
            (.PhysicalRegister (R.convertToPhysical (a.getOperand 2).mem.base)
              (R.getWidth (R.convertToPhysical (a.getOperand 2).mem.base)
                (a.getOperand 2).mem.base))
            (.Constant (a.getOperand 2).mem.disp)))],
        [.defReg (R.convertToPhysical (a.getOperand 0).reg)
            (some (.Dereference (UseDef.pairPlace R a 0) (a.widthBit 0x80))),
          .defReg (R.convertToPhysical (a.getOperand 1).reg)
            (some (.Dereference (UseDef.pairPlace R a (a.widthBit 0x80))
              (a.widthBit 0x80)))],
        by simp [Call.onRegister], by simp [Call.onRegister], ?_⟩ <;>
      simp [UseDef.fillLdp, UseDef.fillMemToRegReg, UseDef.pairPlace, hm, hp, hq, hidx,
        Calls.assert, Calls.useReg, Calls.defReg, Calls.useMem, bind, Calls.bind, pure]
  · refine ⟨?_, [.useReg (R.convertToPhysical (a.getOperand 2).mem.base)],
      [.defReg (R.convertToPhysical (a.getOperand 0).reg)
          (some (.Dereference (UseDef.pairPlace R a 0) (a.widthBit 0x80))),
        .defReg (R.convertToPhysical (a.getOperand 1).reg)
          (some (.Dereference (UseDef.pairPlace R a (a.widthBit 0x80)) (a.widthBit 0x80))),
        .defReg (R.convertToPhysical (a.getOperand 2).mem.base)
          (some (.Addition
            (.PhysicalRegister (R.convertToPhysical (a.getOperand 2).mem.base)
              (R.getWidth (R.convertToPhysical (a.getOperand 2).mem.base)
                (a.getOperand 2).mem.base))
            (.Constant (a.getOperand 3).imm)))],
      by simp [Call.onRegister], by simp [Call.onRegister], ?_⟩ <;>
    simp [UseDef.fillLdp, UseDef.fillMemImmToRegReg, UseDef.pairPlace, hm, hp, hd, hidx,
      Calls.assert, Calls.useReg, Calls.defReg, Calls.useMem, bind, Calls.bind, pure]

theorem UseDef.pairPlace_ne (R : RegisterFile) (a : Assembly) :
    UseDef.pairPlace R a 0 ≠ UseDef.pairPlace R a (a.widthBit 0x80) := by
  unfold UseDef.pairPlace
  simp only []
  rcases Assembly.widthBit_cases a 0x80 with h | h <;> rw [h] <;> split <;> simp

/-- The places of the post-index handlers are of the memory form. -/
theorem UseDef.pairPlace_postIndex (R : RegisterFile) (a : Assembly) (k : Nat)
    (hm : a.mode = .MODE_REG_REG_MEM_IMM) :
    MemLocation.ofTree (UseDef.pairPlace R a k) =
      some ⟨some (.PhysicalRegister (R.convertToPhysical (a.getOperand 2).mem.base)
        (R.getWidth (R.convertToPhysical (a.getOperand 2).mem.base)
          (a.getOperand 2).mem.base)), wrapLong (Int.ofNat k)⟩ := by
  simp [UseDef.pairPlace, hm, MemLocation.ofTree, MemoryForm.matches, MemLocation.extract,
    MemLocation.extractStep]

/-- The places `Add(Add(base, disp), k)` of the other handlers are not. -/
theorem UseDef.pairPlace_offset (R : RegisterFile) (a : Assembly) (k : Nat)
    (hm : a.mode ≠ .MODE_REG_REG_MEM_IMM) :
    MemLocation.ofTree (UseDef.pairPlace R a k) = none := by
  simp [UseDef.pairPlace, hm, MemLocation.ofTree, MemoryForm.matches]

theorem UseDef.pairPlace_location_ne (R : RegisterFile) (a : Assembly) :
    MemLocation.equals (MemLocation.ofTree (UseDef.pairPlace R a 0))
        (MemLocation.ofTree (UseDef.pairPlace R a (a.widthBit 0x80))) = false := by
  by_cases hm : a.mode = .MODE_REG_REG_MEM_IMM
  · rw [UseDef.pairPlace_postIndex R a _ hm, UseDef.pairPlace_postIndex R a _ hm]
    simp only [MemLocation.equals, decide_True, Bool.true_and, decide_eq_false_iff_not,
      wrapLong, Int.ofNat_eq_coe]
    rcases Assembly.widthBit_cases a 0x80 with h | h <;> rw [h] <;> omega
  · rw [UseDef.pairPlace_offset R a _ hm]
    rfl

theorem UseDef.pairPlace_congr (R : RegisterFile) (a b : Assembly) (k : Nat)
    (hm : b.mode = a.mode) (hmem : (b.getOperand 2).mem = (a.getOperand 2).mem) :
    UseDef.pairPlace R b k = UseDef.pairPlace R a k := by
  unfold UseDef.pairPlace
  rw [hm, hmem]

theorem Calls.definesOnly_bind {α β : Type} (S : Int → Prop) (x : Calls α) (f : α → Calls β)
    (hx : Calls.DefinesOnly S x) (hf : ∀ a, Calls.DefinesOnly S (f a)) :
    Calls.DefinesOnly S (x >>= f) := by
  intro c hc r t hct
  change c ∈ (Calls.bind x f).calls at hc
  unfold Calls.bind at hc
  cases hr : x.result with
  | error e =>
    rw [hr] at hc
    exact hx c hc r t hct
  | ok v =>
    rw [hr] at hc
    rcases List.mem_append.mp hc with h | h
    · exact hx c h r t hct
    · exact hf v c h r t hct

theorem Calls.definesOnly_ite {α : Type} (S : Int → Prop) (p : Prop) [Decidable p]
    (x y : Calls α) (hx : Calls.DefinesOnly S x) (hy : Calls.DefinesOnly S y) :
    Calls.DefinesOnly S (if p then x else y) := by
  split
  · exact hx
  · exact hy

theorem Calls.definesOnly_nil {α : Type} (S : Int → Prop) (x : Calls α) (h : x.calls = []) :
    Calls.DefinesOnly S x := by
  intro c hc
  rw [h] at hc
  simp at hc

theorem Calls.definesOnly_pure {α : Type} (S : Int → Prop) (v : α) :
    Calls.DefinesOnly S (pure v : Calls α) :=
  Calls.definesOnly_nil S _ rfl

theorem Calls.definesOnly_throw {α : Type} (S : Int → Prop) (msg : String) :
    Calls.DefinesOnly S (Calls.throw msg : Calls α) :=
  Calls.definesOnly_nil S _ rfl

theorem Calls.definesOnly_assert (S : Int → Prop) (c : Bool) (msg : String) :
    Calls.DefinesOnly S (Calls.assert c msg) := by
  unfold Calls.assert
  split
  · exact Calls.definesOnly_pure S ()
  · exact Calls.definesOnly_throw S msg

theorem Calls.definesOnly_ofExcept {α : Type} (S : Int → Prop) (x : Except String α) :
    Calls.DefinesOnly S (Calls.ofExcept x) :=
  Calls.definesOnly_nil S _ rfl

theorem Calls.definesOnly_useReg (S : Int → Prop) (reg : Int) :
    Calls.DefinesOnly S (Calls.useReg reg) := by
  intro c hc r t hct
  simp [Calls.useReg] at hc
  rw [hc] at hct
  cases hct

theorem Calls.definesOnly_useMem (S : Int → Prop) (place : TreeNode) (reg : Int) :
    Calls.DefinesOnly S (Calls.useMem place reg) := by
  intro c hc r t hct
  simp [Calls.useMem] at hc
  rw [hc] at hct
  cases hct

theorem Calls.definesOnly_defMem (S : Int → Prop) (place : TreeNode) (reg : Int) :
    Calls.DefinesOnly S (Calls.defMem place reg) := by
  intro c hc r t hct
  simp [Calls.defMem] at hc
  rw [hc] at hct
  cases hct

theorem Calls.definesOnly_defReg (S : Int → Prop) (reg : Int) (tree : Option TreeNode)
    (h : S reg) : Calls.DefinesOnly S (Calls.defReg reg tree) := by
  intro c hc r t hct
  simp [Calls.defReg] at hc
  rw [hc] at hct
  cases hct
  exact h

theorem Calls.definesOnly_mono {α : Type} (S T : Int → Prop) (x : Calls α)
    (h : Calls.DefinesOnly S x) (hst : ∀ r, S r → T r) : Calls.DefinesOnly T x :=
  fun c hc r t hct => hst r (h c hc r t hct)

theorem UseDef.useDefLoop_defines (n : Nat) :
    ∀ i : Int, Calls.DefinesOnly (fun r => i ≤ r ∧ r < i + n) (UseDef.useDefLoop n i) := by
  induction n with
  | zero => intro i; exact Calls.definesOnly_pure _ _
  | succ n ih =>
    intro i
    unfold UseDef.useDefLoop
    refine Calls.definesOnly_bind _ _ _ (Calls.definesOnly_useReg _ _) (fun _ => ?_)
    refine Calls.definesOnly_bind _ _ _
      (Calls.definesOnly_defReg _ _ _ ⟨le_refl i, by push_cast; omega⟩) (fun _ => ?_)
    exact Calls.definesOnly_mono _ _ _ (ih (i + 1)) (fun r hr => ⟨by omega, by push_cast; omega⟩)

theorem UseDef.useLoop_defines (S : Int → Prop) (n : Nat) :
    ∀ i : Int, Calls.DefinesOnly S (UseDef.useLoop n i) := by
  induction n with
  | zero => intro i; exact Calls.definesOnly_pure _ _
  | succ n ih =>
    intro i
    unfold UseDef.useLoop
    exact Calls.definesOnly_bind _ _ _ (Calls.definesOnly_useReg _ _) (fun _ => ih (i + 1))


/-- The registers a handler other than that of `CMP` defines: the registers of
operands 0 and 1, the base registers of the memory operands 1 and 2, and the
registers 0 to 7. -/
theorem UseDef.handlers_defines (R : RegisterFile) (a : Assembly) (id : arm64_insn)
    (f : RegisterFile → Assembly → Calls Unit) (hid : id ≠ .ARM64_INS_CMP)
    (hh : UseDef.handlers id = some f) :
    Calls.DefinesOnly
      (fun r => r = R.convertToPhysical (a.getOperand 0).reg ∨
        r = R.convertToPhysical (a.getOperand 1).reg ∨
        r = R.convertToPhysical (a.getOperand 1).mem.base ∨
        r = R.convertToPhysical (a.getOperand 2).mem.base ∨ (0 ≤ r ∧ r < 8))
      (f R a) := by
  cases id <;> simp only [UseDef.handlers, Option.some.injEq, reduceCtorEq] at hh
  all_goals first
    | exact absurd rfl hid
    | skip
  case ARM64_INS_BL =>
    subst hh
    exact Calls.definesOnly_mono _ _ _ (UseDef.useDefLoop_defines 8 0)
      (fun r hr => Or.inr (Or.inr (Or.inr (Or.inr ⟨hr.1, by simpa using hr.2⟩))))
  case ARM64_INS_BLR =>
    subst hh
    exact Calls.definesOnly_bind _ _ _ (Calls.definesOnly_useReg _ _)
      (fun _ => Calls.definesOnly_mono _ _ _ (UseDef.useDefLoop_defines 8 0)
        (fun r hr => Or.inr (Or.inr (Or.inr (Or.inr ⟨hr.1, by simpa using hr.2⟩)))))
  case ARM64_INS_RET =>
    subst hh
    exact UseDef.useLoop_defines _ 8 0
  all_goals subst hh
  all_goals
    simp only [UseDef.fillAddOrSub, UseDef.fillAdr, UseDef.fillAdrp, UseDef.fillAnd,
      UseDef.fillB, UseDef.fillBl, UseDef.fillBlr, UseDef.fillBr, UseDef.fillCbz,
      UseDef.fillCbnz, UseDef.fillCsel, UseDef.fillLdaxr, UseDef.fillLdp, UseDef.fillLdr,
      UseDef.fillLdrh, UseDef.fillLdrb, UseDef.fillLdrsw, UseDef.fillLdrsh, UseDef.fillLdrsb,
      UseDef.fillLdur, UseDef.fillLsl, UseDef.fillMov, UseDef.fillMrs, UseDef.fillNop,
      UseDef.fillRet, UseDef.fillStp, UseDef.fillStr, UseDef.fillStrb, UseDef.fillStrh,
      UseDef.fillSxtw, UseDef.fillReg, UseDef.fillRegToReg, UseDef.fillMemToReg,
      UseDef.fillImmToReg, UseDef.fillRegRegToReg, UseDef.fillMemImmToReg,
      UseDef.fillRegToMem, UseDef.fillRegImmToReg, UseDef.fillMemToRegReg,
      UseDef.fillRegRegToMem, UseDef.fillRegRegImmToMem, UseDef.fillMemImmToRegReg,
      UseDef.fillCompareImmThenJump, UseDef.fillCondJump]
  all_goals repeat' with_reducible first
    | exact Calls.definesOnly_assert _ _ _
    | exact Calls.definesOnly_pure _ _
    | exact Calls.definesOnly_throw _ _
    | exact Calls.definesOnly_ofExcept _ _
    | exact Calls.definesOnly_useReg _ _
    | exact Calls.definesOnly_useMem _ _ _
    | exact Calls.definesOnly_defMem _ _ _
    | exact Calls.definesOnly_defReg _ _ _ (Or.inl rfl)
    | exact Calls.definesOnly_defReg _ _ _ (Or.inr (Or.inl rfl))
    | exact Calls.definesOnly_defReg _ _ _ (Or.inr (Or.inr (Or.inl rfl)))
    | exact Calls.definesOnly_defReg _ _ _ (Or.inr (Or.inr (Or.inr (Or.inl rfl))))
    | refine Calls.definesOnly_ite _ _ _ _ ?_ ?_
    | refine Calls.definesOnly_bind _ _ _ ?_ (fun _ => ?_)

/-! ### Calls and returns -/

theorem UseDef.useDefLoop_calls (n : Nat) (i : Int) :
    (UseDef.useDefLoop (n + 1) i).calls =
        .useReg i :: .defReg i none :: (UseDef.useDefLoop n (i + 1)).calls ∧
      (UseDef.useDefLoop (n + 1) i).result = (UseDef.useDefLoop n (i + 1)).result := by
  simp [UseDef.useDefLoop, bind, Calls.bind, Calls.useReg, Calls.defReg]

theorem UseDef.useLoop_calls (n : Nat) (i : Int) :
    (UseDef.useLoop (n + 1) i).calls = .useReg i :: (UseDef.useLoop n (i + 1)).calls ∧
      (UseDef.useLoop (n + 1) i).result = (UseDef.useLoop n (i + 1)).result := by
  simp [UseDef.useLoop, bind, Calls.bind, Calls.useReg]

theorem UseDef.useDefLoop_result (n : Nat) :
    ∀ i : Int, (UseDef.useDefLoop n i).result = .ok () := by
  induction n with
  | zero => intro i; rfl
  | succ n ih => intro i; rw [(UseDef.useDefLoop_calls n i).2, ih]

theorem UseDef.useLoop_result (n : Nat) :
    ∀ i : Int, (UseDef.useLoop n i).result = .ok () := by
  induction n with
  | zero => intro i; rfl
  | succ n ih => intro i; rw [(UseDef.useLoop_calls n i).2, ih]

/-- The effect of the loop `useReg(i); defReg(i, nullptr)` over the registers from `i`
up to `i + n`. -/
theorem UseDef.run_useDefLoop (state : UDStateRef) (n : Nat) :
    ∀ (i : Int) (w : UseDefWorkSet), 0 ≤ i →
      (∀ r, (UseDef.run state w (UseDef.useDefLoop n i).calls).getRegSet r =
        if i ≤ r ∧ r < i + n then some [state] else w.getRegSet r) ∧
      (∀ r, StdMap.find
          ((UseDef.run state w (UseDef.useDefLoop n i).calls).stateList state).regList r =
        if i ≤ r ∧ r < i + n then some none
        else StdMap.find (w.stateList state).regList r) ∧
      (∀ r o, o ∈ RefList.origins
          ((UseDef.run state w (UseDef.useDefLoop n i).calls).stateList state).regRefList r ↔
        o ∈ RefList.origins (w.stateList state).regRefList r ∨
          (i ≤ r ∧ r < i + n ∧ o ∈ w.regExposed r)) ∧
      ((UseDef.run state w (UseDef.useDefLoop n i).calls).stateList state).memList =
        (w.stateList state).memList ∧
      ((UseDef.run state w (UseDef.useDefLoop n i).calls).stateList state).memRefList =
        (w.stateList state).memRefList ∧
      (∀ j, j ≠ state →
        (UseDef.run state w (UseDef.useDefLoop n i).calls).stateList j = w.stateList j) ∧
      (UseDef.run state w (UseDef.useDefLoop n i).calls).memExposed = w.memExposed := by
  induction n with
  | zero =>
    intro i w _
    have hn : ∀ r : Int, ¬ (i ≤ r ∧ r < i + ((0 : Nat) : Int)) := by
      intro r; push_cast; omega
    refine ⟨?_, ?_, ?_, rfl, rfl, fun _ _ => rfl, rfl⟩
    · intro r
      rw [if_neg (hn r)]
      rfl
    · intro r
      rw [if_neg (hn r)]
      rfl
    · intro r o
      constructor
      · exact Or.inl
      · rintro (h | ⟨h1, h2, _⟩)
        · exact h
        · exact absurd ⟨h1, h2⟩ (hn r)
  | succ n ih =>
    intro i w hi
    have him : i ≠ -1 := by omega
    rw [(UseDef.useDefLoop_calls n i).1]
    simp only [UseDef.run, List.foldl_cons, UseDef.runCall]
    obtain ⟨u1, u2, u3, u4, u5⟩ := UseDef.useReg_state w state i
    obtain ⟨d1, d2, d3⟩ := UseDef.defReg_state (UseDef.useReg w state i) state i none him
    obtain ⟨g1, g2, g3, g4, g5, g6, g7⟩ :=
      ih (i + 1) (UseDef.defReg (UseDef.useReg w state i) state i none) (by omega)
    simp only [UseDef.run] at g1 g2 g3 g4 g5 g6 g7
    have hexp : ∀ r, (UseDef.defReg (UseDef.useReg w state i) state i none).getRegSet r =
        if i = r then some [state] else w.getRegSet r := by
      intro r
      rw [UseDef.regExposed_defReg, UseDef.regExposed_useReg]
      simp [him]
    refine ⟨?_, ?_, ?_, ?_, ?_, ?_, ?_⟩
    · intro r
      rw [g1 r, hexp r]
      by_cases h1 : i = r
      · subst h1
        have h0 : ¬ (i + 1 ≤ i ∧ i < i + 1 + (n : Int)) := by omega
        have h2 : i ≤ i ∧ i < i + ((n + 1 : Nat) : Int) := by push_cast; omega
        rw [if_neg h0, if_pos rfl, if_pos h2]
      · by_cases h2 : i + 1 ≤ r ∧ r < i + 1 + (n : Int)
        · have h3 : i ≤ r ∧ r < i + ((n + 1 : Nat) : Int) := by push_cast; omega
          rw [if_pos h2, if_pos h3]
        · have h3 : ¬ (i ≤ r ∧ r < i + ((n + 1 : Nat) : Int)) := by push_cast; omega
          rw [if_neg h2, if_neg h1, if_neg h3]
    · intro r
      rw [g2 r, d1]
      simp only [UDState.addRegDef, DefList.set, StdMap.find_insert, u1]
      by_cases h1 : r = i
      · subst h1
        have h0 : ¬ (r + 1 ≤ r ∧ r < r + 1 + (n : Int)) := by omega
        have h2 : r ≤ r ∧ r < r + ((n + 1 : Nat) : Int) := by push_cast; omega
        rw [if_neg h0, if_pos rfl, if_pos h2]
      · by_cases h2 : i + 1 ≤ r ∧ r < i + 1 + (n : Int)
        · have h3 : i ≤ r ∧ r < i + ((n + 1 : Nat) : Int) := by push_cast; omega
          rw [if_pos h2, if_pos h3]
        · have h3 : ¬ (i ≤ r ∧ r < i + ((n + 1 : Nat) : Int)) := by push_cast; omega
          rw [if_neg h2, if_neg h1, if_neg h3]
    · intro r o
      rw [g3 r o, d1]
      have hreg : (((UseDef.useReg w state i).stateList state).addRegDef i none).regRefList =
          ((UseDef.useReg w state i).stateList state).regRefList := rfl
      rw [hreg, u4 r o]
      have hx : ∀ r, r ≠ i →
          (UseDef.defReg (UseDef.useReg w state i) state i none).regExposed r =
            w.regExposed r := by
        intro r hr
        unfold UseDefWorkSet.regExposed
        rw [hexp r]
        have : ¬ i = r := fun h => hr h.symm
        simp only [this, if_false]
      constructor
      · rintro ((h | ⟨h1, h2⟩) | ⟨h1, h2, h3⟩)
        · exact Or.inl h
        · exact Or.inr ⟨by omega, by push_cast; omega, by rw [h1]; exact h2⟩
        · rw [hx r (by omega)] at h3
          exact Or.inr ⟨by omega, by push_cast; omega, h3⟩
      · rintro (h | ⟨h1, h2, h3⟩)
        · exact Or.inl (Or.inl h)
        · by_cases h4 : r = i
          · exact Or.inl (Or.inr ⟨h4, by rw [← h4]; exact h3⟩)
          · push_cast at h2
            refine Or.inr ⟨by omega, by omega, ?_⟩
            rw [hx r h4]
            exact h3
    · rw [g4, d1]
      exact u2
    · rw [g5, d1]
      exact u3
    · intro j hj
      rw [g6 j hj, d2 j hj, u5 j hj]
    · rw [g7, d3, UseDef.memExposed_useReg]

/-- The effect of the loop `useReg(i)` over the registers from `i` up to `i + n`. -/
theorem UseDef.run_useLoop (state : UDStateRef) (n : Nat) :
    ∀ (i : Int) (w : UseDefWorkSet),
      (UseDef.run state w (UseDef.useLoop n i).calls).SameExposed w ∧
      ((UseDef.run state w (UseDef.useLoop n i).calls).stateList state).regList =
        (w.stateList state).regList ∧
      (∀ r o, o ∈ RefList.origins
          ((UseDef.run state w (UseDef.useLoop n i).calls).stateList state).regRefList r ↔
        o ∈ RefList.origins (w.stateList state).regRefList r ∨
          (i ≤ r ∧ r < i + n ∧ o ∈ w.regExposed r)) ∧
      ((UseDef.run state w (UseDef.useLoop n i).calls).stateList state).memList =
        (w.stateList state).memList ∧
      ((UseDef.run state w (UseDef.useLoop n i).calls).stateList state).memRefList =
        (w.stateList state).memRefList ∧
      (∀ j, j ≠ state →
        (UseDef.run state w (UseDef.useLoop n i).calls).stateList j = w.stateList j) := by
  induction n with
  | zero =>
    intro i w
    refine ⟨UseDefWorkSet.sameExposed_refl w, rfl, ?_, rfl, rfl, fun _ _ => rfl⟩
    intro r o
    constructor
    · exact Or.inl
    · rintro (h | ⟨h1, h2, _⟩)
      · exact h
      · push_cast at h2; omega
  | succ n ih =>
    intro i w
    rw [(UseDef.useLoop_calls n i).1]
    simp only [UseDef.run, List.foldl_cons, UseDef.runCall]
    obtain ⟨u1, u2, u3, u4, u5⟩ := UseDef.useReg_state w state i
    obtain ⟨g1, g2, g3, g4, g5, g6⟩ := ih (i + 1) (UseDef.useReg w state i)
    simp only [UseDef.run] at g1 g2 g3 g4 g5 g6
    have hx : ∀ r, (UseDef.useReg w state i).regExposed r = w.regExposed r := by
      intro r
      unfold UseDefWorkSet.regExposed
      rw [UseDef.regExposed_useReg]
    refine ⟨UseDefWorkSet.sameExposed_trans g1 (UseDef.sameExposed_useReg w state i),
      by rw [g2, u1], ?_, by rw [g4, u2], by rw [g5, u3], ?_⟩
    · intro r o
      rw [g3 r o, u4 r o, hx r]
      constructor
      · rintro ((h | ⟨h1, h2⟩) | ⟨h1, h2, h3⟩)
        · exact Or.inl h
        · exact Or.inr ⟨by omega, by push_cast; omega, by rw [h1]; exact h2⟩
        · exact Or.inr ⟨by omega, by push_cast; omega, h3⟩
      · rintro (h | ⟨h1, h2, h3⟩)
        · exact Or.inl (Or.inl h)
        · by_cases h4 : r = i
          · exact Or.inl (Or.inr ⟨h4, by rw [← h4]; exact h3⟩)
          · push_cast at h2
            exact Or.inr ⟨by omega, by omega, h3⟩
    · intro j hj
      rw [g6 j hj, u5 j hj]

/-- C36: `BL` extends, for each register `i` from 0 to 7, `reg_refs[i]` of the state by
the origins exposed for `i` before the instruction, sets `reg_defs[i]` to the null tree
and makes the state the only exposed origin of `i`; it leaves the exposed sets of the
other registers and the exposed memory as they are.  `BLR rN` does the same and also
references the origins exposed for `rN`.  `RET` references the origins exposed for the
registers 0 to 7 and defines nothing: the definitions of the state and all exposed
sets stay as they are. -/
theorem UseDef.call_return_effects (R : RegisterFile) (a : Assembly) (w : UseDefWorkSet)
    (state : UDStateRef) :
    ((UseDef.fillBl R a).result = .ok () ∧
      (∀ r o, o ∈ RefList.origins
          ((UseDef.run state w (UseDef.fillBl R a).calls).stateList state).regRefList r ↔
        o ∈ RefList.origins (w.stateList state).regRefList r ∨
          (0 ≤ r ∧ r < 8 ∧ o ∈ w.regExposed r)) ∧
      (∀ r, 0 ≤ r → r < 8 →
        StdMap.find
          ((UseDef.run state w (UseDef.fillBl R a).calls).stateList state).regList r =
            some none ∧
          (UseDef.run state w (UseDef.fillBl R a).calls).getRegSet r = some [state]) ∧
      (∀ r, ¬ (0 ≤ r ∧ r < 8) →
        StdMap.find
          ((UseDef.run state w (UseDef.fillBl R a).calls).stateList state).regList r =
            StdMap.find (w.stateList state).regList r ∧
          (UseDef.run state w (UseDef.fillBl R a).calls).getRegSet r = w.getRegSet r) ∧
      (UseDef.run state w (UseDef.fillBl R a).calls).memExposed = w.memExposed) ∧
    ((UseDef.fillBlr R a).result = .ok () ∧
      (∀ r o, o ∈ RefList.origins
          ((UseDef.run state w (UseDef.fillBlr R a).calls).stateList state).regRefList r ↔
        o ∈ RefList.origins (w.stateList state).regRefList r ∨
          ((r = R.convertToPhysical (a.getOperand 0).reg ∨ (0 ≤ r ∧ r < 8)) ∧
            o ∈ w.regExposed r)) ∧
      (∀ r, 0 ≤ r → r < 8 →
        StdMap.find
          ((UseDef.run state w (UseDef.fillBlr R a).calls).stateList state).regList r =
            some none ∧
          (UseDef.run state w (UseDef.fillBlr R a).calls).getRegSet r = some [state]) ∧
      (∀ r, ¬ (0 ≤ r ∧ r < 8) →
        StdMap.find
          ((UseDef.run state w (UseDef.fillBlr R a).calls).stateList state).regList r =
            StdMap.find (w.stateList state).regList r ∧
          (UseDef.run state w (UseDef.fillBlr R a).calls).getRegSet r = w.getRegSet r) ∧
      (UseDef.run state w (UseDef.fillBlr R a).calls).memExposed = w.memExposed) ∧
    ((UseDef.fillRet R a).result = .ok () ∧
      (∀ r o, o ∈ RefList.origins
          ((UseDef.run state w (UseDef.fillRet R a).calls).stateList state).regRefList r ↔
        o ∈ RefList.origins (w.stateList state).regRefList r ∨
          (0 ≤ r ∧ r < 8 ∧ o ∈ w.regExposed r)) ∧
      ((UseDef.run state w (UseDef.fillRet R a).calls).stateList state).regList =
        (w.stateList state).regList ∧
      (∀ c ∈ (UseDef.fillRet R a).calls, ∀ r, c.definesReg r = false) ∧
      (UseDef.run state w (UseDef.fillRet R a).calls).SameExposed w) := by
  refine ⟨?_, ?_, ?_⟩
  · obtain ⟨g1, g2, g3, _, _, _, g7⟩ := UseDef.run_useDefLoop state 8 0 w (le_refl 0)
    simp only [Int.zero_add, Nat.cast_ofNat] at g1 g2 g3
    refine ⟨UseDef.useDefLoop_result 8 0, g3, ?_, ?_, g7⟩
    · intro r h0 h8
      have h : 0 ≤ r ∧ r < 8 := ⟨h0, h8⟩
      exact ⟨by rw [UseDef.fillBl, g2 r, if_pos h], by rw [UseDef.fillBl, g1 r, if_pos h]⟩
    · intro r h
      exact ⟨by rw [UseDef.fillBl, g2 r, if_neg h], by rw [UseDef.fillBl, g1 r, if_neg h]⟩
  · have hc : (UseDef.fillBlr R a).calls =
        .useReg (R.convertToPhysical (a.getOperand 0).reg) :: (UseDef.useDefLoop 8 0).calls := by
      simp [UseDef.fillBlr, bind, Calls.bind, Calls.useReg]
    have hr : (UseDef.fillBlr R a).result = .ok () := by
      simp [UseDef.fillBlr, bind, Calls.bind, Calls.useReg, UseDef.useDefLoop_result]
    rw [hc]
    simp only [UseDef.run, List.foldl_cons, UseDef.runCall]
    obtain ⟨u1, _, _, u4, _⟩ :=
      UseDef.useReg_state w state (R.convertToPhysical (a.getOperand 0).reg)
    obtain ⟨g1, g2, g3, _, _, _, g7⟩ := UseDef.run_useDefLoop state 8 0
      (UseDef.useReg w state (R.convertToPhysical (a.getOperand 0).reg)) (le_refl 0)
    simp only [Int.zero_add, Nat.cast_ofNat, UseDef.run] at g1 g2 g3 g7
    have hx : ∀ r, (UseDef.useReg w state
        (R.convertToPhysical (a.getOperand 0).reg)).regExposed r = w.regExposed r := by
      intro r
      unfold UseDefWorkSet.regExposed
      rw [UseDef.regExposed_useReg]
    refine ⟨hr, ?_, ?_, ?_, ?_⟩
    · intro r o
      rw [g3 r o, u4 r o, hx r]
      constructor
      · rintro ((h | ⟨h1, h2⟩) | ⟨h1, h2, h3⟩)
        · exact Or.inl h
        · exact Or.inr ⟨Or.inl h1, by rw [h1]; exact h2⟩
        · exact Or.inr ⟨Or.inr ⟨h1, h2⟩, h3⟩
      · rintro (h | ⟨h1 | ⟨h1, h2⟩, h3⟩)
        · exact Or.inl (Or.inl h)
        · exact Or.inl (Or.inr ⟨h1, by rw [← h1]; exact h3⟩)
        · exact Or.inr ⟨h1, h2, h3⟩
    · intro r h0 h8
      have h : 0 ≤ r ∧ r < 8 := ⟨h0, h8⟩
      exact ⟨by rw [g2 r, if_pos h], by rw [g1 r, if_pos h]⟩
    · intro r h
      exact ⟨by rw [g2 r, if_neg h, u1],
        by rw [g1 r, if_neg h, UseDef.regExposed_useReg]⟩
    · rw [g7, UseDef.memExposed_useReg]
  · obtain ⟨g1, g2, g3, _, _, _⟩ := UseDef.run_useLoop state 8 0 w
    simp only [Int.zero_add, Nat.cast_ofNat] at g3
    refine ⟨UseDef.useLoop_result 8 0, g3, g2, ?_, g1⟩
    intro c hc r
    cases c with
    | defReg reg t =>
      exact absurd (UseDef.useLoop_defines (fun _ => False) 8 0 _ hc reg t rfl) id
    | useReg reg => rfl
    | defMem p reg => rfl
    | useMem p reg => rfl

/-- Witness for C36: `BL` in state 9 where state 5 is exposed for `X0` and state 7 for
`X19`: the state references state 5 for `X0`, `X0` is exposed by state 9 alone
afterwards, and `X19` is exposed as before. -/
theorem UseDef.call_return_effects_witness :
    (5 ∈ RefList.origins ((UseDef.run 9 UseDefWorkSet.beforeCall
        (UseDef.fillBl RegisterFile.sample Assembly.bl).calls).stateList 9).regRefList 0) ∧
      (UseDef.run 9 UseDefWorkSet.beforeCall
        (UseDef.fillBl RegisterFile.sample Assembly.bl).calls).getRegSet 0 = some [9] ∧
      (UseDef.run 9 UseDefWorkSet.beforeCall
        (UseDef.fillBl RegisterFile.sample Assembly.bl).calls).getRegSet 19 = some [7] :=
  ⟨((UseDef.call_return_effects RegisterFile.sample Assembly.bl UseDefWorkSet.beforeCall
      9).1.2.1 0 5).mpr (Or.inr ⟨by decide, by decide, by decide⟩),
    ((UseDef.call_return_effects RegisterFile.sample Assembly.bl UseDefWorkSet.beforeCall
      9).1.2.2.1 0 (by decide) (by decide)).2,
    ((UseDef.call_return_effects RegisterFile.sample Assembly.bl UseDefWorkSet.beforeCall
      9).1.2.2.2.1 19 (by decide)).2.trans rfl⟩

/-- C37: the handler of `CMP` makes the single call
`defReg(NZCV, Compare(PhysReg(r0, w0), Const(imm)))`.  Carried out on a state it adds
no register or memory reference and no memory definition, changes no definition of
another register, no other state, no exposed set of another register and not the
exposed memory.  Every register that a handler other than that of `CMP` defines is
the register of operand 0 or 1, the base register of memory operand 1 or 2, or one
of the registers 0 to 7; so none of them defines `NZCV` unless one of these is
`NZCV`.  `B`, `CBZ`, `CBNZ` and `NOP` make no call and leave the work set as it is. -/
theorem UseDef.fillCmp_effect (R : RegisterFile) (a : Assembly) :
    (UseDef.handlers .ARM64_INS_CMP = some UseDef.fillCmp ∧
      (UseDef.fillCmp R a).calls =
        [.defReg R.NZCV (some (.Comparison
          (.PhysicalRegister (R.convertToPhysical (a.getOperand 0).reg)
            (R.getWidth (R.convertToPhysical (a.getOperand 0).reg) (a.getOperand 0).reg))
          (.Constant (a.getOperand 1).imm)))] ∧
      (UseDef.fillCmp R a).result = .ok ()) ∧
    (∀ (w : UseDefWorkSet) (state : UDStateRef),
      let w1 := UseDef.run state w (UseDef.fillCmp R a).calls
      (w1.stateList state).regRefList = (w.stateList state).regRefList ∧
      (w1.stateList state).memRefList = (w.stateList state).memRefList ∧
      (w1.stateList state).memList = (w.stateList state).memList ∧
      (∀ r, r ≠ R.NZCV →
        StdMap.find (w1.stateList state).regList r =
          StdMap.find (w.stateList state).regList r) ∧
      (∀ i, i ≠ state → w1.stateList i = w.stateList i) ∧
      (∀ r, r ≠ R.NZCV → w1.getRegSet r = w.getRegSet r) ∧
      w1.nodeExposedMemSetList = w.nodeExposedMemSetList ∧ w1.memSet = w.memSet ∧
      (R.NZCV ≠ -1 →
        w1.getRegSet R.NZCV = some [state] ∧
        StdMap.find (w1.stateList state).regList R.NZCV =
          some (some (.Comparison
            (.PhysicalRegister (R.convertToPhysical (a.getOperand 0).reg)
              (R.getWidth (R.convertToPhysical (a.getOperand 0).reg) (a.getOperand 0).reg))
            (.Constant (a.getOperand 1).imm))))) ∧
    (∀ (id : arm64_insn) (f : RegisterFile → Assembly → Calls Unit),
      id ≠ .ARM64_INS_CMP → UseDef.handlers id = some f →
      ∀ c ∈ (f R a).calls, ∀ (r : Int) (t : Option TreeNode), c = .defReg r t →
        r = R.convertToPhysical (a.getOperand 0).reg ∨
        r = R.convertToPhysical (a.getOperand 1).reg ∨
        r = R.convertToPhysical (a.getOperand 1).mem.base ∨
        r = R.convertToPhysical (a.getOperand 2).mem.base ∨ (0 ≤ r ∧ r < 8)) ∧
    (R.convertToPhysical (a.getOperand 0).reg ≠ R.NZCV →
      R.convertToPhysical (a.getOperand 1).reg ≠ R.NZCV →
      R.convertToPhysical (a.getOperand 1).mem.base ≠ R.NZCV →
      R.convertToPhysical (a.getOperand 2).mem.base ≠ R.NZCV →
      ¬ (0 ≤ R.NZCV ∧ R.NZCV < 8) →
      ∀ (id : arm64_insn) (f : RegisterFile → Assembly → Calls Unit),
        id ≠ .ARM64_INS_CMP → UseDef.handlers id = some f →
        ∀ c ∈ (f R a).calls, c.definesReg R.NZCV = false) ∧
    ((a.id = .ARM64_INS_B ∨ a.id = .ARM64_INS_CBZ ∨ a.id = .ARM64_INS_CBNZ ∨
        a.id = .ARM64_INS_NOP) →
      ∀ (config : UseDefConfiguration) (w : UseDefWorkSet) (state : UDStateRef),
        (UseDef.fillStateCalls R config a).calls = [] ∧
          UseDef.fillState R config w state a = .ok w) := by
  have hc : (UseDef.fillCmp R a).calls =
        [.defReg R.NZCV (some (.Comparison
          (.PhysicalRegister (R.convertToPhysical (a.getOperand 0).reg)
            (R.getWidth (R.convertToPhysical (a.getOperand 0).reg) (a.getOperand 0).reg))
          (.Constant (a.getOperand 1).imm)))] := rfl
  refine ⟨⟨rfl, hc, rfl⟩, ?_, ?_, ?_, ?_⟩
  · intro w state
    dsimp only
    rw [hc]
    simp only [UseDef.run, List.foldl_cons, List.foldl_nil, UseDef.runCall]
    by_cases hn : R.NZCV ≠ -1
    · obtain ⟨h1, h2, _⟩ := UseDef.defReg_state w state R.NZCV
        (some (.Comparison
          (.PhysicalRegister (R.convertToPhysical (a.getOperand 0).reg)
            (R.getWidth (R.convertToPhysical (a.getOperand 0).reg) (a.getOperand 0).reg))
          (.Constant (a.getOperand 1).imm))) hn
      refine ⟨by rw [h1]; rfl, by rw [h1]; rfl, by rw [h1]; rfl, ?_, h2, ?_, ?_, ?_, ?_⟩
      · intro r hr
        rw [h1]
        simp [UDState.addRegDef, DefList.set, StdMap.find_insert, hr]
      · intro r hr
        rw [UseDef.regExposed_defReg]
        have : ¬ (R.NZCV = r ∧ R.NZCV ≠ -1) := fun h => hr h.1.symm
        simp only [this, if_false]
      · simp [UseDef.defReg, hn, UseDefWorkSet.setAsRegSet, UseDefWorkSet.modifyRegSet,
          UseDefWorkSet.modifyState]
      · simp [UseDef.defReg, hn, UseDefWorkSet.setAsRegSet, UseDefWorkSet.modifyRegSet,
          UseDefWorkSet.modifyState]
      · intro _
        refine ⟨?_, ?_⟩
        · rw [UseDef.regExposed_defReg]
          simp [hn]
        · rw [h1]
          simp [UDState.addRegDef, DefList.set, StdMap.find_insert]
    · have hn1 : R.NZCV = -1 := by simpa using hn
      simp [UseDef.defReg, hn1]
  · intro id f hid hh c hcm r t hct
    exact UseDef.handlers_defines R a id f hid hh c hcm r t hct
  · intro h0 h1 h2 h3 h8 id f hid hh c hcm
    cases c with
    | defReg r t =>
      have h := UseDef.handlers_defines R a id f hid hh _ hcm r t rfl
      have hr : r ≠ R.NZCV := by
        rintro rfl
        rcases h with h | h | h | h | h
        · exact h0 h.symm
        · exact h1 h.symm
        · exact h2 h.symm
        · exact h3 h.symm
        · exact h8 h
      simp [Call.definesReg, hr]
    | useReg r => rfl
    | defMem p r => rfl
    | useMem p r => rfl
  · intro hid config w state
    have hat : a.id ≠ .ARM64_INS_AT := by
      rcases hid with h | h | h | h <;> rw [h] <;> decide
    have hcalls : (UseDef.fillStateCalls R config a).calls = [] ∧
        (UseDef.fillStateCalls R config a).result = .ok () := by
      by_cases hen : config.isEnabled a.id = true
      · rcases hid with h | h | h | h
        · exact UseDef.fillStateCalls_enabled R config a UseDef.fillB hen (by rw [h]; rfl)
        · exact UseDef.fillStateCalls_enabled R config a UseDef.fillCbz hen (by rw [h]; rfl)
        · exact UseDef.fillStateCalls_enabled R config a UseDef.fillCbnz hen (by rw [h]; rfl)
        · exact UseDef.fillStateCalls_enabled R config a UseDef.fillNop hen (by rw [h]; rfl)
      · exact UseDef.fillStateCalls_disabled R config a
          (fun h => hen ((UseDefConfiguration.isEnabled_iff config a.id).mpr h)) hat
    refine ⟨hcalls.1, ?_⟩
    simp [UseDef.fillState, hcalls.1, hcalls.2, UseDef.run]

/-- Witness for C37: with the example register file no operand of `MOV X0, #1`
converts to `NZCV`, and no call of the `MOV` handler defines `NZCV`. -/
theorem UseDef.fillCmp_effect_witness :
    (UseDef.fillCmp RegisterFile.sample (Assembly.cmpImm 1 5)).calls =
        [.defReg 32 (some (.Comparison (.PhysicalRegister 1 8) (.Constant 5)))] ∧
      (∀ c ∈ (UseDef.fillMov RegisterFile.sample (Assembly.movImm 0 1)).calls,
        c.definesReg RegisterFile.sample.NZCV = false) :=
  ⟨(UseDef.fillCmp_effect RegisterFile.sample (Assembly.cmpImm 1 5)).1.2.1,
    (UseDef.fillCmp_effect RegisterFile.sample (Assembly.movImm 0 1)).2.2.2.1
      (by decide) (by decide) (by decide) (by decide) (by decide)
      .ARM64_INS_MOV UseDef.fillMov (by decide) rfl⟩

/-! ### The lookup of a name in one module -/

/-- C38, as stated, fails for a marker: with `afterMapping` false the marker link of
the symbol `_end` at `0x3000` is asked for the address `0x403000`, the base address
`0x400000` added, while the data link of `table` at `0x2040` is asked for the raw
address. -/
theorem PerfectLinkResolver.resolveNameAsLinkHelper2_counterexample :
    (PerfectLinkResolver.resolveNameAsLinkHelper2 "_end" (some ElfSpace.sampleData) true
        false).lookups
      = [.dynamicSymbol 1 "_end", .namedFunction 1 "_end", .aliasMap 1 "_end",
          .markerLink 1 0x403000 0
            (some { Symbol.sample "_end" 0x3000 with marker := true })] ∧
    (PerfectLinkResolver.resolveNameAsLinkHelper2 "table" (some ElfSpace.sampleData) true
        false).lookups
      = [.dynamicSymbol 1 "table", .namedFunction 1 "table", .aliasMap 1 "table",
          .dataLink 1 0x2040 true] :=
  ⟨rfl, rfl⟩

/-- C38, amended: for a name that the dynamic symbol list has, `resolveNameAsLinkHelper2`
returns null when `weak` is false and the symbol is weak; otherwise
`NormalLink(function, ExternalCode)` for a hit in the function index, and else for a
hit in the alias map, before marker and data are looked at; otherwise, for a marker
symbol, the marker link for the symbol address plus the base address, whatever
`afterMapping` is; otherwise, for a symbol with a nonzero address that is no function,
the data link for the raw symbol address when `afterMapping` is false and for the
symbol address plus the base address when it is true; otherwise null. -/
theorem PerfectLinkResolver.resolveNameAsLinkHelper2_cases (name : String)
    (space : ElfSpace) (list : SymbolList) (symbol : Symbol) (weak afterMapping : Bool)
    (hlist : space.dynamicSymbolList = some list) (hsym : list name = some symbol) :
    (weak = false → symbol.bind = .BIND_WEAK →
      (PerfectLinkResolver.resolveNameAsLinkHelper2 name (some space) weak
          afterMapping).result = .ok none ∧
        (PerfectLinkResolver.resolveNameAsLinkHelper2 name (some space) weak
          afterMapping).lookups = [.dynamicSymbol space.id name]) ∧
    ((weak = true ∨ symbol.bind ≠ .BIND_WEAK) →
      (∀ f, space.module.findNamed name = some f →
        (PerfectLinkResolver.resolveNameAsLinkHelper2 name (some space) weak
            afterMapping).result
          = .ok (some (.NormalLink (some f) .SCOPE_EXTERNAL_CODE)) ∧
        (PerfectLinkResolver.resolveNameAsLinkHelper2 name (some space) weak
            afterMapping).lookups
          = [.dynamicSymbol space.id name, .namedFunction space.module.id name]) ∧
      (∀ f, space.module.findNamed name = none → space.aliasMap name = some f →
        (PerfectLinkResolver.resolveNameAsLinkHelper2 name (some space) weak
            afterMapping).result
          = .ok (some (.NormalLink (some f) .SCOPE_EXTERNAL_CODE)) ∧
        (PerfectLinkResolver.resolveNameAsLinkHelper2 name (some space) weak
            afterMapping).lookups
          = [.dynamicSymbol space.id name, .namedFunction space.module.id name,
              .aliasMap space.id name]) ∧
      (space.module.findNamed name = none → space.aliasMap name = none →
        (symbol.marker = true →
          (PerfectLinkResolver.resolveNameAsLinkHelper2 name (some space) weak
              afterMapping).result
            = .ok (space.module.createMarkerLink
                (addAddress space.baseAddress symbol.address) 0 (some symbol))) ∧
        (symbol.marker = false → symbol.address > 0 → symbol.type ≠ .TYPE_FUNC →
          symbol.type ≠ .TYPE_IFUNC →
          (PerfectLinkResolver.resolveNameAsLinkHelper2 name (some space) weak
              afterMapping).result
            = .ok (space.module.createDataLink
                (if afterMapping then addAddress symbol.address space.baseAddress
                  else symbol.address) true)) ∧
        (symbol.marker = false →
          (symbol.address = 0 ∨ symbol.type = .TYPE_FUNC ∨ symbol.type = .TYPE_IFUNC) →
          (PerfectLinkResolver.resolveNameAsLinkHelper2 name (some space) weak
              afterMapping).result = .ok none))) := by
  refine ⟨?_, ?_⟩
  · intro hw hb
    simp [PerfectLinkResolver.resolveNameAsLinkHelper2, hlist, hsym, Lookups.bind_ok,
      Lookups.ask, hw, hb, pure]
  · intro hw
    have hw2 : ¬ (weak = false ∧ symbol.bind = .BIND_WEAK) := by
      rintro ⟨h1, h2⟩
      rcases hw with h | h
      · simp [h] at h1
      · exact h h2
    refine ⟨?_, ?_, ?_⟩
    · intro f hf
      simp [PerfectLinkResolver.resolveNameAsLinkHelper2, hlist, hsym, Lookups.bind_ok,
        Lookups.ask, hw2, hf, pure]
    · intro f hf ha
      simp [PerfectLinkResolver.resolveNameAsLinkHelper2, hlist, hsym, Lookups.bind_ok,
        Lookups.ask, hw2, hf, ha, pure]
    · intro hf ha
      refine ⟨?_, ?_, ?_⟩
      · intro hm
        simp [PerfectLinkResolver.resolveNameAsLinkHelper2, hlist, hsym, Lookups.bind_ok,
          Lookups.ask, hw2, hf, ha, hm, LinkFactory.makeMarkerLink]
      · intro hm h0 h1 h2
        simp [PerfectLinkResolver.resolveNameAsLinkHelper2, hlist, hsym, Lookups.bind_ok,
          Lookups.ask, hw2, hf, ha, hm, h0, h1, h2, LinkFactory.makeDataLink]
      · intro hm h0
        have hc : ¬ (symbol.address > 0 ∧ symbol.type ≠ .TYPE_FUNC ∧
            symbol.type ≠ .TYPE_IFUNC) := by
          rintro ⟨h1, h2, h3⟩
          rcases h0 with h | h | h
          · omega
          · exact h2 h
          · exact h3 h
        simp [PerfectLinkResolver.resolveNameAsLinkHelper2, hlist, hsym,
          Lookups.bind_ok, Lookups.ask, hf, ha, hm, hc, pure]
        rw [if_neg (by simpa using hw2)]

theorem PerfectLinkResolver.resolveNameAsLinkHelper2_cases_witness :
    (PerfectLinkResolver.resolveNameAsLinkHelper2 "table" (some ElfSpace.sampleData) false
        true).result
      = .ok (Module.sample.createDataLink
          (if true then addAddress 0x2040 0x400000 else 0x2040) true) :=
  ((PerfectLinkResolver.resolveNameAsLinkHelper2_cases "table" ElfSpace.sampleData
    (fun n =>
      if n = "_end" then some { Symbol.sample "_end" 0x3000 with marker := true }
      else if n = "table" then some (Symbol.sample "table" 0x2040)
      else none)
    (Symbol.sample "table" 0x2040) false true rfl rfl).2 (Or.inr (by decide))).2.2 rfl rfl
    |>.2.1 rfl (by decide) (by decide) (by decide)

/-! ### Framing of the stream -/

theorem InstrSerializer.deserializeLinkTarget_id (self : InstrSerializer) (id : Nat)
    (rest : ArchiveStream) :
    ∃ t, self.deserializeLinkTarget (.id id :: rest) = .ok (t, rest) := by
  unfold InstrSerializer.deserializeLinkTarget
  simp only [ArchiveStreamReader.readID]
  cases self.op.lookup id with
  | none => exact ⟨_, rfl⟩
  | some c =>
    cases hp : c.position with
    | none => exact ⟨some { c with position := some (2 ^ 64 - 1) }, by simp only [hp]⟩
    | some a => exact ⟨some c, by simp only [hp]⟩

theorem InstrSerializer.deserializeTargetAndOffset_id (self : InstrSerializer) (id v : Nat)
    (rest : ArchiveStream) :
    ∃ t, self.deserializeTargetAndOffset (.id id :: .address v :: rest) = .ok (t, v, rest) := by
  obtain ⟨t, ht⟩ := self.deserializeLinkTarget_id id (.address v :: rest)
  exact ⟨t, by simp only [InstrSerializer.deserializeTargetAndOffset, ht,
    ArchiveStreamReader.readAddress]⟩

theorem SemanticSerializer.writeReferenceAndOffset_shape (op : ChunkSerializerOperations)
    (loaderBridge : String → Nat) (link : Link) (s : ArchiveStream)
    (h : SemanticSerializer.writeReferenceAndOffset op loaderBridge link = .ok s) :
    ∃ id v, s = [.id id, .address v] := by
  unfold SemanticSerializer.writeReferenceAndOffset at h
  cases h1 : Link.getTargetAddress loaderBridge link with
  | none => simp [h1] at h
  | some ta =>
    cases h2 : link.getTarget.bind Chunk.getAddress with
    | none => simp [h1, h2] at h
    | some a =>
      simp only [h1, h2, SemanticSerializer.writeLinkReference, ArchiveStreamWriter.writeID,
        ArchiveStreamWriter.writeAddress, List.singleton_append, Except.ok.injEq] at h
      exact ⟨_, _, h.symm⟩

/-- What `deserializeLink` reads of what `writeLink` wrote for a link that it accepts:
all of it and no more. -/
theorem InstrSerializer.deserializeLink_framing (self : InstrSerializer)
    (loaderBridge : String → Nat) (l : Link) (s rest : ArchiveStream)
    (ha : l.accepted = true)
    (hw : SemanticSerializer.writeLink self.op loaderBridge l = .ok s) :
    ∃ l2, self.deserializeLink (s ++ rest) = .ok (l2, rest) := by
  have hn : ∀ (t : Option Chunk) (mk : Option Chunk → Link),
      ∃ l2, (self.deserializeLinkTarget
          (ArchiveStreamWriter.writeID (self.op.assign t) ++ rest)).map
            (fun r => (mk r.1, r.2)) = .ok (l2, rest) := by
    intro t mk
    obtain ⟨t2, h1⟩ := self.deserializeLinkTarget_id (self.op.assign t) rest
    refine ⟨mk t2, ?_⟩
    simp only [ArchiveStreamWriter.writeID, List.singleton_append, h1]
    rfl
  cases l with
  | NormalLink target scope =>
    obtain ⟨l2, h⟩ := hn target (fun t => .NormalLink t self.defaultScope)
    simp only [SemanticSerializer.writeLink, Except.ok.injEq] at hw
    subst hw
    exact ⟨l2, h⟩
  | AbsoluteNormalLink target scope =>
    obtain ⟨l2, h⟩ := hn target (fun t => .AbsoluteNormalLink t self.defaultScope)
    simp only [SemanticSerializer.writeLink, Except.ok.injEq] at hw
    subst hw
    exact ⟨l2, h⟩
  | ExternalNormalLink target =>
    obtain ⟨l2, h⟩ := hn target (fun t => .ExternalNormalLink t)
    simp only [SemanticSerializer.writeLink, Except.ok.injEq] at hw
    subst hw
    exact ⟨l2, h⟩
  | ExternalAbsoluteNormalLink target =>
    obtain ⟨l2, h⟩ := hn target (fun t => .ExternalAbsoluteNormalLink t)
    simp only [SemanticSerializer.writeLink, Except.ok.injEq] at hw
    subst hw
    exact ⟨l2, h⟩
  | PLTLink orig pltTrampoline =>
    obtain ⟨l2, h⟩ := hn pltTrampoline (fun t => .PLTLink 0 (Chunk.castTo .PLTTrampoline t))
    simp only [SemanticSerializer.writeLink, Except.ok.injEq] at hw
    subst hw
    exact ⟨l2, h⟩
  | OffsetLink target offset =>
    simp only [SemanticSerializer.writeLink] at hw
    cases hr : SemanticSerializer.writeReferenceAndOffset self.op loaderBridge
        (.OffsetLink target offset) with
    | error e => simp [hr, Except.map] at hw
    | ok s2 =>
      obtain ⟨id, v, hs2⟩ := SemanticSerializer.writeReferenceAndOffset_shape _ _ _ _ hr
      simp only [hr, Except.map, Except.ok.injEq] at hw
      subst hw
      subst hs2
      obtain ⟨t, ht⟩ := self.deserializeTargetAndOffset_id id v rest
      exact ⟨.OffsetLink t v, by
        simp only [ArchiveStreamWriter.writeU8, EgalitoLinkType.toNat, Nat.reduceMod,
          List.singleton_append, List.cons_append, List.nil_append,
          InstrSerializer.deserializeLink, ArchiveStreamReader.readU8, ht]
        rfl⟩
  | ExternalOffsetLink target offset =>
    simp only [SemanticSerializer.writeLink] at hw
    cases hr : SemanticSerializer.writeReferenceAndOffset self.op loaderBridge
        (.ExternalOffsetLink target offset) with
    | error e => simp [hr, Except.map] at hw
    | ok s2 =>
      obtain ⟨id, v, hs2⟩ := SemanticSerializer.writeReferenceAndOffset_shape _ _ _ _ hr
      simp only [hr, Except.map, Except.ok.injEq] at hw
      subst hw
      subst hs2
      obtain ⟨t, ht⟩ := self.deserializeTargetAndOffset_id id v rest
      exact ⟨.ExternalOffsetLink t v, by
        simp only [ArchiveStreamWriter.writeU8, EgalitoLinkType.toNat, Nat.reduceMod,
          List.singleton_append, List.cons_append, List.nil_append,
          InstrSerializer.deserializeLink, ArchiveStreamReader.readU8, ht]
        rfl⟩
  | DataOffsetLink sect target addend =>
    simp only [SemanticSerializer.writeLink] at hw
    cases hr : SemanticSerializer.writeReferenceAndOffset self.op loaderBridge
        (.DataOffsetLink sect target addend) with
    | error e => simp [hr, Except.map] at hw
    | ok s2 =>
      obtain ⟨id, v, hs2⟩ := SemanticSerializer.writeReferenceAndOffset_shape _ _ _ _ hr
      simp only [hr, Except.map, Except.ok.injEq] at hw
      subst hw
      subst hs2
      obtain ⟨t, ht⟩ := self.deserializeTargetAndOffset_id id v rest
      exact ⟨.DataOffsetLink (Chunk.castTo .DataSection t) v 0, by
        simp only [ArchiveStreamWriter.writeU8, EgalitoLinkType.toNat, Nat.reduceMod,
          List.singleton_append, List.cons_append, List.nil_append,
          InstrSerializer.deserializeLink, ArchiveStreamReader.readU8, ht]
        rfl⟩
  | JumpTableLink _ => simp [Link.accepted] at ha
  | SymbolOnlyLink _ _ => simp [Link.accepted] at ha
  | MarkerLink _ _ => simp [Link.accepted] at ha
  | AbsoluteDataLink _ _ _ =>
    simp only [SemanticSerializer.writeLink, Except.ok.injEq] at hw
    subst hw
    exact ⟨_, rfl⟩
  | TLSDataOffsetLink _ _ =>
    simp only [SemanticSerializer.writeLink, Except.ok.injEq] at hw
    subst hw
    exact ⟨_, rfl⟩
  | UnresolvedLink _ =>
    simp only [SemanticSerializer.writeLink, Except.ok.injEq] at hw
    subst hw
    exact ⟨_, rfl⟩
  | ImmAndDispLink _ =>
    simp only [SemanticSerializer.writeLink, Except.ok.injEq] at hw
    subst hw
    exact ⟨_, rfl⟩
  | EgalitoLoaderLink _ =>
    simp only [SemanticSerializer.writeLink, Except.ok.injEq] at hw
    subst hw
    exact ⟨_, rfl⟩
  | GSTableLink _ =>
    simp only [SemanticSerializer.writeLink, Except.ok.injEq] at hw
    subst hw
    exact ⟨_, rfl⟩
  | DistanceLink _ _ =>
    simp only [SemanticSerializer.writeLink, Except.ok.injEq] at hw
    subst hw
    exact ⟨_, rfl⟩

theorem InstrSerializer.defaultDeserialize_total (self : InstrSerializer) (address : Nat)
    (bytes : List Nat) (rest : ArchiveStream)
    (hlen : bytes.length < 256) (hb : ∀ b ∈ bytes, b < 256) :
    ∃ d, self.defaultDeserialize address (ArchiveStreamWriter.writeBytes bytes ++ rest)
        = .ok (d, rest) ∧
      (∀ d0, self.disassemble bytes address = .ok d0 → d = d0) := by
  rw [self.defaultDeserialize_writeBytes address bytes rest hlen hb]
  cases hd : self.disassemble bytes address with
  | ok d0 => exact ⟨d0, rfl, fun d1 h1 => by injection h1⟩
  | error e => exact ⟨.RawInstruction bytes, rfl, fun d1 h1 => by cases h1⟩

/-- C39: for a semantic that is no `StackFrameInstruction` or `LiteralInstruction`,
with at most 255 raw bytes and, if it is a `LinkedInstruction` or a
`ControlFlowInstruction`, a link that `deserializeLink` accepts, `deserialize` reads
of what `serialize` wrote for it all and no more: whatever follows in the stream is
what is left to read.  So a second semantic written after it is read from the right
offset.  This holds when the disassembler gives a `LinkedInstruction` an assembly and
a `ControlFlowInstruction` a semantic that takes a link. -/
theorem InstrSerializer.deserialize_framing (self : InstrSerializer)
    (loaderBridge : String → Nat) (address : Nat) (S : InstrSemantic)
    (s rest : ArchiveStream)
    (hlen : S.getData.length < 256) (hb : ∀ b ∈ S.getData, b < 256)
    (hty : S.type ≠ .TYPE_StackFrameInstruction ∧ S.type ≠ .TYPE_LiteralInstruction)
    (hlink : ∀ l, S.serializedLink = some l → l.accepted = true)
    (hser : self.serialize loaderBridge S = .ok s)
    (hasm : S.type = .TYPE_LinkedInstruction →
      ∃ d, self.disassemble S.getData address = .ok d ∧ d.getAssembly ≠ none)
    (hset : S.type = .TYPE_ControlFlowInstruction →
      ∃ d, self.disassemble S.getData address = .ok d ∧ ∀ l, ∃ d2, d.setLink l = .ok d2) :
    ∃ d, self.deserialize address (s ++ rest) = .ok (some d, rest) := by
  have hplain : ∀ type,
      (type = .TYPE_RawInstruction ∨ type = .TYPE_IsolatedInstruction ∨
        type = .TYPE_ReturnInstruction ∨ type = .TYPE_IndirectJumpInstruction ∨
        type = .TYPE_IndirectCallInstruction ∨ type = .TYPE_LinkedLiteralInstruction) →
      self.serialize loaderBridge S = .ok (SemanticSerializer.write type S) →
      ∃ d, self.deserialize address (s ++ rest) = .ok (some d, rest) := by
    intro type ht hs
    rw [hs] at hser
    injection hser with hser
    subst hser
    obtain ⟨d, h1, _⟩ := self.defaultDeserialize_total address S.getData rest hlen hb
    refine ⟨d, ?_⟩
    unfold SemanticSerializer.write ArchiveStreamWriter.writeU8 InstrSerializer.deserialize
    rcases ht with h | h | h | h | h | h <;> subst h <;>
      simp only [List.singleton_append, List.cons_append, ArchiveStreamReader.readU8,
        EgalitoInstrType.toNat, Nat.reduceMod, List.nil_append, h1] <;> rfl
  cases S with
  | RawInstruction bytes => exact hplain _ (Or.inl rfl) rfl
  | IsolatedInstruction bytes => exact hplain _ (Or.inr (Or.inl rfl)) rfl
  | ReturnInstruction bytes => exact hplain _ (Or.inr (Or.inr (Or.inl rfl))) rfl
  | IndirectJumpInstruction bytes =>
    exact hplain _ (Or.inr (Or.inr (Or.inr (Or.inl rfl)))) rfl
  | IndirectCallInstruction bytes =>
    exact hplain _ (Or.inr (Or.inr (Or.inr (Or.inr (Or.inl rfl))))) rfl
  | LinkedLiteralInstruction bytes link =>
    exact hplain _ (Or.inr (Or.inr (Or.inr (Or.inr (Or.inr rfl))))) rfl
  | StackFrameInstruction bytes => exact absurd rfl hty.1
  | LiteralInstruction bytes => exact absurd rfl hty.2
  | LinkedInstruction bytes link index =>
    cases link with
    | none => simp [InstrSerializer.serialize] at hser
    | some l =>
      have ha := hlink l rfl
      cases hw : SemanticSerializer.writeLink self.op loaderBridge l with
      | error e => simp [InstrSerializer.serialize, hw, Except.map] at hser
      | ok sl =>
        simp only [InstrSerializer.serialize, hw, Except.map, Except.ok.injEq] at hser
        subst hser
        obtain ⟨d0, hd0, hasm0⟩ := hasm rfl
        obtain ⟨l2, hdl⟩ := self.deserializeLink_framing loaderBridge l sl
          (ArchiveStreamWriter.writeU8 index ++ rest) ha hw
        obtain ⟨d, h1, h3⟩ := self.defaultDeserialize_total address bytes
          (sl ++ (ArchiveStreamWriter.writeU8 index ++ rest)) hlen hb
        have hdd : d = d0 := h3 d0 hd0
        subst hdd
        cases hasm2 : d.getAssembly with
        | none => exact absurd hasm2 hasm0
        | some a =>
          refine ⟨.LinkedInstruction a (some l2) (index % 256), ?_⟩
          unfold SemanticSerializer.write ArchiveStreamWriter.writeU8
            InstrSerializer.deserialize
          simp only [List.singleton_append, List.cons_append, List.append_assoc,
            ArchiveStreamReader.readU8, EgalitoInstrType.toNat, Nat.reduceMod,
            List.nil_append, InstrSemantic.getData]
          simp only [ArchiveStreamWriter.writeU8, List.singleton_append] at h1 hdl
          simp only [h1, hasm2, hdl, ArchiveStreamReader.readU8]
  | ControlFlowInstruction bytes link =>
    cases link with
    | none => simp [InstrSerializer.serialize] at hser
    | some l =>
      have ha := hlink l rfl
      cases hw : SemanticSerializer.writeLink self.op loaderBridge l with
      | error e => simp [InstrSerializer.serialize, hw, Except.map] at hser
      | ok sl =>
        simp only [InstrSerializer.serialize, hw, Except.map, Except.ok.injEq] at hser
        subst hser
        obtain ⟨d0, hd0, hs0⟩ := hset rfl
        obtain ⟨l2, hdl⟩ := self.deserializeLink_framing loaderBridge l sl rest ha hw
        obtain ⟨d, h1, h3⟩ := self.defaultDeserialize_total address bytes (sl ++ rest) hlen hb
        have hdd : d = d0 := h3 d0 hd0
        subst hdd
        obtain ⟨d2, hd2⟩ := hs0 l2
        refine ⟨d2, ?_⟩
        unfold SemanticSerializer.write ArchiveStreamWriter.writeU8
          InstrSerializer.deserialize
        simp only [List.singleton_append, List.cons_append, List.append_assoc,
          ArchiveStreamReader.readU8, EgalitoInstrType.toNat, Nat.reduceMod,
          List.nil_append, InstrSemantic.getData]
        simp only [h1, hdl, hd2]

/-- Two semantics written back to back, a `ControlFlowInstruction` with a link that
is read back as `UnresolvedLink` and a `RawInstruction`: each is read from its
offset. -/
theorem InstrSerializer.deserialize_framing_witness :
    (∃ d, InstrSerializer.sample.deserialize 0
        ([.u8 4, .u8 4, .u8 0, .u8 0, .u8 0, .u8 0x14, .u8 13] ++
          [.u8 1, .u8 2, .u8 7, .u8 9])
        = .ok (some d, [.u8 1, .u8 2, .u8 7, .u8 9])) ∧
    (∃ d, InstrSerializer.sample.deserialize 4 ([.u8 1, .u8 2, .u8 7, .u8 9] ++ [])
        = .ok (some d, [])) :=
  ⟨InstrSerializer.deserialize_framing InstrSerializer.sample (fun _ => 0) 0
      (.ControlFlowInstruction [0, 0, 0, 0x14]
        (some (.TLSDataOffsetLink (some Chunk.sampleSection) 16)))
      [.u8 4, .u8 4, .u8 0, .u8 0, .u8 0, .u8 0x14, .u8 13] [.u8 1, .u8 2, .u8 7, .u8 9]
      (by decide) (by decide) (by decide)
      (fun l h => by cases h; rfl) rfl (fun h => by cases h)
      (fun _ => ⟨.ControlFlowInstruction [0, 0, 0, 0x14] none, rfl, fun l => ⟨_, rfl⟩⟩),
    InstrSerializer.deserialize_framing InstrSerializer.sample (fun _ => 0) 4
      (.RawInstruction [7, 9]) [.u8 1, .u8 2, .u8 7, .u8 9] []
      (by decide) (by decide) (by decide)
      (fun l h => by cases h) rfl (fun h => by cases h) (fun h => by cases h)⟩

/-! ### What the serialized form of a link keeps -/

/-- C40: the serialized form of a link has the tag, the id of the target and the
address delta only.  Two `NormalLink`s, or two `AbsoluteNormalLink`s, to the same
target with different scopes are written alike, two `UnresolvedLink`s with different
addresses are written alike, and two `DataOffsetLink`s with the same section and the
same sum of target offset and addend are written alike.  What `deserializeLink` makes
of the stream has the scope of a link built from a target alone, the address 0, and
the whole delta as target offset with addend 0. -/
theorem SemanticSerializer.writeLink_forgets (self : InstrSerializer)
    (loaderBridge : String → Nat) (rest : ArchiveStream) :
    (∀ target scope1 scope2,
      SemanticSerializer.writeLink self.op loaderBridge (.NormalLink target scope1)
        = SemanticSerializer.writeLink self.op loaderBridge (.NormalLink target scope2)) ∧
    (∀ target scope1 scope2,
      SemanticSerializer.writeLink self.op loaderBridge (.AbsoluteNormalLink target scope1)
        = SemanticSerializer.writeLink self.op loaderBridge
            (.AbsoluteNormalLink target scope2)) ∧
    (∀ address1 address2,
      SemanticSerializer.writeLink self.op loaderBridge (.UnresolvedLink address1)
        = SemanticSerializer.writeLink self.op loaderBridge (.UnresolvedLink address2)) ∧
    (∀ sect target1 addend1 target2 addend2, target1 + addend1 = target2 + addend2 →
      SemanticSerializer.writeLink self.op loaderBridge (.DataOffsetLink sect target1 addend1)
        = SemanticSerializer.writeLink self.op loaderBridge
            (.DataOffsetLink sect target2 addend2)) ∧
    (∀ (c : Chunk) (a : Nat) scope, self.op.lookup (self.op.assign (some c)) = some c →
      c.position = some a →
      ∃ s, SemanticSerializer.writeLink self.op loaderBridge (.NormalLink (some c) scope)
          = .ok s ∧
        self.deserializeLink (s ++ rest) = .ok (.NormalLink (some c) self.defaultScope, rest)) ∧
    (∀ address, ∃ s,
      SemanticSerializer.writeLink self.op loaderBridge (.UnresolvedLink address) = .ok s ∧
        self.deserializeLink (s ++ rest) = .ok (.UnresolvedLink 0, rest)) ∧
    (∀ (c : Chunk) (a : Nat) target addend,
      self.op.lookup (self.op.assign (some c)) = some c → c.position = some a →
      c.kind = .DataSection →
      ∃ s, SemanticSerializer.writeLink self.op loaderBridge
          (.DataOffsetLink (some c) target addend) = .ok s ∧
        self.deserializeLink (s ++ rest)
          = .ok (.DataOffsetLink (some c)
              (subAddress (addAddress (addAddress a target) addend) a) 0, rest)) := by
  refine ⟨fun _ _ _ => rfl, fun _ _ _ => rfl, fun _ _ => rfl, ?_, ?_, ?_, ?_⟩
  · intro sect target1 addend1 target2 addend2 h
    have hta : Link.getTargetAddress loaderBridge (.DataOffsetLink sect target1 addend1)
        = Link.getTargetAddress loaderBridge (.DataOffsetLink sect target2 addend2) := by
      cases hp : sect.bind Chunk.getAddress with
      | none => simp [Link.getTargetAddress, hp]
      | some a =>
        have : addAddress (addAddress a target1) addend1
            = addAddress (addAddress a target2) addend2 := by
          unfold addAddress
          omega
        simp [Link.getTargetAddress, hp, this]
    simp only [SemanticSerializer.writeLink, SemanticSerializer.writeReferenceAndOffset, hta,
      Link.getTarget]
  · intro c a scope h hp
    obtain ⟨t2, h1, _, _, h4⟩ := self.deserializeLinkTarget_writeID (some c) rest h
    have ht : t2 = some c := h4 (by simp [Chunk.getAddress, hp])
    subst ht
    refine ⟨_, rfl, ?_⟩
    simp only [SemanticSerializer.writeLinkTarget, Link.getTarget,
      ArchiveStreamWriter.writeU8, EgalitoLinkType.toNat, Nat.reduceMod,
      List.singleton_append, List.cons_append, List.nil_append,
      InstrSerializer.deserializeLink, ArchiveStreamReader.readU8, h1]
    rfl
  · intro address
    exact ⟨_, rfl, rfl⟩
  · intro c a target addend h hp hk
    obtain ⟨h1, h2⟩ := (self.deserializeLink_offsets loaderBridge c a rest h hp).2.2
      target addend hk
    exact ⟨_, h1, h2⟩

theorem SemanticSerializer.writeLink_forgets_witness :
    SemanticSerializer.writeLink InstrSerializer.sample.op (fun _ => 0)
        (.DataOffsetLink (some Chunk.sampleSection) 0x40 8)
      = SemanticSerializer.writeLink InstrSerializer.sample.op (fun _ => 0)
          (.DataOffsetLink (some Chunk.sampleSection) 0x30 0x18) ∧
    (∃ s, SemanticSerializer.writeLink InstrSerializer.sample.op (fun _ => 0)
        (.NormalLink (some Chunk.sampleFunction) .SCOPE_EXTERNAL_CODE) = .ok s ∧
      InstrSerializer.sample.deserializeLink (s ++ [])
        = .ok (.NormalLink (some Chunk.sampleFunction) InstrSerializer.sample.defaultScope,
            [])) :=
  ⟨(SemanticSerializer.writeLink_forgets InstrSerializer.sample (fun _ => 0) []).2.2.2.1
      (some Chunk.sampleSection) 0x40 8 0x30 0x18 (by decide),
    (SemanticSerializer.writeLink_forgets InstrSerializer.sample (fun _ => 0) []).2.2.2.2.1
      Chunk.sampleFunction 0x1000 .SCOPE_EXTERNAL_CODE rfl rfl⟩

end Egalito
